import Mathlib

/-!
# CineHub taste profile and recommender

A shallow embedding of `Lab/js/algorithm/taste-profile.js`,
`Lab/js/algorithm/recommender.js` and the helpers of `Lab/js/api.js` and
`Lab/js/watchlist.js` they call.

Modelling conventions.

* Numbers are modelled at two levels.  The functions at the top level of the
  namespace compute with exact rationals (`ℚ`): they give the closed forms and
  the structure of what is computed.  The functions of the namespace
  `Binary64` are the same functions with every sum and product rounded to
  IEEE-754 binary64 (`round64`: round to nearest, ties to even, 53 significant
  bits); every statement about equal scores, and the progress percentages of
  the bulk build, are about these.  `round64` has no exponent limits: a
  statement that depends on the absence of overflow carries a range hypothesis
  and concludes that no intermediate sum reaches `2^1024`.  The scorers of
  `Binary64` return a `JsNumber`, which has subnormals, the infinities and
  `NaN`.
* Identifiers read from API payloads (`id`, `original_language`,
  `iso_3166_1`, ...) are values of `JsId`: `undefined`, `null`, an integer or a
  string.  Used as a property key they are converted with `JsId.toKey`
  (JavaScript `String(x)`); compared by `Array.prototype.includes` they are
  compared without conversion.
* A score mapping (`profile.genres`, ...) is an association list from property
  keys to scores.  `readScore` looks at own keys only; the lookup of the
  scorers of `Binary64` (`scoreTerm`) also finds the properties inherited from
  `Object.prototype`.
* `localStorage` holds the profile; the typed store keeps the decoded profile
  (`none` = the slot is absent), `getTasteProfileRaw` is the JSON-level reading
  of the same function.
* Network collaborators (`fetchFromTMDB`) are oracles passed as parameters, and
  every function that talks to the network also returns the list of requests it
  issued.
* `auth.currentUser` and the remote write of the explicit preferences (`setDoc`)
  are parameters as well; a function that can throw returns its outcome next to
  the store it leaves behind.
* Calls are sequential: timers and the interleaving of pending promises are not
  modelled.
-/

namespace CineHub

/-! ## JavaScript values used as identifiers -/

/-- A JavaScript primitive found where the code expects an identifier. -/
inductive JsId where
  | undef
  | null
  | num (n : Int)
  | str (s : String)
  deriving DecidableEq, Repr

/-- JavaScript truthiness (`!!x`). -/
def JsId.truthy : JsId → Bool
  | .undef => false
  | .null => false
  | .num n => n != 0
  | .str s => s != ""

/-- Property-key / template-string conversion (`String(x)`). -/
def JsId.toKey : JsId → String
  | .undef => "undefined"
  | .null => "null"
  | .num n => toString n
  | .str s => s

/-- Conversion used by `Array.prototype.join`: `undefined` and `null` give the empty string. -/
def JsId.joinStr : JsId → String
  | .undef => ""
  | .null => ""
  | x => x.toKey

/-! ## Score mappings -/

/-- A score mapping: property key to accumulated score. -/
abbrev ScoreMap := List (String × ℚ)

/-- Reading `m[k] || 0`: an absent key, and a stored `0`, read as `0`. -/
def readScore (m : ScoreMap) (k : String) : ℚ :=
  (m.lookup k).getD 0

/-- Assignment `m[k] = v`: overwrite in place, or add the key. -/
def writeScore : ScoreMap → String → ℚ → ScoreMap
  | [], k, v => [(k, v)]
  | (k', v') :: m, k, v => if k' = k then (k', v) :: m else (k', v') :: writeScore m k v

/-- Own property test: `k in m`. -/
def hasKey (m : ScoreMap) (k : String) : Bool :=
  (m.lookup k).isSome

/-! ## Data model -/

/-- The six categories of a taste profile. -/
inductive Category where
  | genres | actors | directors | languages | countries | years
  deriving DecidableEq, Repr

/-- The taste profile as returned by `getTasteProfile`. -/
structure TasteProfile where
  genres : ScoreMap
  actors : ScoreMap
  directors : ScoreMap
  languages : ScoreMap
  countries : ScoreMap
  years : ScoreMap
  deriving DecidableEq, Repr

/-- The zero-value profile `{ genres: {}, actors: {}, directors: {}, languages: {}, countries: {}, years: {} }`. -/
def TasteProfile.zero : TasteProfile :=
  { genres := [], actors := [], directors := [], languages := [], countries := [], years := [] }

/-- Property access `profile[category]`. -/
def TasteProfile.cat (p : TasteProfile) : Category → ScoreMap
  | .genres => p.genres
  | .actors => p.actors
  | .directors => p.directors
  | .languages => p.languages
  | .countries => p.countries
  | .years => p.years

/-- Property assignment `profile[category] = m`. -/
def TasteProfile.setCat (p : TasteProfile) (c : Category) (m : ScoreMap) : TasteProfile :=
  match c with
  | .genres => { p with genres := m }
  | .actors => { p with actors := m }
  | .directors => { p with directors := m }
  | .languages => { p with languages := m }
  | .countries => { p with countries := m }
  | .years => { p with years := m }

/-- The score of key `k` in category `c`, an absent key read as `0`. -/
def TasteProfile.score (p : TasteProfile) (c : Category) (k : String) : ℚ :=
  readScore (p.cat c) k

/-- An entry of `details.genres`. -/
structure Genre where
  id : JsId
  name : String
  deriving DecidableEq, Repr

/-- An entry of `details.credits.crew`. -/
structure CrewMember where
  id : JsId
  job : String
  deriving DecidableEq, Repr

/-- An entry of `details.credits.cast`. -/
structure CastMember where
  id : JsId
  deriving DecidableEq, Repr

/-- The object `details.credits`. -/
structure Credits where
  crew : Option (List CrewMember)
  cast : Option (List CastMember)
  deriving DecidableEq, Repr

/-- An entry of `details.production_countries`. -/
structure Country where
  iso_3166_1 : JsId
  deriving DecidableEq, Repr

/-- The fields of a media details object that the algorithm reads; `none` is an absent property. -/
structure MediaDetails where
  id : JsId
  genres : Option (List Genre)
  credits : Option Credits
  original_language : JsId
  production_countries : Option (List Country)
  release_date : Option String
  first_air_date : Option String
  deriving DecidableEq, Repr

/-- The object `prefs.genres` of the explicit preferences. -/
structure GenrePrefs where
  liked : List JsId
  disliked : List JsId
  deriving DecidableEq, Repr

/-- Explicit preferences `{ genres: { liked, disliked }, languages }`. -/
structure ExplicitPrefs where
  genres : GenrePrefs
  languages : List JsId
  deriving DecidableEq, Repr

/-- The default `{ genres: { liked: [], disliked: [] }, languages: [] }`. -/
def ExplicitPrefs.default : ExplicitPrefs :=
  { genres := { liked := [], disliked := [] }, languages := [] }

/-! ## Weight tables -/

/-- The table `ACTION_WEIGHTS`: the `score` of a known action, `none` for an unknown one. -/
def ACTION_WEIGHTS (action : String) : Option ℚ :=
  if action = "watchlist" then some 1
  else if action = "watched" then some 2
  else if action = "caught-up" then some 2
  else if action = "rated_high" then some 3
  else if action = "rated_low" then some (-2)
  else if action = "not_interested" then some (-3)
  else if action = "view_media_page" then some (1 / 5)
  else if action = "view_trailer" then some (1 / 2)
  else none

/-- The table `ATTRIBUTE_WEIGHTS`. -/
structure AttributeWeights where
  genres : ℚ
  director : ℚ
  actors : ℚ
  languages : ℚ
  countries : ℚ
  years : ℚ

/-- The constants of `ATTRIBUTE_WEIGHTS`. -/
def ATTRIBUTE_WEIGHTS : AttributeWeights :=
  { genres := 3 / 2, director := 6 / 5, actors := 1, languages := 1, countries := 4 / 5, years := 1 / 2 }

/-- The table `EXPLICIT_WEIGHTS`. -/
structure ExplicitWeights where
  liked_genre : ℚ
  disliked_genre : ℚ
  language : ℚ

/-- The constants of `EXPLICIT_WEIGHTS`. -/
def EXPLICIT_WEIGHTS : ExplicitWeights :=
  { liked_genre := 20, disliked_genre := -1000, language := 15 }

/-! ## `parseInt` and the decade of a release date -/

/-- JavaScript white space and line terminators, skipped by `parseInt`. -/
def isJsWhiteSpace (c : Char) : Bool :=
  let n := c.toNat
  n = 0x09 || n = 0x0A || n = 0x0B || n = 0x0C || n = 0x0D || n = 0x20 || n = 0xA0 ||
  n = 0x1680 || (0x2000 ≤ n && n ≤ 0x200A) || n = 0x2028 || n = 0x2029 || n = 0x202F ||
  n = 0x205F || n = 0x3000 || n = 0xFEFF

/-- The value of a digit in the given radix (10 or 16), if it is one. -/
def digitValue (radix : Nat) (c : Char) : Option Nat :=
  let n := c.toNat
  if 48 ≤ n ∧ n ≤ 57 then some (n - 48)
  else if radix = 16 ∧ 97 ≤ n ∧ n ≤ 102 then some (n - 87)
  else if radix = 16 ∧ 65 ≤ n ∧ n ≤ 70 then some (n - 55)
  else none

/-- Reads the longest prefix of digits; `none` when there is no digit. -/
def readDigits (radix : Nat) : List Char → Option Nat → Option Nat
  | [], acc => acc
  | c :: cs, acc =>
    match digitValue radix c with
    | some d => readDigits radix cs (some (acc.getD 0 * radix + d))
    | none => acc

/-- After the sign: an `0x`/`0X` prefix selects radix 16. -/
def parseUnsigned : List Char → Option Nat
  | '0' :: 'x' :: cs => readDigits 16 cs none
  | '0' :: 'X' :: cs => readDigits 16 cs none
  | cs => readDigits 10 cs none

/-- The function `parseInt(s)` without radix; `none` is `NaN`. -/
def parseInt (s : String) : Option Int :=
  match s.toList.dropWhile isJsWhiteSpace with
  | '-' :: cs => (parseUnsigned cs).map (fun n => -(n : Int))
  | '+' :: cs => (parseUnsigned cs).map (fun n => (n : Int))
  | cs => (parseUnsigned cs).map (fun n => (n : Int))

/-- The expression `Math.floor(year / 10) * 10`. -/
def decadeOf (year : Int) : Int :=
  Int.fdiv year 10 * 10

/-! ## Profile updater (`taste-profile.js`) -/

/-- The function `updateScore(profile, category, id, weight)`. -/
def updateScore (profile : TasteProfile) (category : Category) (id : JsId) (weight : ℚ) : TasteProfile :=
  if !id.truthy || weight = 0 then profile
  else
    profile.setCat category
      (writeScore (profile.cat category) id.toKey (readScore (profile.cat category) id.toKey + weight))

/-- The director of an item: `details.credits?.crew?.find(p => p.job === 'Director')`. -/
def findDirector (credits : Option Credits) : Option CrewMember :=
  match credits with
  | some c =>
    match c.crew with
    | some crew => crew.find? (fun p => p.job == "Director")
    | none => none
  | none => none

/-- The billed cast that is scored: `details.credits?.cast?.slice(0, 5)`, nothing when absent. -/
def topCast (credits : Option Credits) : List CastMember :=
  match credits with
  | some c =>
    match c.cast with
    | some cast => cast.take 5
    | none => []
  | none => []

/-- The value `details.release_date || details.first_air_date`, `none` when falsy. -/
def releaseDateOf (details : MediaDetails) : Option String :=
  match details.release_date with
  | some d => if d ≠ "" then some d else details.first_air_date.filter (fun s => s ≠ "")
  | none => details.first_air_date.filter (fun s => s ≠ "")

/-- The decade/era step of `applyScoresToProfile`. -/
def applyDecade (profile : TasteProfile) (details : MediaDetails) (baseScore : ℚ) : TasteProfile :=
  match releaseDateOf details with
  | some releaseDate =>
    match parseInt (releaseDate.take 4) with
    | some year => updateScore profile .years (.num (decadeOf year)) (baseScore * ATTRIBUTE_WEIGHTS.years)
    | none => profile
  | none => profile

/-- The body of `applyScoresToProfile` once the action and the details are known. -/
def applyBaseScore (profile : TasteProfile) (details : MediaDetails) (baseScore : ℚ) : TasteProfile :=
  let p1 := (details.genres.getD []).foldl
    (fun p g => updateScore p .genres g.id (baseScore * ATTRIBUTE_WEIGHTS.genres)) profile
  let p2 := match findDirector details.credits with
    | some director => updateScore p1 .directors director.id (baseScore * ATTRIBUTE_WEIGHTS.director)
    | none => p1
  let p3 := (topCast details.credits).foldl
    (fun p a => updateScore p .actors a.id (baseScore * ATTRIBUTE_WEIGHTS.actors)) p2
  let p4 := updateScore p3 .languages details.original_language (baseScore * ATTRIBUTE_WEIGHTS.languages)
  let p5 := (details.production_countries.getD []).foldl
    (fun p c => updateScore p .countries c.iso_3166_1 (baseScore * ATTRIBUTE_WEIGHTS.countries)) p4
  applyDecade p5 details baseScore

/-- The function `applyScoresToProfile(profile, action, details, multiplier)`. -/
def applyScoresToProfile (profile : TasteProfile) (action : String) (details : Option MediaDetails)
    (multiplier : ℚ) : TasteProfile :=
  match ACTION_WEIGHTS action, details with
  | some score, some d => applyBaseScore profile d (score * multiplier)
  | _, _ => profile

/-! ## Store, network and the exported functions of `taste-profile.js` -/

/-- The client state: the profile slot of `localStorage` (`none` when absent) and the module
variable `localExplicitPreferences`. -/
structure Store where
  tasteProfile : Option TasteProfile
  localExplicitPreferences : ExplicitPrefs
  deriving DecidableEq, Repr

/-- The query parameters built by `getRecommendations` for the discovery request. -/
structure Filters where
  sort_by : String
  with_genres : Option String
  without_genres : Option String
  with_original_language : Option String
  deriving DecidableEq, Repr

/-- A request sent to the media API. -/
inductive Request where
  | discover (mediaType : String) (filters : Filters) (page : Int)
  | details (mediaId : JsId) (mediaType : String)
  deriving DecidableEq, Repr

/-- The answer of the API to a details request; `none` is a failed fetch (`fetchFromTMDB` returns
`null`). -/
abbrev DetailsOracle := JsId → String → Option MediaDetails

/-- The function `getMediaDetails(mediaId, mediaType)` of `api.js`, with the requests it issues. -/
def getMediaDetails (fetch : DetailsOracle) (mediaId : JsId) (mediaType : String) :
    Option MediaDetails × List Request :=
  if !mediaId.truthy || mediaType = "" then (none, [])
  else (fetch mediaId mediaType, [Request.details mediaId mediaType])

/-- The function `getTasteProfile()` on a decoded slot. -/
def getTasteProfile (st : Store) : TasteProfile :=
  match st.tasteProfile with
  | some profile => profile
  | none => TasteProfile.zero

/-- The function `saveTasteProfile(profile)`. -/
def saveTasteProfile (st : Store) (profile : TasteProfile) : Store :=
  { st with tasteProfile := some profile }

/-- The function `getExplicitPreferences()`. -/
def getExplicitPreferences (st : Store) : ExplicitPrefs :=
  st.localExplicitPreferences

/-- Whether a status is truthy and a key of `ACTION_WEIGHTS`. -/
def knownAction (status : Option String) : Option String :=
  match status with
  | some s => if s ≠ "" ∧ (ACTION_WEIGHTS s).isSome then some s else none
  | none => none

/-- The function `updateTasteProfile(mediaId, mediaType, newStatus, oldStatus, mediaDetails)`:
the new store and the requests issued. -/
def updateTasteProfile (fetch : DetailsOracle) (st : Store) (mediaId : JsId) (mediaType : String)
    (newStatus oldStatus : Option String) (mediaDetails : Option MediaDetails) :
    Store × List Request :=
  let fetched : Option MediaDetails × List Request :=
    match mediaDetails with
    | some d => (some d, [])
    | none => getMediaDetails fetch mediaId mediaType
  match fetched.1 with
  | none => (st, fetched.2)
  | some details =>
    let profile := getTasteProfile st
    let p1 := match knownAction oldStatus with
      | some old => applyScoresToProfile profile old (some details) (-1)
      | none => profile
    let p2 := match knownAction newStatus with
      | some new => if new ≠ "remove" then applyScoresToProfile p1 new (some details) 1 else p1
      | none => p1
    (saveTasteProfile st p2, fetched.2)

/-- The three loops of `applyExplicitPreferencesToProfile` over one preference set, with the
weight passed to `updateScore` in each loop. -/
def applyPrefsWith (profile : TasteProfile) (prefs : ExplicitPrefs)
    (likedWeight dislikedWeight languageWeight : ℚ) : TasteProfile :=
  let p1 := prefs.genres.liked.foldl
    (fun p id => updateScore p .genres id likedWeight) profile
  let p2 := prefs.genres.disliked.foldl
    (fun p id => updateScore p .genres id dislikedWeight) p1
  prefs.languages.foldl
    (fun p code => updateScore p .languages code languageWeight) p2

/-- The function `applyExplicitPreferencesToProfile(newPrefs, oldPrefs)`. -/
def applyExplicitPreferencesToProfile (st : Store) (newPrefs : ExplicitPrefs)
    (oldPrefs : Option ExplicitPrefs) : Store :=
  let profile := getTasteProfile st
  let p1 := match oldPrefs with
    | some old =>
      applyPrefsWith profile old (-EXPLICIT_WEIGHTS.liked_genre) (-EXPLICIT_WEIGHTS.disliked_genre)
        (-EXPLICIT_WEIGHTS.language)
    | none => profile
  saveTasteProfile st
    (applyPrefsWith p1 newPrefs EXPLICIT_WEIGHTS.liked_genre EXPLICIT_WEIGHTS.disliked_genre
      EXPLICIT_WEIGHTS.language)

/-! ## Saving explicit preferences and clearing (`taste-profile.js`) -/

/-- The function `clearTasteProfile()`: the slot is removed and the cache reset. -/
def clearTasteProfile (st : Store) : Store :=
  { st with tasteProfile := none, localExplicitPreferences := ExplicitPrefs.default }

/-- The remote write `setDoc(prefDocRef, newPrefs)`: `none` when it succeeds, the error when it
fails. -/
abbrev RemoteWrite := ExplicitPrefs → Option String

/-- The function `saveExplicitPreferences(newPrefs)`: the store after the call, and its outcome
(`Except.error e` when the call throws `e`). `user` is `auth.currentUser`. -/
def saveExplicitPreferences (user : Option String) (remote : RemoteWrite) (st : Store)
    (newPrefs : ExplicitPrefs) : Store × Except String Unit :=
  match user with
  | none => (st, Except.error "User not authenticated")
  | some _ =>
    let oldPrefs := getExplicitPreferences st
    match remote newPrefs with
    | none =>
      let st1 := { st with localExplicitPreferences := newPrefs }
      (applyExplicitPreferencesToProfile st1 newPrefs (some oldPrefs), Except.ok ())
    | some error => ({ st with localExplicitPreferences := oldPrefs }, Except.error error)

/-- A call that changes the stored profile: `saveExplicitPreferences(newPrefs)` or
`updateTasteProfile(mediaId, mediaType, newStatus, oldStatus, mediaDetails)`. -/
inductive ProfileEvent where
  | save (newPrefs : ExplicitPrefs)
  | update (mediaId : JsId) (mediaType : String) (newStatus oldStatus : Option String)
      (mediaDetails : Option MediaDetails)

/-- The store after one call. -/
def runEvent (user : Option String) (remote : RemoteWrite) (fetch : DetailsOracle) (st : Store) :
    ProfileEvent → Store
  | .save newPrefs => (saveExplicitPreferences user remote st newPrefs).1
  | .update mediaId mediaType newStatus oldStatus mediaDetails =>
    (updateTasteProfile fetch st mediaId mediaType newStatus oldStatus mediaDetails).1

/-- The store after a sequence of calls, in order. -/
def runEvents (user : Option String) (remote : RemoteWrite) (fetch : DetailsOracle) (st : Store)
    (events : List ProfileEvent) : Store :=
  events.foldl (runEvent user remote fetch) st

/-! ## Candidate scorer (`recommender.js`) -/

/-- The table `PREF_MULTIPLIERS`. -/
structure PrefMultipliers where
  LIKED_GENRE : ℚ
  PREFERRED_LANGUAGE : ℚ

/-- The constants of `PREF_MULTIPLIERS`. -/
def PREF_MULTIPLIERS : PrefMultipliers :=
  { LIKED_GENRE := 3 / 2, PREFERRED_LANGUAGE := 6 / 5 }

/-- An item of a discovery response: the fields the recommender reads, and its popularity. -/
structure MediaItem where
  id : JsId
  media_type : Option String
  genre_ids : Option (List JsId)
  original_language : JsId
  origin_country : Option (List JsId)
  popularity : ℚ
  deriving DecidableEq, Repr

/-- The two accumulators of a scorer: `score` and `multiplier`. -/
structure ScoreAcc where
  score : ℚ
  multiplier : ℚ
  deriving DecidableEq, Repr

/-- The body of the genre loop of both scorers. -/
def genreStep (tasteProfile : TasteProfile) (explicitPrefs : ExplicitPrefs) (acc : ScoreAcc)
    (genreId : JsId) : ScoreAcc :=
  { score := acc.score + readScore tasteProfile.genres genreId.toKey * ATTRIBUTE_WEIGHTS.genres,
    multiplier :=
      if genreId ∈ explicitPrefs.genres.liked then acc.multiplier * PREF_MULTIPLIERS.LIKED_GENRE
      else acc.multiplier }

/-- The language block of both scorers. -/
def languageStep (tasteProfile : TasteProfile) (explicitPrefs : ExplicitPrefs) (acc : ScoreAcc)
    (language : JsId) : ScoreAcc :=
  if language.truthy then
    { score := acc.score + readScore tasteProfile.languages language.toKey * ATTRIBUTE_WEIGHTS.languages,
      multiplier :=
        if language ∈ explicitPrefs.languages then
          acc.multiplier * PREF_MULTIPLIERS.PREFERRED_LANGUAGE
        else acc.multiplier }
  else acc

/-- The body of the country loop of both scorers. -/
def countryStep (tasteProfile : TasteProfile) (acc : ScoreAcc) (countryCode : JsId) : ScoreAcc :=
  { acc with
    score := acc.score + readScore tasteProfile.countries countryCode.toKey * ATTRIBUTE_WEIGHTS.countries }

/-- The function `scoreMediaItemSimple(mediaItem, tasteProfile, explicitPrefs)`. -/
def scoreMediaItemSimple (mediaItem : MediaItem) (tasteProfile : TasteProfile)
    (explicitPrefs : ExplicitPrefs) : ℚ :=
  let a0 : ScoreAcc := { score := 0, multiplier := 1 }
  let a1 := match mediaItem.genre_ids with
    | some ids => ids.foldl (genreStep tasteProfile explicitPrefs) a0
    | none => a0
  let a2 := languageStep tasteProfile explicitPrefs a1 mediaItem.original_language
  let a3 := match mediaItem.origin_country with
    | some codes => codes.foldl (countryStep tasteProfile) a2
    | none => a2
  a3.score * a3.multiplier

/-- The function `scoreMediaItemDetailed(mediaDetails, tasteProfile, explicitPrefs)`. -/
def scoreMediaItemDetailed (mediaDetails : MediaDetails) (tasteProfile : TasteProfile)
    (explicitPrefs : ExplicitPrefs) : ℚ :=
  let a0 : ScoreAcc := { score := 0, multiplier := 1 }
  let a1 := match mediaDetails.genres with
    | some gs => gs.foldl (fun acc (genre : Genre) => genreStep tasteProfile explicitPrefs acc genre.id) a0
    | none => a0
  let a2 := languageStep tasteProfile explicitPrefs a1 mediaDetails.original_language
  let a3 := match mediaDetails.production_countries with
    | some cs => cs.foldl (fun acc (country : Country) => countryStep tasteProfile acc country.iso_3166_1) a2
    | none => a2
  let a4 := match findDirector mediaDetails.credits with
    | some director =>
      { a3 with
        score := a3.score + readScore tasteProfile.directors director.id.toKey * ATTRIBUTE_WEIGHTS.director }
    | none => a3
  let a5 := (topCast mediaDetails.credits).foldl
    (fun (acc : ScoreAcc) (actor : CastMember) =>
      { acc with score := acc.score + readScore tasteProfile.actors actor.id.toKey * ATTRIBUTE_WEIGHTS.actors })
    a4
  a5.score * a5.multiplier

/-! ## Recommendation assembler (`recommender.js`) -/

/-- An entry of the local watchlist `Map`: `{ status, order, userRating }`. -/
structure WatchlistEntry where
  status : Option String
  order : Option ℚ
  userRating : Option ℚ
  deriving DecidableEq, Repr

/-- The local watchlist: a `Map` from `mediaType:id` to its entry, in iteration order. -/
abbrev Watchlist := List (String × WatchlistEntry)

/-- A discovery response `{ results, page, total_pages }`; `results` may be missing. -/
structure DiscoverPage where
  results : Option (List MediaItem)
  total_pages : Int
  deriving DecidableEq, Repr

/-- The answer of the API to a discovery request; `none` is a failed fetch. -/
abbrev DiscoverOracle := String → Filters → Int → Option DiscoverPage

/-- The function `discoverMedia(mediaType, filters, page)` of `api.js`, with the request it issues. -/
def discoverMedia (discover : DiscoverOracle) (mediaType : String) (filters : Filters) (page : Int) :
    Option DiscoverPage × List Request :=
  (discover mediaType filters page, [Request.discover mediaType filters page])

/-- A candidate after pass 1: the item with `media_type` filled in and its `preliminaryScore`. -/
structure ScoredItem where
  item : MediaItem
  media_type : String
  preliminaryScore : ℚ
  deriving DecidableEq, Repr

/-- An entry of the final results: the details with `media_type` and `recommendationScore`. -/
structure Recommendation where
  details : MediaDetails
  media_type : String
  recommendationScore : ℚ
  deriving DecidableEq, Repr

/-- The object returned by `getRecommendations`. -/
structure RecommendationPage where
  results : List Recommendation
  page : Int
  total_pages : Int
  deriving DecidableEq, Repr

/-- The test `Object.values(tasteProfile).some(category => Object.keys(category).length > 0)`. -/
def hasProfile (tasteProfile : TasteProfile) : Bool :=
  [tasteProfile.genres, tasteProfile.actors, tasteProfile.directors, tasteProfile.languages,
    tasteProfile.countries, tasteProfile.years].any (fun category => decide (category.length > 0))

/-- The discovery filters built from the explicit preferences. -/
def buildDiscoverFilters (explicitPrefs : ExplicitPrefs) : Filters :=
  { sort_by := "popularity.desc",
    with_genres :=
      if explicitPrefs.genres.liked.length > 0 then
        some (String.intercalate "|" (explicitPrefs.genres.liked.map JsId.joinStr))
      else none,
    without_genres :=
      if explicitPrefs.genres.disliked.length > 0 then
        some (String.intercalate "," (explicitPrefs.genres.disliked.map JsId.joinStr))
      else none,
    with_original_language :=
      if explicitPrefs.languages.length > 0 then
        some (String.intercalate "|" (explicitPrefs.languages.map JsId.joinStr))
      else none }

/-- The state of the discovery loop: `candidatePool`, `totalPagesFromDiscover` and the requests. -/
structure DiscoverState where
  candidatePool : List MediaItem
  totalPagesFromDiscover : Int
  requests : List Request
  deriving DecidableEq, Repr

/-- One iteration of the discovery loop, for page `i`. -/
def discoverStep (discover : DiscoverOracle) (mediaType : String) (discoverFilters : Filters)
    (discoverPageStart : Int) (s : DiscoverState) (i : Int) : DiscoverState :=
  let fetched := discoverMedia discover mediaType discoverFilters i
  let requests := s.requests ++ fetched.2
  match fetched.1 with
  | some data =>
    match data.results with
    | some results =>
      { candidatePool := s.candidatePool ++ results,
        totalPagesFromDiscover :=
          if i = discoverPageStart then (if data.total_pages > 500 then 500 else data.total_pages)
          else s.totalPagesFromDiscover,
        requests := requests }
    | none => { s with requests := requests }
  | none => { s with requests := requests }

/-- The discovery loop `for (i = discoverPageStart; i <= discoverPageEnd; i++)` over the two pages. -/
def discoverLoop (discover : DiscoverOracle) (mediaType : String) (discoverFilters : Filters)
    (page : Int) : DiscoverState :=
  let pagesToFetchPerRecPage : Int := 2
  let discoverPageStart := ((page - 1) * pagesToFetchPerRecPage) + 1
  let discoverPageEnd := discoverPageStart + pagesToFetchPerRecPage - 1
  [discoverPageStart, discoverPageEnd].foldl
    (discoverStep discover mediaType discoverFilters discoverPageStart)
    { candidatePool := [], totalPagesFromDiscover := 0, requests := [] }

/-- The method `Map.prototype.set`: replace the value of an existing key in place, or append. -/
def mapSet {κ ν : Type} [DecidableEq κ] : List (κ × ν) → κ → ν → List (κ × ν)
  | [], k, v => [(k, v)]
  | (k', v') :: m, k, v => if k' = k then (k', v) :: m else (k', v') :: mapSet m k v

/-- The constructor `new Map(entries)`. -/
def mapOfEntries {κ ν : Type} [DecidableEq κ] (entries : List (κ × ν)) : List (κ × ν) :=
  entries.foldl (fun m e => mapSet m e.1 e.2) []

/-- The expression `Array.from(new Map(candidatePool.map(item => [item.id, item])).values())`. -/
def uniqueCandidates (candidatePool : List MediaItem) : List MediaItem :=
  (mapOfEntries (candidatePool.map (fun item => (item.id, item)))).map (fun e => e.2)

/-- The expression `item.media_type || mediaType`. -/
def mediaTypeOf (item : MediaItem) (mediaType : String) : String :=
  match item.media_type with
  | some t => if t ≠ "" then t else mediaType
  | none => mediaType

/-- The watchlist key of a candidate: the template `${item.media_type || mediaType}:${item.id}`. -/
def seenKey (item : MediaItem) (mediaType : String) : String :=
  mediaTypeOf item mediaType ++ ":" ++ item.id.toKey

/-- The candidates that are not in the watchlist. -/
def filteredCandidates (watchlist : Watchlist) (mediaType : String) (unique : List MediaItem) :
    List MediaItem :=
  let seenIds := watchlist.map (fun e => e.1)
  unique.filter (fun item => !(seenIds.contains (seenKey item mediaType)))

/-- The list `preliminaryScored`: pass-1 scores, cut at `> 0`, sorted by descending score. -/
def preliminaryScored (tasteProfile : TasteProfile) (explicitPrefs : ExplicitPrefs)
    (mediaType : String) (candidates : List MediaItem) : List ScoredItem :=
  ((candidates.map (fun item =>
      ({ item := item, media_type := mediaTypeOf item mediaType,
         preliminaryScore := scoreMediaItemSimple item tasteProfile explicitPrefs } : ScoredItem))).filter
    (fun item => decide (item.preliminaryScore > 0))).insertionSort
    (fun a b => b.preliminaryScore ≤ a.preliminaryScore)

/-- The method `xs.slice(0, end)` for an integer `end`; a negative `end` counts from the end. -/
def sliceTo {α : Type} (xs : List α) (e : Int) : List α :=
  if e < 0 then xs.take (xs.length - e.natAbs) else xs.take e.toNat

/-- The list `promisingCandidates`: the first `count * 2.5` entries, the bound truncated to an integer. -/
def promisingCandidates (scored : List ScoredItem) (count : Int) : List ScoredItem :=
  sliceTo scored (Int.tdiv (count * 5) 2)

/-- The detail fetches and the loop over `detailedResults`: the scored details with score `> 0`, in
the order of the candidates, and the requests issued. -/
def finalScoredCandidates (fetch : DetailsOracle) (tasteProfile : TasteProfile)
    (explicitPrefs : ExplicitPrefs) :
    List ScoredItem → List Recommendation × List Request
  | [] => ([], [])
  | item :: rest =>
    let fetched := getMediaDetails fetch item.item.id item.media_type
    let tail := finalScoredCandidates fetch tasteProfile explicitPrefs rest
    match fetched.1 with
    | some mediaDetails =>
      let finalScore := scoreMediaItemDetailed mediaDetails tasteProfile explicitPrefs
      if finalScore > 0 then
        ({ details := mediaDetails,
           media_type :=
             (match mediaDetails.first_air_date with
              | some s => if s ≠ "" then "tv" else "movie"
              | none => "movie"),
           recommendationScore := finalScore } :: tail.1, fetched.2 ++ tail.2)
      else (tail.1, fetched.2 ++ tail.2)
    | none => (tail.1, fetched.2 ++ tail.2)

/-- The function `getRecommendations(mediaType, count, page)`: the returned page and the requests
issued, in order. -/
def getRecommendations (discover : DiscoverOracle) (fetch : DetailsOracle) (st : Store)
    (watchlist : Watchlist) (mediaType : String) (count : Int) (page : Int) :
    RecommendationPage × List Request :=
  let tasteProfile := getTasteProfile st
  let explicitPrefs := getExplicitPreferences st
  if !hasProfile tasteProfile then
    ({ results := [], page := 1, total_pages := 0 }, [])
  else
    let discoverFilters := buildDiscoverFilters explicitPrefs
    let loop := discoverLoop discover mediaType discoverFilters page
    let unique := uniqueCandidates loop.candidatePool
    let filtered := filteredCandidates watchlist mediaType unique
    let scored := preliminaryScored tasteProfile explicitPrefs mediaType filtered
    let promising := promisingCandidates scored count
    let final := finalScoredCandidates fetch tasteProfile explicitPrefs promising
    let sorted := final.1.insertionSort (fun a b => b.recommendationScore ≤ a.recommendationScore)
    let totalRecommendationPages := Int.fdiv loop.totalPagesFromDiscover 2
    ({ results := sliceTo sorted count, page := page, total_pages := totalRecommendationPages },
      loop.requests ++ final.2)

/-! ## IEEE-754 binary64 arithmetic -/

/-- Rounding to the nearest integer, ties to the even integer. -/
def roundHalfEven (y : ℚ) : Int :=
  if y - ⌊y⌋ < 1 / 2 then ⌊y⌋
  else if 1 / 2 < y - ⌊y⌋ then ⌊y⌋ + 1
  else if ⌊y⌋ % 2 = 0 then ⌊y⌋ else ⌊y⌋ + 1

/-- The binary64 value nearest to `x >= 0` (ties to even): 53 significant bits, the last one of
weight `2 ^ (floor(log2 x) - 52)`. The exponent range is not bounded. -/
def roundMagnitude (x : ℚ) : ℚ :=
  if x = 0 then 0
  else (roundHalfEven (x / 2 ^ (Int.log 2 x - 52)) : ℚ) * 2 ^ (Int.log 2 x - 52)

/-- The binary64 value nearest to `x`, ties to even (the rounding of every IEEE-754 operation
and of a decimal literal). -/
def round64 (x : ℚ) : ℚ :=
  if 0 ≤ x then roundMagnitude x else - roundMagnitude (-x)

/-- Double-precision addition `x + y`. -/
def fadd (x y : ℚ) : ℚ := round64 (x + y)

/-- Double-precision multiplication `x * y`. -/
def fmul (x y : ℚ) : ℚ := round64 (x * y)

/-- Double-precision division `x / y`, for `y` other than 0. -/
def fdiv (x y : ℚ) : ℚ := round64 (x / y)

/-! ## Bulk profile builder (`taste-profile.js`) -/

/-- The method `key.split(':')`, on the characters of the key. -/
def splitColon : List Char → List (List Char)
  | [] => [[]]
  | c :: cs =>
    if c = ':' then [] :: splitColon cs
    else
      match splitColon cs with
      | part :: parts => (c :: part) :: parts
      | [] => [[c]]

/-- The destructuring `const [mediaType, mediaId] = key.split(':')`; a missing second part is
`undefined`. -/
def splitKey (key : String) : String × JsId :=
  match splitColon key.toList with
  | mediaType :: mediaId :: _ => (String.mk mediaType, JsId.str (String.mk mediaId))
  | [mediaType] => (String.mk mediaType, JsId.undef)
  | [] => ("", JsId.undef)

/-- The function `Math.round` on a binary64 value: the nearest integer, halves rounded up (the
function rounds the exact value of its argument). -/
def mathRound (x : ℚ) : Int :=
  Int.floor (x + 1 / 2)

/-- The rating action of an entry: `rated_high` from 8, `rated_low` up to 4, none otherwise or
when `userRating` is falsy. -/
def ratingActionOf (userRating : Option ℚ) : Option String :=
  match userRating with
  | some r =>
    if r ≠ 0 then
      if r ≥ 8 then some "rated_high" else if r ≤ 4 then some "rated_low" else none
    else none
  | none => none

/-- The body of the loop of `buildInitialProfileFromLibrary` for a fulfilled, non-null result. -/
def processEntry (profile : TasteProfile) (itemData : WatchlistEntry) (mediaDetails : MediaDetails) :
    TasteProfile :=
  let p1 := match itemData.status with
    | some status =>
      if status ≠ "" ∧ status ≠ "remove" then
        applyScoresToProfile profile status (some mediaDetails) 1
      else profile
    | none => profile
  match ratingActionOf itemData.userRating with
  | some ratingAction => applyScoresToProfile p1 ratingAction (some mediaDetails) 1
  | none => p1

/-- The state of the loop of `buildInitialProfileFromLibrary`: the profile being built and the
calls of `progressCallback` so far. -/
structure BuildState where
  profile : TasteProfile
  progress : List (Int × String)

/-- One iteration of the loop over `results.entries()`: `x` is the index, the library entry
`items[index]` and the settled result (`none` when rejected or `null`); `n` is `items.length`. -/
def buildStep (n : Nat) (s : BuildState)
    (x : Nat × ((String × WatchlistEntry) × Option MediaDetails)) : BuildState :=
  let index := x.1
  let itemData := x.2.1.2
  let profile := match x.2.2 with
    | some mediaDetails => processEntry s.profile itemData mediaDetails
    | none => s.profile
  let progress := 20 + mathRound (fmul (fdiv (fadd (index : ℚ) 1) (n : ℚ)) 70)
  { profile := profile,
    progress := s.progress ++
      [(progress, "Processing " ++ toString (index + 1) ++ " of " ++ toString n ++ "...")] }

/-- The three loops that apply the explicit preferences in `buildInitialProfileFromLibrary`, when
preferences were passed. -/
def applyBuildPrefs (profile : TasteProfile) (explicitPrefs : Option ExplicitPrefs) : TasteProfile :=
  match explicitPrefs with
  | some prefs =>
    applyPrefsWith profile prefs EXPLICIT_WEIGHTS.liked_genre EXPLICIT_WEIGHTS.disliked_genre
      EXPLICIT_WEIGHTS.language
  | none => profile

/-- What `buildInitialProfileFromLibrary` leaves behind: the store, whether the migration flag
was written, the calls of `progressCallback` and the requests issued. -/
structure BuildResult where
  store : Store
  migrationFlag : Bool
  progress : List (Int × String)
  requests : List Request

/-- The function `buildInitialProfileFromLibrary(library, progressCallback, explicitPrefs)`;
`user` is `auth.currentUser`, `library` the entries of the library `Map` in iteration order. -/
def buildInitialProfileFromLibrary (user : Option String) (fetch : DetailsOracle) (st : Store)
    (library : Watchlist) (explicitPrefs : Option ExplicitPrefs) : BuildResult :=
  match user with
  | none => { store := st, migrationFlag := false, progress := [], requests := [] }
  | some _ =>
    let st1 := clearTasteProfile st
    let st2 := match explicitPrefs with
      | some prefs => { st1 with localExplicitPreferences := prefs }
      | none => st1
    let progress0 : List (Int × String) := [(0, "Analyzing your library...")]
    let items := library
    if items.length = 0 then
      let st3 := match explicitPrefs with
        | some _ => saveTasteProfile st2 (applyBuildPrefs (getTasteProfile st2) explicitPrefs)
        | none => st2
      { store := st3, migrationFlag := true,
        progress := progress0 ++ [(100, "Library empty, profile initialized.")],
        requests := [] }
    else
      let fetched := items.map (fun e => getMediaDetails fetch (splitKey e.1).2 (splitKey e.1).1)
      let results := fetched.map (fun r => r.1)
      let progress1 := progress0 ++ [(20, "Building your taste profile...")]
      let loop := ((items.zip results).enum).foldl (buildStep items.length)
        { profile := getTasteProfile st2, progress := progress1 }
      let profile := applyBuildPrefs loop.profile explicitPrefs
      { store := saveTasteProfile st2 profile, migrationFlag := true,
        progress := loop.progress ++ [(95, "Finalizing profile..."), (100, "Profile complete!")],
        requests := (fetched.map (fun r => r.2)).flatten }

/-! ## The functions of `taste-profile.js` in binary64 arithmetic

The same functions as above, with every sum and product rounded as the code computes them. -/

namespace Binary64

/-- The table `ACTION_WEIGHTS`, each decimal literal read as the nearest binary64 value. -/
def ACTION_WEIGHTS (action : String) : Option ℚ :=
  (CineHub.ACTION_WEIGHTS action).map round64

/-- The constants of `ATTRIBUTE_WEIGHTS`, each decimal literal read as the nearest binary64
value. -/
def ATTRIBUTE_WEIGHTS : AttributeWeights :=
  { genres := round64 (3 / 2), director := round64 (6 / 5), actors := round64 1,
    languages := round64 1, countries := round64 (4 / 5), years := round64 (1 / 2) }

/-- The function `updateScore(profile, category, id, weight)`. -/
def updateScore (profile : TasteProfile) (category : Category) (id : JsId) (weight : ℚ) :
    TasteProfile :=
  if !id.truthy || weight = 0 then profile
  else
    profile.setCat category
      (writeScore (profile.cat category) id.toKey
        (fadd (readScore (profile.cat category) id.toKey) weight))

/-- The decade/era step of `applyScoresToProfile`. -/
def applyDecade (profile : TasteProfile) (details : MediaDetails) (baseScore : ℚ) : TasteProfile :=
  match releaseDateOf details with
  | some releaseDate =>
    match parseInt (releaseDate.take 4) with
    | some year =>
      updateScore profile .years (.num (decadeOf year)) (fmul baseScore ATTRIBUTE_WEIGHTS.years)
    | none => profile
  | none => profile

/-- The body of `applyScoresToProfile` once the action and the details are known. -/
def applyBaseScore (profile : TasteProfile) (details : MediaDetails) (baseScore : ℚ) : TasteProfile :=
  let p1 := (details.genres.getD []).foldl
    (fun p g => updateScore p .genres g.id (fmul baseScore ATTRIBUTE_WEIGHTS.genres)) profile
  let p2 := match findDirector details.credits with
    | some director =>
      updateScore p1 .directors director.id (fmul baseScore ATTRIBUTE_WEIGHTS.director)
    | none => p1
  let p3 := (topCast details.credits).foldl
    (fun p a => updateScore p .actors a.id (fmul baseScore ATTRIBUTE_WEIGHTS.actors)) p2
  let p4 := updateScore p3 .languages details.original_language
    (fmul baseScore ATTRIBUTE_WEIGHTS.languages)
  let p5 := (details.production_countries.getD []).foldl
    (fun p c => updateScore p .countries c.iso_3166_1 (fmul baseScore ATTRIBUTE_WEIGHTS.countries)) p4
  applyDecade p5 details baseScore

/-- The function `applyScoresToProfile(profile, action, details, multiplier)`. -/
def applyScoresToProfile (profile : TasteProfile) (action : String) (details : Option MediaDetails)
    (multiplier : ℚ) : TasteProfile :=
  match ACTION_WEIGHTS action, details with
  | some score, some d => applyBaseScore profile d (fmul score multiplier)
  | _, _ => profile

/-- The function `updateTasteProfile(mediaId, mediaType, newStatus, oldStatus, mediaDetails)`:
the new store and the requests issued. -/
def updateTasteProfile (fetch : DetailsOracle) (st : Store) (mediaId : JsId) (mediaType : String)
    (newStatus oldStatus : Option String) (mediaDetails : Option MediaDetails) :
    Store × List Request :=
  let fetched : Option MediaDetails × List Request :=
    match mediaDetails with
    | some d => (some d, [])
    | none => getMediaDetails fetch mediaId mediaType
  match fetched.1 with
  | none => (st, fetched.2)
  | some details =>
    let profile := getTasteProfile st
    let p1 := match knownAction oldStatus with
      | some old => applyScoresToProfile profile old (some details) (-1)
      | none => profile
    let p2 := match knownAction newStatus with
      | some new => if new ≠ "remove" then applyScoresToProfile p1 new (some details) 1 else p1
      | none => p1
    (saveTasteProfile st p2, fetched.2)

/-- The three loops of `applyExplicitPreferencesToProfile` over one preference set, with the
weight passed to `updateScore` in each loop. -/
def applyPrefsWith (profile : TasteProfile) (prefs : ExplicitPrefs)
    (likedWeight dislikedWeight languageWeight : ℚ) : TasteProfile :=
  let p1 := prefs.genres.liked.foldl
    (fun p id => updateScore p .genres id likedWeight) profile
  let p2 := prefs.genres.disliked.foldl
    (fun p id => updateScore p .genres id dislikedWeight) p1
  prefs.languages.foldl
    (fun p code => updateScore p .languages code languageWeight) p2

/-- The function `applyExplicitPreferencesToProfile(newPrefs, oldPrefs)`; the weights 20, -1000
and 15 and their negations are binary64 values. -/
def applyExplicitPreferencesToProfile (st : Store) (newPrefs : ExplicitPrefs)
    (oldPrefs : Option ExplicitPrefs) : Store :=
  let profile := getTasteProfile st
  let p1 := match oldPrefs with
    | some old =>
      applyPrefsWith profile old (-EXPLICIT_WEIGHTS.liked_genre) (-EXPLICIT_WEIGHTS.disliked_genre)
        (-EXPLICIT_WEIGHTS.language)
    | none => profile
  saveTasteProfile st
    (applyPrefsWith p1 newPrefs EXPLICIT_WEIGHTS.liked_genre EXPLICIT_WEIGHTS.disliked_genre
      EXPLICIT_WEIGHTS.language)

/-- The function `saveExplicitPreferences(newPrefs)`: the store after the call, and its outcome
(`Except.error e` when the call throws `e`). `user` is `auth.currentUser`. -/
def saveExplicitPreferences (user : Option String) (remote : RemoteWrite) (st : Store)
    (newPrefs : ExplicitPrefs) : Store × Except String Unit :=
  match user with
  | none => (st, Except.error "User not authenticated")
  | some _ =>
    let oldPrefs := getExplicitPreferences st
    match remote newPrefs with
    | none =>
      let st1 := { st with localExplicitPreferences := newPrefs }
      (applyExplicitPreferencesToProfile st1 newPrefs (some oldPrefs), Except.ok ())
    | some error => ({ st with localExplicitPreferences := oldPrefs }, Except.error error)

/-- The store after one call. -/
def runEvent (user : Option String) (remote : RemoteWrite) (fetch : DetailsOracle) (st : Store) :
    ProfileEvent → Store
  | .save newPrefs => (saveExplicitPreferences user remote st newPrefs).1
  | .update mediaId mediaType newStatus oldStatus mediaDetails =>
    (updateTasteProfile fetch st mediaId mediaType newStatus oldStatus mediaDetails).1

/-- The store after a sequence of calls, in order. -/
def runEvents (user : Option String) (remote : RemoteWrite) (fetch : DetailsOracle) (st : Store)
    (events : List ProfileEvent) : Store :=
  events.foldl (runEvent user remote fetch) st

/-- The body of the loop of `buildInitialProfileFromLibrary` for a fulfilled, non-null result. -/
def processEntry (profile : TasteProfile) (itemData : WatchlistEntry) (mediaDetails : MediaDetails) :
    TasteProfile :=
  let p1 := match itemData.status with
    | some status =>
      if status ≠ "" ∧ status ≠ "remove" then
        applyScoresToProfile profile status (some mediaDetails) 1
      else profile
    | none => profile
  match ratingActionOf itemData.userRating with
  | some ratingAction => applyScoresToProfile p1 ratingAction (some mediaDetails) 1
  | none => p1

/-- One iteration of the loop over `results.entries()`: `x` is the index, the library entry
`items[index]` and the settled result (`none` when rejected or `null`); `n` is `items.length`. -/
def buildStep (n : Nat) (s : BuildState)
    (x : Nat × ((String × WatchlistEntry) × Option MediaDetails)) : BuildState :=
  let index := x.1
  let itemData := x.2.1.2
  let profile := match x.2.2 with
    | some mediaDetails => processEntry s.profile itemData mediaDetails
    | none => s.profile
  let progress := 20 + mathRound (fmul (fdiv (fadd (index : ℚ) 1) (n : ℚ)) 70)
  { profile := profile,
    progress := s.progress ++
      [(progress, "Processing " ++ toString (index + 1) ++ " of " ++ toString n ++ "...")] }

/-- The three loops that apply the explicit preferences in `buildInitialProfileFromLibrary`, when
preferences were passed. -/
def applyBuildPrefs (profile : TasteProfile) (explicitPrefs : Option ExplicitPrefs) : TasteProfile :=
  match explicitPrefs with
  | some prefs =>
    applyPrefsWith profile prefs EXPLICIT_WEIGHTS.liked_genre EXPLICIT_WEIGHTS.disliked_genre
      EXPLICIT_WEIGHTS.language
  | none => profile

/-- The function `buildInitialProfileFromLibrary(library, progressCallback, explicitPrefs)`;
`user` is `auth.currentUser`, `library` the entries of the library `Map` in iteration order. -/
def buildInitialProfileFromLibrary (user : Option String) (fetch : DetailsOracle) (st : Store)
    (library : Watchlist) (explicitPrefs : Option ExplicitPrefs) : BuildResult :=
  match user with
  | none => { store := st, migrationFlag := false, progress := [], requests := [] }
  | some _ =>
    let st1 := clearTasteProfile st
    let st2 := match explicitPrefs with
      | some prefs => { st1 with localExplicitPreferences := prefs }
      | none => st1
    let progress0 : List (Int × String) := [(0, "Analyzing your library...")]
    let items := library
    if items.length = 0 then
      let st3 := match explicitPrefs with
        | some _ => saveTasteProfile st2 (applyBuildPrefs (getTasteProfile st2) explicitPrefs)
        | none => st2
      { store := st3, migrationFlag := true,
        progress := progress0 ++ [(100, "Library empty, profile initialized.")],
        requests := [] }
    else
      let fetched := items.map (fun e => getMediaDetails fetch (splitKey e.1).2 (splitKey e.1).1)
      let results := fetched.map (fun r => r.1)
      let progress1 := progress0 ++ [(20, "Building your taste profile...")]
      let loop := ((items.zip results).enum).foldl (buildStep items.length)
        { profile := getTasteProfile st2, progress := progress1 }
      let profile := applyBuildPrefs loop.profile explicitPrefs
      { store := saveTasteProfile st2 profile, migrationFlag := true,
        progress := loop.progress ++ [(95, "Finalizing profile..."), (100, "Profile complete!")],
        requests := (fetched.map (fun r => r.2)).flatten }

end Binary64

/-! ## JavaScript numbers with subnormals, infinities and `NaN` -/

/-- A JavaScript number: a finite binary64 value (the two zeros are not told apart), an infinity
or `NaN`. -/
inductive JsNumber where
  | finite (x : ℚ)
  | posInf
  | negInf
  | nan
  deriving DecidableEq

/-- Rounding of a non-negative rational to the binary64 grid, subnormal range included: the
spacing is `2^(e-52)` in the binade of exponent `e`, and `2^-1074` below `2^-1022`. -/
def roundDoubleMagnitude (x : ℚ) : ℚ :=
  if x = 0 then 0
  else (roundHalfEven (x / 2 ^ max (Int.log 2 x - 52) (-1074)) : ℚ)
    * 2 ^ max (Int.log 2 x - 52) (-1074)

/-- Rounding to the binary64 grid, subnormal range included, without the upper limit. -/
def roundDouble (x : ℚ) : ℚ :=
  if 0 ≤ x then roundDoubleMagnitude x else - roundDoubleMagnitude (-x)

/-- The binary64 value of an exact result: an infinity when the rounded magnitude reaches
`2^1024`. -/
def JsNumber.ofRat (x : ℚ) : JsNumber :=
  if 2 ^ 1024 ≤ roundDouble x then .posInf
  else if roundDouble x ≤ -(2 ^ 1024) then .negInf
  else .finite (roundDouble x)

/-- The operator `+` on numbers. -/
def JsNumber.add : JsNumber → JsNumber → JsNumber
  | .nan, _ => .nan
  | _, .nan => .nan
  | .finite x, .finite y => JsNumber.ofRat (x + y)
  | .posInf, .negInf => .nan
  | .negInf, .posInf => .nan
  | .posInf, _ => .posInf
  | _, .posInf => .posInf
  | .negInf, _ => .negInf
  | _, .negInf => .negInf

/-- The operator `*` on numbers: zero times an infinity is `NaN`. -/
def JsNumber.mul : JsNumber → JsNumber → JsNumber
  | .nan, _ => .nan
  | _, .nan => .nan
  | .finite x, .finite y => JsNumber.ofRat (x * y)
  | .finite x, .posInf => if x = 0 then .nan else if 0 < x then .posInf else .negInf
  | .finite x, .negInf => if x = 0 then .nan else if 0 < x then .negInf else .posInf
  | .posInf, .finite y => if y = 0 then .nan else if 0 < y then .posInf else .negInf
  | .negInf, .finite y => if y = 0 then .nan else if 0 < y then .negInf else .posInf
  | .posInf, .posInf => .posInf
  | .negInf, .negInf => .posInf
  | .posInf, .negInf => .negInf
  | .negInf, .posInf => .negInf

/-- The names of the properties that a plain object inherits from `Object.prototype`; their
values are functions, and for `__proto__` the prototype object itself. -/
def objectPrototypeKeys : List String :=
  ["constructor", "__defineGetter__", "__defineSetter__", "hasOwnProperty", "__lookupGetter__",
   "__lookupSetter__", "isPrototypeOf", "propertyIsEnumerable", "toString", "valueOf",
   "__proto__", "toLocaleString"]

/-- The value of `(m[k] || 0) * w` for a score mapping `m` that is a plain object: an own key
gives the stored number; a key found on `Object.prototype` gives a function or an object, which
is truthy and whose product with a number is `NaN`; any other key gives `undefined`, replaced by
`0`. -/
def scoreTerm (m : ScoreMap) (k : String) (w : ℚ) : JsNumber :=
  if hasKey m k then (JsNumber.ofRat (readScore m k)).mul (JsNumber.ofRat w)
  else if k ∈ objectPrototypeKeys then .nan
  else (JsNumber.finite 0).mul (JsNumber.ofRat w)

/-- The two accumulators of a scorer as JavaScript numbers: `score` and `multiplier`. -/
structure NumberAcc where
  score : JsNumber
  multiplier : JsNumber
  deriving DecidableEq

/-! ## The scorers of `recommender.js` on JavaScript numbers -/

namespace Binary64

/-- The body of the genre loop of both scorers. -/
def genreStep (tasteProfile : TasteProfile) (explicitPrefs : ExplicitPrefs) (acc : NumberAcc)
    (genreId : JsId) : NumberAcc :=
  { score := acc.score.add
      (scoreTerm tasteProfile.genres genreId.toKey CineHub.ATTRIBUTE_WEIGHTS.genres),
    multiplier :=
      if genreId ∈ explicitPrefs.genres.liked then
        acc.multiplier.mul (JsNumber.ofRat PREF_MULTIPLIERS.LIKED_GENRE)
      else acc.multiplier }

/-- The language block of both scorers. -/
def languageStep (tasteProfile : TasteProfile) (explicitPrefs : ExplicitPrefs) (acc : NumberAcc)
    (language : JsId) : NumberAcc :=
  if language.truthy then
    { score := acc.score.add
        (scoreTerm tasteProfile.languages language.toKey CineHub.ATTRIBUTE_WEIGHTS.languages),
      multiplier :=
        if language ∈ explicitPrefs.languages then
          acc.multiplier.mul (JsNumber.ofRat PREF_MULTIPLIERS.PREFERRED_LANGUAGE)
        else acc.multiplier }
  else acc

/-- The body of the country loop of both scorers. -/
def countryStep (tasteProfile : TasteProfile) (acc : NumberAcc) (countryCode : JsId) :
    NumberAcc :=
  { acc with
    score := acc.score.add
      (scoreTerm tasteProfile.countries countryCode.toKey CineHub.ATTRIBUTE_WEIGHTS.countries) }

/-- The function `scoreMediaItemSimple(mediaItem, tasteProfile, explicitPrefs)`. -/
def scoreMediaItemSimple (mediaItem : MediaItem) (tasteProfile : TasteProfile)
    (explicitPrefs : ExplicitPrefs) : JsNumber :=
  let a0 : NumberAcc := { score := .finite 0, multiplier := .finite 1 }
  let a1 := match mediaItem.genre_ids with
    | some ids => ids.foldl (genreStep tasteProfile explicitPrefs) a0
    | none => a0
  let a2 := languageStep tasteProfile explicitPrefs a1 mediaItem.original_language
  let a3 := match mediaItem.origin_country with
    | some codes => codes.foldl (countryStep tasteProfile) a2
    | none => a2
  a3.score.mul a3.multiplier

/-- The function `scoreMediaItemDetailed(mediaDetails, tasteProfile, explicitPrefs)`. -/
def scoreMediaItemDetailed (mediaDetails : MediaDetails) (tasteProfile : TasteProfile)
    (explicitPrefs : ExplicitPrefs) : JsNumber :=
  let a0 : NumberAcc := { score := .finite 0, multiplier := .finite 1 }
  let a1 := match mediaDetails.genres with
    | some gs =>
      gs.foldl (fun acc (genre : Genre) => genreStep tasteProfile explicitPrefs acc genre.id) a0
    | none => a0
  let a2 := languageStep tasteProfile explicitPrefs a1 mediaDetails.original_language
  let a3 := match mediaDetails.production_countries with
    | some cs =>
      cs.foldl (fun acc (country : Country) => countryStep tasteProfile acc country.iso_3166_1) a2
    | none => a2
  let a4 := match findDirector mediaDetails.credits with
    | some director =>
      { a3 with
        score := a3.score.add
          (scoreTerm tasteProfile.directors director.id.toKey
            CineHub.ATTRIBUTE_WEIGHTS.director) }
    | none => a3
  let a5 := (topCast mediaDetails.credits).foldl
    (fun (acc : NumberAcc) (actor : CastMember) =>
      { acc with
        score := acc.score.add
          (scoreTerm tasteProfile.actors actor.id.toKey CineHub.ATTRIBUTE_WEIGHTS.actors) })
    a4
  a5.score.mul a5.multiplier

end Binary64

/-! ## Auxiliary definitions used to state what the assembler does -/

/-- The items of discovery page `i` that reach the candidate pool: none when the fetch fails or
the response has no `results`. -/
def pageResults (discover : DiscoverOracle) (mediaType : String) (filters : Filters) (i : Int) :
    List MediaItem :=
  match discover mediaType filters i with
  | some data => data.results.getD []
  | none => []

/-- The method `Map.prototype.get`; `none` is `undefined`. -/
def mapGet {κ ν : Type} [DecidableEq κ] : List (κ × ν) → κ → Option ν
  | [], _ => none
  | (k', v) :: m, k => if k' = k then some v else mapGet m k

/-- The last item of the pool that has the given id. -/
def lastWithId (pool : List MediaItem) (id : JsId) : Option MediaItem :=
  pool.reverse.find? (fun x => decide (x.id = id))

/-- The pass-1 list of a request: the list `preliminaryScored` that `getRecommendations` builds. -/
def pass1List (discover : DiscoverOracle) (st : Store) (watchlist : Watchlist)
    (mediaType : String) (page : Int) : List ScoredItem :=
  preliminaryScored (getTasteProfile st) (getExplicitPreferences st) mediaType
    (filteredCandidates watchlist mediaType
      (uniqueCandidates
        (discoverLoop discover mediaType (buildDiscoverFilters (getExplicitPreferences st))
          page).candidatePool))

/-- The detailed candidates of a request: the list `finalScoredCandidates` before it is sorted,
that is the details fetched for the promising candidates whose pass-2 score is `> 0`. -/
def pass2List (discover : DiscoverOracle) (fetch : DetailsOracle) (st : Store)
    (watchlist : Watchlist) (mediaType : String) (count page : Int) : List Recommendation :=
  (finalScoredCandidates fetch (getTasteProfile st) (getExplicitPreferences st)
    (promisingCandidates (pass1List discover st watchlist mediaType page) count)).1

/-- Whether a request is a details request. -/
def Request.isDetails : Request → Bool
  | .details _ _ => true
  | .discover _ _ _ => false

/-- The detail request that `getMediaDetails` issues for a pass-1 candidate, if it issues one. -/
def detailRequestOf (c : ScoredItem) : Option Request :=
  if !c.item.id.truthy || c.media_type = "" then none
  else some (Request.details c.item.id c.media_type)

/-- The entry that a promising candidate contributes to the detailed candidates: its fetched
details with their pass-2 score, when the fetch succeeds and the score is `> 0`. -/
def detailedOf (fetch : DetailsOracle) (tasteProfile : TasteProfile)
    (explicitPrefs : ExplicitPrefs) (c : ScoredItem) : Option Recommendation :=
  match (getMediaDetails fetch c.item.id c.media_type).1 with
  | some mediaDetails =>
    if scoreMediaItemDetailed mediaDetails tasteProfile explicitPrefs > 0 then
      some { details := mediaDetails,
             media_type :=
               (match mediaDetails.first_air_date with
                | some s => if s ≠ "" then "tv" else "movie"
                | none => "movie"),
             recommendationScore := scoreMediaItemDetailed mediaDetails tasteProfile explicitPrefs }
    else none
  | none => none

/-! ## `getTasteProfile` at the level of the stored JSON text -/

/-- A value returned by `JSON.parse`. -/
inductive JsonValue where
  | null
  | bool (b : Bool)
  | num (q : ℚ)
  | str (s : String)
  | arr (items : List JsonValue)
  | obj (props : List (String × JsonValue))

/-- JavaScript truthiness of a parsed value. -/
def JsonValue.truthy : JsonValue → Bool
  | .null => false
  | .bool b => b
  | .num q => decide (q ≠ 0)
  | .str s => decide (s ≠ "")
  | .arr _ => true
  | .obj _ => true

/-- Property read `v[name]` for one of the category names, on a value that is not `null`: only an
object has such a property; `none` is `undefined`. -/
def JsonValue.prop (v : JsonValue) (name : String) : Option JsonValue :=
  match v with
  | .obj props => props.lookup name
  | _ => none

/-- The expression `x || {}`. -/
def orEmptyObject (x : Option JsonValue) : JsonValue :=
  match x with
  | some v => if v.truthy then v else JsonValue.obj []
  | none => JsonValue.obj []

/-- The zero-value structure returned by the `catch` block. -/
def zeroProfileJson : JsonValue :=
  JsonValue.obj [("genres", JsonValue.obj []), ("actors", JsonValue.obj []),
    ("directors", JsonValue.obj []), ("languages", JsonValue.obj []),
    ("countries", JsonValue.obj []), ("years", JsonValue.obj [])]

/-- The `try` block of `getTasteProfile`: `JSON.parse` is the parameter `parse` (`none` when it
throws a `SyntaxError`), `slot` is the result of `localStorage.getItem` (`none` for `null`). An
error is an exception thrown inside the block. -/
def getTasteProfileTry (parse : String → Option JsonValue) (slot : Option String) :
    Except String JsonValue :=
  let parsed : Except String JsonValue :=
    match slot with
    | none => Except.ok (JsonValue.obj [])
    | some profileJson =>
      if profileJson = "" then Except.ok (JsonValue.obj [])
      else
        match parse profileJson with
        | some v => Except.ok v
        | none => Except.error "SyntaxError"
  match parsed with
  | Except.error e => Except.error e
  | Except.ok JsonValue.null => Except.error "TypeError"
  | Except.ok profile =>
    Except.ok (JsonValue.obj
      [("genres", orEmptyObject (profile.prop "genres")),
       ("actors", orEmptyObject (profile.prop "actors")),
       ("directors", orEmptyObject (profile.prop "directors")),
       ("languages", orEmptyObject (profile.prop "languages")),
       ("countries", orEmptyObject (profile.prop "countries")),
       ("years", orEmptyObject (profile.prop "years"))])

/-- The function `getTasteProfile()` on the raw slot: the `try` block, and the zero-value
structure when it throws. -/
def getTasteProfileRaw (parse : String → Option JsonValue) (slot : Option String) : JsonValue :=
  match getTasteProfileTry parse slot with
  | Except.ok profile => profile
  | Except.error _ => zeroProfileJson

/-- The JSON object that `JSON.stringify` writes for a score mapping. -/
def encodeScoreMap (m : ScoreMap) : JsonValue :=
  JsonValue.obj (m.map (fun e => (e.1, JsonValue.num e.2)))

/-- The JSON object that `saveTasteProfile` writes for a profile. -/
def encodeProfile (p : TasteProfile) : JsonValue :=
  JsonValue.obj [("genres", encodeScoreMap p.genres), ("actors", encodeScoreMap p.actors),
    ("directors", encodeScoreMap p.directors), ("languages", encodeScoreMap p.languages),
    ("countries", encodeScoreMap p.countries), ("years", encodeScoreMap p.years)]

/-! ## Auxiliary definitions used to state what the updater adds -/

/-- The contribution of one `updateScore` call to the score of `(c', k)`, per unit of weight. -/
def hits (c : Category) (id : JsId) (c' : Category) (k : String) : ℚ :=
  if c' = c ∧ id.truthy = true ∧ k = id.toKey then 1 else 0

/-- The summed contribution of a loop `xs.forEach(x => updateScore(profile, c, f x, w))`. -/
def hitsList {α : Type} (c : Category) (f : α → JsId) (xs : List α) (c' : Category) (k : String) : ℚ :=
  (xs.map (fun x => hits c (f x) c' k)).sum

/-- What the decade step adds to the score of `(c, k)` per unit of base score. -/
def decadeCoef (d : MediaDetails) (c : Category) (k : String) : ℚ :=
  match releaseDateOf d with
  | some releaseDate =>
    match parseInt (releaseDate.take 4) with
    | some year => ATTRIBUTE_WEIGHTS.years * hits .years (.num (decadeOf year)) c k
    | none => 0
  | none => 0

/-- What the director step adds to the score of `(c, k)` per unit of base score. -/
def directorCoef (d : MediaDetails) (c : Category) (k : String) : ℚ :=
  match findDirector d.credits with
  | some director => ATTRIBUTE_WEIGHTS.director * hits .directors director.id c k
  | none => 0

/-- What `applyScoresToProfile` adds to the score of `(c, k)` per unit of base score. -/
def itemCoef (d : MediaDetails) (c : Category) (k : String) : ℚ :=
  ATTRIBUTE_WEIGHTS.genres * hitsList .genres (fun g : Genre => g.id) (d.genres.getD []) c k
  + directorCoef d c k
  + ATTRIBUTE_WEIGHTS.actors * hitsList .actors (fun a : CastMember => a.id) (topCast d.credits) c k
  + ATTRIBUTE_WEIGHTS.languages * hits .languages d.original_language c k
  + ATTRIBUTE_WEIGHTS.countries
      * hitsList .countries (fun x : Country => x.iso_3166_1) (d.production_countries.getD []) c k
  + decadeCoef d c k

/-- The action weight that `updateTasteProfile` uses for a status: `0` when the status is absent
or not a key of `ACTION_WEIGHTS`. -/
def actionScore (status : Option String) : ℚ :=
  match knownAction status with
  | some a => (ACTION_WEIGHTS a).getD 0
  | none => 0

/-- What one pass of the three preference loops adds to the score of `(c, k)`. -/
def prefsShift (prefs : ExplicitPrefs) (likedWeight dislikedWeight languageWeight : ℚ)
    (c : Category) (k : String) : ℚ :=
  likedWeight * hitsList .genres (fun id : JsId => id) prefs.genres.liked c k
  + dislikedWeight * hitsList .genres (fun id : JsId => id) prefs.genres.disliked c k
  + languageWeight * hitsList .languages (fun code : JsId => code) prefs.languages c k

/-- The explicit contribution of a preference set to the score of `(c, k)`. -/
def explicitShift (prefs : ExplicitPrefs) (c : Category) (k : String) : ℚ :=
  prefsShift prefs EXPLICIT_WEIGHTS.liked_genre EXPLICIT_WEIGHTS.disliked_genre
    EXPLICIT_WEIGHTS.language c k

/-- The details that `updateTasteProfile` works with: the ones passed, else the fetched ones. -/
def resolvedDetails (fetch : DetailsOracle) (mediaId : JsId) (mediaType : String)
    (mediaDetails : Option MediaDetails) : Option MediaDetails :=
  match mediaDetails with
  | some d => some d
  | none => (getMediaDetails fetch mediaId mediaType).1

/-- The interaction contribution of one `updateTasteProfile` call to the score of `(c, k)`. -/
def updateContribution (fetch : DetailsOracle) (mediaId : JsId) (mediaType : String)
    (newStatus oldStatus : Option String) (mediaDetails : Option MediaDetails)
    (c : Category) (k : String) : ℚ :=
  match resolvedDetails fetch mediaId mediaType mediaDetails with
  | some d => (actionScore newStatus - actionScore oldStatus) * itemCoef d c k
  | none => 0

/-- The sum of the interaction contributions of the `updateTasteProfile` calls of a sequence. -/
def interactionSum (fetch : DetailsOracle) (events : List ProfileEvent) (c : Category)
    (k : String) : ℚ :=
  (events.map (fun ev =>
    match ev with
    | .save _ => 0
    | .update mediaId mediaType newStatus oldStatus mediaDetails =>
      updateContribution fetch mediaId mediaType newStatus oldStatus mediaDetails c k)).sum

/-- The preferences of the last `saveExplicitPreferences` call of a sequence, `init` if none. -/
def lastSaved (init : ExplicitPrefs) (events : List ProfileEvent) : ExplicitPrefs :=
  events.foldl (fun cur ev =>
    match ev with
    | .save newPrefs => newPrefs
    | .update _ _ _ _ _ => cur) init

/-- The preferences saved by a sequence of calls. -/
def savedPrefs (events : List ProfileEvent) : List ExplicitPrefs :=
  events.filterMap (fun ev =>
    match ev with
    | .save newPrefs => some newPrefs
    | .update _ _ _ _ _ => none)

/-- The number of entries of `ids` that `updateScore` adds to the key `k`: those that are truthy
and convert to `k`. -/
def keyCount (ids : List JsId) (k : String) : ℕ :=
  ids.countP (fun id => id.truthy && decide (id.toKey = k))

/-- The decade passed to `updateScore` by the decade step, when the release date yields one. -/
def decadeIds (d : MediaDetails) : List JsId :=
  match releaseDateOf d with
  | some releaseDate =>
    match parseInt (releaseDate.take 4) with
    | some year => [JsId.num (decadeOf year)]
    | none => []
  | none => []

/-- Whether a character is one of the decimal digits `0` to `9`. -/
def isDecimalDigit (c : Char) : Bool :=
  decide (48 ≤ c.toNat) && decide (c.toNat ≤ 57)

/-- The year written by four decimal digits. -/
def yearOfDigits (c3 c2 c1 c0 : Char) : Int :=
  ((((c3.toNat - 48) * 10 + (c2.toNat - 48)) * 10 + (c1.toNat - 48)) * 10 + (c0.toNat - 48) : Nat)

/-- The details fetched for a library entry, `none` when the fetch fails or yields `null`. -/
def entryDetails (fetch : DetailsOracle) (e : String × WatchlistEntry) : Option MediaDetails :=
  (getMediaDetails fetch (splitKey e.1).2 (splitKey e.1).1).1

/-- The loop of the bulk build without its progress reports: the profile after the entries of
`library`, starting from `profile`. -/
def libraryProfile (fetch : DetailsOracle) (profile : TasteProfile) (library : Watchlist) :
    TasteProfile :=
  library.foldl (fun p e =>
    match entryDetails fetch e with
    | some mediaDetails => processEntry p e.2 mediaDetails
    | none => p) profile

/-- The weight with which the bulk build applies an entry: the weight of its status (0 when absent,
unknown or `remove`) plus the weight of its rating action (0 when there is none). -/
def entryWeight (itemData : WatchlistEntry) : ℚ :=
  actionScore itemData.status + actionScore (ratingActionOf itemData.userRating)

/-- The contribution of a library entry to the score of `(c, k)`: nothing when its fetch failed. -/
def entryContribution (fetch : DetailsOracle) (e : String × WatchlistEntry) (c : Category)
    (k : String) : ℚ :=
  match entryDetails fetch e with
  | some mediaDetails => entryWeight e.2 * itemCoef mediaDetails c k
  | none => 0

/-- The explicit contribution of the preferences passed to the bulk build, 0 when none. -/
def buildPrefsShift (explicitPrefs : Option ExplicitPrefs) (c : Category) (k : String) : ℚ :=
  match explicitPrefs with
  | some prefs => explicitShift prefs c k
  | none => 0

/-- The percentage reported after processing the entry of index `i` of `n`:
`20 + Math.round(((i + 1) / n) * 70)`, the sum, the quotient and the product in binary64. -/
def itemPercent (n i : Nat) : Int :=
  20 + mathRound (fmul (fdiv (fadd (i : ℚ) 1) (n : ℚ)) 70)

/-- The percentages passed to `progressCallback`, in order. -/
def percentages (b : BuildResult) : List Int :=
  b.progress.map (fun x => x.1)

/-! ## Auxiliary definitions used to state what the scorers compute -/

/-- The sum added to `score` by the genre loop over `ids`. -/
def genreSum (tasteProfile : TasteProfile) (ids : List JsId) : ℚ :=
  (ids.map (fun g => readScore tasteProfile.genres g.toKey * ATTRIBUTE_WEIGHTS.genres)).sum

/-- The factor applied to `multiplier` by the genre loop over `ids`. -/
def genreMult (explicitPrefs : ExplicitPrefs) (ids : List JsId) : ℚ :=
  (ids.map (fun g => if g ∈ explicitPrefs.genres.liked then PREF_MULTIPLIERS.LIKED_GENRE else 1)).prod

/-- The term added to `score` by the language block. -/
def languageScore (tasteProfile : TasteProfile) (language : JsId) : ℚ :=
  if language.truthy then readScore tasteProfile.languages language.toKey * ATTRIBUTE_WEIGHTS.languages
  else 0

/-- The factor applied to `multiplier` by the language block. -/
def languageMult (explicitPrefs : ExplicitPrefs) (language : JsId) : ℚ :=
  if language.truthy = true ∧ language ∈ explicitPrefs.languages then
    PREF_MULTIPLIERS.PREFERRED_LANGUAGE
  else 1

/-- The sum added to `score` by the country loop over `codes`. -/
def countrySum (tasteProfile : TasteProfile) (codes : List JsId) : ℚ :=
  (codes.map (fun c => readScore tasteProfile.countries c.toKey * ATTRIBUTE_WEIGHTS.countries)).sum

/-- The term added to `score` for the director. -/
def directorScore (tasteProfile : TasteProfile) (credits : Option Credits) : ℚ :=
  match findDirector credits with
  | some director => readScore tasteProfile.directors director.id.toKey * ATTRIBUTE_WEIGHTS.director
  | none => 0

/-- The sum added to `score` by the cast loop. -/
def castSum (tasteProfile : TasteProfile) (credits : Option Credits) : ℚ :=
  ((topCast credits).map
    (fun a => readScore tasteProfile.actors a.id.toKey * ATTRIBUTE_WEIGHTS.actors)).sum

/-! ## The scoring formulas in the words of the specification -/

/-- The sum of pass 1 as the specification words it: for each genre id the profile's genre score
times 1.5, for the item's language (when it has one) the profile's language score times 1.0, for
each country code the profile's country score times 0.8, an absent profile key read as 0. -/
def specPass1Sum (genreIds : List JsId) (language : JsId) (countryCodes : List JsId)
    (profile : TasteProfile) : ℚ :=
  (genreIds.map (fun g => profile.score Category.genres g.toKey * (3 / 2))).sum
  + (if language.truthy = true then profile.score Category.languages language.toKey * 1 else 0)
  + (countryCodes.map (fun c => profile.score Category.countries c.toKey * (4 / 5))).sum

/-- The multiplier as the specification words it: 1.5 for each genre id of the item that is in
the liked genres, and 1.2 if the item's language is in the preferred languages. -/
def specMultiplier (genreIds : List JsId) (language : JsId) (prefs : ExplicitPrefs) : ℚ :=
  (genreIds.map (fun g => if g ∈ prefs.genres.liked then (3 / 2 : ℚ) else 1)).prod
  * (if language.truthy = true ∧ language ∈ prefs.languages then 6 / 5 else 1)

/-- The pass-1 score as the specification words it: the sum times the multiplier. -/
def specPass1Score (genreIds : List JsId) (language : JsId) (countryCodes : List JsId)
    (profile : TasteProfile) (prefs : ExplicitPrefs) : ℚ :=
  specPass1Sum genreIds language countryCodes profile * specMultiplier genreIds language prefs

/-- The pass-2 score as the specification words it: the pass-1 sum over the genres, language and
production countries of the details, plus the profile's director score times 1.2 for the first
crew member whose job is `Director`, plus the profile's actor score times 1.0 for each of the
first 5 cast members, the whole sum times the same multiplier. -/
def specPass2Score (d : MediaDetails) (profile : TasteProfile) (prefs : ExplicitPrefs) : ℚ :=
  (specPass1Sum ((d.genres.getD []).map (fun g => g.id)) d.original_language
      ((d.production_countries.getD []).map (fun c => c.iso_3166_1)) profile
    + (match findDirector d.credits with
       | some director => profile.score Category.directors director.id.toKey * (6 / 5)
       | none => 0)
    + ((topCast d.credits).map (fun a => profile.score Category.actors a.id.toKey * 1)).sum)
  * specMultiplier ((d.genres.getD []).map (fun g => g.id)) d.original_language prefs

/-- The shallow item that corresponds to a details object: its genre ids, its language and its
production countries as origin countries. -/
def shallowOf (d : MediaDetails) : MediaItem :=
  { id := d.id, media_type := none,
    genre_ids := d.genres.map (fun gs => gs.map (fun g => g.id)),
    original_language := d.original_language,
    origin_country := d.production_countries.map (fun cs => cs.map (fun c => c.iso_3166_1)),
    popularity := 0 }

/-! ## HTML escaping (`media-page/utils.js`) -/

/-- The call `s.replace(/c/g, r)` for a single character `c` and a replacement text `r` without
`$` patterns: every occurrence of `c` is replaced by `r`, in one pass from left to right. -/
def replaceAll (s : String) (c : Char) (r : String) : String :=
  ⟨s.toList.flatMap (fun x => if x = c then r.toList else [x])⟩

/-- The function `escapeHTML(str)`; the double quote is `Char.ofNat 34` and the single quote is
`Char.ofNat 39`. -/
def escapeHTML (str : JsId) : String :=
  if !str.truthy && str ≠ JsId.num 0 then ""
  else
    replaceAll
      (replaceAll
        (replaceAll
          (replaceAll
            (replaceAll str.toKey '&' "&amp;")
            '<' "&lt;")
          '>' "&gt;")
        (Char.ofNat 34) "&quot;")
      (Char.ofNat 39) "&#039;"

/-! ## Auxiliary definitions used to state what `escapeHTML` produces -/

/-- The text that stands for one character in the output of `escapeHTML`. -/
def escapeChar (c : Char) : List Char :=
  if c = '&' then ['&', 'a', 'm', 'p', ';']
  else if c = '<' then ['&', 'l', 't', ';']
  else if c = '>' then ['&', 'g', 't', ';']
  else if c = Char.ofNat 34 then ['&', 'q', 'u', 'o', 't', ';']
  else if c = Char.ofNat 39 then ['&', '#', '0', '3', '9', ';']
  else [c]

/-- The five entities without their leading `&`, each with the character it stands for. -/
def ENTITIES : List (List Char × Char) :=
  [(['a', 'm', 'p', ';'], '&'), (['l', 't', ';'], '<'), (['g', 't', ';'], '>'),
   (['q', 'u', 'o', 't', ';'], Char.ofNat 34), (['#', '0', '3', '9', ';'], Char.ofNat 39)]

/-- The rest of `l` after the leading text `p`, if `l` starts with `p`. -/
def dropLeading : List Char → List Char → Option (List Char)
  | [], l => some l
  | _ :: _, [] => none
  | a :: p, b :: l => if a = b then dropLeading p l else none

/-- The entity that the text after an `&` starts with, if any: its character and the rest. -/
def decodeEntity (table : List (List Char × Char)) (t : List Char) : Option (Char × List Char) :=
  match table with
  | [] => none
  | (name, c) :: table =>
    match dropLeading name t with
    | some rest => some (c, rest)
    | none => decodeEntity table t

/-- Replacing the entities back, from left to right, on at most `fuel` characters. -/
def unescapeFuel : Nat → List Char → List Char
  | 0, _ => []
  | _ + 1, [] => []
  | fuel + 1, c :: t =>
    if c = '&' then
      match decodeEntity ENTITIES t with
      | some (d, rest) => d :: unescapeFuel fuel rest
      | none => c :: unescapeFuel fuel t
    else c :: unescapeFuel fuel t

/-- Replacing the entities `&amp;`, `&lt;`, `&gt;`, `&quot;` and `&#039;` back by the characters
they stand for, in one pass from left to right. -/
def unescapeHTML (s : String) : String :=
  ⟨unescapeFuel s.length s.toList⟩

/-! ## Auxiliary definitions used to state what the binary64 updater computes -/

/-- A call `updateScore(profile, category, id, weight)`. -/
structure ScoreCall where
  category : Category
  id : JsId
  weight : ℚ

/-- The profile after a sequence of `updateScore` calls, in order. -/
def applyCalls (p : TasteProfile) (calls : List ScoreCall) : TasteProfile :=
  calls.foldl (fun p x => Binary64.updateScore p x.category x.id x.weight) p

/-- Whether a call adds to the key `k` of the category `c`: its guard lets it through and its
identifier converts to `k`. -/
def ScoreCall.hits (x : ScoreCall) (c : Category) (k : String) : Bool :=
  decide (x.category = c) && x.id.truthy && decide (x.weight ≠ 0) && decide (x.id.toKey = k)

/-- The weights that a sequence of calls adds to the key `k` of the category `c`, in order. -/
def weightsAt (calls : List ScoreCall) (c : Category) (k : String) : List ℚ :=
  (calls.filter (fun x => x.hits c k)).map (fun x => x.weight)

/-- The binary64 sum `((x + w1) + w2) + ...`, every addition rounded. -/
def fsum (x : ℚ) (ws : List ℚ) : ℚ :=
  ws.foldl fadd x

/-- The sum of the magnitudes `|w1| + |w2| + ...`. -/
def magnitudeSum (ws : List ℚ) : ℚ :=
  (ws.map (fun w => |w|)).sum

/-- A bound on the rounding error of `fsum x ws`: `((1 + 2^-53)^n - 1) * (|x| + |w1| + ...)` for
`n` additions. -/
def roundingBound (x : ℚ) (ws : List ℚ) : ℚ :=
  ((1 + 2 ^ (-53 : Int)) ^ ws.length - 1) * (|x| + magnitudeSum ws)

/-- The calls of the body of `applyScoresToProfile`, in order. -/
def baseCalls (d : MediaDetails) (b : ℚ) : List ScoreCall :=
  (d.genres.getD []).map
      (fun g => { category := .genres, id := g.id, weight := fmul b Binary64.ATTRIBUTE_WEIGHTS.genres })
  ++ (findDirector d.credits).toList.map
      (fun x => { category := .directors, id := x.id,
                  weight := fmul b Binary64.ATTRIBUTE_WEIGHTS.director })
  ++ (topCast d.credits).map
      (fun a => { category := .actors, id := a.id, weight := fmul b Binary64.ATTRIBUTE_WEIGHTS.actors })
  ++ [{ category := .languages, id := d.original_language,
        weight := fmul b Binary64.ATTRIBUTE_WEIGHTS.languages }]
  ++ (d.production_countries.getD []).map
      (fun x => { category := .countries, id := x.iso_3166_1,
                  weight := fmul b Binary64.ATTRIBUTE_WEIGHTS.countries })
  ++ (decadeIds d).map
      (fun id => { category := .years, id := id, weight := fmul b Binary64.ATTRIBUTE_WEIGHTS.years })

/-- The calls of `applyScoresToProfile(profile, action, details, multiplier)`. -/
def scoreCalls (action : String) (d : MediaDetails) (multiplier : ℚ) : List ScoreCall :=
  match Binary64.ACTION_WEIGHTS action with
  | some score => baseCalls d (fmul score multiplier)
  | none => []

/-- The calls of `updateTasteProfile` on the details `d`: the reversal of the old status, then
the application of the new one. -/
def updateCalls (newStatus oldStatus : Option String) (d : MediaDetails) : List ScoreCall :=
  (match knownAction oldStatus with
   | some old => scoreCalls old d (-1)
   | none => [])
  ++ (match knownAction newStatus with
      | some new => if new ≠ "remove" then scoreCalls new d 1 else []
      | none => [])

/-- The calls of the three loops over one preference set. -/
def prefsCalls (prefs : ExplicitPrefs) (likedWeight dislikedWeight languageWeight : ℚ) :
    List ScoreCall :=
  prefs.genres.liked.map (fun id => { category := .genres, id := id, weight := likedWeight })
  ++ prefs.genres.disliked.map
      (fun id => { category := .genres, id := id, weight := dislikedWeight })
  ++ prefs.languages.map
      (fun code => { category := .languages, id := code, weight := languageWeight })

/-- The calls of `applyExplicitPreferencesToProfile(newPrefs, oldPrefs)`. -/
def reconcileCalls (newPrefs : ExplicitPrefs) (oldPrefs : Option ExplicitPrefs) : List ScoreCall :=
  (match oldPrefs with
   | some old =>
     prefsCalls old (-EXPLICIT_WEIGHTS.liked_genre) (-EXPLICIT_WEIGHTS.disliked_genre)
       (-EXPLICIT_WEIGHTS.language)
   | none => [])
  ++ prefsCalls newPrefs EXPLICIT_WEIGHTS.liked_genre EXPLICIT_WEIGHTS.disliked_genre
      EXPLICIT_WEIGHTS.language

/-- The weights that applying a status with multiplier `+1` adds to the key `k` of the category
`c`, in order; none for a status that is absent or not a key of `ACTION_WEIGHTS`. -/
def statusWeights (status : Option String) (d : MediaDetails) (c : Category) (k : String) :
    List ℚ :=
  match knownAction status with
  | some a => weightsAt (scoreCalls a d 1) c k
  | none => []

/-- A bound on the magnitude of every intermediate result of `fsum x ws`:
`(1 + 2^-53)^n * (|x| + |w1| + ... + |wn|)`; below `2^1024` no addition overflows. -/
def sumRange (x : ℚ) (ws : List ℚ) : ℚ :=
  (1 + 2 ^ (-53 : Int)) ^ ws.length * (|x| + magnitudeSum ws)

/-- The weights that moving an item from `watched` to `watchlist` and back adds to the key `k`
of the category `c`, in order. -/
def reversalWeights (d : MediaDetails) (c : Category) (k : String) : List ℚ :=
  weightsAt
    (updateCalls (some "watchlist") (some "watched") d
      ++ updateCalls (some "watched") (some "watchlist") d) c k

/-- The weights that applying `a` as a fresh status and then moving the item from `a` to `b`
adds to the key `k` of the category `c`, in order. -/
def moveWeights (a b : Option String) (d : MediaDetails) (c : Category) (k : String) : List ℚ :=
  weightsAt (updateCalls a none d ++ updateCalls b a d) c k

/-- The weights that applying `b` as a fresh status adds to the key `k` of the category `c`. -/
def directWeights (b : Option String) (d : MediaDetails) (c : Category) (k : String) : List ℚ :=
  weightsAt (updateCalls b none d) c k

/-- The weights that `applyScoresToProfile(profile, a, d, 1)` adds to the key `k` of the category
`c`, in order. -/
def actionWeights (a : String) (d : MediaDetails) (c : Category) (k : String) : List ℚ :=
  weightsAt (scoreCalls a d 1) c k

/-- The weights that the explicit preferences `prefs` add to the key `k` of the category `c`:
20 for each liked genre, -1000 for each disliked genre, 15 for each language, in order. -/
def explicitWeights (prefs : ExplicitPrefs) (c : Category) (k : String) : List ℚ :=
  weightsAt
    (prefsCalls prefs EXPLICIT_WEIGHTS.liked_genre EXPLICIT_WEIGHTS.disliked_genre
      EXPLICIT_WEIGHTS.language) c k

/-- The weights that applying `A` with no old preferences and then `B` with old preferences `A`
adds to the key `k` of the category `c`, in order. -/
def roundTripWeights (A B : ExplicitPrefs) (c : Category) (k : String) : List ℚ :=
  weightsAt (reconcileCalls A none ++ reconcileCalls B (some A)) c k

/-- The calls of one event: those of the reconciliation against the cached preferences for a
save, those of the update for an `updateTasteProfile` call whose details are available. -/
def eventCalls (fetch : DetailsOracle) (cache : ExplicitPrefs) : ProfileEvent → List ScoreCall
  | .save newPrefs => reconcileCalls newPrefs (some cache)
  | .update mediaId mediaType newStatus oldStatus mediaDetails =>
    match resolvedDetails fetch mediaId mediaType mediaDetails with
    | some d => updateCalls newStatus oldStatus d
    | none => []

/-- The calls of a sequence of events whose saves succeed, `cache` being the cached preferences
before the sequence. -/
def runCalls (fetch : DetailsOracle) : ExplicitPrefs → List ProfileEvent → List ScoreCall
  | _, [] => []
  | cache, ev :: events =>
    eventCalls fetch cache ev
      ++ runCalls fetch (match ev with
          | .save newPrefs => newPrefs
          | .update _ _ _ _ _ => cache) events

/-- The weights that a sequence of events run from the cleared state adds to the key `k` of the
category `c`, in order. -/
def runWeights (fetch : DetailsOracle) (events : List ProfileEvent) (c : Category) (k : String) :
    List ℚ :=
  weightsAt (runCalls fetch ExplicitPrefs.default events) c k

/-- The exact sum of the binary64 weights that the `updateTasteProfile` calls of a sequence add
to the key `k` of the category `c`. -/
def interactionWeightSum (fetch : DetailsOracle) (events : List ProfileEvent) (c : Category)
    (k : String) : ℚ :=
  (events.map (fun ev =>
    match ev with
    | .save _ => 0
    | .update mediaId mediaType newStatus oldStatus mediaDetails =>
      match resolvedDetails fetch mediaId mediaType mediaDetails with
      | some d => (weightsAt (updateCalls newStatus oldStatus d) c k).sum
      | none => 0)).sum

/-- The calls of the body of the loop of `buildInitialProfileFromLibrary` for one entry whose
details are `d`: those of its status, then those of its rating action. -/
def processCalls (itemData : WatchlistEntry) (d : MediaDetails) : List ScoreCall :=
  (match itemData.status with
   | some status => if status ≠ "" ∧ status ≠ "remove" then scoreCalls status d 1 else []
   | none => [])
  ++ (match ratingActionOf itemData.userRating with
      | some ratingAction => scoreCalls ratingAction d 1
      | none => [])

/-- The calls that the bulk build makes for a library entry; none when its details were not
fetched. -/
def entryCalls (fetch : DetailsOracle) (e : String × WatchlistEntry) : List ScoreCall :=
  match entryDetails fetch e with
  | some d => processCalls e.2 d
  | none => []

/-- The calls of `buildInitialProfileFromLibrary`, in order: those of the library entries in
iteration order, then those of the explicit preferences. -/
def buildCalls (fetch : DetailsOracle) (library : Watchlist)
    (explicitPrefs : Option ExplicitPrefs) : List ScoreCall :=
  library.flatMap (entryCalls fetch)
  ++ (match explicitPrefs with
      | some prefs =>
        prefsCalls prefs EXPLICIT_WEIGHTS.liked_genre EXPLICIT_WEIGHTS.disliked_genre
          EXPLICIT_WEIGHTS.language
      | none => [])

/-- The weights that the bulk build adds to the key `k` of the category `c`, in order. -/
def buildWeights (fetch : DetailsOracle) (library : Watchlist)
    (explicitPrefs : Option ExplicitPrefs) (c : Category) (k : String) : List ℚ :=
  weightsAt (buildCalls fetch library explicitPrefs) c k

/-- The property keys that `scoreMediaItemSimple` looks up for an item, in order. -/
def simpleKeys (item : MediaItem) : List String :=
  (item.genre_ids.getD []).map JsId.toKey
  ++ (if item.original_language.truthy then [item.original_language.toKey] else [])
  ++ (item.origin_country.getD []).map JsId.toKey

/-- The property keys that `scoreMediaItemDetailed` looks up for a details object, in order. -/
def detailedKeys (d : MediaDetails) : List String :=
  (d.genres.getD []).map (fun g => g.id.toKey)
  ++ (if d.original_language.truthy then [d.original_language.toKey] else [])
  ++ (d.production_countries.getD []).map (fun c => c.iso_3166_1.toKey)
  ++ (match findDirector d.credits with
      | some director => [director.id.toKey]
      | none => [])
  ++ (topCast d.credits).map (fun a => a.id.toKey)

/-- The sum of the terms read from the zero-value profile for the given keys: `NaN` as soon as
one of them names a member of `Object.prototype`, otherwise `0`. -/
def zeroProfileScore (keys : List String) : JsNumber :=
  if keys.any (fun k => decide (k ∈ objectPrototypeKeys)) then .nan else .finite 0

/-! ## Concrete inputs used in examples -/

/-- The profile `{ genres: { 28: 5 } }`, the other categories empty. -/
def profileGenre28 : TasteProfile :=
  { TasteProfile.zero with genres := [("28", 5)] }

/-- Explicit preferences whose only content is the disliked genre `28`. -/
def prefsDislike28 : ExplicitPrefs :=
  { genres := { liked := [], disliked := [JsId.num 28] }, languages := [] }

/-- A discovery item with the given id whose only genre is `28`. -/
def itemGenre28 (id : JsId) : MediaItem :=
  { id := id, media_type := none, genre_ids := some [JsId.num 28], original_language := JsId.undef,
    origin_country := none, popularity := 1 }

/-- A details object with the given id whose only genre is `28`. -/
def detailsGenre28 (id : JsId) : MediaDetails :=
  { id := id, genres := some [{ id := JsId.num 28, name := "Action" }], credits := none,
    original_language := JsId.undef, production_countries := none, release_date := none,
    first_air_date := none }

/-- A store holding `profileGenre28` and `prefsDislike28`. -/
def storeGenre28 : Store :=
  { tasteProfile := some profileGenre28, localExplicitPreferences := prefsDislike28 }

/-- A discovery oracle that answers page 1 with the given items and fails on every other page. -/
def discoverFirstPage (items : List MediaItem) : DiscoverOracle :=
  fun _ _ page => if page = 1 then some { results := some items, total_pages := 1 } else none

/-- A details oracle that answers every request with a details object that has the requested id
and the single genre `28`. -/
def fetchGenre28 : DetailsOracle :=
  fun id _ => some (detailsGenre28 id)

/-- The stored profile once `prefsDislike28` has been reconciled into `storeGenre28`. -/
def storeGenre28Reconciled : Store :=
  applyExplicitPreferencesToProfile storeGenre28 prefsDislike28 none

/-- A watchlist whose only key is `movie:550`. -/
def watchlist550 : Watchlist :=
  [("movie:550", { status := some "watched", order := some 0, userRating := none })]

/-- A details oracle that answers every request with the details of id `550`. -/
def fetchAlways550 : DetailsOracle :=
  fun _ _ => some (detailsGenre28 (JsId.num 550))

/-- A discovery item with id `550` and the single genre `28` that carries `media_type: 'tv'`. -/
def tvItem550 : MediaItem :=
  { itemGenre28 (JsId.num 550) with media_type := some "tv" }

/-- Explicit preferences whose only content is the liked genre `28`. -/
def prefsLike28 : ExplicitPrefs :=
  { genres := { liked := [JsId.num 28], disliked := [] }, languages := [] }

/-- A sequence of calls: save the dislike of genre 28, mark an item of genre 28 as watched, then
save the like of genre 28. -/
def eventsDislikeWatchLike : List ProfileEvent :=
  [ProfileEvent.save prefsDislike28,
   ProfileEvent.update (JsId.num 7) "movie" (some "watched") none (some (detailsGenre28 (JsId.num 7))),
   ProfileEvent.save prefsLike28]

/-- A details object whose only content is one genre with id `0`. -/
def detailsGenre0 : MediaDetails :=
  { id := JsId.num 7, genres := some [{ id := JsId.num 0, name := "None" }], credits := none,
    original_language := JsId.undef, production_countries := none, release_date := none,
    first_air_date := none }

/-- A details object whose only content is the release date `0005-01-01`. -/
def detailsYear5 : MediaDetails :=
  { id := JsId.num 7, genres := none, credits := none, original_language := JsId.undef,
    production_countries := none, release_date := some "0005-01-01", first_air_date := none }

/-- A details object whose only content is the release date `1994-06-23`. -/
def detailsYear1994 : MediaDetails :=
  { id := JsId.num 7, genres := none, credits := none, original_language := JsId.undef,
    production_countries := none, release_date := some "1994-06-23", first_air_date := none }

/-- Explicit preferences that list the genre `28` both as liked and as disliked. -/
def prefsLikeDislike28 : ExplicitPrefs :=
  { genres := { liked := [JsId.num 28], disliked := [JsId.num 28] }, languages := [] }

/-- Explicit preferences whose only content is the liked genre `0`. -/
def prefsLike0 : ExplicitPrefs :=
  { genres := { liked := [JsId.num 0], disliked := [] }, languages := [] }

/-- Explicit preferences that list the genre `28` twice as liked. -/
def prefsLike28Twice : ExplicitPrefs :=
  { genres := { liked := [JsId.num 28, JsId.num 28], disliked := [] }, languages := [] }

/-- A library entry for `movie:7`: watched and rated 9. -/
def entryWatchedRated9 : String × WatchlistEntry :=
  ("movie:7", { status := some "watched", order := some 0, userRating := some 9 })

/-- A library entry for `movie:9`: on the watchlist and rated 3. -/
def entryWatchlistRated3 : String × WatchlistEntry :=
  ("movie:9", { status := some "watchlist", order := some 1, userRating := some 3 })

/-- A details oracle that fails for the identifier `9` and otherwise answers like
`fetchGenre28`. -/
def fetchGenre28Except9 : DetailsOracle :=
  fun id ty => if id = JsId.str "9" then none else fetchGenre28 id ty

/-- A discovery oracle that answers every page with the given items and reports `1000` pages. -/
def discoverWide (items : List MediaItem) : DiscoverOracle :=
  fun _ _ _ => some { results := some items, total_pages := 1000 }

/-- A store without a stored profile, holding `prefsDislike28`. -/
def storeEmpty : Store :=
  { tasteProfile := none, localExplicitPreferences := prefsDislike28 }

/-- A discovery-listing item read as a details object: language `en`, release date
`1994-06-23`, no `genres` list, no `credits` and no `production_countries`. -/
def detailsShallow1994 : MediaDetails :=
  { id := JsId.num 7, genres := none, credits := none, original_language := JsId.str "en",
    production_countries := none, release_date := some "1994-06-23", first_air_date := none }

/-- A details object whose only content is the director with id `100`. -/
def detailsDirector100 : MediaDetails :=
  { id := JsId.num 7, genres := none,
    credits := some { crew := some [{ id := JsId.num 100, job := "Director" }], cast := none },
    original_language := JsId.undef, production_countries := none, release_date := none,
    first_air_date := none }

/-- The profile `{ directors: { 100: x } }`. -/
def profileDirector (x : ℚ) : TasteProfile :=
  { TasteProfile.zero with directors := [("100", x)] }

/-- A store whose profile is `{ directors: { 100: x } }`. -/
def storeDirector (x : ℚ) : Store :=
  { tasteProfile := some (profileDirector x), localExplicitPreferences := ExplicitPrefs.default }

/-- A store whose profile is `{ genres: { 28: x } }`, with the default preferences cached. -/
def storeGenre28At (x : ℚ) : Store :=
  { tasteProfile := some { TasteProfile.zero with genres := [("28", x)] },
    localExplicitPreferences := ExplicitPrefs.default }

/-- A sequence of calls: view the page of an item of genre 28, save the like of genre 28, then
save the default preferences. -/
def eventsViewLikeReset : List ProfileEvent :=
  [ProfileEvent.update (JsId.num 7) "movie" (some "view_media_page") none
     (some (detailsGenre28 (JsId.num 7))),
   ProfileEvent.save prefsLike28,
   ProfileEvent.save ExplicitPrefs.default]

/-- A library entry for `movie:9`: on the watchlist, not rated. -/
def entryWatchlistPlain : String × WatchlistEntry :=
  ("movie:9", { status := some "watchlist", order := some 1, userRating := none })

/-- A details oracle that answers every request with `detailsDirector100`. -/
def fetchDirector100 : DetailsOracle :=
  fun _ _ => some detailsDirector100

/-- A discovery item whose only content is the language code `constructor`. -/
def itemLanguageConstructor : MediaItem :=
  { id := JsId.num 7, media_type := none, genre_ids := none,
    original_language := JsId.str "constructor", origin_country := none, popularity := 1 }

/-! # Theorems -/

/-! ## Lemmas on binary64 rounding -/

theorem roundHalfEven_intCast (n : Int) : roundHalfEven (n : ℚ) = n := by
  unfold roundHalfEven
  simp

theorem roundHalfEven_sub_le (y : ℚ) : |(roundHalfEven y : ℚ) - y| ≤ 1 / 2 := by
  have h1 := Int.floor_le y
  have h2 := Int.lt_floor_add_one y
  unfold roundHalfEven
  split_ifs with ha hb hc
  · rw [abs_le]
    constructor <;> linarith
  · rw [abs_le]
    push_cast
    constructor <;> linarith
  · rw [abs_le]
    constructor <;> linarith
  · rw [abs_le]
    push_cast
    constructor <;> linarith

theorem roundHalfEven_of_near {y : ℚ} {m : Int} (h : |y - m| < 1 / 2) : roundHalfEven y = m := by
  rw [abs_lt] at h
  have hfl : ⌊y⌋ = m ∨ ⌊y⌋ = m - 1 := by
    have h1 : m - 1 ≤ ⌊y⌋ := by
      rw [Int.le_floor]
      push_cast
      linarith
    have h2 : ⌊y⌋ < m + 1 := by
      rw [Int.floor_lt]
      push_cast
      linarith
    omega
  unfold roundHalfEven
  rcases hfl with hf | hf
  · rw [hf]
    rw [if_pos (by linarith)]
  · rw [hf]
    have hc : ¬ (y - ((m - 1 : Int) : ℚ) < 1 / 2) := by
      push_cast
      linarith
    have hd : 1 / 2 < y - ((m - 1 : Int) : ℚ) := by
      push_cast
      linarith
    rw [if_neg hc, if_pos hd]
    omega

theorem roundHalfEven_mono {y z : ℚ} (h : y ≤ z) : roundHalfEven y ≤ roundHalfEven z := by
  have hfl : ⌊y⌋ ≤ ⌊z⌋ := Int.floor_mono h
  have hy : roundHalfEven y ≤ ⌊y⌋ + 1 := by
    unfold roundHalfEven
    split_ifs <;> omega
  have hz : ⌊z⌋ ≤ roundHalfEven z := by
    unfold roundHalfEven
    split_ifs <;> omega
  rcases Nat.lt_or_ge 0 (⌊z⌋ - ⌊y⌋).toNat with hlt | hge
  · have : ⌊y⌋ + 1 ≤ ⌊z⌋ := by omega
    omega
  · have heq : ⌊y⌋ = ⌊z⌋ := by omega
    unfold roundHalfEven
    rw [heq]
    have hsub : y - ⌊z⌋ ≤ z - ⌊z⌋ := by linarith
    split_ifs <;> first | omega | (exfalso; linarith)

theorem two_zpow_pos (e : Int) : (0 : ℚ) < 2 ^ e := zpow_pos (by norm_num) e

theorem log_bounds {x : ℚ} (hx : 0 < x) :
    (2 : ℚ) ^ Int.log 2 x ≤ x ∧ x < 2 ^ (Int.log 2 x + 1) := by
  have h1 := Int.zpow_log_le_self (b := 2) (r := x) (by norm_num) hx
  have h2 := Int.lt_zpow_succ_log_self (b := 2) (by norm_num) x
  exact ⟨by exact_mod_cast h1, by exact_mod_cast h2⟩

theorem log_eq_of_bounds {x : ℚ} {k : Int} (hlo : (2 : ℚ) ^ k ≤ x) (hhi : x < 2 ^ (k + 1)) :
    Int.log 2 x = k := by
  have hx : 0 < x := lt_of_lt_of_le (two_zpow_pos k) hlo
  have h1 : k ≤ Int.log 2 x := by
    rw [← Int.zpow_le_iff_le_log (by norm_num) hx]
    exact_mod_cast hlo
  have h2 : Int.log 2 x < k + 1 := by
    rw [← Int.lt_zpow_iff_log_lt (by norm_num) hx]
    exact_mod_cast hhi
  omega

theorem scaled_bounds {x : ℚ} (hx : 0 < x) :
    (2 : ℚ) ^ (52 : Int) ≤ x / 2 ^ (Int.log 2 x - 52)
    ∧ x / 2 ^ (Int.log 2 x - 52) < 2 ^ (53 : Int) := by
  obtain ⟨hlo, hhi⟩ := log_bounds hx
  have hp := two_zpow_pos (Int.log 2 x - 52)
  constructor
  · rw [le_div_iff₀ hp, ← zpow_add₀ (by norm_num : (2 : ℚ) ≠ 0)]
    have : (52 : Int) + (Int.log 2 x - 52) = Int.log 2 x := by ring
    rw [this]
    exact hlo
  · rw [div_lt_iff₀ hp, ← zpow_add₀ (by norm_num : (2 : ℚ) ≠ 0)]
    have : (53 : Int) + (Int.log 2 x - 52) = Int.log 2 x + 1 := by ring
    rw [this]
    exact hhi

theorem roundHalfEven_scaled_bounds {x : ℚ} (hx : 0 < x) :
    (2 : Int) ^ 52 ≤ roundHalfEven (x / 2 ^ (Int.log 2 x - 52))
    ∧ roundHalfEven (x / 2 ^ (Int.log 2 x - 52)) ≤ 2 ^ 53 := by
  obtain ⟨hlo, hhi⟩ := scaled_bounds hx
  constructor
  · have h := roundHalfEven_mono hlo
    have e : ((2 : ℚ) ^ (52 : Int)) = (((2 : Int) ^ 52 : Int) : ℚ) := by norm_num
    rw [e, roundHalfEven_intCast] at h
    exact h
  · have h := roundHalfEven_mono (le_of_lt hhi)
    have e : ((2 : ℚ) ^ (53 : Int)) = (((2 : Int) ^ 53 : Int) : ℚ) := by norm_num
    rw [e, roundHalfEven_intCast] at h
    exact h

theorem roundMagnitude_zero : roundMagnitude 0 = 0 := by
  simp [roundMagnitude]

theorem roundMagnitude_bounds {x : ℚ} (hx : 0 < x) :
    (2 : ℚ) ^ Int.log 2 x ≤ roundMagnitude x ∧ roundMagnitude x ≤ 2 ^ (Int.log 2 x + 1) := by
  obtain ⟨hlo, hhi⟩ := roundHalfEven_scaled_bounds hx
  have hp := two_zpow_pos (Int.log 2 x - 52)
  unfold roundMagnitude
  rw [if_neg (ne_of_gt hx)]
  constructor
  · have e : (2 : ℚ) ^ Int.log 2 x = 2 ^ (52 : Int) * 2 ^ (Int.log 2 x - 52) := by
      rw [← zpow_add₀ (by norm_num : (2 : ℚ) ≠ 0)]
      congr 1
      ring
    rw [e]
    apply mul_le_mul_of_nonneg_right _ (le_of_lt hp)
    have : ((2 : ℚ) ^ (52 : Int)) = (((2 : Int) ^ 52 : Int) : ℚ) := by norm_num
    rw [this]
    exact_mod_cast hlo
  · have e : (2 : ℚ) ^ (Int.log 2 x + 1) = 2 ^ (53 : Int) * 2 ^ (Int.log 2 x - 52) := by
      rw [← zpow_add₀ (by norm_num : (2 : ℚ) ≠ 0)]
      congr 1
      ring
    rw [e]
    apply mul_le_mul_of_nonneg_right _ (le_of_lt hp)
    have : ((2 : ℚ) ^ (53 : Int)) = (((2 : Int) ^ 53 : Int) : ℚ) := by norm_num
    rw [this]
    exact_mod_cast hhi

theorem roundMagnitude_nonneg {x : ℚ} (hx : 0 ≤ x) : 0 ≤ roundMagnitude x := by
  rcases eq_or_lt_of_le hx with h | h
  · rw [← h, roundMagnitude_zero]
  · exact le_trans (le_of_lt (two_zpow_pos _)) (roundMagnitude_bounds h).1

theorem roundMagnitude_mono {x y : ℚ} (hx : 0 ≤ x) (h : x ≤ y) :
    roundMagnitude x ≤ roundMagnitude y := by
  rcases eq_or_lt_of_le hx with h0 | hpos
  · rw [← h0, roundMagnitude_zero]
    exact roundMagnitude_nonneg (le_trans hx h)
  · have hy : 0 < y := lt_of_lt_of_le hpos h
    have hlog : Int.log 2 x ≤ Int.log 2 y := Int.log_mono_right hpos h
    rcases eq_or_lt_of_le hlog with he | hl
    · unfold roundMagnitude
      rw [if_neg (ne_of_gt hpos), if_neg (ne_of_gt hy), he]
      apply mul_le_mul_of_nonneg_right _ (le_of_lt (two_zpow_pos _))
      have : x / 2 ^ (Int.log 2 y - 52) ≤ y / 2 ^ (Int.log 2 y - 52) :=
        div_le_div_of_nonneg_right h (le_of_lt (two_zpow_pos _))
      exact_mod_cast roundHalfEven_mono this
    · have h1 := (roundMagnitude_bounds hpos).2
      have h2 := (roundMagnitude_bounds hy).1
      have h3 : (2 : ℚ) ^ (Int.log 2 x + 1) ≤ 2 ^ Int.log 2 y :=
        zpow_le_zpow_right₀ (by norm_num) (by omega)
      linarith

theorem roundMagnitude_sub_le {x : ℚ} (hx : 0 ≤ x) :
    |roundMagnitude x - x| ≤ x * 2 ^ (-53 : Int) := by
  rcases eq_or_lt_of_le hx with h0 | hpos
  · rw [← h0, roundMagnitude_zero]
    simp
  · have hp := two_zpow_pos (Int.log 2 x - 52)
    have hr := roundHalfEven_sub_le (x / 2 ^ (Int.log 2 x - 52))
    have hlo := (log_bounds hpos).1
    unfold roundMagnitude
    rw [if_neg (ne_of_gt hpos)]
    have e : (roundHalfEven (x / 2 ^ (Int.log 2 x - 52)) : ℚ) * 2 ^ (Int.log 2 x - 52) - x
        = ((roundHalfEven (x / 2 ^ (Int.log 2 x - 52)) : ℚ) - x / 2 ^ (Int.log 2 x - 52))
          * 2 ^ (Int.log 2 x - 52) := by
      field_simp
    rw [e, abs_mul, abs_of_pos hp]
    have h1 : |(roundHalfEven (x / 2 ^ (Int.log 2 x - 52)) : ℚ) - x / 2 ^ (Int.log 2 x - 52)|
        * 2 ^ (Int.log 2 x - 52) ≤ 1 / 2 * 2 ^ (Int.log 2 x - 52) :=
      mul_le_mul_of_nonneg_right hr (le_of_lt hp)
    have h2 : (1 / 2 : ℚ) * 2 ^ (Int.log 2 x - 52) = 2 ^ Int.log 2 x * 2 ^ (-53 : Int) := by
      rw [← zpow_add₀ (by norm_num : (2 : ℚ) ≠ 0)]
      have : Int.log 2 x + (-53) = (Int.log 2 x - 52) + (-1) := by ring
      rw [this, zpow_add₀ (by norm_num : (2 : ℚ) ≠ 0)]
      norm_num
      ring
    have h3 : (2 : ℚ) ^ Int.log 2 x * 2 ^ (-53 : Int) ≤ x * 2 ^ (-53 : Int) :=
      mul_le_mul_of_nonneg_right hlo (le_of_lt (two_zpow_pos _))
    linarith

theorem roundMagnitude_eq {x : ℚ} (k m : Int) (hlo : (2 : ℚ) ^ k ≤ x) (hhi : x < 2 ^ (k + 1))
    (hnear : |x / 2 ^ (k - 52) - m| < 1 / 2) : roundMagnitude x = m * 2 ^ (k - 52) := by
  have hx : 0 < x := lt_of_lt_of_le (two_zpow_pos k) hlo
  unfold roundMagnitude
  rw [if_neg (ne_of_gt hx), log_eq_of_bounds hlo hhi, roundHalfEven_of_near hnear]

theorem roundMagnitude_exact {x : ℚ} (m : Int) (e : Int) (hm : 0 < m) (hm2 : m ≤ 2 ^ 53)
    (hx : x = m * 2 ^ e) : roundMagnitude x = x := by
  have hmq : (0 : ℚ) < m := by exact_mod_cast hm
  have hpos : 0 < x := by
    rw [hx]
    exact mul_pos hmq (two_zpow_pos e)
  obtain ⟨hlo, hhi⟩ := log_bounds hpos
  have hp := two_zpow_pos (Int.log 2 x - 52)
  have hint : ∃ z : Int, x / 2 ^ (Int.log 2 x - 52) = z := by
    generalize Int.log 2 x = L at hlo hhi
    rcases Int.lt_or_le (L - 52) (e + 1) with hlt | hge
    · obtain ⟨n, hn⟩ := Int.eq_ofNat_of_zero_le (by omega : 0 ≤ e - (L - 52))
      refine ⟨m * 2 ^ n, ?_⟩
      rw [hx, mul_div_assoc, ← zpow_sub₀ (by norm_num : (2 : ℚ) ≠ 0), hn]
      push_cast
      rw [zpow_natCast]
    · have hxle : x ≤ 2 ^ (53 + e) := by
        rw [hx, zpow_add₀ (by norm_num : (2 : ℚ) ≠ 0)]
        apply mul_le_mul_of_nonneg_right _ (le_of_lt (two_zpow_pos e))
        have : ((2 : ℚ) ^ (53 : Int)) = (((2 : Int) ^ 53 : Int) : ℚ) := by norm_num
        rw [this]
        exact_mod_cast hm2
      have hge2 : (2 : ℚ) ^ (53 + e) ≤ 2 ^ L :=
        zpow_le_zpow_right₀ (by norm_num) (by omega)
      have hxeq : x = 2 ^ (53 + e) := le_antisymm hxle (le_trans hge2 hlo)
      have hLle : L ≤ 53 + e := by
        have h1 : (2 : ℚ) ^ L ≤ 2 ^ (53 + e) := le_trans hlo hxle
        exact (zpow_le_zpow_iff_right₀ (by norm_num : (1 : ℚ) < 2)).mp h1
      have hLeq : L = 53 + e := by omega
      refine ⟨2 ^ 52, ?_⟩
      rw [hLeq, hxeq, ← zpow_sub₀ (by norm_num : (2 : ℚ) ≠ 0)]
      have : 53 + e - (53 + e - 52) = 52 := by ring
      rw [this]
      norm_num
  obtain ⟨z, hz⟩ := hint
  unfold roundMagnitude
  rw [if_neg (ne_of_gt hpos), hz, roundHalfEven_intCast, ← hz]
  field_simp

theorem round64_zero : round64 0 = 0 := by
  simp [round64, roundMagnitude_zero]

theorem round64_neg (x : ℚ) : round64 (-x) = - round64 x := by
  unfold round64
  rcases lt_trichotomy x 0 with h | h | h
  · rw [if_pos (by linarith), if_neg (by linarith)]
    ring
  · subst h
    simp [roundMagnitude_zero]
  · rw [if_neg (by linarith), if_pos (by linarith)]
    simp

theorem round64_of_nonneg {x : ℚ} (h : 0 ≤ x) : round64 x = roundMagnitude x := by
  unfold round64
  rw [if_pos h]

theorem round64_of_neg {x : ℚ} (h : x < 0) : round64 x = - roundMagnitude (-x) := by
  unfold round64
  rw [if_neg (by linarith)]

theorem round64_nonneg {x : ℚ} (h : 0 ≤ x) : 0 ≤ round64 x := by
  rw [round64_of_nonneg h]
  exact roundMagnitude_nonneg h

theorem round64_nonpos {x : ℚ} (h : x ≤ 0) : round64 x ≤ 0 := by
  have := round64_nonneg (x := -x) (by linarith)
  rw [round64_neg] at this
  linarith

theorem round64_mono {x y : ℚ} (h : x ≤ y) : round64 x ≤ round64 y := by
  rcases le_or_lt 0 x with hx | hx
  · rw [round64_of_nonneg hx, round64_of_nonneg (le_trans hx h)]
    exact roundMagnitude_mono hx h
  · rcases le_or_lt 0 y with hy | hy
    · exact le_trans (round64_nonpos (le_of_lt hx)) (round64_nonneg hy)
    · rw [round64_of_neg hx, round64_of_neg hy]
      have := roundMagnitude_mono (x := -y) (y := -x) (by linarith) (by linarith)
      linarith

theorem round64_sub_le (x : ℚ) : |round64 x - x| ≤ |x| * 2 ^ (-53 : Int) := by
  rcases le_or_lt 0 x with hx | hx
  · rw [round64_of_nonneg hx, abs_of_nonneg hx]
    exact roundMagnitude_sub_le hx
  · rw [round64_of_neg hx, abs_of_neg hx]
    have h := roundMagnitude_sub_le (x := -x) (by linarith)
    have e : -roundMagnitude (-x) - x = -(roundMagnitude (-x) - -x) := by ring
    rw [e, abs_neg]
    exact h

theorem round64_exact {x : ℚ} (m : Int) (e : Int) (hm : |m| ≤ 2 ^ 53) (hx : x = m * 2 ^ e) :
    round64 x = x := by
  rcases lt_trichotomy m 0 with h | h | h
  · have hxneg : x < 0 := by
      rw [hx]
      exact mul_neg_of_neg_of_pos (by exact_mod_cast h) (two_zpow_pos e)
    rw [round64_of_neg hxneg,
      roundMagnitude_exact (-m) e (by omega) (by rw [abs_of_neg h] at hm; exact hm)
        (by rw [hx]; push_cast; ring)]
    ring
  · subst h
    simp at hx
    rw [hx, round64_zero]
  · have hxpos : 0 ≤ x := by
      rw [hx]
      exact le_of_lt (mul_pos (by exact_mod_cast h) (two_zpow_pos e))
    rw [round64_of_nonneg hxpos]
    exact roundMagnitude_exact m e h (by rw [abs_of_pos h] at hm; exact hm) hx

theorem round64_intCast (z : Int) (hz : |z| ≤ 2 ^ 53) : round64 (z : ℚ) = z :=
  round64_exact z 0 hz (by simp)

theorem round64_representable (x : ℚ) :
    ∃ (m e : Int), |m| ≤ 2 ^ 53 ∧ round64 x = m * 2 ^ e := by
  rcases lt_trichotomy x 0 with h | h | h
  · refine ⟨- roundHalfEven (-x / 2 ^ (Int.log 2 (-x) - 52)), Int.log 2 (-x) - 52, ?_, ?_⟩
    · have hb := roundHalfEven_scaled_bounds (x := -x) (by linarith)
      rw [abs_neg, abs_of_nonneg (by omega)]
      exact hb.2
    · rw [round64_of_neg h]
      unfold roundMagnitude
      rw [if_neg (by linarith)]
      push_cast
      ring
  · exact ⟨0, 0, by simp, by rw [h, round64_zero]; simp⟩
  · refine ⟨roundHalfEven (x / 2 ^ (Int.log 2 x - 52)), Int.log 2 x - 52, ?_, ?_⟩
    · have hb := roundHalfEven_scaled_bounds h
      rw [abs_of_nonneg (by omega)]
      exact hb.2
    · rw [round64_of_nonneg (le_of_lt h)]
      unfold roundMagnitude
      rw [if_neg (ne_of_gt h)]

theorem round64_idem (x : ℚ) : round64 (round64 x) = round64 x := by
  obtain ⟨m, e, hm, hx⟩ := round64_representable x
  exact round64_exact m e hm hx

theorem round64_eq {x : ℚ} (k m : Int) (hlo : (2 : ℚ) ^ k ≤ x) (hhi : x < 2 ^ (k + 1))
    (hnear : |x / 2 ^ (k - 52) - m| < 1 / 2) : round64 x = m * 2 ^ (k - 52) := by
  have hx : 0 ≤ x := le_trans (le_of_lt (two_zpow_pos k)) hlo
  rw [round64_of_nonneg hx]
  exact roundMagnitude_eq k m hlo hhi hnear


/-! ## Lemmas on score mappings and the updater -/

theorem toKey_num_28 : JsId.toKey (JsId.num 28) = "28" := by decide

theorem readScore_nil (k : String) : readScore [] k = 0 := rfl

theorem readScore_cons (k0 : String) (v0 : ℚ) (m : ScoreMap) (k : String) :
    readScore ((k0, v0) :: m) k = if k = k0 then v0 else readScore m k := by
  unfold readScore
  by_cases h : k = k0
  · subst h
    simp [List.lookup]
  · have hb : (k == k0) = false := by simpa using h
    simp [List.lookup, hb, h]

theorem readScore_writeScore (m : ScoreMap) (k k' : String) (v : ℚ) :
    readScore (writeScore m k v) k' = if k' = k then v else readScore m k' := by
  induction m with
  | nil => simp [writeScore, readScore_cons, readScore_nil]
  | cons e m ih =>
    obtain ⟨k0, v0⟩ := e
    unfold writeScore
    by_cases h0 : k0 = k
    · subst h0
      simp only [if_true, readScore_cons]
      by_cases h1 : k' = k0 <;> simp [h1]
    · simp only [h0, if_false, readScore_cons, ih]
      by_cases h1 : k' = k0
      · have h2 : ¬ k' = k := fun h => h0 (h1 ▸ h)
        simp [h1, h2, h0]
      · simp [h1]

theorem cat_setCat (p : TasteProfile) (c c' : Category) (m : ScoreMap) :
    (p.setCat c m).cat c' = if c' = c then m else p.cat c' := by
  cases c <;> cases c' <;> simp [TasteProfile.setCat, TasteProfile.cat]

theorem score_updateScore (p : TasteProfile) (c c' : Category) (id : JsId) (w : ℚ) (k : String) :
    (updateScore p c id w).score c' k = p.score c' k + w * hits c id c' k := by
  unfold updateScore hits TasteProfile.score
  by_cases hid : id.truthy = true
  · by_cases hw : w = 0
    · simp [hid, hw]
    · by_cases hc : c' = c
      · subst hc
        by_cases hk : k = id.toKey
        · simp [hid, hw, cat_setCat, readScore_writeScore, hk]
        · simp [hid, hw, cat_setCat, readScore_writeScore, hk]
      · simp [hid, hw, cat_setCat, hc]
  · simp [hid]

theorem score_foldl_updateScore {α : Type} (c : Category) (f : α → JsId) (w : ℚ) (xs : List α)
    (p : TasteProfile) (c' : Category) (k : String) :
    (xs.foldl (fun p x => updateScore p c (f x) w) p).score c' k
      = p.score c' k + w * hitsList c f xs c' k := by
  induction xs generalizing p with
  | nil => simp [hitsList]
  | cons x xs ih =>
    simp only [List.foldl_cons, ih, score_updateScore, hitsList, List.map_cons, List.sum_cons]
    ring

theorem score_applyDecade (p : TasteProfile) (d : MediaDetails) (b : ℚ) (c : Category) (k : String) :
    (applyDecade p d b).score c k = p.score c k + b * decadeCoef d c k := by
  unfold applyDecade decadeCoef
  cases releaseDateOf d with
  | none => simp
  | some releaseDate =>
    cases h : parseInt (releaseDate.take 4) with
    | none => simp [h]
    | some year =>
      simp only [h, score_updateScore]
      ring

theorem score_applyBaseScore (p : TasteProfile) (d : MediaDetails) (b : ℚ) (c : Category)
    (k : String) :
    (applyBaseScore p d b).score c k = p.score c k + b * itemCoef d c k := by
  unfold applyBaseScore itemCoef directorCoef
  simp only [score_applyDecade, score_foldl_updateScore, score_updateScore]
  cases findDirector d.credits with
  | none =>
    simp only [score_foldl_updateScore]
    ring
  | some director =>
    simp only [score_updateScore, score_foldl_updateScore]
    ring

theorem score_applyScoresToProfile (p : TasteProfile) (action : String) (d : MediaDetails)
    (m : ℚ) (w : ℚ) (hw : ACTION_WEIGHTS action = some w) (c : Category) (k : String) :
    (applyScoresToProfile p action (some d) m).score c k = p.score c k + w * m * itemCoef d c k := by
  unfold applyScoresToProfile
  simp only [hw, score_applyBaseScore]

theorem knownAction_weight {status : Option String} {a : String} (h : knownAction status = some a) :
    ACTION_WEIGHTS a = some (actionScore status) := by
  unfold actionScore
  rw [h]
  unfold knownAction at h
  cases status with
  | none => simp at h
  | some s =>
    simp only at h
    split at h
    · rename_i hs
      cases h
      obtain ⟨w, hw⟩ := Option.isSome_iff_exists.mp hs.2
      simp [hw]
    · simp at h

theorem ACTION_WEIGHTS_remove : ACTION_WEIGHTS "remove" = none := by
  simp [ACTION_WEIGHTS]

theorem score_updateTasteProfile (fetch : DetailsOracle) (st : Store) (mediaId : JsId)
    (mediaType : String) (newStatus oldStatus : Option String) (d : MediaDetails)
    (c : Category) (k : String) :
    (getTasteProfile
        (updateTasteProfile fetch st mediaId mediaType newStatus oldStatus (some d)).1).score c k
      = (getTasteProfile st).score c k
        + (actionScore newStatus - actionScore oldStatus) * itemCoef d c k := by
  unfold updateTasteProfile
  simp only [saveTasteProfile, getTasteProfile]
  cases ho : knownAction oldStatus with
  | none =>
    have eo : actionScore oldStatus = 0 := by simp [actionScore, ho]
    cases hn : knownAction newStatus with
    | none =>
      have en : actionScore newStatus = 0 := by simp [actionScore, hn]
      simp [eo, en]
    | some new =>
      have hw := knownAction_weight hn
      have hne : new ≠ "remove" := by
        intro h
        rw [h, ACTION_WEIGHTS_remove] at hw
        cases hw
      simp only [hne, ne_eq, not_false_eq_true, if_true,
        score_applyScoresToProfile _ _ _ _ _ hw, eo]
      ring
  | some old =>
    have hwo := knownAction_weight ho
    cases hn : knownAction newStatus with
    | none =>
      have en : actionScore newStatus = 0 := by simp [actionScore, hn]
      simp only [score_applyScoresToProfile _ _ _ _ _ hwo, en]
      ring
    | some new =>
      have hw := knownAction_weight hn
      have hne : new ≠ "remove" := by
        intro h
        rw [h, ACTION_WEIGHTS_remove] at hw
        cases hw
      simp only [hne, ne_eq, not_false_eq_true, if_true,
        score_applyScoresToProfile _ _ _ _ _ hw, score_applyScoresToProfile _ _ _ _ _ hwo]
      ring

theorem actionScore_watchlist : actionScore (some "watchlist") = 1 := by
  simp [actionScore, knownAction, ACTION_WEIGHTS]

theorem actionScore_watched : actionScore (some "watched") = 2 := by
  simp [actionScore, knownAction, ACTION_WEIGHTS]

theorem actionScore_none : actionScore none = 0 := by
  simp [actionScore, knownAction]

theorem score_applyPrefsWith (p : TasteProfile) (prefs : ExplicitPrefs) (wl wd wg : ℚ)
    (c : Category) (k : String) :
    (applyPrefsWith p prefs wl wd wg).score c k = p.score c k + prefsShift prefs wl wd wg c k := by
  unfold applyPrefsWith prefsShift
  simp only [score_foldl_updateScore]
  ring

theorem prefsShift_neg (prefs : ExplicitPrefs) (wl wd wg : ℚ) (c : Category) (k : String) :
    prefsShift prefs (-wl) (-wd) (-wg) c k = - prefsShift prefs wl wd wg c k := by
  unfold prefsShift
  ring

theorem score_applyExplicitPreferencesToProfile (st : Store) (newPrefs : ExplicitPrefs)
    (oldPrefs : Option ExplicitPrefs) (c : Category) (k : String) :
    (getTasteProfile (applyExplicitPreferencesToProfile st newPrefs oldPrefs)).score c k
      = (getTasteProfile st).score c k + explicitShift newPrefs c k
        - (match oldPrefs with
           | some old => explicitShift old c k
           | none => 0) := by
  unfold applyExplicitPreferencesToProfile explicitShift
  simp only [saveTasteProfile, getTasteProfile]
  cases oldPrefs with
  | none => simp only [score_applyPrefsWith]; ring
  | some old => simp only [score_applyPrefsWith, prefsShift_neg]; ring

/-! ## Lemmas on the scorers -/

theorem foldl_genreStep (p : TasteProfile) (prefs : ExplicitPrefs) (ids : List JsId) (acc : ScoreAcc) :
    ids.foldl (genreStep p prefs) acc
      = { score := acc.score + genreSum p ids, multiplier := acc.multiplier * genreMult prefs ids } := by
  induction ids generalizing acc with
  | nil => simp [genreSum, genreMult]
  | cons g ids ih =>
    simp only [List.foldl_cons, ih, genreSum, genreMult, List.map_cons, List.sum_cons,
      List.prod_cons, genreStep]
    by_cases hg : g ∈ prefs.genres.liked
    · simp only [hg, if_true, ScoreAcc.mk.injEq]
      constructor <;> ring
    · simp only [hg, if_false, ScoreAcc.mk.injEq]
      constructor <;> ring

theorem foldl_countryStep (p : TasteProfile) (codes : List JsId) (acc : ScoreAcc) :
    codes.foldl (countryStep p) acc
      = { score := acc.score + countrySum p codes, multiplier := acc.multiplier } := by
  induction codes generalizing acc with
  | nil => simp [countrySum]
  | cons c codes ih =>
    simp only [List.foldl_cons, ih, countrySum, List.map_cons, List.sum_cons, countryStep,
      ScoreAcc.mk.injEq, and_true]
    ring

theorem languageStep_eq (p : TasteProfile) (prefs : ExplicitPrefs) (acc : ScoreAcc) (l : JsId) :
    languageStep p prefs acc l
      = { score := acc.score + languageScore p l, multiplier := acc.multiplier * languageMult prefs l } := by
  unfold languageStep languageScore languageMult
  by_cases hl : l.truthy = true
  · by_cases hm : l ∈ prefs.languages
    · simp [hl, hm]
    · simp [hl, hm]
  · simp [hl]

theorem foldl_castStep (p : TasteProfile) (cast : List CastMember) (acc : ScoreAcc) :
    cast.foldl (fun (acc : ScoreAcc) (actor : CastMember) =>
        { acc with score := acc.score + readScore p.actors actor.id.toKey * ATTRIBUTE_WEIGHTS.actors })
      acc
      = { score := acc.score
            + (cast.map (fun a => readScore p.actors a.id.toKey * ATTRIBUTE_WEIGHTS.actors)).sum,
          multiplier := acc.multiplier } := by
  induction cast generalizing acc with
  | nil => simp
  | cons a cast ih =>
    simp only [List.foldl_cons, ih, List.map_cons, List.sum_cons, ScoreAcc.mk.injEq, and_true]
    ring

/-- Closed form of pass 1. -/
theorem scoreMediaItemSimple_eq (item : MediaItem) (p : TasteProfile) (prefs : ExplicitPrefs) :
    scoreMediaItemSimple item p prefs
      = (genreSum p (item.genre_ids.getD []) + languageScore p item.original_language
          + countrySum p (item.origin_country.getD []))
        * (genreMult prefs (item.genre_ids.getD []) * languageMult prefs item.original_language) := by
  unfold scoreMediaItemSimple
  cases hg : item.genre_ids <;> cases hc : item.origin_country <;>
    simp [foldl_genreStep, foldl_countryStep, languageStep_eq, genreSum, genreMult, countrySum]

/-- Closed form of pass 2. -/
theorem scoreMediaItemDetailed_eq (d : MediaDetails) (p : TasteProfile) (prefs : ExplicitPrefs) :
    scoreMediaItemDetailed d p prefs
      = (genreSum p ((d.genres.getD []).map (fun g => g.id)) + languageScore p d.original_language
          + countrySum p ((d.production_countries.getD []).map (fun c => c.iso_3166_1))
          + directorScore p d.credits + castSum p d.credits)
        * (genreMult prefs ((d.genres.getD []).map (fun g => g.id))
            * languageMult prefs d.original_language) := by
  unfold scoreMediaItemDetailed directorScore castSum
  have hgen : ∀ (gs : List Genre) (acc : ScoreAcc),
      gs.foldl (fun acc (genre : Genre) => genreStep p prefs acc genre.id) acc
        = (gs.map (fun g => g.id)).foldl (genreStep p prefs) acc := by
    intro gs acc
    rw [List.foldl_map]
  have hcou : ∀ (cs : List Country) (acc : ScoreAcc),
      cs.foldl (fun acc (country : Country) => countryStep p acc country.iso_3166_1) acc
        = (cs.map (fun c => c.iso_3166_1)).foldl (countryStep p) acc := by
    intro cs acc
    rw [List.foldl_map]
  simp only [hgen, hcou, foldl_castStep]
  cases hg : d.genres <;> cases hc : d.production_countries <;>
    cases hd : findDirector d.credits <;>
    simp [foldl_genreStep, foldl_countryStep, languageStep_eq, genreSum, genreMult, countrySum]

theorem genreMult_pos (prefs : ExplicitPrefs) (ids : List JsId) : 0 < genreMult prefs ids := by
  induction ids with
  | nil => simp [genreMult]
  | cons g ids ih =>
    unfold genreMult at ih ⊢
    simp only [List.map_cons, List.prod_cons]
    by_cases hg : g ∈ prefs.genres.liked
    · simp only [hg, if_true]
      exact mul_pos (by norm_num [PREF_MULTIPLIERS]) ih
    · simp only [hg, if_false, one_mul]
      exact ih

theorem languageMult_pos (prefs : ExplicitPrefs) (l : JsId) : 0 < languageMult prefs l := by
  unfold languageMult
  split
  · norm_num [PREF_MULTIPLIERS]
  · norm_num

theorem genreSum_of_nil (p : TasteProfile) (h : p.genres = []) (ids : List JsId) :
    genreSum p ids = 0 := by
  induction ids with
  | nil => simp [genreSum]
  | cons g ids ih =>
    unfold genreSum at ih ⊢
    rw [List.map_cons, List.sum_cons, ih, h, readScore_nil]
    ring

theorem countrySum_of_nil (p : TasteProfile) (h : p.countries = []) (codes : List JsId) :
    countrySum p codes = 0 := by
  induction codes with
  | nil => simp [countrySum]
  | cons c codes ih =>
    unfold countrySum at ih ⊢
    rw [List.map_cons, List.sum_cons, ih, h, readScore_nil]
    ring

theorem castSum_of_nil (p : TasteProfile) (h : p.actors = []) (credits : Option Credits) :
    castSum p credits = 0 := by
  unfold castSum
  induction topCast credits with
  | nil => simp
  | cons a cast ih =>
    rw [List.map_cons, List.sum_cons, ih, h, readScore_nil]
    ring

theorem languageScore_of_nil (p : TasteProfile) (h : p.languages = []) (l : JsId) :
    languageScore p l = 0 := by
  unfold languageScore
  split
  · rw [h, readScore_nil]
    ring
  · rfl

theorem directorScore_of_nil (p : TasteProfile) (h : p.directors = []) (credits : Option Credits) :
    directorScore p credits = 0 := by
  unfold directorScore
  split
  · rw [h, readScore_nil]
    ring
  · rfl

theorem genreSum_append (p : TasteProfile) (xs ys : List JsId) :
    genreSum p (xs ++ ys) = genreSum p xs + genreSum p ys := by
  simp [genreSum]

theorem genreMult_append (prefs : ExplicitPrefs) (xs ys : List JsId) :
    genreMult prefs (xs ++ ys) = genreMult prefs xs * genreMult prefs ys := by
  simp [genreMult]

/-! ## Lemmas on `Map` and de-duplication -/

theorem mem_mapSet {κ ν : Type} [DecidableEq κ] {m : List (κ × ν)} {k : κ} {v : ν} {e : κ × ν}
    (h : e ∈ mapSet m k v) : e ∈ m ∨ e = (k, v) := by
  induction m with
  | nil =>
    simp only [mapSet, List.mem_singleton] at h
    exact Or.inr h
  | cons a m ih =>
    obtain ⟨k', v'⟩ := a
    unfold mapSet at h
    by_cases hk : k' = k
    · simp only [hk, if_true, List.mem_cons] at h
      rcases h with h | h
      · exact Or.inr h
      · exact Or.inl (List.mem_cons_of_mem _ h)
    · simp only [hk, if_false, List.mem_cons] at h
      rcases h with h | h
      · exact Or.inl (h ▸ List.mem_cons_self _ _)
      · rcases ih h with h' | h'
        · exact Or.inl (List.mem_cons_of_mem _ h')
        · exact Or.inr h'

theorem keys_mapSet {κ ν : Type} [DecidableEq κ] (m : List (κ × ν)) (k : κ) (v : ν) :
    (mapSet m k v).map (fun e => e.1)
      = if k ∈ m.map (fun e => e.1) then m.map (fun e => e.1) else m.map (fun e => e.1) ++ [k] := by
  induction m with
  | nil => simp [mapSet]
  | cons a m ih =>
    obtain ⟨k', v'⟩ := a
    unfold mapSet
    by_cases hk : k' = k
    · subst hk
      simp
    · have hk' : ¬ k = k' := fun h => hk h.symm
      simp only [hk, if_false, List.map_cons, ih, List.mem_cons, hk', false_or]
      by_cases hm : k ∈ m.map (fun e => e.1)
      · simp only [hm, if_true]
      · simp only [hm, if_false, List.cons_append]

theorem mapGet_mapSet {κ ν : Type} [DecidableEq κ] (m : List (κ × ν)) (k k' : κ) (v : ν) :
    mapGet (mapSet m k v) k' = if k = k' then some v else mapGet m k' := by
  induction m with
  | nil => simp [mapSet, mapGet]
  | cons a m ih =>
    obtain ⟨k0, v0⟩ := a
    unfold mapSet
    by_cases h0 : k0 = k
    · subst h0
      simp only [if_true, mapGet]
      by_cases h1 : k0 = k' <;> simp [h1]
    · simp only [h0, if_false, mapGet, ih]
      by_cases h1 : k0 = k'
      · have h2 : ¬ k = k' := fun h => h0 (h1.trans h.symm)
        simp [h1, h2]
      · simp [h1]

theorem nodup_keys_mapSet {κ ν : Type} [DecidableEq κ] {m : List (κ × ν)} (k : κ) (v : ν)
    (h : (m.map (fun e => e.1)).Nodup) : ((mapSet m k v).map (fun e => e.1)).Nodup := by
  rw [keys_mapSet]
  by_cases hm : k ∈ m.map (fun e => e.1)
  · simp only [hm, if_true]
    exact h
  · simp only [hm, if_false]
    rw [List.nodup_append]
    refine ⟨h, List.nodup_singleton k, ?_⟩
    intro a ha hb
    rw [List.mem_singleton] at hb
    exact hm (hb ▸ ha)

theorem mapGet_of_mem {κ ν : Type} [DecidableEq κ] {m : List (κ × ν)}
    (hnd : (m.map (fun e => e.1)).Nodup) {e : κ × ν} (he : e ∈ m) : mapGet m e.1 = some e.2 := by
  induction m with
  | nil => simp at he
  | cons a m ih =>
    obtain ⟨k0, v0⟩ := a
    simp only [List.map_cons, List.nodup_cons] at hnd
    rw [List.mem_cons] at he
    rcases he with he | he
    · subst he
      simp [mapGet]
    · have hne : ¬ k0 = e.1 := by
        intro h
        apply hnd.1
        rw [h]
        exact List.mem_map_of_mem (fun e => e.1) he
      simp only [mapGet, hne, if_false]
      exact ih hnd.2 he

theorem mapOfEntries_snoc {κ ν : Type} [DecidableEq κ] (es : List (κ × ν)) (e : κ × ν) :
    mapOfEntries (es ++ [e]) = mapSet (mapOfEntries es) e.1 e.2 := by
  simp [mapOfEntries, List.foldl_append]

theorem mem_mapOfEntries {κ ν : Type} [DecidableEq κ] (es : List (κ × ν)) :
    ∀ e ∈ mapOfEntries es, e ∈ es := by
  induction es using List.reverseRecOn with
  | nil => simp [mapOfEntries]
  | append_singleton es a ih =>
    intro e he
    rw [mapOfEntries_snoc] at he
    rcases mem_mapSet he with h | h
    · exact List.mem_append_left _ (ih e h)
    · rw [h]
      simp

theorem nodup_keys_mapOfEntries {κ ν : Type} [DecidableEq κ] (es : List (κ × ν)) :
    ((mapOfEntries es).map (fun e => e.1)).Nodup := by
  induction es using List.reverseRecOn with
  | nil => simp [mapOfEntries]
  | append_singleton es a ih =>
    rw [mapOfEntries_snoc]
    exact nodup_keys_mapSet _ _ ih

theorem keys_mapOfEntries {κ ν : Type} [DecidableEq κ] (es : List (κ × ν)) :
    ∀ k, k ∈ (mapOfEntries es).map (fun e => e.1) ↔ k ∈ es.map (fun e => e.1) := by
  induction es using List.reverseRecOn with
  | nil => simp [mapOfEntries]
  | append_singleton es a ih =>
    intro k
    rw [mapOfEntries_snoc, keys_mapSet]
    by_cases hm : a.1 ∈ (mapOfEntries es).map (fun e => e.1)
    · simp only [hm, if_true, List.map_append, List.mem_append, List.map_cons, List.map_nil,
        List.mem_singleton, ih]
      constructor
      · exact Or.inl
      · rintro (h | h)
        · exact h
        · rw [h]
          exact (ih a.1).mp hm
    · simp only [hm, if_false, List.map_append, List.mem_append, List.map_cons, List.map_nil,
        List.mem_singleton, ih]

theorem mapGet_mapOfEntries {κ ν : Type} [DecidableEq κ] (es : List (κ × ν)) (k : κ) :
    mapGet (mapOfEntries es) k = (es.reverse.find? (fun e => decide (e.1 = k))).map (fun e => e.2) := by
  induction es using List.reverseRecOn with
  | nil => simp [mapOfEntries, mapGet]
  | append_singleton es a ih =>
    rw [mapOfEntries_snoc, mapGet_mapSet, List.reverse_append, List.reverse_singleton,
      List.singleton_append, List.find?_cons]
    by_cases h : a.1 = k
    · simp [h]
    · simp [h, ih]

theorem lastWithId_eq (pool : List MediaItem) (k : JsId) :
    mapGet (mapOfEntries (pool.map (fun item => (item.id, item)))) k = lastWithId pool k := by
  rw [mapGet_mapOfEntries, lastWithId, ← List.map_reverse, List.find?_map, Option.map_map]
  simp [Function.comp_def]

theorem mem_uniqueCandidates {pool : List MediaItem} {item : MediaItem}
    (h : item ∈ uniqueCandidates pool) : item ∈ pool := by
  unfold uniqueCandidates at h
  rw [List.mem_map] at h
  obtain ⟨e, he, rfl⟩ := h
  have := mem_mapOfEntries _ e he
  rw [List.mem_map] at this
  obtain ⟨x, hx, rfl⟩ := this
  exact hx

theorem ids_uniqueCandidates (pool : List MediaItem) :
    (uniqueCandidates pool).map (fun x => x.id)
      = (mapOfEntries (pool.map (fun item => (item.id, item)))).map (fun e => e.1) := by
  unfold uniqueCandidates
  rw [List.map_map]
  apply List.map_congr_left
  intro e he
  have := mem_mapOfEntries _ e he
  rw [List.mem_map] at this
  obtain ⟨x, _, rfl⟩ := this
  rfl


/-! ## Lemmas on the recommendation assembler -/

theorem mem_sliceTo {α : Type} {xs : List α} {e : Int} {x : α} (h : x ∈ sliceTo xs e) : x ∈ xs := by
  unfold sliceTo at h
  split at h
  · exact List.mem_of_mem_take h
  · exact List.mem_of_mem_take h

theorem mem_filteredCandidates {watchlist : Watchlist} {mediaType : String}
    {unique : List MediaItem} {item : MediaItem}
    (h : item ∈ filteredCandidates watchlist mediaType unique) :
    item ∈ unique ∧ seenKey item mediaType ∉ watchlist.map (fun e => e.1) := by
  unfold filteredCandidates at h
  simp only [List.mem_filter, Bool.not_eq_true'] at h
  refine ⟨h.1, fun hmem => ?_⟩
  have hc : (watchlist.map (fun e => e.1)).contains (seenKey item mediaType) = true :=
    List.elem_iff.mpr hmem
  rw [h.2] at hc
  cases hc

theorem mem_preliminaryScored {p : TasteProfile} {prefs : ExplicitPrefs} {mediaType : String}
    {candidates : List MediaItem} {s : ScoredItem}
    (h : s ∈ preliminaryScored p prefs mediaType candidates) :
    s.item ∈ candidates ∧ s.media_type = mediaTypeOf s.item mediaType
      ∧ s.preliminaryScore = scoreMediaItemSimple s.item p prefs ∧ 0 < s.preliminaryScore := by
  unfold preliminaryScored at h
  rw [(List.perm_insertionSort _ _).mem_iff] at h
  simp only [List.mem_filter, List.mem_map, decide_eq_true_eq, gt_iff_lt] at h
  obtain ⟨⟨item, hitem, rfl⟩, hpos⟩ := h
  exact ⟨hitem, rfl, rfl, hpos⟩

theorem mem_finalScoredCandidates {fetch : DetailsOracle} {p : TasteProfile} {prefs : ExplicitPrefs}
    {cands : List ScoredItem} {r : Recommendation}
    (h : r ∈ (finalScoredCandidates fetch p prefs cands).1) :
    ∃ c ∈ cands, (getMediaDetails fetch c.item.id c.media_type).1 = some r.details
      ∧ r.recommendationScore = scoreMediaItemDetailed r.details p prefs
      ∧ 0 < r.recommendationScore := by
  induction cands with
  | nil => simp [finalScoredCandidates] at h
  | cons c cands ih =>
    unfold finalScoredCandidates at h
    simp only at h
    cases hf : (getMediaDetails fetch c.item.id c.media_type).1 with
    | none =>
      simp only [hf] at h
      obtain ⟨c', hc', hrest⟩ := ih h
      exact ⟨c', List.mem_cons_of_mem _ hc', hrest⟩
    | some d =>
      simp only [hf] at h
      by_cases hpos : scoreMediaItemDetailed d p prefs > 0
      · simp only [hpos, if_true, List.mem_cons] at h
        rcases h with h | h
        · subst h
          exact ⟨c, List.mem_cons_self _ _, hf, rfl, hpos⟩
        · obtain ⟨c', hc', hrest⟩ := ih h
          exact ⟨c', List.mem_cons_of_mem _ hc', hrest⟩
      · simp only [hpos, if_false] at h
        obtain ⟨c', hc', hrest⟩ := ih h
        exact ⟨c', List.mem_cons_of_mem _ hc', hrest⟩

theorem getMediaDetails_some {fetch : DetailsOracle} {mediaId : JsId} {mediaType : String}
    {d : MediaDetails} (h : (getMediaDetails fetch mediaId mediaType).1 = some d) :
    fetch mediaId mediaType = some d := by
  unfold getMediaDetails at h
  split at h
  · simp at h
  · exact h

theorem discoverStep_candidatePool (discover : DiscoverOracle) (mediaType : String)
    (filters : Filters) (start : Int) (s : DiscoverState) (i : Int) :
    (discoverStep discover mediaType filters start s i).candidatePool
      = s.candidatePool ++ pageResults discover mediaType filters i := by
  unfold discoverStep pageResults discoverMedia
  cases h1 : discover mediaType filters i with
  | none => simp
  | some d1 => cases h1r : d1.results <;> simp [h1r]

theorem discoverLoop_candidatePool (discover : DiscoverOracle) (mediaType : String)
    (filters : Filters) (page : Int) :
    (discoverLoop discover mediaType filters page).candidatePool
      = pageResults discover mediaType filters ((page - 1) * 2 + 1)
        ++ pageResults discover mediaType filters ((page - 1) * 2 + 1 + 2 - 1) := by
  unfold discoverLoop
  simp only [List.foldl_cons, List.foldl_nil, discoverStep_candidatePool, List.nil_append]

theorem mem_candidatePool {discover : DiscoverOracle} {mediaType : String} {filters : Filters}
    {page : Int} {item : MediaItem}
    (h : item ∈ (discoverLoop discover mediaType filters page).candidatePool) :
    ∃ i data items, discover mediaType filters i = some data ∧ data.results = some items
      ∧ item ∈ items := by
  rw [discoverLoop_candidatePool, List.mem_append] at h
  have key : ∀ i, item ∈ pageResults discover mediaType filters i →
      ∃ i data items, discover mediaType filters i = some data ∧ data.results = some items
        ∧ item ∈ items := by
    intro i hi
    unfold pageResults at hi
    cases hd : discover mediaType filters i with
    | none => simp [hd] at hi
    | some data =>
      cases hr : data.results with
      | none => simp [hd, hr] at hi
      | some items =>
        simp only [hd, hr, Option.getD_some] at hi
        exact ⟨i, data, items, hd, hr, hi⟩
  rcases h with h | h
  · exact key _ h
  · exact key _ h


/-- Where a result of `getRecommendations` comes from. -/
theorem mem_results_getRecommendations {discover : DiscoverOracle} {fetch : DetailsOracle}
    {st : Store} {watchlist : Watchlist} {mediaType : String} {count page : Int}
    {r : Recommendation}
    (h : r ∈ (getRecommendations discover fetch st watchlist mediaType count page).1.results) :
    ∃ item ∈ uniqueCandidates
        (discoverLoop discover mediaType (buildDiscoverFilters (getExplicitPreferences st))
          page).candidatePool,
      seenKey item mediaType ∉ watchlist.map (fun e => e.1)
      ∧ 0 < scoreMediaItemSimple item (getTasteProfile st) (getExplicitPreferences st)
      ∧ fetch item.id (mediaTypeOf item mediaType) = some r.details
      ∧ r.recommendationScore
          = scoreMediaItemDetailed r.details (getTasteProfile st) (getExplicitPreferences st)
      ∧ 0 < r.recommendationScore := by
  unfold getRecommendations at h
  simp only at h
  split at h
  · simp at h
  · have h1 := mem_sliceTo h
    rw [(List.perm_insertionSort _ _).mem_iff] at h1
    obtain ⟨c, hc, hfetch, hscore, hpos⟩ := mem_finalScoredCandidates h1
    have hc1 := mem_sliceTo (show c ∈ sliceTo _ _ from hc)
    obtain ⟨hitem, hty, hps, hppos⟩ := mem_preliminaryScored hc1
    obtain ⟨hu, hseen⟩ := mem_filteredCandidates hitem
    refine ⟨c.item, hu, hseen, ?_, ?_, hscore, hpos⟩
    · rw [← hps]
      exact hppos
    · rw [← hty]
      exact getMediaDetails_some hfetch

/-! ## Lemmas on saving preferences and on sequences of calls -/

theorem updateTasteProfile_store (fetch : DetailsOracle) (st : Store) (mediaId : JsId)
    (mediaType : String) (newStatus oldStatus : Option String) (mediaDetails : Option MediaDetails) :
    (updateTasteProfile fetch st mediaId mediaType newStatus oldStatus mediaDetails).1
      = match resolvedDetails fetch mediaId mediaType mediaDetails with
        | some d => (updateTasteProfile fetch st mediaId mediaType newStatus oldStatus (some d)).1
        | none => st := by
  cases mediaDetails with
  | some d => rfl
  | none =>
    unfold resolvedDetails
    cases h : (getMediaDetails fetch mediaId mediaType).1 with
    | none => simp [updateTasteProfile, h]
    | some d => simp [updateTasteProfile, h]

theorem score_updateTasteProfile_resolved (fetch : DetailsOracle) (st : Store) (mediaId : JsId)
    (mediaType : String) (newStatus oldStatus : Option String) (mediaDetails : Option MediaDetails)
    (c : Category) (k : String) :
    (getTasteProfile
        (updateTasteProfile fetch st mediaId mediaType newStatus oldStatus mediaDetails).1).score c k
      = (getTasteProfile st).score c k
        + updateContribution fetch mediaId mediaType newStatus oldStatus mediaDetails c k := by
  rw [updateTasteProfile_store]
  unfold updateContribution
  cases h : resolvedDetails fetch mediaId mediaType mediaDetails with
  | none => simp
  | some d => simp only [score_updateTasteProfile]

theorem cache_updateTasteProfile (fetch : DetailsOracle) (st : Store) (mediaId : JsId)
    (mediaType : String) (newStatus oldStatus : Option String) (mediaDetails : Option MediaDetails) :
    (updateTasteProfile fetch st mediaId mediaType newStatus oldStatus
        mediaDetails).1.localExplicitPreferences = st.localExplicitPreferences := by
  rw [updateTasteProfile_store]
  cases h : resolvedDetails fetch mediaId mediaType mediaDetails with
  | none => rfl
  | some d => rfl

theorem explicitShift_default (c : Category) (k : String) :
    explicitShift ExplicitPrefs.default c k = 0 := by
  simp [explicitShift, prefsShift, ExplicitPrefs.default, hitsList]

theorem score_saveExplicitPreferences_ok (uid : String) (remote : RemoteWrite) (st : Store)
    (newPrefs : ExplicitPrefs) (h : remote newPrefs = none) (c : Category) (k : String) :
    (getTasteProfile (saveExplicitPreferences (some uid) remote st newPrefs).1).score c k
      = (getTasteProfile st).score c k + explicitShift newPrefs c k
        - explicitShift st.localExplicitPreferences c k := by
  unfold saveExplicitPreferences
  simp only [h, score_applyExplicitPreferencesToProfile, getExplicitPreferences]
  rfl

theorem cache_saveExplicitPreferences_ok (uid : String) (remote : RemoteWrite) (st : Store)
    (newPrefs : ExplicitPrefs) (h : remote newPrefs = none) :
    (saveExplicitPreferences (some uid) remote st newPrefs).1.localExplicitPreferences = newPrefs := by
  unfold saveExplicitPreferences
  simp only [h]
  rfl

/-- The invariant of a sequence of calls whose saves all succeed: what it adds to a score is the
interaction contributions plus the change of the explicit contribution of the cache. -/
theorem runEvents_invariant (uid : String) (remote : RemoteWrite) (fetch : DetailsOracle)
    (events : List ProfileEvent) :
    ∀ st : Store, (∀ P ∈ savedPrefs events, remote P = none) →
      (runEvents (some uid) remote fetch st events).localExplicitPreferences
          = lastSaved st.localExplicitPreferences events
      ∧ ∀ c k, (getTasteProfile (runEvents (some uid) remote fetch st events)).score c k
          = (getTasteProfile st).score c k + interactionSum fetch events c k
            + explicitShift (lastSaved st.localExplicitPreferences events) c k
            - explicitShift st.localExplicitPreferences c k := by
  induction events with
  | nil =>
    intro st _
    refine ⟨rfl, fun c k => ?_⟩
    simp [runEvents, interactionSum, lastSaved]
  | cons ev events ih =>
    intro st hok
    cases ev with
    | save P =>
      have hP : remote P = none := hok P (by simp [savedPrefs])
      have hrest : ∀ Q ∈ savedPrefs events, remote Q = none := by
        intro Q hQ
        exact hok Q (by simp only [savedPrefs, List.filterMap_cons]; exact List.mem_cons_of_mem _ hQ)
      obtain ⟨hc, hs⟩ := ih (saveExplicitPreferences (some uid) remote st P).1 hrest
      rw [cache_saveExplicitPreferences_ok uid remote st P hP] at hc hs
      refine ⟨hc, fun c k => ?_⟩
      have := hs c k
      rw [score_saveExplicitPreferences_ok uid remote st P hP] at this
      simp only [runEvents, List.foldl_cons, runEvent, interactionSum, lastSaved, List.map_cons,
        List.sum_cons] at this ⊢
      rw [this]
      ring
    | update mediaId mediaType newStatus oldStatus mediaDetails =>
      have hrest : ∀ Q ∈ savedPrefs events, remote Q = none := by
        intro Q hQ
        exact hok Q (by simpa [savedPrefs] using hQ)
      obtain ⟨hc, hs⟩ := ih
        (updateTasteProfile fetch st mediaId mediaType newStatus oldStatus mediaDetails).1 hrest
      rw [cache_updateTasteProfile] at hc hs
      refine ⟨hc, fun c k => ?_⟩
      have := hs c k
      rw [score_updateTasteProfile_resolved] at this
      simp only [runEvents, List.foldl_cons, runEvent, interactionSum, lastSaved, List.map_cons,
        List.sum_cons] at this ⊢
      rw [this]
      ring


/-! ## Lemmas on what the updater adds, as counts -/

theorem hits_same (c : Category) (id : JsId) (k : String) :
    hits c id c k = (keyCount [id] k : ℚ) := by
  unfold hits keyCount
  by_cases h : id.truthy = true ∧ k = id.toKey
  · have h2 : id.toKey = k := h.2.symm
    simp [h.1, h2]
  · by_cases ht : id.truthy = true
    · have hk : ¬ k = id.toKey := fun hk => h ⟨ht, hk⟩
      have hk' : ¬ id.toKey = k := fun hk'' => hk hk''.symm
      simp [ht, hk, hk']
    · simp [ht]

theorem hits_other {c c' : Category} (h : c' ≠ c) (id : JsId) (k : String) : hits c id c' k = 0 := by
  simp [hits, h]

theorem keyCount_cons (id : JsId) (ids : List JsId) (k : String) :
    keyCount (id :: ids) k = keyCount [id] k + keyCount ids k := by
  unfold keyCount
  rw [List.countP_cons, List.countP_cons, List.countP_nil]
  omega

theorem hitsList_same {α : Type} (c : Category) (f : α → JsId) (xs : List α) (k : String) :
    hitsList c f xs c k = (keyCount (xs.map f) k : ℚ) := by
  induction xs with
  | nil => simp [hitsList, keyCount]
  | cons x xs ih =>
    unfold hitsList at ih ⊢
    rw [List.map_cons, List.sum_cons, ih, List.map_cons, keyCount_cons (f x), hits_same]
    push_cast
    ring

theorem hitsList_other {α : Type} {c c' : Category} (h : c' ≠ c) (f : α → JsId) (xs : List α)
    (k : String) : hitsList c f xs c' k = 0 := by
  induction xs with
  | nil => simp [hitsList]
  | cons x xs ih =>
    unfold hitsList at ih ⊢
    rw [List.map_cons, List.sum_cons, ih, hits_other h]
    ring

theorem directorCoef_eq (d : MediaDetails) (c : Category) (k : String) :
    directorCoef d c k
      = if c = Category.directors then
          ATTRIBUTE_WEIGHTS.director
            * (keyCount ((findDirector d.credits).toList.map (fun x => x.id)) k : ℚ)
        else 0 := by
  unfold directorCoef
  cases hdir : findDirector d.credits with
  | none => simp [keyCount]
  | some director =>
    by_cases hc : c = Category.directors
    · subst hc
      simp [hits_same]
    · simp [hits_other hc, hc]

theorem decadeCoef_eq (d : MediaDetails) (c : Category) (k : String) :
    decadeCoef d c k
      = if c = Category.years then ATTRIBUTE_WEIGHTS.years * (keyCount (decadeIds d) k : ℚ)
        else 0 := by
  unfold decadeCoef decadeIds
  cases hr : releaseDateOf d with
  | none => simp [keyCount]
  | some releaseDate =>
    cases hy : parseInt (releaseDate.take 4) with
    | none => simp [hy, keyCount]
    | some year =>
      by_cases hc : c = Category.years
      · subst hc
        simp [hy, hits_same]
      · simp [hy, hits_other hc, hc]

/-- What `applyScoresToProfile` adds per unit of base score, category by category. -/
theorem itemCoef_eq (d : MediaDetails) (c : Category) (k : String) :
    itemCoef d c k
      = match c with
        | .genres => ATTRIBUTE_WEIGHTS.genres
            * (keyCount ((d.genres.getD []).map (fun g => g.id)) k : ℚ)
        | .directors => ATTRIBUTE_WEIGHTS.director
            * (keyCount ((findDirector d.credits).toList.map (fun x => x.id)) k : ℚ)
        | .actors => ATTRIBUTE_WEIGHTS.actors
            * (keyCount ((topCast d.credits).map (fun a => a.id)) k : ℚ)
        | .languages => ATTRIBUTE_WEIGHTS.languages * (keyCount [d.original_language] k : ℚ)
        | .countries => ATTRIBUTE_WEIGHTS.countries
            * (keyCount ((d.production_countries.getD []).map (fun x => x.iso_3166_1)) k : ℚ)
        | .years => ATTRIBUTE_WEIGHTS.years * (keyCount (decadeIds d) k : ℚ) := by
  unfold itemCoef
  rw [directorCoef_eq, decadeCoef_eq]
  cases c <;>
    simp [hitsList_same, hits_same, hitsList_other, hits_other]


/-! ## Lemmas on `parseInt` and decades -/

theorem isDecimalDigit_iff (c : Char) :
    isDecimalDigit c = true ↔ 48 ≤ c.toNat ∧ c.toNat ≤ 57 := by
  simp [isDecimalDigit]

theorem isJsWhiteSpace_digit {c : Char} (h : isDecimalDigit c = true) :
    isJsWhiteSpace c = false := by
  rw [isDecimalDigit_iff] at h
  unfold isJsWhiteSpace
  simp only [Bool.or_eq_false_iff, decide_eq_false_iff_not, Bool.and_eq_false_iff]
  omega

theorem digitValue_digit {c : Char} (h : isDecimalDigit c = true) :
    digitValue 10 c = some (c.toNat - 48) := by
  rw [isDecimalDigit_iff] at h
  unfold digitValue
  simp [h.1, h.2]

theorem parseUnsigned_digits (c3 c2 c1 c0 : Char) (h3 : isDecimalDigit c3 = true)
    (h2 : isDecimalDigit c2 = true) (h1 : isDecimalDigit c1 = true)
    (h0 : isDecimalDigit c0 = true) :
    parseUnsigned [c3, c2, c1, c0]
      = some ((((c3.toNat - 48) * 10 + (c2.toNat - 48)) * 10 + (c1.toNat - 48)) * 10
          + (c0.toNat - 48)) := by
  have hx : c2 ≠ 'x' := by
    intro h
    rw [h] at h2
    exact absurd h2 (by decide)
  have hX : c2 ≠ 'X' := by
    intro h
    rw [h] at h2
    exact absurd h2 (by decide)
  unfold parseUnsigned
  split
  · rename_i heq
    simp only [List.cons.injEq] at heq
    exact absurd heq.2.1 hx
  · rename_i heq
    simp only [List.cons.injEq] at heq
    exact absurd heq.2.1 hX
  · simp [readDigits, digitValue_digit h3, digitValue_digit h2, digitValue_digit h1,
      digitValue_digit h0]

/-- A string of four decimal digits is read by `parseInt` as the year they write. -/
theorem parseInt_digits (s : String) (c3 c2 c1 c0 : Char) (hs : s.toList = [c3, c2, c1, c0])
    (h3 : isDecimalDigit c3 = true) (h2 : isDecimalDigit c2 = true)
    (h1 : isDecimalDigit c1 = true) (h0 : isDecimalDigit c0 = true) :
    parseInt s = some (yearOfDigits c3 c2 c1 c0) := by
  have hm : c3 ≠ '-' := by
    intro h
    rw [h] at h3
    exact absurd h3 (by decide)
  have hp : c3 ≠ '+' := by
    intro h
    rw [h] at h3
    exact absurd h3 (by decide)
  unfold parseInt
  rw [hs]
  have hd : List.dropWhile isJsWhiteSpace [c3, c2, c1, c0] = [c3, c2, c1, c0] := by
    simp [List.dropWhile, isJsWhiteSpace_digit h3]
  rw [hd]
  split
  · rename_i heq
    simp only [List.cons.injEq] at heq
    exact absurd heq.1 hm
  · rename_i heq
    simp only [List.cons.injEq] at heq
    exact absurd heq.1 hp
  · simp [parseUnsigned_digits c3 c2 c1 c0 h3 h2 h1 h0, yearOfDigits]

theorem decadeOf_ne_zero {y : Int} (h : 10 ≤ y) : decadeOf y ≠ 0 := by
  unfold decadeOf
  rw [Int.fdiv_eq_ediv y (by norm_num : (0 : Int) ≤ 10)]
  omega

theorem ACTION_WEIGHTS_ne_zero {a : String} {w : ℚ} (h : ACTION_WEIGHTS a = some w) : w ≠ 0 := by
  unfold ACTION_WEIGHTS at h
  split_ifs at h <;> simp only [Option.some.injEq] at h <;> rw [← h] <;> norm_num

theorem keyCount_singleton (id : JsId) (k : String) :
    keyCount [id] k = if id.truthy = true ∧ id.toKey = k then 1 else 0 := by
  unfold keyCount
  by_cases h : id.truthy = true ∧ id.toKey = k
  · simp [h.1, h.2]
  · rw [if_neg h]
    by_cases ht : id.truthy = true
    · have hk : ¬ id.toKey = k := fun hk => h ⟨ht, hk⟩
      simp [ht, hk]
    · simp [ht]


/-! ## Properties of the profile updater -/

/-- In exact arithmetic, moving an item from `watched` to `watchlist` and then back from
`watchlist` to `watched`, with the same details object, leaves the score of every key of every
category (an absent key read as 0) equal to its value before the two calls: the four amounts
cancel. In binary64 the four additions are rounded and the equality can fail. -/
theorem reversal_cancels_exact (fetch : DetailsOracle) (st : Store) (mediaId : JsId)
    (mediaType : String) (d : MediaDetails) (c : Category) (k : String) :
    (getTasteProfile
        (updateTasteProfile fetch
          (updateTasteProfile fetch st mediaId mediaType (some "watchlist") (some "watched")
            (some d)).1
          mediaId mediaType (some "watched") (some "watchlist") (some d)).1).score c k
      = (getTasteProfile st).score c k := by
  rw [score_updateTasteProfile, score_updateTasteProfile, actionScore_watchlist,
    actionScore_watched]
  ring

/-- In exact arithmetic, for all statuses `a` and `b`, applying `a` as a fresh action (old status
`null`) and then moving the item from `a` to `b` gives every key of every category the same score
as applying `b` alone (old status `null`) to the same stored profile. In binary64 the additions
are rounded and the equality can fail. -/
theorem move_without_double_counting_exact (fetch : DetailsOracle) (st : Store) (mediaId : JsId)
    (mediaType : String) (d : MediaDetails) (a b : String) (c : Category) (k : String) :
    (getTasteProfile
        (updateTasteProfile fetch
          (updateTasteProfile fetch st mediaId mediaType (some a) none (some d)).1
          mediaId mediaType (some b) (some a) (some d)).1).score c k
      = (getTasteProfile
          (updateTasteProfile fetch st mediaId mediaType (some b) none (some d)).1).score c k := by
  simp only [score_updateTasteProfile, actionScore_none]
  ring

/-- In exact arithmetic, applying preferences `A` with no old preferences and then `B` with old
preferences `A` gives every key of every category the same score (an absent key read as 0) as
applying `B` with no old preferences directly to the same stored profile. In binary64 the
additions are rounded and the equality can fail. -/
theorem explicit_reconciliation_round_trip_exact (st : Store) (A B : ExplicitPrefs) (c : Category)
    (k : String) :
    (getTasteProfile
        (applyExplicitPreferencesToProfile (applyExplicitPreferencesToProfile st A none) B
          (some A))).score c k
      = (getTasteProfile (applyExplicitPreferencesToProfile st B none)).score c k := by
  simp only [score_applyExplicitPreferencesToProfile]
  ring

/-- C13 (counterexample): for an item whose only genre has the id `0`, the known action `watched`
(weight 2) with multiplier 1 adds nothing to `genres[0]`, where the claim has `2 * 1 * 1.5`: the
guard `!id` of `updateScore` skips the identifier. -/
theorem profile_updater_definition_counterexample :
    ACTION_WEIGHTS "watched" = some 2
    ∧ applyScoresToProfile TasteProfile.zero "watched" (some detailsGenre0) 1 = TasteProfile.zero
    ∧ (applyScoresToProfile TasteProfile.zero "watched" (some detailsGenre0) 1).score
          Category.genres (JsId.num 0).toKey
        ≠ TasteProfile.zero.score Category.genres (JsId.num 0).toKey + 2 * 1 * (3 / 2) := by
  have h1 : ACTION_WEIGHTS "watched" = some 2 := by
    simp [ACTION_WEIGHTS]
  have h2 : applyScoresToProfile TasteProfile.zero "watched" (some detailsGenre0) 1
      = TasteProfile.zero := by
    simp [applyScoresToProfile, h1, applyBaseScore, detailsGenre0, updateScore, JsId.truthy,
      findDirector, topCast, applyDecade, releaseDateOf]
  refine ⟨h1, h2, ?_⟩
  rw [h2]
  simp [TasteProfile.score, TasteProfile.cat, TasteProfile.zero, readScore_nil]

/-- C13 (amended): for every profile, known action `a` with weight `w` and multiplier `m`,
`applyScoresToProfile` adds, onto the value already present (absent read as 0), `w*m*1.5` to
`genres[k]` for each genre of the item, `w*m*1.2` to `directors[k]` for the first crew member
whose job is `Director`, `w*m*1.0` to `actors[k]` for each of the first 5 cast members,
`w*m*1.0` to `languages[k]` for the original language, `w*m*0.8` to `countries[k]` for each
production country and `w*m*0.5` to `years[k]` for the decade, counting only identifiers that are
truthy (not `0`, `''`, `null`, `undefined`) and convert to the key `k`; no other key changes. The
action weights are watchlist 1, watched 2, caught-up 2, rated_high 3, rated_low -2,
not_interested -3, view_media_page 0.2, view_trailer 0.5. -/
theorem profile_updater_definition_amended (p : TasteProfile) (a : String) (w : ℚ)
    (ha : ACTION_WEIGHTS a = some w) (d : MediaDetails) (m : ℚ) (k : String) :
    ((applyScoresToProfile p a (some d) m).score Category.genres k
        = p.score Category.genres k
          + w * m * (3 / 2) * keyCount ((d.genres.getD []).map (fun g => g.id)) k
      ∧ (applyScoresToProfile p a (some d) m).score Category.directors k
        = p.score Category.directors k
          + w * m * (6 / 5) * keyCount ((findDirector d.credits).toList.map (fun x => x.id)) k
      ∧ (applyScoresToProfile p a (some d) m).score Category.actors k
        = p.score Category.actors k
          + w * m * 1 * keyCount ((topCast d.credits).map (fun x => x.id)) k
      ∧ (applyScoresToProfile p a (some d) m).score Category.languages k
        = p.score Category.languages k + w * m * 1 * keyCount [d.original_language] k
      ∧ (applyScoresToProfile p a (some d) m).score Category.countries k
        = p.score Category.countries k
          + w * m * (4 / 5)
            * keyCount ((d.production_countries.getD []).map (fun x => x.iso_3166_1)) k
      ∧ (applyScoresToProfile p a (some d) m).score Category.years k
        = p.score Category.years k + w * m * (1 / 2) * keyCount (decadeIds d) k)
    ∧ (ACTION_WEIGHTS "watchlist" = some 1 ∧ ACTION_WEIGHTS "watched" = some 2
      ∧ ACTION_WEIGHTS "caught-up" = some 2 ∧ ACTION_WEIGHTS "rated_high" = some 3
      ∧ ACTION_WEIGHTS "rated_low" = some (-2) ∧ ACTION_WEIGHTS "not_interested" = some (-3)
      ∧ ACTION_WEIGHTS "view_media_page" = some (1 / 5)
      ∧ ACTION_WEIGHTS "view_trailer" = some (1 / 2)) := by
  refine ⟨⟨?_, ?_, ?_, ?_, ?_, ?_⟩, ?_⟩
  all_goals first
    | (rw [score_applyScoresToProfile p a d m w ha, itemCoef_eq]
       simp only [ATTRIBUTE_WEIGHTS]
       ring)
    | simp [ACTION_WEIGHTS]

/-- C13 (amended), at a concrete input: `watched` on an item of genre 28 adds `2 * 1 * 1.5` to
`genres[28]`. -/
theorem profile_updater_definition_amended_witness :
    ACTION_WEIGHTS "watched" = some 2
    ∧ (applyScoresToProfile profileGenre28 "watched" (some (detailsGenre28 (JsId.num 7))) 1).score
          Category.genres "28"
        = profileGenre28.score Category.genres "28" + 2 * 1 * (3 / 2) * (1 : ℕ) := by
  have h1 : ACTION_WEIGHTS "watched" = some 2 := by
    simp [ACTION_WEIGHTS]
  have h2 : keyCount (((detailsGenre28 (JsId.num 7)).genres.getD []).map (fun g => g.id)) "28"
      = 1 := by
    simp [keyCount, detailsGenre28, JsId.truthy, toKey_num_28]
  refine ⟨h1, ?_⟩
  have h := (profile_updater_definition_amended profileGenre28 "watched" 2 h1
    (detailsGenre28 (JsId.num 7)) 1 "28").1.1
  rw [h2] at h
  exact h


theorem parseInt_year5 : parseInt ("0005-01-01".take 4) = some 5 := by decide

/-- C14 (counterexample): the release date `0005-01-01` starts with the year 5, whose decade is
`floor(5/10)*10 = 0`; the known action `watched` changes no key of `profile.years`, because the
guard `!id` of `updateScore` skips the decade `0`. -/
theorem decade_bucketing_counterexample :
    releaseDateOf detailsYear5 = some "0005-01-01"
    ∧ parseInt ("0005-01-01".take 4) = some 5
    ∧ decadeOf 5 = 0
    ∧ ACTION_WEIGHTS "watched" = some 2
    ∧ applyScoresToProfile TasteProfile.zero "watched" (some detailsYear5) 1 = TasteProfile.zero := by
  have h1 : ACTION_WEIGHTS "watched" = some 2 := by
    simp [ACTION_WEIGHTS]
  have hr : releaseDateOf detailsYear5 = some "0005-01-01" := by decide
  have hd : decadeOf 5 = 0 := by decide
  refine ⟨hr, parseInt_year5, hd, h1, ?_⟩
  simp [applyScoresToProfile, h1, applyBaseScore, detailsYear5, updateScore, JsId.truthy,
    findDirector, topCast, applyDecade, releaseDateOf, parseInt_year5, hd]

/-- C14 (amended): for every item whose release date (`release_date`, else `first_air_date`)
starts with four decimal digits that write a year `y` with `y >= 10`, a known action with a
non-zero multiplier changes exactly one key of `profile.years`, namely `floor(y/10)*10`, by
`w * m * 0.5`; release year 1994 contributes to `years[1990]` and not to 1994 or 2000. (For
`y < 10` the decade is 0 and no key changes.) -/
theorem decade_bucketing_amended (p : TasteProfile) (a : String) (w : ℚ)
    (ha : ACTION_WEIGHTS a = some w) (m : ℚ) (hm : m ≠ 0) (d : MediaDetails)
    (releaseDate : String) (hr : releaseDateOf d = some releaseDate) (c3 c2 c1 c0 : Char)
    (hs : (releaseDate.take 4).toList = [c3, c2, c1, c0])
    (h3 : isDecimalDigit c3 = true) (h2 : isDecimalDigit c2 = true)
    (h1 : isDecimalDigit c1 = true) (h0 : isDecimalDigit c0 = true)
    (hy : 10 ≤ yearOfDigits c3 c2 c1 c0) :
    w * m * (1 / 2) ≠ 0
    ∧ ∀ k, (applyScoresToProfile p a (some d) m).score Category.years k
        = p.score Category.years k
          + (if k = (JsId.num (decadeOf (yearOfDigits c3 c2 c1 c0))).toKey then w * m * (1 / 2)
             else 0) := by
  constructor
  · exact mul_ne_zero (mul_ne_zero (ACTION_WEIGHTS_ne_zero ha) hm) (by norm_num)
  · intro k
    have hdec : decadeIds d = [JsId.num (decadeOf (yearOfDigits c3 c2 c1 c0))] := by
      unfold decadeIds
      simp only [hr, parseInt_digits _ c3 c2 c1 c0 hs h3 h2 h1 h0]
    have htr : (JsId.num (decadeOf (yearOfDigits c3 c2 c1 c0))).truthy = true := by
      simp [JsId.truthy, decadeOf_ne_zero hy]
    rw [score_applyScoresToProfile p a d m w ha, itemCoef_eq]
    simp only [hdec, keyCount_singleton, htr, true_and, ATTRIBUTE_WEIGHTS]
    by_cases hk : k = (JsId.num (decadeOf (yearOfDigits c3 c2 c1 c0))).toKey
    · simp [hk]
    · have hk' : ¬ (JsId.num (decadeOf (yearOfDigits c3 c2 c1 c0))).toKey = k :=
        fun h => hk h.symm
      simp [hk, hk']

/-- C14 (amended), at a concrete input: for the release date `1994-06-23` the action `watched`
adds `2 * 1 * 0.5` to `years[1990]` and nothing to `years[1994]` and `years[2000]`. -/
theorem decade_bucketing_amended_witness :
    (applyScoresToProfile TasteProfile.zero "watched" (some detailsYear1994) 1).score
        Category.years "1990" = TasteProfile.zero.score Category.years "1990" + 2 * 1 * (1 / 2)
    ∧ (applyScoresToProfile TasteProfile.zero "watched" (some detailsYear1994) 1).score
        Category.years "1994" = TasteProfile.zero.score Category.years "1994"
    ∧ (applyScoresToProfile TasteProfile.zero "watched" (some detailsYear1994) 1).score
        Category.years "2000" = TasteProfile.zero.score Category.years "2000" := by
  have ha : ACTION_WEIGHTS "watched" = some 2 := by
    simp [ACTION_WEIGHTS]
  have h := (decade_bucketing_amended TasteProfile.zero "watched" 2 ha 1 (by norm_num)
    detailsYear1994 "1994-06-23" (by decide) '1' '9' '9' '4' (by decide) (by decide) (by decide)
    (by decide) (by decide) (by decide)).2
  have hkey : (JsId.num (decadeOf (yearOfDigits '1' '9' '9' '4'))).toKey = "1990" := by decide
  rw [hkey] at h
  refine ⟨?_, ?_, ?_⟩
  · rw [h "1990"]
    simp
  · rw [h "1994"]
    simp
  · rw [h "2000"]
    simp


theorem applyScoresToProfile_unknown (p : TasteProfile) (a : String) (d : Option MediaDetails)
    (m : ℚ) (h : ACTION_WEIGHTS a = none) : applyScoresToProfile p a d m = p := by
  unfold applyScoresToProfile
  simp [h]

theorem applyScoresToProfile_absent (p : TasteProfile) (a : String) (m : ℚ) :
    applyScoresToProfile p a none m = p := by
  unfold applyScoresToProfile
  cases ACTION_WEIGHTS a <;> rfl

/-- In exact arithmetic, applying the same interaction twice with multiplier +1 changes the score
of every key of every category by exactly twice the amount that applying it once does. In
binary64 the additions are rounded and the equality can fail. -/
theorem additivity_exact (p : TasteProfile) (a : String) (d : MediaDetails) (c : Category) (k : String) :
    (applyScoresToProfile (applyScoresToProfile p a (some d) 1) a (some d) 1).score c k
        - p.score c k
      = 2 * ((applyScoresToProfile p a (some d) 1).score c k - p.score c k) := by
  cases ha : ACTION_WEIGHTS a with
  | none =>
    simp only [applyScoresToProfile_unknown _ _ _ _ ha]
    ring
  | some w =>
    simp only [score_applyScoresToProfile _ _ _ _ _ ha]
    ring

/-- C16 (unknown action is a no-op): `applyScoresToProfile` with an action that is not in the
action-weight table, or with absent item details, returns the profile unchanged; and
`updateTasteProfile` whose old action is unknown and whose new action is unknown or `remove`
stores a profile with the same score for every key of every category. -/
theorem unknown_action_noop (a : String) (ha : ACTION_WEIGHTS a = none)
    (newStatus oldStatus : Option String) (hold : knownAction oldStatus = none)
    (hnew : knownAction newStatus = none ∨ newStatus = some "remove") :
    (∀ (p : TasteProfile) (d : Option MediaDetails) (m : ℚ), applyScoresToProfile p a d m = p)
    ∧ (∀ (p : TasteProfile) (b : String) (m : ℚ), applyScoresToProfile p b none m = p)
    ∧ ∀ (fetch : DetailsOracle) (st : Store) (mediaId : JsId) (mediaType : String)
        (mediaDetails : Option MediaDetails) (c : Category) (k : String),
        (getTasteProfile
            (updateTasteProfile fetch st mediaId mediaType newStatus oldStatus
              mediaDetails).1).score c k
          = (getTasteProfile st).score c k := by
  refine ⟨fun p d m => applyScoresToProfile_unknown p a d m ha,
    fun p b m => applyScoresToProfile_absent p b m, ?_⟩
  intro fetch st mediaId mediaType mediaDetails c k
  have ho : actionScore oldStatus = 0 := by
    simp [actionScore, hold]
  have hn : actionScore newStatus = 0 := by
    rcases hnew with h | h
    · simp [actionScore, h]
    · subst h
      simp [actionScore, knownAction, ACTION_WEIGHTS_remove]
  rw [score_updateTasteProfile_resolved]
  unfold updateContribution
  cases resolvedDetails fetch mediaId mediaType mediaDetails with
  | none => simp
  | some d => simp [ho, hn]

/-- C16, at a concrete input: the unknown action `favourite` and the statuses `remove` and
`null` leave the profile `{ genres: { 28: 5 } }` as it is. -/
theorem unknown_action_noop_witness :
    applyScoresToProfile profileGenre28 "favourite" (some (detailsGenre28 (JsId.num 7))) 1
      = profileGenre28
    ∧ (getTasteProfile
          (updateTasteProfile fetchGenre28 storeGenre28 (JsId.num 7) "movie" (some "remove") none
            none).1).score Category.genres "28"
        = (getTasteProfile storeGenre28).score Category.genres "28" :=
  have h := unknown_action_noop "favourite" (by decide) (some "remove") none rfl (Or.inr rfl)
  ⟨h.1 profileGenre28 (some (detailsGenre28 (JsId.num 7))) 1,
    h.2.2 fetchGenre28 storeGenre28 (JsId.num 7) "movie" none Category.genres "28"⟩


/-! ## Properties of the scorers -/

theorem readScore_profileGenre28 : readScore profileGenre28.genres (JsId.toKey (JsId.num 28)) = 5 := by
  rw [toKey_num_28]
  simp [profileGenre28, readScore_cons]

/-- C4 (counterexample): with profile `{ genres: { 28: 5 } }` and disliked genres `[28]`, the
candidate whose only genre is the disliked genre 28 scores 7.5 in both passes, strictly more
than the identical candidate without that genre, which scores 0. -/
theorem disliked_genre_dominance_counterexample :
    JsId.num 28 ∈ prefsDislike28.genres.disliked
    ∧ ¬ (scoreMediaItemSimple (itemGenre28 (JsId.num 7)) profileGenre28 prefsDislike28
          ≤ scoreMediaItemSimple { itemGenre28 (JsId.num 7) with genre_ids := some [] }
              profileGenre28 prefsDislike28)
    ∧ ¬ (scoreMediaItemDetailed (detailsGenre28 (JsId.num 7)) profileGenre28 prefsDislike28
          ≤ scoreMediaItemDetailed { detailsGenre28 (JsId.num 7) with genres := some [] }
              profileGenre28 prefsDislike28) := by
  refine ⟨by decide, ?_, ?_⟩
  · norm_num [scoreMediaItemSimple, itemGenre28, prefsDislike28, genreStep,
      languageStep, JsId.truthy, readScore_profileGenre28, ATTRIBUTE_WEIGHTS]
  · norm_num [scoreMediaItemDetailed, detailsGenre28, prefsDislike28, genreStep,
      languageStep, JsId.truthy, readScore_profileGenre28, ATTRIBUTE_WEIGHTS, findDirector, topCast]

/-- C4 (amended): the scorers do not read `explicitPrefs.genres.disliked`. For every profile,
explicit preferences and candidate, if the profile score of a genre `g` (absent read as 0) is at
most 0 and `g` is not in `explicitPrefs.genres.liked`, then under both passes a candidate whose
genre list contains `g` scores at most the same as the identical candidate with that occurrence
of `g` removed. -/
theorem disliked_genre_dominance_amended (p : TasteProfile) (prefs : ExplicitPrefs) (g : JsId)
    (hscore : readScore p.genres g.toKey ≤ 0) (hliked : g ∉ prefs.genres.liked) :
    (∀ (item : MediaItem) (pre post : List JsId),
      scoreMediaItemSimple { item with genre_ids := some (pre ++ g :: post) } p prefs
        ≤ scoreMediaItemSimple { item with genre_ids := some (pre ++ post) } p prefs)
    ∧ (∀ (d : MediaDetails) (pre post : List Genre) (name : String),
      scoreMediaItemDetailed { d with genres := some (pre ++ { id := g, name := name } :: post) } p prefs
        ≤ scoreMediaItemDetailed { d with genres := some (pre ++ post) } p prefs) := by
  have hx : readScore p.genres g.toKey * ATTRIBUTE_WEIGHTS.genres ≤ 0 :=
    mul_nonpos_of_nonpos_of_nonneg hscore (by norm_num [ATTRIBUTE_WEIGHTS])
  have hs : genreSum p [g] = readScore p.genres g.toKey * ATTRIBUTE_WEIGHTS.genres := by
    simp [genreSum]
  have hm : genreMult prefs [g] = 1 := by
    simp [genreMult, hliked]
  constructor
  · intro item pre post
    simp only [scoreMediaItemSimple_eq, Option.getD_some]
    have hcons : pre ++ g :: post = pre ++ ([g] ++ post) := by simp
    rw [hcons]
    simp only [genreSum_append, genreMult_append, hs, hm, one_mul]
    have hM : 0 ≤ genreMult prefs pre * genreMult prefs post * languageMult prefs item.original_language :=
      le_of_lt (mul_pos (mul_pos (genreMult_pos _ _) (genreMult_pos _ _)) (languageMult_pos _ _))
    apply mul_le_mul_of_nonneg_right _ hM
    linarith
  · intro d pre post name
    simp only [scoreMediaItemDetailed_eq, Option.getD_some, List.map_append, List.map_cons]
    have hcons : ∀ (xs ys : List JsId), xs ++ g :: ys = xs ++ ([g] ++ ys) := by
      intro xs ys
      simp
    rw [hcons]
    simp only [genreSum_append, genreMult_append, hs, hm, one_mul]
    have hM : 0 ≤ genreMult prefs (pre.map (fun g => g.id)) * genreMult prefs (post.map (fun g => g.id))
        * languageMult prefs d.original_language :=
      le_of_lt (mul_pos (mul_pos (genreMult_pos _ _) (genreMult_pos _ _)) (languageMult_pos _ _))
    apply mul_le_mul_of_nonneg_right _ hM
    linarith

theorem simple_profileGenre28 (id : JsId) :
    scoreMediaItemSimple (itemGenre28 id) profileGenre28 prefsDislike28 = 15 / 2 := by
  norm_num [scoreMediaItemSimple, itemGenre28, prefsDislike28, genreStep,
    languageStep, JsId.truthy, readScore_profileGenre28, ATTRIBUTE_WEIGHTS]

theorem detailed_profileGenre28 (id : JsId) :
    scoreMediaItemDetailed (detailsGenre28 id) profileGenre28 prefsDislike28 = 15 / 2 := by
  norm_num [scoreMediaItemDetailed, detailsGenre28, prefsDislike28, genreStep,
    languageStep, JsId.truthy, readScore_profileGenre28, ATTRIBUTE_WEIGHTS, findDirector, topCast]

theorem hasProfile_profileGenre28 : hasProfile profileGenre28 = true := by
  simp [hasProfile, profileGenre28]

theorem itemGenre28_id (id : JsId) : (itemGenre28 id).id = id := rfl

theorem itemGenre28_media_type (id : JsId) : (itemGenre28 id).media_type = none := rfl

theorem detailsGenre28_first_air_date (id : JsId) : (detailsGenre28 id).first_air_date = none := rfl

theorem getTasteProfile_storeGenre28Reconciled :
    getTasteProfile storeGenre28Reconciled = { TasteProfile.zero with genres := [("28", -995)] } := by
  simp [storeGenre28Reconciled, applyExplicitPreferencesToProfile, getTasteProfile, storeGenre28,
    saveTasteProfile, applyPrefsWith, prefsDislike28, updateScore, JsId.truthy, EXPLICIT_WEIGHTS,
    TasteProfile.setCat, TasteProfile.cat, profileGenre28, toKey_num_28, writeScore, readScore_cons,
    TasteProfile.zero]
  norm_num

theorem getExplicitPreferences_storeGenre28Reconciled :
    getExplicitPreferences storeGenre28Reconciled = prefsDislike28 := rfl

/-- C5 (counterexample): with profile `{ genres: { 28: 5 } }` and disliked genres `[28]`, the
candidate whose only genre is 28 gets the pass-1 score 7.5, not -992.5, and it is returned by
`getRecommendations`: the `score > 0` cutoff does not exclude it. -/
theorem disliked_genre_concrete_counterexample :
    scoreMediaItemSimple (itemGenre28 (JsId.num 7)) profileGenre28 prefsDislike28 = 15 / 2
    ∧ scoreMediaItemSimple (itemGenre28 (JsId.num 7)) profileGenre28 prefsDislike28
        ≠ 5 * (3 / 2) + (-1000)
    ∧ (getRecommendations (discoverFirstPage [itemGenre28 (JsId.num 7)]) fetchGenre28 storeGenre28 []
          "movie" 20 1).1.results
        = [{ details := detailsGenre28 (JsId.num 7), media_type := "movie",
             recommendationScore := 15 / 2 }] := by
  refine ⟨simple_profileGenre28 _, ?_, ?_⟩
  · rw [simple_profileGenre28]
    norm_num
  · simp [getRecommendations, getTasteProfile, getExplicitPreferences, storeGenre28,
      hasProfile_profileGenre28, discoverLoop, discoverStep, discoverMedia, discoverFirstPage,
      uniqueCandidates, mapOfEntries, mapSet, filteredCandidates, preliminaryScored,
      simple_profileGenre28, promisingCandidates, sliceTo, finalScoredCandidates, getMediaDetails,
      fetchGenre28, detailed_profileGenre28, JsId.truthy, mediaTypeOf, itemGenre28_id,
      itemGenre28_media_type, detailsGenre28_first_air_date]

/-- C5 (amended): the scorer does not read the disliked genres. With profile
`{ genres: { 28: 5 } }` and disliked genres `[28]`, a candidate whose only genre is 28 gets the
pass-1 score `5 * 1.5 = 7.5`. The penalty of -1000 enters through the stored profile: once
`applyExplicitPreferencesToProfile` has reconciled the preferences the stored genre score is
`5 - 1000 = -995`, the candidate scores `-995 * 1.5 = -1492.5`, and for every discovery and
detail response no details object whose only genre is 28 is among the results of
`getRecommendations`, because its score is not `> 0`. -/
theorem disliked_genre_concrete_amended (id : JsId) (discover : DiscoverOracle)
    (fetch : DetailsOracle) (watchlist : Watchlist) (mediaType : String) (count page : Int) :
    scoreMediaItemSimple (itemGenre28 id) profileGenre28 prefsDislike28 = 5 * (3 / 2)
    ∧ readScore (getTasteProfile storeGenre28Reconciled).genres "28" = 5 - 1000
    ∧ scoreMediaItemSimple (itemGenre28 id) (getTasteProfile storeGenre28Reconciled) prefsDislike28
        = (5 - 1000) * (3 / 2)
    ∧ ∀ r ∈ (getRecommendations discover fetch storeGenre28Reconciled watchlist mediaType count
              page).1.results,
        ∀ name : String, r.details.genres ≠ some [{ id := JsId.num 28, name := name }] := by
  have hread : readScore (getTasteProfile storeGenre28Reconciled).genres "28" = -995 := by
    rw [getTasteProfile_storeGenre28Reconciled]
    simp [readScore_cons]
  refine ⟨?_, ?_, ?_, ?_⟩
  · rw [simple_profileGenre28]
    norm_num
  · rw [hread]
    norm_num
  · norm_num [scoreMediaItemSimple, itemGenre28, prefsDislike28, genreStep, languageStep,
      JsId.truthy, toKey_num_28, hread, ATTRIBUTE_WEIGHTS]
  · intro r hr name hgen
    obtain ⟨_, _, _, _, _, hscore, hpos⟩ := mem_results_getRecommendations hr
    rw [hscore, scoreMediaItemDetailed_eq, getExplicitPreferences_storeGenre28Reconciled] at hpos
    have hmult : 0 < genreMult prefsDislike28 ((r.details.genres.getD []).map (fun g => g.id))
        * languageMult prefsDislike28 r.details.original_language :=
      mul_pos (genreMult_pos _ _) (languageMult_pos _ _)
    have hsum : genreSum (getTasteProfile storeGenre28Reconciled)
          ((r.details.genres.getD []).map (fun g => g.id))
        + languageScore (getTasteProfile storeGenre28Reconciled) r.details.original_language
        + countrySum (getTasteProfile storeGenre28Reconciled)
            ((r.details.production_countries.getD []).map (fun c => c.iso_3166_1))
        + directorScore (getTasteProfile storeGenre28Reconciled) r.details.credits
        + castSum (getTasteProfile storeGenre28Reconciled) r.details.credits < 0 := by
      have h1 : genreSum (getTasteProfile storeGenre28Reconciled)
          ((r.details.genres.getD []).map (fun g => g.id)) = -995 * (3 / 2) := by
        rw [hgen]
        simp [genreSum, toKey_num_28, hread, ATTRIBUTE_WEIGHTS]
      have h2 : languageScore (getTasteProfile storeGenre28Reconciled)
          r.details.original_language = 0 :=
        languageScore_of_nil _ (by rw [getTasteProfile_storeGenre28Reconciled]; rfl) _
      have h3 : countrySum (getTasteProfile storeGenre28Reconciled)
          ((r.details.production_countries.getD []).map (fun c => c.iso_3166_1)) = 0 :=
        countrySum_of_nil _ (by rw [getTasteProfile_storeGenre28Reconciled]; rfl) _
      have h4 : directorScore (getTasteProfile storeGenre28Reconciled) r.details.credits = 0 :=
        directorScore_of_nil _ (by rw [getTasteProfile_storeGenre28Reconciled]; rfl) _
      have h5 : castSum (getTasteProfile storeGenre28Reconciled) r.details.credits = 0 :=
        castSum_of_nil _ (by rw [getTasteProfile_storeGenre28Reconciled]; rfl) _
      rw [h1, h2, h3, h4, h5]
      norm_num
    have := mul_neg_of_neg_of_pos hsum hmult
    linarith

/-- C4 (amended), at a concrete input: with the reconciled profile `{ genres: { 28: -995 } }` the
candidate with genre 28 scores at most the candidate without it. -/
theorem disliked_genre_dominance_amended_witness :
    readScore (getTasteProfile storeGenre28Reconciled).genres (JsId.num 28).toKey ≤ 0
    ∧ JsId.num 28 ∉ prefsDislike28.genres.liked
    ∧ scoreMediaItemSimple
          { itemGenre28 (JsId.num 7) with genre_ids := some ([] ++ JsId.num 28 :: []) }
          (getTasteProfile storeGenre28Reconciled) prefsDislike28
        ≤ scoreMediaItemSimple { itemGenre28 (JsId.num 7) with genre_ids := some ([] ++ []) }
            (getTasteProfile storeGenre28Reconciled) prefsDislike28 := by
  have h1 : readScore (getTasteProfile storeGenre28Reconciled).genres (JsId.num 28).toKey ≤ 0 := by
    rw [getTasteProfile_storeGenre28Reconciled, toKey_num_28]
    simp [readScore_cons]
  have h2 : JsId.num 28 ∉ prefsDislike28.genres.liked := by
    simp [prefsDislike28]
  exact ⟨h1, h2,
    (disliked_genre_dominance_amended (getTasteProfile storeGenre28Reconciled) prefsDislike28
      (JsId.num 28) h1 h2).1 (itemGenre28 (JsId.num 7)) [] []⟩

/-- The scorers over own keys and exact sums: against the zero-value profile both return 0, and
two profiles whose scores agree when an absent key is read as 0 give every candidate the same
score. Keys that name a member of `Object.prototype` are outside this model of the lookup. -/
theorem zero_profile_scoring_exact (item : MediaItem) (d : MediaDetails) (prefs : ExplicitPrefs) :
    scoreMediaItemSimple item TasteProfile.zero prefs = 0
    ∧ scoreMediaItemDetailed d TasteProfile.zero prefs = 0
    ∧ ∀ p q : TasteProfile, (∀ c k, p.score c k = q.score c k) →
        scoreMediaItemSimple item p prefs = scoreMediaItemSimple item q prefs
        ∧ scoreMediaItemDetailed d p prefs = scoreMediaItemDetailed d q prefs := by
  refine ⟨?_, ?_, ?_⟩
  · rw [scoreMediaItemSimple_eq, genreSum_of_nil _ rfl, languageScore_of_nil _ rfl,
      countrySum_of_nil _ rfl]
    ring
  · rw [scoreMediaItemDetailed_eq, genreSum_of_nil _ rfl, languageScore_of_nil _ rfl,
      countrySum_of_nil _ rfl, directorScore_of_nil _ rfl, castSum_of_nil _ rfl]
    ring
  · intro p q h
    have hg : ∀ k, readScore p.genres k = readScore q.genres k := fun k => h .genres k
    have ha : ∀ k, readScore p.actors k = readScore q.actors k := fun k => h .actors k
    have hd : ∀ k, readScore p.directors k = readScore q.directors k := fun k => h .directors k
    have hl : ∀ k, readScore p.languages k = readScore q.languages k := fun k => h .languages k
    have hc : ∀ k, readScore p.countries k = readScore q.countries k := fun k => h .countries k
    constructor
    · simp only [scoreMediaItemSimple_eq, genreSum, languageScore, countrySum, hg, hl, hc]
    · simp only [scoreMediaItemDetailed_eq, genreSum, languageScore, countrySum, directorScore,
        castSum, hg, hl, hc, hd, ha]

/-- The zero-value profile and a profile that stores genre 28 with score 0 give the same scores
over own keys and exact sums. -/
theorem zero_profile_scoring_exact_example :
    scoreMediaItemSimple (itemGenre28 (JsId.num 7)) TasteProfile.zero prefsDislike28
        = scoreMediaItemSimple (itemGenre28 (JsId.num 7))
            { TasteProfile.zero with genres := [("28", 0)] } prefsDislike28
    ∧ scoreMediaItemDetailed (detailsGenre28 (JsId.num 7)) TasteProfile.zero prefsDislike28
        = scoreMediaItemDetailed (detailsGenre28 (JsId.num 7))
            { TasteProfile.zero with genres := [("28", 0)] } prefsDislike28 :=
  (zero_profile_scoring_exact (itemGenre28 (JsId.num 7)) (detailsGenre28 (JsId.num 7)) prefsDislike28).2.2
    TasteProfile.zero { TasteProfile.zero with genres := [("28", 0)] }
    (by
      intro c k
      cases c <;> simp [TasteProfile.score, TasteProfile.cat, TasteProfile.zero, readScore_cons,
        readScore_nil])

/-! ## Properties of the recommendation assembler -/

theorem hasProfile_eq_false {p : TasteProfile} (h : ∀ c, p.cat c = []) : hasProfile p = false := by
  have hg := h .genres
  have ha := h .actors
  have hd := h .directors
  have hl := h .languages
  have hc := h .countries
  have hy := h .years
  simp only [TasteProfile.cat] at hg ha hd hl hc hy
  simp [hasProfile, hg, ha, hd, hl, hc, hy]

/-- C6 (empty-profile short-circuit): when every category mapping of the stored profile is empty,
`getRecommendations` returns `{ results: [], page: 1, total_pages: 0 }` for every media type, count
and page, and issues no discovery request and no detail request. -/
theorem empty_profile_short_circuit (discover : DiscoverOracle) (fetch : DetailsOracle) (st : Store)
    (watchlist : Watchlist) (mediaType : String) (count page : Int)
    (h : ∀ c, (getTasteProfile st).cat c = []) :
    getRecommendations discover fetch st watchlist mediaType count page
      = ({ results := [], page := 1, total_pages := 0 }, []) := by
  unfold getRecommendations
  simp [hasProfile_eq_false h]

/-- C6, at a concrete input: `getRecommendations('movie', 20, 1)` on an absent profile. -/
theorem empty_profile_short_circuit_witness :
    (∀ c, (getTasteProfile { tasteProfile := none, localExplicitPreferences := prefsDislike28 }).cat c
        = [])
    ∧ getRecommendations (discoverFirstPage [itemGenre28 (JsId.num 7)]) fetchGenre28
        { tasteProfile := none, localExplicitPreferences := prefsDislike28 } [] "movie" 20 1
      = ({ results := [], page := 1, total_pages := 0 }, []) :=
  have h : ∀ c,
      (getTasteProfile { tasteProfile := none, localExplicitPreferences := prefsDislike28 }).cat c
        = [] := by
    intro c
    cases c <;> rfl
  ⟨h, empty_profile_short_circuit _ _ _ _ _ _ _ h⟩

/-- C8 (de-duplication): for every candidate pool, the de-duplicated list built by
`getRecommendations` has exactly one entry for each distinct item id of the pool (its ids have no
duplicate and are the ids of the pool), and each entry is the last item of the pool with its id
(last-fetched wins). -/
theorem deduplication_last_wins (pool : List MediaItem) :
    ((uniqueCandidates pool).map (fun x => x.id)).Nodup
    ∧ (∀ id, id ∈ (uniqueCandidates pool).map (fun x => x.id) ↔ id ∈ pool.map (fun x => x.id))
    ∧ (∀ item ∈ uniqueCandidates pool, lastWithId pool item.id = some item) := by
  refine ⟨?_, ?_, ?_⟩
  · rw [ids_uniqueCandidates]
    exact nodup_keys_mapOfEntries _
  · intro id
    rw [ids_uniqueCandidates, keys_mapOfEntries, List.map_map]
    rfl
  · intro item hitem
    unfold uniqueCandidates at hitem
    rw [List.mem_map] at hitem
    obtain ⟨e, he, rfl⟩ := hitem
    have hin := mem_mapOfEntries _ e he
    rw [List.mem_map] at hin
    obtain ⟨x, _, hx⟩ := hin
    have hget := mapGet_of_mem (nodup_keys_mapOfEntries _) he
    rw [lastWithId_eq] at hget
    rw [← hx] at hget ⊢
    exact hget

theorem simple_tvItem550 :
    scoreMediaItemSimple tvItem550 profileGenre28 prefsDislike28 = 15 / 2 := by
  norm_num [scoreMediaItemSimple, tvItem550, itemGenre28, prefsDislike28, genreStep,
    languageStep, JsId.truthy, readScore_profileGenre28, ATTRIBUTE_WEIGHTS]

theorem seenKey_itemGenre28_551 : seenKey (itemGenre28 (JsId.num 551)) "movie" = "movie:551" := by
  decide

theorem seenKey_itemGenre28_550 : seenKey (itemGenre28 (JsId.num 550)) "movie" = "movie:550" := by
  decide

theorem seenKey_itemGenre28_7 : seenKey (itemGenre28 (JsId.num 7)) "movie" = "movie:7" := by
  decide

theorem seenKey_tvItem550 : seenKey tvItem550 "movie" = "tv:550" := by
  decide

/-- C7 (counterexample): the watchlist contains `movie:550`, yet a result with id 550 and media
type `movie` is returned, (a) when the detail response to the request for the unseen id 551
carries the id 550, and (b) when the discovery item with id 550 carries `media_type: 'tv'`, so
that the key tested against the watchlist is `tv:550`. -/
theorem already_seen_exclusion_counterexample :
    "movie:550" ∈ watchlist550.map (fun e => e.1)
    ∧ (getRecommendations (discoverFirstPage [itemGenre28 (JsId.num 551)]) fetchAlways550
          storeGenre28 watchlist550 "movie" 20 1).1.results
        = [{ details := detailsGenre28 (JsId.num 550), media_type := "movie",
             recommendationScore := 15 / 2 }]
    ∧ (getRecommendations (discoverFirstPage [tvItem550]) fetchGenre28
          storeGenre28 watchlist550 "movie" 20 1).1.results
        = [{ details := detailsGenre28 (JsId.num 550), media_type := "movie",
             recommendationScore := 15 / 2 }] := by
  refine ⟨by decide, ?_, ?_⟩
  · simp [getRecommendations, getTasteProfile, getExplicitPreferences, storeGenre28,
      hasProfile_profileGenre28, discoverLoop, discoverStep, discoverMedia, discoverFirstPage,
      uniqueCandidates, mapOfEntries, mapSet, filteredCandidates, preliminaryScored,
      simple_profileGenre28, promisingCandidates, sliceTo, finalScoredCandidates, getMediaDetails,
      fetchAlways550, detailed_profileGenre28, JsId.truthy, mediaTypeOf, itemGenre28_id,
      itemGenre28_media_type, detailsGenre28_first_air_date, watchlist550, seenKey_itemGenre28_551]
  · have hid : tvItem550.id = JsId.num 550 := rfl
    have hty : tvItem550.media_type = some "tv" := rfl
    simp [getRecommendations, getTasteProfile, getExplicitPreferences, storeGenre28,
      hasProfile_profileGenre28, discoverLoop, discoverStep, discoverMedia, discoverFirstPage,
      uniqueCandidates, mapOfEntries, mapSet, filteredCandidates, preliminaryScored,
      simple_tvItem550, promisingCandidates, sliceTo, finalScoredCandidates, getMediaDetails,
      fetchGenre28, detailed_profileGenre28, JsId.truthy, mediaTypeOf, hid, hty,
      detailsGenre28_first_air_date, watchlist550, seenKey_tvItem550]

/-- C7 (amended): provided that every successful detail response carries the id that was
requested and that every discovery item's own `media_type`, when it has one, is the requested
media type, for every watchlist that contains the key `${mediaType}:${id}` no item whose id
converts to the same key as `id` appears in the results of `getRecommendations` called with
`mediaType`. -/
theorem already_seen_exclusion_amended (discover : DiscoverOracle) (fetch : DetailsOracle)
    (st : Store) (watchlist : Watchlist) (mediaType : String) (count page : Int)
    (hfetch : ∀ mediaId ty d, fetch mediaId ty = some d → d.id = mediaId)
    (hdisc : ∀ filters i data items, discover mediaType filters i = some data →
      data.results = some items → ∀ item ∈ items, mediaTypeOf item mediaType = mediaType)
    (id : JsId) (hseen : mediaType ++ ":" ++ id.toKey ∈ watchlist.map (fun e => e.1)) :
    ∀ r ∈ (getRecommendations discover fetch st watchlist mediaType count page).1.results,
      r.details.id.toKey ≠ id.toKey := by
  intro r hr hkey
  obtain ⟨item, hitem, hnotseen, _, hf, _, _⟩ := mem_results_getRecommendations hr
  obtain ⟨i, data, items, hd, hres, hmem⟩ := mem_candidatePool (mem_uniqueCandidates hitem)
  have hty := hdisc _ i data items hd hres item hmem
  have hid := hfetch _ _ _ hf
  apply hnotseen
  unfold seenKey
  rw [hty, ← hid, hkey]
  exact hseen

/-- C7 (amended), at a concrete input: the discovery page holds the unseen id 7 and the seen id
550, every detail response carries the requested id, and the result with id 550 is not returned. -/
theorem already_seen_exclusion_amended_witness :
    (∀ mediaId ty d, fetchGenre28 mediaId ty = some d → d.id = mediaId)
    ∧ "movie" ++ ":" ++ (JsId.num 550).toKey ∈ watchlist550.map (fun e => e.1)
    ∧ (getRecommendations (discoverFirstPage [itemGenre28 (JsId.num 550), itemGenre28 (JsId.num 7)])
          fetchGenre28 storeGenre28 watchlist550 "movie" 20 1).1.results
        = [{ details := detailsGenre28 (JsId.num 7), media_type := "movie",
             recommendationScore := 15 / 2 }]
    ∧ ∀ r ∈ (getRecommendations
          (discoverFirstPage [itemGenre28 (JsId.num 550), itemGenre28 (JsId.num 7)])
          fetchGenre28 storeGenre28 watchlist550 "movie" 20 1).1.results,
        r.details.id.toKey ≠ (JsId.num 550).toKey := by
  have hfetch : ∀ mediaId ty d, fetchGenre28 mediaId ty = some d → d.id = mediaId := by
    intro mediaId ty d h
    simp only [fetchGenre28, Option.some.injEq] at h
    rw [← h]
    rfl
  have hdisc : ∀ filters i data items,
      discoverFirstPage [itemGenre28 (JsId.num 550), itemGenre28 (JsId.num 7)] "movie" filters i
        = some data →
      data.results = some items → ∀ item ∈ items, mediaTypeOf item "movie" = "movie" := by
    intro filters i data items hd hres item hitem
    unfold discoverFirstPage at hd
    split at hd
    · simp only [Option.some.injEq] at hd
      rw [← hd] at hres
      simp only [Option.some.injEq] at hres
      rw [← hres] at hitem
      simp only [List.mem_cons, List.mem_singleton, List.not_mem_nil, or_false] at hitem
      rcases hitem with h | h <;> rw [h] <;> rfl
    · cases hd
  have hseen : "movie" ++ ":" ++ (JsId.num 550).toKey ∈ watchlist550.map (fun e => e.1) := by
    decide
  refine ⟨hfetch, hseen, ?_,
    already_seen_exclusion_amended _ _ _ _ _ _ _ hfetch hdisc (JsId.num 550) hseen⟩
  simp [getRecommendations, getTasteProfile, getExplicitPreferences, storeGenre28,
    hasProfile_profileGenre28, discoverLoop, discoverStep, discoverMedia, discoverFirstPage,
    uniqueCandidates, mapOfEntries, mapSet, filteredCandidates, preliminaryScored,
    simple_profileGenre28, promisingCandidates, sliceTo, finalScoredCandidates, getMediaDetails,
    fetchGenre28, detailed_profileGenre28, JsId.truthy, mediaTypeOf, itemGenre28_id,
    itemGenre28_media_type, detailsGenre28_first_air_date, watchlist550, seenKey_itemGenre28_550,
    seenKey_itemGenre28_7]

/-! ## Properties of the preference store -/

/-- The typed reading agrees with the raw one: a slot that parses to the encoding of a profile
is read back as that encoding, and an absent slot as the encoding of the zero-value profile. -/
theorem getTasteProfileRaw_encodeProfile (parse : String → Option JsonValue) (s : String)
    (p : TasteProfile) (hs : s ≠ "") (hp : parse s = some (encodeProfile p)) :
    getTasteProfileRaw parse (some s) = encodeProfile p
    ∧ getTasteProfileRaw parse none = encodeProfile TasteProfile.zero := by
  constructor
  · simp [getTasteProfileRaw, getTasteProfileTry, hs, hp, encodeProfile, JsonValue.prop,
      List.lookup, orEmptyObject, encodeScoreMap, JsonValue.truthy]
  · simp [getTasteProfileRaw, getTasteProfileTry, encodeProfile, JsonValue.prop,
      List.lookup, orEmptyObject, encodeScoreMap, TasteProfile.zero]

/-- C9 (zero-value load): when the profile slot is absent or its content is not parseable JSON,
`getTasteProfile` returns the structure with the six categories present and empty; and for every
content of the slot, parseable or not, it returns (never raising) an object with exactly the six
categories `genres`, `actors`, `directors`, `languages`, `countries`, `years`. -/
theorem zero_value_load (parse : String → Option JsonValue) (slot : Option String) :
    ((slot = none ∨ ∃ s, slot = some s ∧ parse s = none) →
        getTasteProfileRaw parse slot = zeroProfileJson)
    ∧ ∃ g a d l c y, getTasteProfileRaw parse slot
        = JsonValue.obj [("genres", g), ("actors", a), ("directors", d), ("languages", l),
            ("countries", c), ("years", y)] := by
  constructor
  · rintro (h | ⟨s, hs, hp⟩)
    · subst h
      simp [getTasteProfileRaw, getTasteProfileTry, zeroProfileJson, JsonValue.prop, orEmptyObject]
    · subst hs
      by_cases he : s = ""
      · simp [getTasteProfileRaw, getTasteProfileTry, he, zeroProfileJson, JsonValue.prop,
          orEmptyObject]
      · simp [getTasteProfileRaw, getTasteProfileTry, he, hp]
  · unfold getTasteProfileRaw
    cases h : getTasteProfileTry parse slot with
    | error e => exact ⟨_, _, _, _, _, _, rfl⟩
    | ok v =>
      unfold getTasteProfileTry at h
      simp only at h
      split at h
      · cases h
      · cases h
      · simp only [Except.ok.injEq] at h
        exact ⟨_, _, _, _, _, _, h.symm⟩

/-- C9, at a concrete input: a slot whose text does not parse is read as the zero-value
structure. -/
theorem zero_value_load_witness :
    getTasteProfileRaw (fun _ => none) (some "not json") = zeroProfileJson :=
  (zero_value_load (fun _ => none) (some "not json")).1 (Or.inr ⟨"not json", rfl, rfl⟩)

/-! ## Properties of saving explicit preferences -/

/-- In exact arithmetic, starting from a cleared state, after any sequence of
`saveExplicitPreferences` calls whose remote writes succeed, interleaved with
`updateTasteProfile` calls, every score of the stored profile is the sum of the interaction
contributions plus the explicit contribution of the last saved preferences only. In binary64
the additions are rounded and the equality can fail. -/
theorem explicit_implicit_consistency_exact (uid : String) (remote : RemoteWrite) (fetch : DetailsOracle)
    (st0 : Store) (events : List ProfileEvent)
    (hok : ∀ P ∈ savedPrefs events, remote P = none) (c : Category) (k : String) :
    (getTasteProfile (runEvents (some uid) remote fetch (clearTasteProfile st0) events)).score c k
      = interactionSum fetch events c k
        + explicitShift (lastSaved ExplicitPrefs.default events) c k := by
  have h := (runEvents_invariant uid remote fetch events (clearTasteProfile st0) hok).2 c k
  rw [h]
  have hz : (getTasteProfile (clearTasteProfile st0)).score c k = 0 := by
    cases c <;> rfl
  have hd : (clearTasteProfile st0).localExplicitPreferences = ExplicitPrefs.default := rfl
  rw [hz, hd, explicitShift_default]
  ring

theorem itemCoef_detailsGenre28 (id : JsId) :
    itemCoef (detailsGenre28 id) Category.genres "28" = 3 / 2 := by
  simp [itemCoef, detailsGenre28, hitsList, hits, JsId.truthy, toKey_num_28, directorCoef,
    findDirector, topCast, decadeCoef, releaseDateOf, ATTRIBUTE_WEIGHTS]

/-- In exact arithmetic, after saving the dislike of genre 28, watching an item of genre 28 and
saving the like of genre 28, the stored score of genre 28 is `2 * 1.5 + 20`: the -1000 of the
first save is gone. -/
theorem explicit_implicit_consistency_exact_example :
    (getTasteProfile (runEvents (some "u1") (fun _ => none) fetchGenre28
        (clearTasteProfile storeGenre28) eventsDislikeWatchLike)).score Category.genres "28"
      = 2 * (3 / 2) + 20 := by
  rw [explicit_implicit_consistency_exact "u1" (fun _ => none) fetchGenre28 storeGenre28
    eventsDislikeWatchLike (fun _ _ => rfl)]
  have h1 : interactionSum fetchGenre28 eventsDislikeWatchLike Category.genres "28" = 2 * (3 / 2) := by
    simp [interactionSum, eventsDislikeWatchLike, updateContribution, resolvedDetails,
      actionScore_watched, actionScore_none, itemCoef_detailsGenre28]
  have h2 : explicitShift (lastSaved ExplicitPrefs.default eventsDislikeWatchLike)
      Category.genres "28" = 20 := by
    simp [lastSaved, eventsDislikeWatchLike, explicitShift, prefsShift, prefsLike28, hitsList, hits,
      JsId.truthy, toKey_num_28, EXPLICIT_WEIGHTS]
  rw [h1, h2]

/-- C12 (save failure is atomic and surfaced): if the remote write fails with `error`, the store
after `saveExplicitPreferences` (cached preferences and stored profile) is the store before the
call, and the call fails with `error`. -/
theorem save_failure_atomic (uid : String) (remote : RemoteWrite) (st : Store)
    (newPrefs : ExplicitPrefs) (error : String) (h : remote newPrefs = some error) :
    (saveExplicitPreferences (some uid) remote st newPrefs).1.localExplicitPreferences
        = st.localExplicitPreferences
    ∧ (saveExplicitPreferences (some uid) remote st newPrefs).1.tasteProfile = st.tasteProfile
    ∧ (saveExplicitPreferences (some uid) remote st newPrefs).2 = Except.error error := by
  unfold saveExplicitPreferences
  simp [h, getExplicitPreferences]

/-- C12, at a concrete input: a failing remote write leaves `storeGenre28` as it was. -/
theorem save_failure_atomic_witness :
    (saveExplicitPreferences (some "u1") (fun _ => some "unavailable") storeGenre28
        prefsLike28).1.localExplicitPreferences = storeGenre28.localExplicitPreferences
    ∧ (saveExplicitPreferences (some "u1") (fun _ => some "unavailable") storeGenre28
        prefsLike28).1.tasteProfile = storeGenre28.tasteProfile
    ∧ (saveExplicitPreferences (some "u1") (fun _ => some "unavailable") storeGenre28
        prefsLike28).2 = Except.error "unavailable" :=
  save_failure_atomic "u1" (fun _ => some "unavailable") storeGenre28 prefsLike28 "unavailable" rfl

/-! ## Lemmas on the bulk profile builder -/

theorem actionScore_some (s : String) : actionScore (some s) = (ACTION_WEIGHTS s).getD 0 := by
  unfold actionScore knownAction
  dsimp only
  by_cases h : s ≠ "" ∧ (ACTION_WEIGHTS s).isSome = true
  · rw [if_pos h]
  · rw [if_neg h]
    dsimp only
    by_cases hs : s = ""
    · subst hs
      simp [ACTION_WEIGHTS]
    · have hn : ¬ (ACTION_WEIGHTS s).isSome = true := fun hh => h ⟨hs, hh⟩
      cases hw : ACTION_WEIGHTS s with
      | none => rfl
      | some w => simp [hw] at hn

theorem score_applyScoresToProfile_one (p : TasteProfile) (s : String) (d : MediaDetails)
    (c : Category) (k : String) :
    (applyScoresToProfile p s (some d) 1).score c k
      = p.score c k + actionScore (some s) * itemCoef d c k := by
  rw [actionScore_some]
  cases hw : ACTION_WEIGHTS s with
  | none =>
    rw [applyScoresToProfile_unknown _ _ _ _ hw]
    simp
  | some w =>
    rw [score_applyScoresToProfile _ _ _ _ _ hw]
    simp

theorem actionScore_remove : actionScore (some "remove") = 0 := by
  rw [actionScore_some, ACTION_WEIGHTS_remove]
  rfl

theorem actionScore_empty : actionScore (some "") = 0 := by
  rw [actionScore_some]
  simp [ACTION_WEIGHTS]

theorem score_processEntry (p : TasteProfile) (itemData : WatchlistEntry) (d : MediaDetails)
    (c : Category) (k : String) :
    (processEntry p itemData d).score c k = p.score c k + entryWeight itemData * itemCoef d c k := by
  unfold processEntry entryWeight
  have hstatus : (match itemData.status with
      | some status =>
        if status ≠ "" ∧ status ≠ "remove" then applyScoresToProfile p status (some d) 1 else p
      | none => p).score c k = p.score c k + actionScore itemData.status * itemCoef d c k := by
    cases hs : itemData.status with
    | none => simp [actionScore_none]
    | some status =>
      dsimp only
      by_cases hc : status ≠ "" ∧ status ≠ "remove"
      · rw [if_pos hc, score_applyScoresToProfile_one]
      · rw [if_neg hc]
        by_cases he : status = ""
        · subst he
          simp [actionScore_empty]
        · have hr : status = "remove" := by
            by_contra hne
            exact hc ⟨he, hne⟩
          subst hr
          simp [actionScore_remove]
  cases hr : ratingActionOf itemData.userRating with
  | none =>
    simp only [hstatus, actionScore_none]
    ring
  | some ratingAction =>
    simp only [score_applyScoresToProfile_one, hstatus]
    ring

theorem score_libraryProfile (fetch : DetailsOracle) (library : Watchlist) :
    ∀ (p : TasteProfile) (c : Category) (k : String),
      (libraryProfile fetch p library).score c k
        = p.score c k + (library.map (fun e => entryContribution fetch e c k)).sum := by
  induction library with
  | nil =>
    intro p c k
    simp [libraryProfile]
  | cons e library ih =>
    intro p c k
    unfold libraryProfile at ih ⊢
    rw [List.foldl_cons, ih, List.map_cons, List.sum_cons]
    unfold entryContribution
    cases hd : entryDetails fetch e with
    | none =>
      simp only
      ring
    | some d =>
      simp only [score_processEntry]
      ring

theorem buildLoop_profile (n : Nat)
    (xs : List ((String × WatchlistEntry) × Option MediaDetails)) :
    ∀ (i : Nat) (s : BuildState),
      ((xs.enumFrom i).foldl (buildStep n) s).profile
        = xs.foldl (fun p x =>
            match x.2 with
            | some mediaDetails => processEntry p x.1.2 mediaDetails
            | none => p) s.profile := by
  induction xs with
  | nil =>
    intro i s
    rfl
  | cons x xs ih =>
    intro i s
    rw [List.enumFrom_cons, List.foldl_cons, List.foldl_cons, ih]
    rfl

theorem foldl_zip_map {α β γ : Type} (g : α → β) (F : γ → α → β → γ) (xs : List α) :
    ∀ acc : γ, (xs.zip (xs.map g)).foldl (fun a x => F a x.1 x.2) acc
      = xs.foldl (fun a e => F a e (g e)) acc := by
  induction xs with
  | nil =>
    intro acc
    rfl
  | cons x xs ih =>
    intro acc
    simp only [List.map_cons, List.zip_cons_cons, List.foldl_cons, ih]

theorem getTasteProfile_clear (st : Store) :
    getTasteProfile (clearTasteProfile st) = TasteProfile.zero := rfl

/-- The profile read back after a bulk build by an authenticated user. -/
theorem getTasteProfile_build (uid : String) (fetch : DetailsOracle) (st : Store)
    (library : Watchlist) (explicitPrefs : Option ExplicitPrefs) :
    getTasteProfile (buildInitialProfileFromLibrary (some uid) fetch st library explicitPrefs).store
      = applyBuildPrefs (libraryProfile fetch TasteProfile.zero library) explicitPrefs := by
  unfold buildInitialProfileFromLibrary
  simp only
  have hz : ∀ prefs : Option ExplicitPrefs,
      getTasteProfile (match prefs with
        | some p => { clearTasteProfile st with localExplicitPreferences := p }
        | none => clearTasteProfile st) = TasteProfile.zero := by
    intro prefs
    cases prefs <;> rfl
  by_cases hlen : library.length = 0
  · have hnil : library = [] := List.length_eq_zero.mp hlen
    subst hnil
    simp only [List.length_nil, if_true]
    cases explicitPrefs with
    | none => rfl
    | some prefs => rfl
  · simp only [hlen, if_false]
    simp only [getTasteProfile, saveTasteProfile]
    congr 1
    rw [List.enum, buildLoop_profile]
    simp only [List.map_map]
    have := foldl_zip_map (fun e => entryDetails fetch e)
      (fun (p : TasteProfile) (e : String × WatchlistEntry) (r : Option MediaDetails) =>
        match r with
        | some mediaDetails => processEntry p e.2 mediaDetails
        | none => p) library
    have hz' := hz explicitPrefs
    simp only [getTasteProfile] at hz'
    rw [hz']
    exact this TasteProfile.zero

/-- The cached preferences after a bulk build by an authenticated user. -/
theorem cache_build (uid : String) (fetch : DetailsOracle) (st : Store) (library : Watchlist)
    (explicitPrefs : Option ExplicitPrefs) :
    (buildInitialProfileFromLibrary (some uid) fetch st library
        explicitPrefs).store.localExplicitPreferences
      = explicitPrefs.getD ExplicitPrefs.default := by
  unfold buildInitialProfileFromLibrary
  cases explicitPrefs <;> by_cases h : library.length = 0 <;>
    simp [h, saveTasteProfile, clearTasteProfile]

theorem migrationFlag_build (uid : String) (fetch : DetailsOracle) (st : Store)
    (library : Watchlist) (explicitPrefs : Option ExplicitPrefs) :
    (buildInitialProfileFromLibrary (some uid) fetch st library explicitPrefs).migrationFlag
      = true := by
  unfold buildInitialProfileFromLibrary
  by_cases h : library.length = 0 <;> simp [h]

/-- The profile slot after a bulk build by an authenticated user: nothing is saved when the
library is empty and no preferences were passed. -/
theorem slot_build (uid : String) (fetch : DetailsOracle) (st : Store) (library : Watchlist)
    (explicitPrefs : Option ExplicitPrefs) :
    (buildInitialProfileFromLibrary (some uid) fetch st library explicitPrefs).store.tasteProfile
      = if library = [] ∧ explicitPrefs = none then none
        else some (applyBuildPrefs (libraryProfile fetch TasteProfile.zero library) explicitPrefs) := by
  by_cases hl : library = []
  · subst hl
    cases explicitPrefs with
    | none => rfl
    | some prefs => rfl
  · have hne : ¬ (library = [] ∧ explicitPrefs = none) := fun h => hl h.1
    rw [if_neg hne, ← getTasteProfile_build uid fetch st library explicitPrefs]
    have hlen : ¬ library.length = 0 := fun h => hl (List.length_eq_zero.mp h)
    unfold buildInitialProfileFromLibrary
    simp [hlen, saveTasteProfile, getTasteProfile]

theorem score_applyBuildPrefs (p : TasteProfile) (explicitPrefs : Option ExplicitPrefs)
    (c : Category) (k : String) :
    (applyBuildPrefs p explicitPrefs).score c k = p.score c k + buildPrefsShift explicitPrefs c k := by
  unfold applyBuildPrefs buildPrefsShift
  cases explicitPrefs with
  | none => simp
  | some prefs => simp only [score_applyPrefsWith, explicitShift]

/-- The scores stored by a bulk build: the contributions of the entries plus the explicit
contribution of the preferences passed. -/
theorem score_build (uid : String) (fetch : DetailsOracle) (st : Store) (library : Watchlist)
    (explicitPrefs : Option ExplicitPrefs) (c : Category) (k : String) :
    (getTasteProfile
        (buildInitialProfileFromLibrary (some uid) fetch st library explicitPrefs).store).score c k
      = (library.map (fun e => entryContribution fetch e c k)).sum
        + buildPrefsShift explicitPrefs c k := by
  rw [getTasteProfile_build, score_applyBuildPrefs, score_libraryProfile]
  have : TasteProfile.zero.score c k = 0 := by
    cases c <;> rfl
  rw [this]
  ring


/-! ## Properties of the explicit preference reconciler -/

theorem cat_updateScore_other (p : TasteProfile) {c c' : Category} (h : c' ≠ c) (id : JsId)
    (w : ℚ) : (updateScore p c id w).cat c' = p.cat c' := by
  unfold updateScore
  split
  · rfl
  · rw [cat_setCat, if_neg h]

theorem cat_foldl_updateScore_other {α : Type} {c c' : Category} (h : c' ≠ c) (f : α → JsId)
    (w : ℚ) (xs : List α) (p : TasteProfile) :
    (xs.foldl (fun p x => updateScore p c (f x) w) p).cat c' = p.cat c' := by
  induction xs generalizing p with
  | nil => rfl
  | cons x xs ih => rw [List.foldl_cons, ih, cat_updateScore_other p h]

theorem cat_applyPrefsWith_other (p : TasteProfile) (prefs : ExplicitPrefs) (wl wd wg : ℚ)
    {c : Category} (hg : c ≠ Category.genres) (hl : c ≠ Category.languages) :
    (applyPrefsWith p prefs wl wd wg).cat c = p.cat c := by
  unfold applyPrefsWith
  simp only
  rw [cat_foldl_updateScore_other hl, cat_foldl_updateScore_other hg,
    cat_foldl_updateScore_other hg]

theorem explicitShift_eq (prefs : ExplicitPrefs) (c : Category) (k : String) :
    explicitShift prefs c k
      = match c with
        | .genres => 20 * (keyCount prefs.genres.liked k : ℚ)
            - 1000 * (keyCount prefs.genres.disliked k : ℚ)
        | .languages => 15 * (keyCount prefs.languages k : ℚ)
        | _ => 0 := by
  unfold explicitShift prefsShift
  cases c <;> simp [hitsList_same, hitsList_other, EXPLICIT_WEIGHTS]
  ring

/-- C17 (counterexample): starting from `{ genres: { 28: 5 } }`, a genre listed as liked and as
disliked gets `5 + 20 - 1000`, neither `5 + 20` nor `5 - 1000`; a liked genre with the id `0` gets
nothing; a genre listed twice as liked gets `5 + 40`. -/
theorem reconciler_definition_counterexample :
    (getTasteProfile (applyExplicitPreferencesToProfile storeGenre28 prefsLikeDislike28 none)).score
        Category.genres "28" = 5 + 20 - 1000
    ∧ (getTasteProfile (applyExplicitPreferencesToProfile storeGenre28 prefsLike0 none)).score
        Category.genres (JsId.num 0).toKey
      = (getTasteProfile storeGenre28).score Category.genres (JsId.num 0).toKey
    ∧ (getTasteProfile (applyExplicitPreferencesToProfile storeGenre28 prefsLike28Twice none)).score
        Category.genres "28" = 5 + 40 := by
  have h5 : (getTasteProfile storeGenre28).score Category.genres "28" = 5 := by
    have := readScore_profileGenre28
    rw [toKey_num_28] at this
    exact this
  refine ⟨?_, ?_, ?_⟩
  · rw [score_applyExplicitPreferencesToProfile, explicitShift_eq, h5]
    simp [prefsLikeDislike28, keyCount, JsId.truthy, toKey_num_28]
    norm_num
  · rw [score_applyExplicitPreferencesToProfile, explicitShift_eq]
    simp [prefsLike0, keyCount, JsId.truthy]
  · rw [score_applyExplicitPreferencesToProfile, explicitShift_eq, h5]
    simp [prefsLike28Twice, keyCount, JsId.truthy, toKey_num_28]
    norm_num

/-- C17 (amended): for every stored profile `p` and preference set `N`,
`applyExplicitPreferencesToProfile(N, null)` adds to `genres[k]` 20 for every entry of
`N.genres.liked` and -1000 for every entry of `N.genres.disliked`, and to `languages[k]` 15 for
every entry of `N.languages`, counting the entries that are truthy and convert to the key `k`
(absent keys read as 0): a genre listed once, as liked only, gets `p.genres[g] + 20`, one listed
once, as disliked only, `p.genres[g] - 1000`. Every other key, and the actors, directors,
countries and years mappings, are unchanged. -/
theorem reconciler_definition_amended (st : Store) (N : ExplicitPrefs) (k : String) :
    (getTasteProfile (applyExplicitPreferencesToProfile st N none)).score Category.genres k
        = (getTasteProfile st).score Category.genres k + 20 * keyCount N.genres.liked k
          - 1000 * keyCount N.genres.disliked k
    ∧ (getTasteProfile (applyExplicitPreferencesToProfile st N none)).score Category.languages k
        = (getTasteProfile st).score Category.languages k + 15 * keyCount N.languages k
    ∧ (getTasteProfile (applyExplicitPreferencesToProfile st N none)).actors
        = (getTasteProfile st).actors
    ∧ (getTasteProfile (applyExplicitPreferencesToProfile st N none)).directors
        = (getTasteProfile st).directors
    ∧ (getTasteProfile (applyExplicitPreferencesToProfile st N none)).countries
        = (getTasteProfile st).countries
    ∧ (getTasteProfile (applyExplicitPreferencesToProfile st N none)).years
        = (getTasteProfile st).years := by
  refine ⟨?_, ?_, ?_, ?_, ?_, ?_⟩
  · rw [score_applyExplicitPreferencesToProfile, explicitShift_eq]
    ring
  · rw [score_applyExplicitPreferencesToProfile, explicitShift_eq]
    ring
  · exact cat_applyPrefsWith_other _ N _ _ _ (c := Category.actors) (by decide) (by decide)
  · exact cat_applyPrefsWith_other _ N _ _ _ (c := Category.directors) (by decide) (by decide)
  · exact cat_applyPrefsWith_other _ N _ _ _ (c := Category.countries) (by decide) (by decide)
  · exact cat_applyPrefsWith_other _ N _ _ _ (c := Category.years) (by decide) (by decide)

/-- C17 (amended), at a concrete input: liking genre 28 on `{ genres: { 28: 5 } }` stores
`5 + 20` and leaves the key `12` at 0. -/
theorem reconciler_definition_amended_witness :
    (getTasteProfile (applyExplicitPreferencesToProfile storeGenre28 prefsLike28 none)).score
        Category.genres "28" = 5 + 20
    ∧ (getTasteProfile (applyExplicitPreferencesToProfile storeGenre28 prefsLike28 none)).score
        Category.genres "12" = 0 := by
  have h5 : (getTasteProfile storeGenre28).score Category.genres "28" = 5 := by
    have := readScore_profileGenre28
    rw [toKey_num_28] at this
    exact this
  have h12 : (getTasteProfile storeGenre28).score Category.genres "12" = 0 := by
    simp [getTasteProfile, storeGenre28, profileGenre28, TasteProfile.score, TasteProfile.cat,
      readScore_cons, readScore_nil]
  constructor
  · rw [(reconciler_definition_amended storeGenre28 prefsLike28 "28").1, h5]
    simp [prefsLike28, keyCount, JsId.truthy, toKey_num_28]
  · rw [(reconciler_definition_amended storeGenre28 prefsLike28 "12").1, h12]
    simp [prefsLike28, keyCount, JsId.truthy, toKey_num_28]

/-! ## Properties of the bulk profile builder -/

theorem libraryProfile_filter (fetch : DetailsOracle) (library : Watchlist) :
    ∀ p : TasteProfile,
      libraryProfile fetch p (library.filter (fun e => (entryDetails fetch e).isSome))
        = libraryProfile fetch p library := by
  induction library with
  | nil =>
    intro p
    rfl
  | cons e library ih =>
    intro p
    cases hd : entryDetails fetch e with
    | none =>
      have hstep : libraryProfile fetch p (e :: library) = libraryProfile fetch p library := by
        simp only [libraryProfile, List.foldl_cons, hd]
      rw [List.filter_cons_of_neg (by simp [hd]), ih, hstep]
    | some d =>
      rw [List.filter_cons_of_pos (by simp [hd])]
      have hstep : ∀ l : Watchlist, libraryProfile fetch p (e :: l)
          = libraryProfile fetch (processEntry p e.2 d) l := by
        intro l
        simp only [libraryProfile, List.foldl_cons, hd]
      rw [hstep, hstep, ih]

theorem entryDetails_movie7 :
    entryDetails fetchGenre28 entryWatchedRated9 = some (detailsGenre28 (JsId.str "7")) := by
  have hk : splitKey entryWatchedRated9.1 = ("movie", JsId.str "7") := by decide
  unfold entryDetails
  rw [hk]
  simp [getMediaDetails, JsId.truthy, fetchGenre28]

/-- C18 (bulk build applies status and rating signals independently): the scores stored by
`buildInitialProfileFromLibrary` are, per key, the sum over the library entries whose details were
fetched of (weight of the entry's status, 0 unless it is a known action other than `remove`, plus
weight of its rating action) times what the item contributes per unit, plus the explicit
contribution of the preferences passed; the rating action is `rated_high` (weight 3) for a rating
`>= 8`, `rated_low` (weight -2) for a rating `<= 4` (a rating of 0 being no rating) and none
for ratings strictly between 4 and 8; so a `watched` entry rated 9 weighs `(2 + 3) * 1.5 = 7.5`
on each of its genres. -/
theorem bulk_build_status_and_rating (uid : String) (fetch : DetailsOracle) (st : Store)
    (library : Watchlist) (explicitPrefs : Option ExplicitPrefs) (c : Category) (k : String) :
    (getTasteProfile
        (buildInitialProfileFromLibrary (some uid) fetch st library explicitPrefs).store).score c k
      = (library.map (fun e =>
          match entryDetails fetch e with
          | some mediaDetails =>
            (actionScore e.2.status + actionScore (ratingActionOf e.2.userRating))
              * itemCoef mediaDetails c k
          | none => 0)).sum
        + buildPrefsShift explicitPrefs c k
    ∧ (∀ r : ℚ, 8 ≤ r → ratingActionOf (some r) = some "rated_high")
    ∧ (∀ r : ℚ, r ≤ 4 → r ≠ 0 → ratingActionOf (some r) = some "rated_low")
    ∧ (∀ r : ℚ, 4 < r → r < 8 → ratingActionOf (some r) = none)
    ∧ ratingActionOf none = none
    ∧ actionScore (some "rated_high") = 3
    ∧ actionScore (some "rated_low") = -2
    ∧ (actionScore (some "watched") + actionScore (ratingActionOf (some 9))) * (3 / 2) = 15 / 2 := by
  have hhigh : ∀ r : ℚ, 8 ≤ r → ratingActionOf (some r) = some "rated_high" := by
    intro r hr
    have h0 : r ≠ 0 := by
      intro h
      rw [h] at hr
      norm_num at hr
    simp [ratingActionOf, h0, hr]
  have hh : actionScore (some "rated_high") = 3 := by
    simp [actionScore_some, ACTION_WEIGHTS]
  refine ⟨?_, hhigh, ?_, ?_, rfl, hh, ?_, ?_⟩
  · rw [score_build]
    rfl
  · intro r hr h0
    have h8 : ¬ 8 ≤ r := by
      intro h
      linarith
    simp [ratingActionOf, h0, hr, h8]
  · intro r h4 h8
    have h4' : ¬ r ≤ 4 := not_le.mpr h4
    have h8' : ¬ 8 ≤ r := not_le.mpr h8
    simp [ratingActionOf, h4', h8']
  · simp [actionScore_some, ACTION_WEIGHTS]
  · rw [hhigh 9 (by norm_num), hh, actionScore_watched]
    norm_num

/-- C18, at a concrete input: a library whose only entry is `watched` and rated 9, with one
genre 28, stores 7.5 for that genre. -/
theorem bulk_build_status_and_rating_witness :
    (getTasteProfile
        (buildInitialProfileFromLibrary (some "u1") fetchGenre28 storeGenre28 [entryWatchedRated9]
          none).store).score Category.genres "28" = 15 / 2 := by
  rw [(bulk_build_status_and_rating "u1" fetchGenre28 storeGenre28 [entryWatchedRated9] none
    Category.genres "28").1]
  have hr : ratingActionOf entryWatchedRated9.2.userRating = some "rated_high" := by
    simp [ratingActionOf, entryWatchedRated9]
    norm_num
  have hs : entryWatchedRated9.2.status = some "watched" := rfl
  have hh : actionScore (some "rated_high") = 3 := by
    simp [actionScore_some, ACTION_WEIGHTS]
  simp only [List.map_cons, List.map_nil, List.sum_cons, List.sum_nil, entryDetails_movie7, hr, hs,
    hh, actionScore_watched, itemCoef_detailsGenre28, buildPrefsShift]
  norm_num

/-- C19 (bulk build tolerates fetch failures): for every library and every outcome of the detail
fetches, `buildInitialProfileFromLibrary` completes (for an authenticated user it writes the
migration flag) and the profile read back from the store, and the cached preferences, are those
of a build over the library restricted to the entries whose fetch succeeded; a failed entry
contributes no score. The profile slots themselves are equal unless every fetch of a non-empty
library fails and no preferences were passed: then the full build stores the zero-value profile
where the restricted build, over an empty library, stores nothing, which reads back the same. -/
theorem bulk_build_tolerates_fetch_failures (user : Option String) (fetch : DetailsOracle)
    (st : Store) (library : Watchlist) (explicitPrefs : Option ExplicitPrefs) :
    getTasteProfile (buildInitialProfileFromLibrary user fetch st library explicitPrefs).store
        = getTasteProfile
            (buildInitialProfileFromLibrary user fetch st
              (library.filter (fun e => (entryDetails fetch e).isSome)) explicitPrefs).store
    ∧ (buildInitialProfileFromLibrary user fetch st library explicitPrefs).store.localExplicitPreferences
        = (buildInitialProfileFromLibrary user fetch st
              (library.filter (fun e => (entryDetails fetch e).isSome))
              explicitPrefs).store.localExplicitPreferences
    ∧ (user.isSome = true →
        (buildInitialProfileFromLibrary user fetch st library explicitPrefs).migrationFlag = true)
    ∧ (∀ e ∈ library, entryDetails fetch e = none → ∀ c k, entryContribution fetch e c k = 0)
    ∧ (explicitPrefs.isSome = true
          ∨ library.filter (fun e => (entryDetails fetch e).isSome) ≠ [] ∨ library = [] →
        (buildInitialProfileFromLibrary user fetch st library explicitPrefs).store.tasteProfile
          = (buildInitialProfileFromLibrary user fetch st
              (library.filter (fun e => (entryDetails fetch e).isSome))
              explicitPrefs).store.tasteProfile) := by
  refine ⟨?_, ?_, ?_, ?_, ?_⟩
  · cases user with
    | none => rfl
    | some uid => rw [getTasteProfile_build, getTasteProfile_build, libraryProfile_filter]
  · cases user with
    | none => rfl
    | some uid => rw [cache_build, cache_build]
  · intro hu
    cases user with
    | none => simp at hu
    | some uid => exact migrationFlag_build uid fetch st library explicitPrefs
  · intro e _ hd c k
    simp [entryContribution, hd]
  · intro hcase
    cases user with
    | none => rfl
    | some uid =>
      rw [slot_build, slot_build, libraryProfile_filter]
      rcases hcase with hp | hf | hl
      · have hne : explicitPrefs ≠ none := by
          intro h
          rw [h] at hp
          simp at hp
        simp [hne]
      · have hl : library ≠ [] := by
          intro h
          rw [h] at hf
          simp at hf
        simp [hf, hl]
      · subst hl
        simp

theorem entryDetails_except9_movie7 :
    entryDetails fetchGenre28Except9 entryWatchedRated9 = some (detailsGenre28 (JsId.str "7")) := by
  have hk : splitKey entryWatchedRated9.1 = ("movie", JsId.str "7") := by decide
  unfold entryDetails
  rw [hk]
  simp [getMediaDetails, JsId.truthy, fetchGenre28Except9, fetchGenre28]

theorem entryDetails_except9_movie9 :
    entryDetails fetchGenre28Except9 entryWatchlistRated3 = none := by
  have hk : splitKey entryWatchlistRated3.1 = ("movie", JsId.str "9") := by decide
  unfold entryDetails
  rw [hk]
  simp [getMediaDetails, JsId.truthy, fetchGenre28Except9]

/-- C19, at a concrete input: the fetch for `movie:9` fails, and the build over both entries
stores the profile of the build over `movie:7` alone. -/
theorem bulk_build_tolerates_fetch_failures_witness :
    [entryWatchedRated9, entryWatchlistRated3].filter
        (fun e => (entryDetails fetchGenre28Except9 e).isSome) = [entryWatchedRated9]
    ∧ getTasteProfile
        (buildInitialProfileFromLibrary (some "u1") fetchGenre28Except9 storeGenre28
          [entryWatchedRated9, entryWatchlistRated3] (some prefsLike28)).store
      = getTasteProfile
        (buildInitialProfileFromLibrary (some "u1") fetchGenre28Except9 storeGenre28
          [entryWatchedRated9] (some prefsLike28)).store := by
  have hf : [entryWatchedRated9, entryWatchlistRated3].filter
      (fun e => (entryDetails fetchGenre28Except9 e).isSome) = [entryWatchedRated9] := by
    simp [List.filter, entryDetails_except9_movie7, entryDetails_except9_movie9]
  refine ⟨hf, ?_⟩
  have h := (bulk_build_tolerates_fetch_failures (some "u1") fetchGenre28Except9 storeGenre28
    [entryWatchedRated9, entryWatchlistRated3] (some prefsLike28)).1
  rw [hf] at h
  exact h

/-- In exact arithmetic, the profile stored by `buildInitialProfileFromLibrary` has the same score
for every key of every category for every permutation of the library entries. In binary64 the
additions are rounded in iteration order and the equality can fail. -/
theorem bulk_build_order_independent_exact (user : Option String) (fetch : DetailsOracle) (st : Store)
    (library permuted : Watchlist) (explicitPrefs : Option ExplicitPrefs)
    (h : library.Perm permuted) (c : Category) (k : String) :
    (getTasteProfile
        (buildInitialProfileFromLibrary user fetch st library explicitPrefs).store).score c k
      = (getTasteProfile
          (buildInitialProfileFromLibrary user fetch st permuted explicitPrefs).store).score c k := by
  cases user with
  | none => rfl
  | some uid =>
    rw [score_build, score_build]
    rw [(h.map (fun e => entryContribution fetch e c k)).sum_eq]

/-- In exact arithmetic, the two orders of a library of two entries give genre 28 the same
score. -/
theorem bulk_build_order_independent_exact_example :
    (getTasteProfile
        (buildInitialProfileFromLibrary (some "u1") fetchGenre28 storeGenre28
          [entryWatchedRated9, entryWatchlistRated3] (some prefsLike28)).store).score
        Category.genres "28"
      = (getTasteProfile
          (buildInitialProfileFromLibrary (some "u1") fetchGenre28 storeGenre28
            [entryWatchlistRated3, entryWatchedRated9] (some prefsLike28)).store).score
          Category.genres "28" :=
  bulk_build_order_independent_exact (some "u1") fetchGenre28 storeGenre28
    [entryWatchedRated9, entryWatchlistRated3] [entryWatchlistRated3, entryWatchedRated9]
    (some prefsLike28) (List.Perm.swap _ _ _) Category.genres "28"

/-- C21 (bulk build is from scratch): for an authenticated user and a fixed library, fetched
details and explicit preferences, everything `buildInitialProfileFromLibrary` leaves behind (the
stored profile, the explicit-preference cache, the progress reports and the requests) is the
same whatever profile and cache were stored before the call; and for an empty library the stored
profile is exactly the explicit preferences applied to the zero-value profile (nothing is stored
when no preferences are passed). -/
theorem bulk_build_from_scratch (uid : String) (fetch : DetailsOracle) (library : Watchlist)
    (explicitPrefs : Option ExplicitPrefs) (st st' : Store) :
    buildInitialProfileFromLibrary (some uid) fetch st library explicitPrefs
        = buildInitialProfileFromLibrary (some uid) fetch st' library explicitPrefs
    ∧ (buildInitialProfileFromLibrary (some uid) fetch st [] explicitPrefs).store.tasteProfile
        = explicitPrefs.map (fun prefs =>
            applyPrefsWith TasteProfile.zero prefs EXPLICIT_WEIGHTS.liked_genre
              EXPLICIT_WEIGHTS.disliked_genre EXPLICIT_WEIGHTS.language)
    ∧ getTasteProfile (buildInitialProfileFromLibrary (some uid) fetch st [] explicitPrefs).store
        = applyBuildPrefs TasteProfile.zero explicitPrefs
    ∧ (buildInitialProfileFromLibrary (some uid) fetch st library
          explicitPrefs).store.localExplicitPreferences
        = explicitPrefs.getD ExplicitPrefs.default := by
  have hclear : clearTasteProfile st = clearTasteProfile st' := rfl
  refine ⟨?_, ?_, ?_, cache_build uid fetch st library explicitPrefs⟩
  · unfold buildInitialProfileFromLibrary
    simp only [hclear]
  · cases explicitPrefs with
    | none => rfl
    | some prefs => rfl
  · rw [getTasteProfile_build]
    rfl

/-! ## Progress of the bulk profile builder -/

theorem buildLoop_percentages (n : Nat)
    (xs : List ((String × WatchlistEntry) × Option MediaDetails)) :
    ∀ (i : Nat) (s : BuildState),
      ((xs.enumFrom i).foldl (buildStep n) s).progress.map (fun x => x.1)
        = s.progress.map (fun x => x.1) ++ (List.range' i xs.length).map (itemPercent n) := by
  induction xs with
  | nil =>
    intro i s
    simp
  | cons x xs ih =>
    intro i s
    rw [List.enumFrom_cons, List.foldl_cons, ih, List.length_cons, List.range'_succ]
    simp [buildStep, itemPercent]

theorem percentages_build_empty (uid : String) (fetch : DetailsOracle) (st : Store)
    (explicitPrefs : Option ExplicitPrefs) :
    percentages (buildInitialProfileFromLibrary (some uid) fetch st [] explicitPrefs) = [0, 100] := by
  rfl

theorem percentages_build_nonempty (uid : String) (fetch : DetailsOracle) (st : Store)
    (library : Watchlist) (explicitPrefs : Option ExplicitPrefs) (h : library ≠ []) :
    percentages (buildInitialProfileFromLibrary (some uid) fetch st library explicitPrefs)
      = [0, 20] ++ (List.range library.length).map (itemPercent library.length) ++ [95, 100] := by
  have hlen : ¬ library.length = 0 := fun hl => h (List.length_eq_zero.mp hl)
  unfold percentages buildInitialProfileFromLibrary
  simp only [hlen, if_false, List.map_append, List.enum, buildLoop_percentages]
  simp [List.range_eq_range']

theorem mathRound_mono {x y : ℚ} (h : x ≤ y) : mathRound x ≤ mathRound y := by
  unfold mathRound
  exact Int.floor_mono (by linarith)

theorem fadd_natCast_one (i : Nat) (h : i < 2 ^ 53) : fadd (i : ℚ) 1 = (i : ℚ) + 1 := by
  unfold fadd
  have e : (i : ℚ) + 1 = ((i + 1 : Nat) : Int) := by push_cast; ring
  rw [e]
  apply round64_intCast
  rw [abs_of_nonneg (by positivity)]
  have : i + 1 ≤ 2 ^ 53 := h
  exact_mod_cast this

theorem round64_one : round64 1 = 1 := by
  have := round64_intCast 1 (by norm_num)
  simpa using this

theorem round64_seventy : round64 70 = 70 := by
  have := round64_intCast 70 (by norm_num)
  simpa using this

theorem itemPercent_bounds (n i : Nat) (h : i < n) (hn : n < 2 ^ 53) :
    20 ≤ itemPercent n i ∧ itemPercent n i ≤ 90 := by
  have hn0 : (0 : ℚ) < n := by
    have : 0 < n := by omega
    exact_mod_cast this
  have hi : ((i : ℚ) + 1) ≤ n := by
    have : i + 1 ≤ n := h
    exact_mod_cast this
  have hq0 : 0 ≤ fdiv ((i : ℚ) + 1) n := round64_nonneg (by positivity)
  have hq1 : fdiv ((i : ℚ) + 1) n ≤ 1 := by
    have := round64_mono ((div_le_one hn0).mpr hi)
    rw [round64_one] at this
    exact this
  have hx0 : 0 ≤ fmul (fdiv ((i : ℚ) + 1) n) 70 := round64_nonneg (by positivity)
  have hx1 : fmul (fdiv ((i : ℚ) + 1) n) 70 ≤ 70 := by
    have : fdiv ((i : ℚ) + 1) n * 70 ≤ 70 := by linarith
    have := round64_mono this
    rw [round64_seventy] at this
    exact this
  unfold itemPercent mathRound
  rw [fadd_natCast_one i (by omega)]
  constructor
  · have : 0 ≤ Int.floor (fmul (fdiv ((i : ℚ) + 1) n) 70 + 1 / 2) :=
      Int.floor_nonneg.mpr (by linarith)
    linarith
  · have : Int.floor (fmul (fdiv ((i : ℚ) + 1) n) 70 + 1 / 2) < 71 := by
      rw [Int.floor_lt]
      push_cast
      linarith
    linarith

theorem itemPercent_mono (n : Nat) {i j : Nat} (h : i ≤ j) :
    itemPercent n i ≤ itemPercent n j := by
  unfold itemPercent
  have hij : (i : ℚ) + 1 ≤ (j : ℚ) + 1 := by
    have : (i : ℚ) ≤ j := by exact_mod_cast h
    linarith
  have hn : (0 : ℚ) ≤ n := by positivity
  have h1 : fadd (i : ℚ) 1 ≤ fadd (j : ℚ) 1 := round64_mono hij
  have h2 : fdiv (fadd (i : ℚ) 1) n ≤ fdiv (fadd (j : ℚ) 1) n :=
    round64_mono (div_le_div_of_nonneg_right h1 hn)
  have h3 : fmul (fdiv (fadd (i : ℚ) 1) n) 70 ≤ fmul (fdiv (fadd (j : ℚ) 1) n) 70 :=
    round64_mono (mul_le_mul_of_nonneg_right h2 (by norm_num))
  have := mathRound_mono h3
  linarith

theorem pairwise_itemPercent (n : Nat) :
    ((List.range n).map (itemPercent n)).Pairwise (fun a b => a ≤ b) := by
  rw [List.pairwise_map]
  exact (List.pairwise_lt_range n).imp (fun h => itemPercent_mono n (Nat.le_of_lt h))

theorem itemPercent_two_zero : itemPercent 2 0 = 55 := by
  have h1 : fadd ((0 : Nat) : ℚ) 1 = 1 := by
    rw [fadd_natCast_one 0 (by norm_num)]
    norm_num
  have h2 : fdiv 1 ((2 : Nat) : ℚ) = 1 / 2 := by
    unfold fdiv
    exact round64_exact 1 (-1) (by norm_num) (by norm_num)
  have h3 : fmul (1 / 2) 70 = 35 := by
    unfold fmul
    have := round64_intCast 35 (by norm_num)
    norm_num at this ⊢
    exact this
  unfold itemPercent
  rw [h1, h2, h3]
  unfold mathRound
  have : ⌊(35 : ℚ) + 1 / 2⌋ = 35 := by
    rw [Int.floor_eq_iff]
    norm_num
  rw [this]
  rfl

theorem itemPercent_two_one : itemPercent 2 1 = 90 := by
  have h1 : fadd ((1 : Nat) : ℚ) 1 = 2 := by
    rw [fadd_natCast_one 1 (by norm_num)]
    norm_num
  have h2 : fdiv 2 ((2 : Nat) : ℚ) = 1 := by
    unfold fdiv
    have := round64_one
    norm_num at this ⊢
    exact this
  have h3 : fmul 1 70 = 70 := by
    unfold fmul
    have := round64_seventy
    norm_num at this ⊢
    exact this
  unfold itemPercent
  rw [h1, h2, h3]
  unfold mathRound
  have : ⌊(70 : ℚ) + 1 / 2⌋ = 70 := by
    rw [Int.floor_eq_iff]
    norm_num
  rw [this]
  rfl

/-- The entry of index 46 of a library of 140 entries reports 43: `(47 / 140) * 70` is
`23.499999999999996` in binary64, where the exact quotient gives `23.5`. -/
theorem itemPercent_140_46 : itemPercent 140 46 = 43 := by
  have h1 : fadd ((46 : Nat) : ℚ) 1 = 47 := by
    rw [fadd_natCast_one 46 (by norm_num)]
    norm_num
  have h2 : fdiv 47 ((140 : Nat) : ℚ) = 6047690928183237 / 18014398509481984 := by
    unfold fdiv
    rw [round64_eq (-2) 6047690928183237 (by norm_num) (by norm_num)
      (by rw [abs_lt]; constructor <;> norm_num)]
    norm_num
  have h3 : fmul (6047690928183237 / 18014398509481984) 70
      = 6614661952700415 / 281474976710656 := by
    unfold fmul
    rw [round64_eq 4 6614661952700415 (by norm_num) (by norm_num)
      (by rw [abs_lt]; constructor <;> norm_num)]
    norm_num
  unfold itemPercent
  rw [h1, h2, h3]
  unfold mathRound
  have : ⌊(6614661952700415 / 281474976710656 : ℚ) + 1 / 2⌋ = 23 := by
    rw [Int.floor_eq_iff]
    constructor <;> norm_num
  rw [this]
  rfl

/-- C22 (bulk build progress is monotone): for an authenticated user and every library of `n`
entries (an array, so `n < 2^32`), the percentages passed to `progressCallback` are
non-decreasing, start at 0 and end at 100; they are 0, 20, then
`20 + Math.round(((i + 1) / n) * 70)` for each entry, computed in binary64, which stays between
20 and 90, then 95 and 100; for an empty library they are 0 then 100. -/
theorem bulk_build_progress_monotone (uid : String) (fetch : DetailsOracle) (st : Store)
    (library : Watchlist) (explicitPrefs : Option ExplicitPrefs)
    (hlen : library.length < 2 ^ 32) :
    (percentages (buildInitialProfileFromLibrary (some uid) fetch st library explicitPrefs)).Pairwise
        (fun a b => a ≤ b)
    ∧ (percentages
        (buildInitialProfileFromLibrary (some uid) fetch st library explicitPrefs)).head? = some 0
    ∧ (percentages
        (buildInitialProfileFromLibrary (some uid) fetch st library explicitPrefs)).getLast?
        = some 100
    ∧ (library = [] →
        percentages (buildInitialProfileFromLibrary (some uid) fetch st library explicitPrefs)
          = [0, 100])
    ∧ (library ≠ [] →
        percentages (buildInitialProfileFromLibrary (some uid) fetch st library explicitPrefs)
          = [0, 20]
            ++ (List.range library.length).map
                (fun (i : Nat) =>
                  20 + mathRound (fmul (fdiv (fadd (i : ℚ) 1) (library.length : ℚ)) 70))
            ++ [95, 100])
    ∧ ∀ i : Nat, i < library.length →
        20 ≤ 20 + mathRound (fmul (fdiv (fadd (i : ℚ) 1) (library.length : ℚ)) 70)
        ∧ 20 + mathRound (fmul (fdiv (fadd (i : ℚ) 1) (library.length : ℚ)) 70) ≤ 90 := by
  have hlen53 : library.length < 2 ^ 53 := lt_trans hlen (by norm_num)
  by_cases hl : library = []
  · subst hl
    rw [percentages_build_empty]
    refine ⟨by simp, rfl, rfl, fun _ => rfl, fun h => absurd rfl h, ?_⟩
    intro i hi
    simp at hi
  · have hp := percentages_build_nonempty uid fetch st library explicitPrefs hl
    rw [hp]
    have hb : ∀ x ∈ (List.range library.length).map (itemPercent library.length),
        20 ≤ x ∧ x ≤ 90 := by
      intro x hx
      rw [List.mem_map] at hx
      obtain ⟨i, hi, rfl⟩ := hx
      exact itemPercent_bounds _ _ (List.mem_range.mp hi) hlen53
    refine ⟨?_, ?_, ?_, fun h => absurd h hl, fun _ => rfl, ?_⟩
    · rw [List.pairwise_append, List.pairwise_append]
      refine ⟨⟨by simp, pairwise_itemPercent _, ?_⟩, by simp, ?_⟩
      · intro a ha b hb'
        have := (hb b hb').1
        simp only [List.mem_cons, List.mem_singleton, List.not_mem_nil, or_false] at ha
        rcases ha with rfl | rfl <;> omega
      · intro a ha b hb'
        simp only [List.mem_cons, List.mem_singleton, List.not_mem_nil, or_false] at hb'
        rw [List.mem_append] at ha
        rcases ha with ha | ha
        · simp only [List.mem_cons, List.mem_singleton, List.not_mem_nil, or_false] at ha
          rcases ha with rfl | rfl <;> rcases hb' with rfl | rfl <;> omega
        · have := (hb a ha).2
          rcases hb' with rfl | rfl <;> omega
    · simp
    · have hsplit : [0, 20] ++ (List.range library.length).map (itemPercent library.length)
          ++ [95, 100]
          = ([0, 20] ++ (List.range library.length).map (itemPercent library.length) ++ [95])
            ++ [100] := by
        simp
      rw [hsplit, List.getLast?_concat]
    · intro i hi
      exact itemPercent_bounds _ _ hi hlen53

/-- C22, at a concrete input: a library of two entries reports 0, 20, 55, 90, 95, 100. -/
theorem bulk_build_progress_monotone_witness :
    [entryWatchedRated9, entryWatchlistRated3].length < 2 ^ 32
    ∧ percentages
        (buildInitialProfileFromLibrary (some "u1") fetchGenre28 storeGenre28
          [entryWatchedRated9, entryWatchlistRated3] none)
      = [0, 20, 55, 90, 95, 100] := by
  have h := (bulk_build_progress_monotone "u1" fetchGenre28 storeGenre28
    [entryWatchedRated9, entryWatchlistRated3] none (by norm_num)).2.2.2.2.1 (by simp)
  refine ⟨by norm_num, ?_⟩
  rw [h]
  have h0 := itemPercent_two_zero
  have h1 := itemPercent_two_one
  unfold itemPercent at h0 h1
  simp only [List.length_cons, List.length_nil, List.range_succ, List.range_zero, List.nil_append,
    List.map_append, List.map_cons, List.map_nil, List.cons_append] at h0 h1 ⊢
  norm_num at h0 h1 ⊢
  exact ⟨h0, h1⟩

/-! ## The scorers against the formulas of the specification -/

theorem specPass1Sum_eq (genreIds : List JsId) (language : JsId) (countryCodes : List JsId)
    (p : TasteProfile) :
    specPass1Sum genreIds language countryCodes p
      = genreSum p genreIds + languageScore p language + countrySum p countryCodes := by
  simp [specPass1Sum, genreSum, languageScore, countrySum, TasteProfile.score, TasteProfile.cat,
    ATTRIBUTE_WEIGHTS]

theorem specMultiplier_eq (genreIds : List JsId) (language : JsId) (prefs : ExplicitPrefs) :
    specMultiplier genreIds language prefs
      = genreMult prefs genreIds * languageMult prefs language := by
  simp [specMultiplier, genreMult, languageMult, PREF_MULTIPLIERS]

/-- C23 (pass-1 score definition): for every shallow item, profile and explicit preferences,
`scoreMediaItemSimple` returns the sum over the item's genre ids of `profile.genres[id] * 1.5`,
plus `profile.languages[original_language] * 1.0` when the item has a language, plus the sum over
its origin countries of `profile.countries[code] * 0.8`, the whole multiplied by 1.5 for each
genre id of the item that is in the liked genres and by 1.2 if the item's language is in the
preferred languages, absent profile keys read as 0. -/
theorem pass1_score_definition (item : MediaItem) (p : TasteProfile) (prefs : ExplicitPrefs) :
    scoreMediaItemSimple item p prefs
      = ((((item.genre_ids.getD []).map
              (fun g => p.score Category.genres g.toKey * (3 / 2))).sum
          + (if item.original_language.truthy = true then
              p.score Category.languages item.original_language.toKey * 1
             else 0)
          + ((item.origin_country.getD []).map
              (fun c => p.score Category.countries c.toKey * (4 / 5))).sum)
        * (((item.genre_ids.getD []).map
              (fun g => if g ∈ prefs.genres.liked then (3 / 2 : ℚ) else 1)).prod
            * (if item.original_language.truthy = true
                  ∧ item.original_language ∈ prefs.languages then 6 / 5
               else 1)))
    ∧ scoreMediaItemSimple item p prefs
      = specPass1Score (item.genre_ids.getD []) item.original_language
          (item.origin_country.getD []) p prefs := by
  have h : scoreMediaItemSimple item p prefs
      = specPass1Score (item.genre_ids.getD []) item.original_language
          (item.origin_country.getD []) p prefs := by
    rw [scoreMediaItemSimple_eq, specPass1Score, specPass1Sum_eq, specMultiplier_eq]
  exact ⟨h, h⟩

/-- C24 (pass-2 score definition): for every details object, profile and explicit preferences,
`scoreMediaItemDetailed` equals the pass-1 sum over the item's genres, original language and
production countries, plus `profile.directors[id] * 1.2` for the first crew member whose job is
`Director` and `profile.actors[id] * 1.0` for each of the first 5 cast members only, the whole
sum multiplied by the same liked-genre/preferred-language multiplier; and for an item without
credits it equals `scoreMediaItemSimple` on the corresponding shallow item. -/
theorem pass2_score_definition (d : MediaDetails) (p : TasteProfile) (prefs : ExplicitPrefs) :
    scoreMediaItemDetailed d p prefs = specPass2Score d p prefs
    ∧ (d.credits = none →
        scoreMediaItemDetailed d p prefs = scoreMediaItemSimple (shallowOf d) p prefs) := by
  constructor
  · rw [scoreMediaItemDetailed_eq, specPass2Score, specPass1Sum_eq, specMultiplier_eq]
    unfold directorScore castSum
    cases findDirector d.credits <;>
      simp [TasteProfile.score, TasteProfile.cat, ATTRIBUTE_WEIGHTS]
  · intro hc
    rw [scoreMediaItemDetailed_eq, scoreMediaItemSimple_eq]
    have hdir : directorScore p d.credits = 0 := by
      simp [directorScore, hc, findDirector]
    have hcast : castSum p d.credits = 0 := by
      simp [castSum, hc, topCast]
    have hg : (shallowOf d).genre_ids.getD [] = (d.genres.getD []).map (fun g => g.id) := by
      cases hgs : d.genres <;> simp [shallowOf, hgs]
    have hco : (shallowOf d).origin_country.getD []
        = (d.production_countries.getD []).map (fun c => c.iso_3166_1) := by
      cases hcs : d.production_countries <;> simp [shallowOf, hcs]
    have hl : (shallowOf d).original_language = d.original_language := rfl
    rw [hdir, hcast, hg, hco, hl]
    ring

/-- C24, at a concrete input: the details object with the single genre 28 and no credits scores
as its shallow item does. -/
theorem pass2_score_definition_witness :
    scoreMediaItemDetailed (detailsGenre28 (JsId.num 7)) profileGenre28 prefsLike28
      = scoreMediaItemSimple (shallowOf (detailsGenre28 (JsId.num 7))) profileGenre28 prefsLike28 :=
  (pass2_score_definition (detailsGenre28 (JsId.num 7)) profileGenre28 prefsLike28).2 rfl

/-! ## Shape of the recommendation page -/

theorem getRecommendations_of_hasProfile (discover : DiscoverOracle) (fetch : DetailsOracle)
    (st : Store) (watchlist : Watchlist) (mediaType : String) (count page : Int)
    (h : hasProfile (getTasteProfile st) = true) :
    getRecommendations discover fetch st watchlist mediaType count page
      = ({ results := sliceTo
              ((pass2List discover fetch st watchlist mediaType count page).insertionSort
                (fun a b => b.recommendationScore ≤ a.recommendationScore)) count,
           page := page,
           total_pages := Int.fdiv
              (discoverLoop discover mediaType (buildDiscoverFilters (getExplicitPreferences st))
                page).totalPagesFromDiscover 2 },
         (discoverLoop discover mediaType (buildDiscoverFilters (getExplicitPreferences st))
              page).requests
           ++ (finalScoredCandidates fetch (getTasteProfile st) (getExplicitPreferences st)
                (promisingCandidates (pass1List discover st watchlist mediaType page) count)).2) := by
  unfold getRecommendations
  simp only [h, Bool.not_true, Bool.false_eq_true, if_false]
  rfl

theorem getRecommendations_of_not_hasProfile (discover : DiscoverOracle) (fetch : DetailsOracle)
    (st : Store) (watchlist : Watchlist) (mediaType : String) (count page : Int)
    (h : hasProfile (getTasteProfile st) = false) :
    getRecommendations discover fetch st watchlist mediaType count page
      = ({ results := [], page := 1, total_pages := 0 }, []) := by
  unfold getRecommendations
  simp [h]

theorem sliceTo_of_nonneg {α : Type} (xs : List α) {e : Int} (h : 0 ≤ e) :
    sliceTo xs e = xs.take e.toNat := by
  unfold sliceTo
  rw [if_neg (not_lt.mpr h)]

theorem results_finalScoredCandidates (fetch : DetailsOracle) (p : TasteProfile)
    (prefs : ExplicitPrefs) (cands : List ScoredItem) :
    (finalScoredCandidates fetch p prefs cands).1 = cands.filterMap (detailedOf fetch p prefs) := by
  induction cands with
  | nil => rfl
  | cons c rest ih =>
    rw [List.filterMap_cons, ← ih]
    unfold detailedOf
    simp only [finalScoredCandidates]
    cases h : (getMediaDetails fetch c.item.id c.media_type).1 with
    | none => simp
    | some d =>
      by_cases hs : scoreMediaItemDetailed d p prefs > 0
      · simp [hs]
      · simp [hs]


theorem sorted_desc_insertionSort (l : List Recommendation) :
    (l.insertionSort (fun a b => b.recommendationScore ≤ a.recommendationScore)).Pairwise
      (fun a b => b.recommendationScore ≤ a.recommendationScore) := by
  haveI : IsTotal Recommendation (fun a b => b.recommendationScore ≤ a.recommendationScore) :=
    ⟨fun a b => le_total b.recommendationScore a.recommendationScore⟩
  haveI : IsTrans Recommendation (fun a b => b.recommendationScore ≤ a.recommendationScore) :=
    ⟨fun _ _ _ hab hbc => le_trans hbc hab⟩
  exact List.sorted_insertionSort _ l

theorem sorted_desc_preliminary (l : List ScoredItem) :
    (l.insertionSort (fun a b => b.preliminaryScore ≤ a.preliminaryScore)).Pairwise
      (fun a b => b.preliminaryScore ≤ a.preliminaryScore) := by
  haveI : IsTotal ScoredItem (fun a b => b.preliminaryScore ≤ a.preliminaryScore) :=
    ⟨fun a b => le_total b.preliminaryScore a.preliminaryScore⟩
  haveI : IsTrans ScoredItem (fun a b => b.preliminaryScore ≤ a.preliminaryScore) :=
    ⟨fun _ _ _ hab hbc => le_trans hbc hab⟩
  exact List.sorted_insertionSort _ l

/-- C25 (final result shape): for every profile, discovery and detail response and every count
`>= 0`, the results of `getRecommendations(mediaType, count, page)` are, for a non-empty profile,
exactly the first `count` entries of the detailed candidates stably sorted by descending score,
the detailed candidates being the details of the promising candidates whose fetch succeeded and
whose pass-2 score is `> 0`; there are at most `count` results, each carries its pass-2 score,
which is `> 0`, and the scores are non-increasing along the list. -/
theorem final_result_shape (discover : DiscoverOracle) (fetch : DetailsOracle) (st : Store)
    (watchlist : Watchlist) (mediaType : String) (count page : Int) (hcount : 0 ≤ count) :
    (hasProfile (getTasteProfile st) = true →
        (getRecommendations discover fetch st watchlist mediaType count page).1.results
          = ((pass2List discover fetch st watchlist mediaType count page).insertionSort
              (fun a b => b.recommendationScore ≤ a.recommendationScore)).take count.toNat
        ∧ ((pass2List discover fetch st watchlist mediaType count page).insertionSort
              (fun a b => b.recommendationScore ≤ a.recommendationScore)).Perm
            (pass2List discover fetch st watchlist mediaType count page))
    ∧ pass2List discover fetch st watchlist mediaType count page
        = (promisingCandidates (pass1List discover st watchlist mediaType page) count).filterMap
            (detailedOf fetch (getTasteProfile st) (getExplicitPreferences st))
    ∧ (((getRecommendations discover fetch st watchlist mediaType count page).1.results.length
          : Int) ≤ count)
    ∧ (∀ r ∈ (getRecommendations discover fetch st watchlist mediaType count page).1.results,
        0 < r.recommendationScore
        ∧ r.recommendationScore
            = scoreMediaItemDetailed r.details (getTasteProfile st) (getExplicitPreferences st))
    ∧ (getRecommendations discover fetch st watchlist mediaType count page).1.results.Pairwise
        (fun a b => b.recommendationScore ≤ a.recommendationScore) := by
  refine ⟨?_, results_finalScoredCandidates _ _ _ _, ?_, ?_, ?_⟩
  · intro h
    rw [getRecommendations_of_hasProfile _ _ _ _ _ _ _ h]
    exact ⟨sliceTo_of_nonneg _ hcount, List.perm_insertionSort _ _⟩
  · cases h : hasProfile (getTasteProfile st) with
    | false =>
      rw [getRecommendations_of_not_hasProfile _ _ _ _ _ _ _ h]
      simpa using hcount
    | true =>
      rw [getRecommendations_of_hasProfile _ _ _ _ _ _ _ h]
      simp only [sliceTo_of_nonneg _ hcount, List.length_take]
      omega
  · intro r hr
    obtain ⟨_, _, _, _, _, hscore, hpos⟩ := mem_results_getRecommendations hr
    exact ⟨hpos, hscore⟩
  · cases h : hasProfile (getTasteProfile st) with
    | false =>
      rw [getRecommendations_of_not_hasProfile _ _ _ _ _ _ _ h]
      exact List.Pairwise.nil
    | true =>
      rw [getRecommendations_of_hasProfile _ _ _ _ _ _ _ h]
      simp only [sliceTo_of_nonneg _ hcount]
      exact (sorted_desc_insertionSort _).sublist (List.take_sublist _ _)

/-- C25, at a concrete input: two candidates with the same positive score and `count = 1`; the
single result is the first of them. -/
theorem final_result_shape_witness :
    (0 : Int) ≤ 1
    ∧ (getRecommendations
          (discoverFirstPage [itemGenre28 (JsId.num 551), itemGenre28 (JsId.num 552)]) fetchGenre28
          storeGenre28 [] "movie" 1 1).1.results
        = [{ details := detailsGenre28 (JsId.num 551), media_type := "movie",
             recommendationScore := 15 / 2 }]
    ∧ (((getRecommendations
          (discoverFirstPage [itemGenre28 (JsId.num 551), itemGenre28 (JsId.num 552)]) fetchGenre28
          storeGenre28 [] "movie" 1 1).1.results.length : Int) ≤ 1) :=
  ⟨by decide,
   by
    have hne : ¬ (JsId.num 551 = JsId.num 552) := by decide
    simp [getRecommendations, getTasteProfile, getExplicitPreferences, storeGenre28,
      hasProfile_profileGenre28, discoverLoop, discoverStep, discoverMedia, discoverFirstPage,
      uniqueCandidates, mapOfEntries, mapSet, filteredCandidates, preliminaryScored,
      simple_profileGenre28, promisingCandidates, sliceTo, finalScoredCandidates, getMediaDetails,
      fetchGenre28, detailed_profileGenre28, JsId.truthy, mediaTypeOf, itemGenre28_id,
      itemGenre28_media_type, detailsGenre28_first_air_date, hne, Int.tdiv],
   (final_result_shape
      (discoverFirstPage [itemGenre28 (JsId.num 551), itemGenre28 (JsId.num 552)]) fetchGenre28
      storeGenre28 [] "movie" 1 1 (by decide)).2.2.1⟩

/-! ## Reported page count -/

theorem totalPages_discoverLoop (discover : DiscoverOracle) (mediaType : String)
    (filters : Filters) (page : Int) :
    (discoverLoop discover mediaType filters page).totalPagesFromDiscover
      = match discover mediaType filters ((page - 1) * 2 + 1) with
        | some data =>
          (match data.results with
           | some _ => if data.total_pages > 500 then 500 else data.total_pages
           | none => 0)
        | none => 0 := by
  have hne : ¬ ((page - 1) * 2 + 1 + 2 - 1 = (page - 1) * 2 + 1) := by omega
  unfold discoverLoop
  simp only [List.foldl_cons, List.foldl_nil]
  unfold discoverStep discoverMedia
  simp only [hne, if_false, if_true]
  cases h1 : discover mediaType filters ((page - 1) * 2 + 1) with
  | none =>
    cases h2 : discover mediaType filters ((page - 1) * 2 + 1 + 2 - 1) with
    | none => simp
    | some d2 => cases h3 : d2.results <;> simp [h3]
  | some d1 =>
    cases h4 : d1.results with
    | none =>
      cases h2 : discover mediaType filters ((page - 1) * 2 + 1 + 2 - 1) with
      | none => simp [h4]
      | some d2 => cases h3 : d2.results <;> simp [h3, h4]
    | some r1 =>
      cases h2 : discover mediaType filters ((page - 1) * 2 + 1 + 2 - 1) with
      | none => simp [h4]
      | some d2 => cases h3 : d2.results <;> simp [h3, h4]

theorem total_pages_getRecommendations (discover : DiscoverOracle) (fetch : DetailsOracle)
    (st : Store) (watchlist : Watchlist) (mediaType : String) (count page : Int)
    (h : hasProfile (getTasteProfile st) = true) :
    (getRecommendations discover fetch st watchlist mediaType count page).1.total_pages
      = Int.fdiv
          (match discover mediaType (buildDiscoverFilters (getExplicitPreferences st))
              ((page - 1) * 2 + 1) with
           | some data =>
             (match data.results with
              | some _ => if data.total_pages > 500 then 500 else data.total_pages
              | none => 0)
           | none => 0) 2 := by
  rw [getRecommendations_of_hasProfile _ _ _ _ _ _ _ h, totalPages_discoverLoop]

/-- C26 (reported page count): for every request with a non-empty profile, when the first
discovery page, page `(page - 1) * 2 + 1`, is answered with a results list and the total-pages
value `T`, the `total_pages` returned by `getRecommendations` is `floor(min(T, 500) / 2)`, which
is the JavaScript value `Math.floor((T > 500 ? 500 : T) / 2)`; when that page is not answered or
has no results list, `total_pages` is 0; in every case it is at most 250. -/
theorem reported_page_count (discover : DiscoverOracle) (fetch : DetailsOracle) (st : Store)
    (watchlist : Watchlist) (mediaType : String) (count page : Int)
    (hprofile : hasProfile (getTasteProfile st) = true) :
    (∀ data items,
        discover mediaType (buildDiscoverFilters (getExplicitPreferences st))
          ((page - 1) * 2 + 1) = some data →
        data.results = some items →
        (getRecommendations discover fetch st watchlist mediaType count page).1.total_pages
            = ⌊((min data.total_pages 500 : Int) : ℚ) / 2⌋
        ∧ (getRecommendations discover fetch st watchlist mediaType count page).1.total_pages
            = Int.fdiv (if data.total_pages > 500 then 500 else data.total_pages) 2)
    ∧ ((discover mediaType (buildDiscoverFilters (getExplicitPreferences st))
            ((page - 1) * 2 + 1) = none
          ∨ ∃ data, discover mediaType (buildDiscoverFilters (getExplicitPreferences st))
                ((page - 1) * 2 + 1) = some data ∧ data.results = none) →
        (getRecommendations discover fetch st watchlist mediaType count page).1.total_pages = 0)
    ∧ (getRecommendations discover fetch st watchlist mediaType count page).1.total_pages ≤ 250 := by
  have h := total_pages_getRecommendations discover fetch st watchlist mediaType count page hprofile
  refine ⟨?_, ?_, ?_⟩
  · intro data items hfirst hresults
    rw [hfirst] at h
    simp only [hresults] at h
    have hfloor : ⌊((min data.total_pages 500 : Int) : ℚ) / 2⌋ = min data.total_pages 500 / 2 := by
      have := Rat.floor_intCast_div_natCast (min data.total_pages 500) 2
      simpa using this
    rw [hfloor]
    refine ⟨?_, h⟩
    rw [h, Int.fdiv_eq_ediv _ (by decide : (0 : Int) ≤ 2)]
    split <;> omega
  · rintro (hnone | ⟨data, hfirst, hresults⟩)
    · rw [hnone] at h
      rw [h]
      rfl
    · rw [hfirst] at h
      simp only [hresults] at h
      rw [h]
      rfl
  · rw [h, Int.fdiv_eq_ediv _ (by decide : (0 : Int) ≤ 2)]
    split
    · split
      · split <;> omega
      · omega
    · omega

/-- C26, at a concrete input: the first discovery page reports 1000 pages and `total_pages` is
250. -/
theorem reported_page_count_witness :
    hasProfile (getTasteProfile storeGenre28) = true
    ∧ (getRecommendations (discoverWide [itemGenre28 (JsId.num 551)]) fetchGenre28 storeGenre28 []
          "movie" 20 3).1.total_pages = 250 :=
  ⟨hasProfile_profileGenre28,
   ((reported_page_count (discoverWide [itemGenre28 (JsId.num 551)]) fetchGenre28 storeGenre28 []
      "movie" 20 3 hasProfile_profileGenre28).1
      { results := some [itemGenre28 (JsId.num 551)], total_pages := 1000 }
      [itemGenre28 (JsId.num 551)] rfl rfl).2.trans (by decide)⟩

/-! ## The promising candidates and the detail requests -/

theorem requests_discoverLoop (discover : DiscoverOracle) (mediaType : String)
    (filters : Filters) (page : Int) :
    (discoverLoop discover mediaType filters page).requests
      = [Request.discover mediaType filters ((page - 1) * 2 + 1),
         Request.discover mediaType filters ((page - 1) * 2 + 1 + 2 - 1)] := by
  unfold discoverLoop
  simp only [List.foldl_cons, List.foldl_nil]
  unfold discoverStep discoverMedia
  cases h1 : discover mediaType filters ((page - 1) * 2 + 1) with
  | none =>
    cases h2 : discover mediaType filters ((page - 1) * 2 + 1 + 2 - 1) with
    | none => simp
    | some d2 => cases h3 : d2.results <;> simp [h3]
  | some d1 =>
    cases h4 : d1.results with
    | none =>
      cases h2 : discover mediaType filters ((page - 1) * 2 + 1 + 2 - 1) with
      | none => simp [h4]
      | some d2 => cases h3 : d2.results <;> simp [h3, h4]
    | some r1 =>
      cases h2 : discover mediaType filters ((page - 1) * 2 + 1 + 2 - 1) with
      | none => simp [h4]
      | some d2 => cases h3 : d2.results <;> simp [h3, h4]

theorem requests_getMediaDetails (fetch : DetailsOracle) (c : ScoredItem) :
    (getMediaDetails fetch c.item.id c.media_type).2 = (detailRequestOf c).toList := by
  unfold getMediaDetails detailRequestOf
  split <;> rfl

theorem requests_finalScoredCandidates (fetch : DetailsOracle) (p : TasteProfile)
    (prefs : ExplicitPrefs) (cands : List ScoredItem) :
    (finalScoredCandidates fetch p prefs cands).2 = cands.filterMap detailRequestOf := by
  induction cands with
  | nil => rfl
  | cons c rest ih =>
    have hstep : (finalScoredCandidates fetch p prefs (c :: rest)).2
        = (getMediaDetails fetch c.item.id c.media_type).2
            ++ (finalScoredCandidates fetch p prefs rest).2 := by
      simp only [finalScoredCandidates]
      split
      · split <;> rfl
      · rfl
    rw [hstep, ih, requests_getMediaDetails]
    cases h : detailRequestOf c <;> simp [List.filterMap_cons, h]

theorem isDetails_of_detailRequestOf {c : ScoredItem} {r : Request}
    (h : detailRequestOf c = some r) : r.isDetails = true := by
  unfold detailRequestOf at h
  split at h
  · cases h
  · cases h
    rfl

theorem filter_isDetails_filterMap (cands : List ScoredItem) :
    (cands.filterMap detailRequestOf).filter Request.isDetails
      = cands.filterMap detailRequestOf := by
  rw [List.filter_eq_self]
  intro r hr
  obtain ⟨c, _, hc⟩ := List.mem_filterMap.mp hr
  exact isDetails_of_detailRequestOf hc

theorem floor_count_times (count : Int) :
    ⌊(count : ℚ) * (5 / 2)⌋ = count * 5 / 2 := by
  have h := Rat.floor_intCast_div_natCast (count * 5) 2
  have e : (count : ℚ) * (5 / 2) = ((count * 5 : Int) : ℚ) / ((2 : Nat) : ℚ) := by
    push_cast
    ring
  rw [e, h]
  rfl

theorem promisingCandidates_of_nonneg (scored : List ScoredItem) {count : Int}
    (h : 0 ≤ count) :
    promisingCandidates scored count = scored.take (⌊(count : ℚ) * (5 / 2)⌋).toNat := by
  unfold promisingCandidates
  have h5 : 0 ≤ count * 5 := by omega
  rw [floor_count_times, Int.tdiv_eq_ediv h5 (by decide : (0 : Int) ≤ 2)]
  exact sliceTo_of_nonneg _ (Int.ediv_nonneg h5 (by decide))

/-- C27 (promising-candidate cap): for every request with a count `>= 0`, the pass-1 list holds
only candidates with pass-1 score `> 0`, sorted by descending score; the promising candidates,
on which `getMediaDetails` is called, are its first `floor(count * 2.5)` entries; the detail
requests issued are those of the promising candidates, one for each candidate with a truthy id
and a non-empty media type, in order; and at most `floor(count * 2.5)` detail requests are
issued. -/
theorem promising_candidate_cap (discover : DiscoverOracle) (fetch : DetailsOracle) (st : Store)
    (watchlist : Watchlist) (mediaType : String) (count page : Int) (hcount : 0 ≤ count) :
    (∀ c ∈ pass1List discover st watchlist mediaType page,
        0 < c.preliminaryScore
        ∧ c.preliminaryScore
            = scoreMediaItemSimple c.item (getTasteProfile st) (getExplicitPreferences st))
    ∧ (pass1List discover st watchlist mediaType page).Pairwise
        (fun a b => b.preliminaryScore ≤ a.preliminaryScore)
    ∧ promisingCandidates (pass1List discover st watchlist mediaType page) count
        = (pass1List discover st watchlist mediaType page).take (⌊(count : ℚ) * (5 / 2)⌋).toNat
    ∧ (hasProfile (getTasteProfile st) = true →
        (getRecommendations discover fetch st watchlist mediaType count page).2.filter
            Request.isDetails
          = (promisingCandidates (pass1List discover st watchlist mediaType page)
              count).filterMap detailRequestOf)
    ∧ (((getRecommendations discover fetch st watchlist mediaType count page).2.filter
          Request.isDetails).length : Int) ≤ ⌊(count : ℚ) * (5 / 2)⌋ := by
  have hreq : hasProfile (getTasteProfile st) = true →
      (getRecommendations discover fetch st watchlist mediaType count page).2.filter
          Request.isDetails
        = (promisingCandidates (pass1List discover st watchlist mediaType page)
            count).filterMap detailRequestOf := by
    intro h
    rw [getRecommendations_of_hasProfile _ _ _ _ _ _ _ h]
    simp only [requests_discoverLoop, requests_finalScoredCandidates, List.filter_append,
      filter_isDetails_filterMap]
    simp [List.filter_cons, Request.isDetails]
  have hfloor : (0 : Int) ≤ ⌊(count : ℚ) * (5 / 2)⌋ := by
    rw [floor_count_times]
    exact Int.ediv_nonneg (by omega) (by decide)
  refine ⟨?_, ?_, promisingCandidates_of_nonneg _ hcount, hreq, ?_⟩
  · intro c hc
    obtain ⟨_, _, hs, hpos⟩ := mem_preliminaryScored hc
    exact ⟨hpos, hs⟩
  · exact sorted_desc_preliminary _
  · cases h : hasProfile (getTasteProfile st) with
    | false =>
      rw [getRecommendations_of_not_hasProfile _ _ _ _ _ _ _ h]
      simpa using hfloor
    | true =>
      rw [hreq h, promisingCandidates_of_nonneg _ hcount]
      have h1 := List.length_filterMap_le detailRequestOf
        ((pass1List discover st watchlist mediaType page).take (⌊(count : ℚ) * (5 / 2)⌋).toNat)
      have h2 : ((pass1List discover st watchlist mediaType page).take
          (⌊(count : ℚ) * (5 / 2)⌋).toNat).length ≤ (⌊(count : ℚ) * (5 / 2)⌋).toNat := by
        rw [List.length_take]
        exact Nat.min_le_left _ _
      have h3 : (((⌊(count : ℚ) * (5 / 2)⌋).toNat : Nat) : Int) = ⌊(count : ℚ) * (5 / 2)⌋ :=
        Int.toNat_of_nonneg hfloor
      omega


/-- C27, at a concrete input: three candidates with a positive pass-1 score and `count = 1`;
details are requested for the first two. -/
theorem promising_candidate_cap_witness :
    (0 : Int) ≤ 1
    ∧ (getRecommendations
          (discoverFirstPage [itemGenre28 (JsId.num 551), itemGenre28 (JsId.num 552),
            itemGenre28 (JsId.num 553)]) fetchGenre28
          storeGenre28 [] "movie" 1 1).2.filter Request.isDetails
        = [Request.details (JsId.num 551) "movie", Request.details (JsId.num 552) "movie"]
    ∧ ((((getRecommendations
          (discoverFirstPage [itemGenre28 (JsId.num 551), itemGenre28 (JsId.num 552),
            itemGenre28 (JsId.num 553)]) fetchGenre28
          storeGenre28 [] "movie" 1 1).2.filter Request.isDetails).length : Int)
        ≤ ⌊((1 : Int) : ℚ) * (5 / 2)⌋) :=
  ⟨by decide,
   by
    have h12 : ¬ (JsId.num 551 = JsId.num 552) := by decide
    have h13 : ¬ (JsId.num 551 = JsId.num 553) := by decide
    have h23 : ¬ (JsId.num 552 = JsId.num 553) := by decide
    simp [getRecommendations, getTasteProfile, getExplicitPreferences, storeGenre28,
      hasProfile_profileGenre28, discoverLoop, discoverStep, discoverMedia, discoverFirstPage,
      uniqueCandidates, mapOfEntries, mapSet, filteredCandidates, preliminaryScored,
      simple_profileGenre28, promisingCandidates, sliceTo, finalScoredCandidates, getMediaDetails,
      fetchGenre28, detailed_profileGenre28, JsId.truthy, mediaTypeOf, itemGenre28_id,
      itemGenre28_media_type, detailsGenre28_first_air_date, h12, h13, h23, Int.tdiv,
      Request.isDetails, List.filter_cons],
   (promising_candidate_cap
      (discoverFirstPage [itemGenre28 (JsId.num 551), itemGenre28 (JsId.num 552),
        itemGenre28 (JsId.num 553)]) fetchGenre28
      storeGenre28 [] "movie" 1 1 (by decide)).2.2.2.2⟩

/-! ## HTML escaping -/

theorem toList_replaceAll (s : String) (c : Char) (r : String) :
    (replaceAll s c r).toList = s.toList.flatMap (fun x => if x = c then r.toList else [x]) := rfl

theorem toList_escape (s : String) :
    (replaceAll (replaceAll (replaceAll (replaceAll (replaceAll s '&' "&amp;") '<' "&lt;")
        '>' "&gt;") (Char.ofNat 34) "&quot;") (Char.ofNat 39) "&#039;").toList
      = s.toList.flatMap escapeChar := by
  simp only [toList_replaceAll, List.flatMap_assoc]
  congr 1
  funext c
  have e1 : ("&amp;" : String).toList = ['&', 'a', 'm', 'p', ';'] := rfl
  have e2 : ("&lt;" : String).toList = ['&', 'l', 't', ';'] := rfl
  have e3 : ("&gt;" : String).toList = ['&', 'g', 't', ';'] := rfl
  have e4 : ("&quot;" : String).toList = ['&', 'q', 'u', 'o', 't', ';'] := rfl
  have e5 : ("&#039;" : String).toList = ['&', '#', '0', '3', '9', ';'] := rfl
  rw [e1, e2, e3, e4, e5]
  unfold escapeChar
  by_cases h1 : c = '&'
  · subst h1
    decide
  by_cases h2 : c = '<'
  · subst h2
    decide
  by_cases h3 : c = '>'
  · subst h3
    decide
  by_cases h4 : c = Char.ofNat 34
  · subst h4
    decide
  by_cases h5 : c = Char.ofNat 39
  · subst h5
    decide
  simp [h1, h2, h3, h4, h5]

theorem toList_escapeHTML (x : JsId) (h : x.truthy = true ∨ x = JsId.num 0) :
    (escapeHTML x).toList = x.toKey.toList.flatMap escapeChar := by
  have hc : (!x.truthy && decide (x ≠ JsId.num 0)) = false := by
    rcases h with h | h
    · simp [h]
    · simp [h]
  unfold escapeHTML
  split
  · rename_i hcond
    rw [hc] at hcond
    exact absurd hcond (by decide)
  · exact toList_escape _

theorem escapeHTML_of_falsy (x : JsId) (h : x.truthy = false) (h0 : x ≠ JsId.num 0) :
    escapeHTML x = "" := by
  unfold escapeHTML
  simp [h, h0]

theorem escapeChar_cases (c : Char) :
    (∃ e d, (e, d) ∈ ENTITIES ∧ d = c ∧ escapeChar c = '&' :: e)
    ∨ (escapeChar c = [c] ∧ c ≠ '&' ∧ c ≠ '<' ∧ c ≠ '>' ∧ c ≠ Char.ofNat 34
        ∧ c ≠ Char.ofNat 39) := by
  unfold escapeChar ENTITIES
  by_cases h1 : c = '&'
  · left; subst h1; exact ⟨['a', 'm', 'p', ';'], '&', by simp, rfl, by decide⟩
  by_cases h2 : c = '<'
  · left; subst h2; exact ⟨['l', 't', ';'], '<', by simp, rfl, by decide⟩
  by_cases h3 : c = '>'
  · left; subst h3; exact ⟨['g', 't', ';'], '>', by simp, rfl, by decide⟩
  by_cases h4 : c = Char.ofNat 34
  · left; subst h4; exact ⟨['q', 'u', 'o', 't', ';'], Char.ofNat 34, by simp, rfl, by decide⟩
  by_cases h5 : c = Char.ofNat 39
  · left; subst h5; exact ⟨['#', '0', '3', '9', ';'], Char.ofNat 39, by simp, rfl, by decide⟩
  right
  simp [h1, h2, h3, h4, h5]

theorem entity_clean {e : List Char} {d : Char} (h : (e, d) ∈ ENTITIES) :
    ∀ c ∈ e, c ≠ '&' ∧ c ≠ '<' ∧ c ≠ '>' ∧ c ≠ Char.ofNat 34 ∧ c ≠ Char.ofNat 39 := by
  unfold ENTITIES at h
  simp only [List.mem_cons, Prod.mk.injEq, List.mem_singleton, List.not_mem_nil, or_false] at h
  rcases h with ⟨rfl, _⟩ | ⟨rfl, _⟩ | ⟨rfl, _⟩ | ⟨rfl, _⟩ | ⟨rfl, _⟩ <;> decide

theorem dropLeading_append (p t : List Char) : dropLeading p (p ++ t) = some t := by
  induction p with
  | nil => rfl
  | cons a p ih => simp [dropLeading, ih]

theorem decodeEntity_entity {e : List Char} {d : Char} (h : (e, d) ∈ ENTITIES) (t : List Char) :
    decodeEntity ENTITIES (e ++ t) = some (d, t) := by
  unfold ENTITIES at h
  simp only [List.mem_cons, Prod.mk.injEq, List.mem_singleton, List.not_mem_nil, or_false] at h
  rcases h with ⟨rfl, rfl⟩ | ⟨rfl, rfl⟩ | ⟨rfl, rfl⟩ | ⟨rfl, rfl⟩ | ⟨rfl, rfl⟩ <;>
    simp [ENTITIES, decodeEntity, dropLeading, dropLeading_append]

theorem unescapeFuel_cons (fuel : Nat) (c : Char) (t : List Char) :
    unescapeFuel (fuel + 1) (c :: t)
      = if c = '&' then
          (match decodeEntity ENTITIES t with
           | some (d, rest) => d :: unescapeFuel fuel rest
           | none => c :: unescapeFuel fuel t)
        else c :: unescapeFuel fuel t := rfl

theorem unescapeFuel_escape (s : List Char) :
    ∀ fuel, (s.flatMap escapeChar).length ≤ fuel →
      unescapeFuel fuel (s.flatMap escapeChar) = s := by
  induction s with
  | nil =>
    intro fuel _
    cases fuel <;> rfl
  | cons c s ih =>
    intro fuel hfuel
    rw [List.flatMap_cons] at hfuel ⊢
    rcases escapeChar_cases c with ⟨e, d, hmem, rfl, he⟩ | ⟨he, hamp, _⟩
    · rw [he] at hfuel ⊢
      cases fuel with
      | zero => simp at hfuel
      | succ fuel =>
        simp only [List.cons_append, List.length_cons, List.length_append] at hfuel
        rw [List.cons_append, unescapeFuel_cons, if_pos rfl, decodeEntity_entity hmem]
        simp only
        rw [ih fuel (by omega)]
    · rw [he] at hfuel ⊢
      cases fuel with
      | zero => simp at hfuel
      | succ fuel =>
        simp only [List.singleton_append, List.length_cons] at hfuel
        rw [List.singleton_append, unescapeFuel_cons, if_neg hamp, ih fuel (by omega)]

theorem clean_flatMap_escapeChar (s : List Char) :
    ∀ c ∈ s.flatMap escapeChar,
      c ≠ '<' ∧ c ≠ '>' ∧ c ≠ Char.ofNat 34 ∧ c ≠ Char.ofNat 39 := by
  intro c hc
  obtain ⟨a, _, ha⟩ := List.mem_flatMap.mp hc
  rcases escapeChar_cases a with ⟨e, d, hmem, _, he⟩ | ⟨he, _, h2, h3, h4, h5⟩
  · rw [he] at ha
    rcases List.mem_cons.mp ha with rfl | hin
    · decide
    · exact (entity_clean hmem c hin).2
  · rw [he] at ha
    rw [List.mem_singleton.mp ha]
    exact ⟨h2, h3, h4, h5⟩

theorem amp_at_head {pre rest e : List Char} (hclean : '&' ∉ e)
    (h : pre ++ '&' :: rest = '&' :: e) : pre = [] ∧ rest = e := by
  cases pre with
  | nil =>
    simp only [List.nil_append, List.cons.injEq, true_and] at h
    exact ⟨rfl, h⟩
  | cons x pre =>
    simp only [List.cons_append, List.cons.injEq] at h
    exact absurd (h.2 ▸ (List.mem_append_right pre (List.mem_cons_self _ _))) hclean

theorem amp_begins_entity (s : List Char) :
    ∀ pre post, s.flatMap escapeChar = pre ++ '&' :: post →
      ∃ e d, (e, d) ∈ ENTITIES ∧ e <+: post := by
  induction s with
  | nil =>
    intro pre post h
    simp at h
  | cons c s ih =>
    intro pre post h
    rw [List.flatMap_cons, List.append_eq_append_iff] at h
    rcases h with ⟨a, hpre, hrest⟩ | ⟨b, hc, hpost⟩
    · exact ih a post hrest
    · cases b with
      | nil =>
        simp only [List.nil_append] at hpost
        exact ih [] post (by simpa using hpost.symm)
      | cons x b =>
        simp only [List.cons_append, List.cons.injEq] at hpost
        obtain ⟨rfl, hpost⟩ := hpost
        rcases escapeChar_cases c with ⟨e, d, hmem, _, he⟩ | ⟨he, hamp, _⟩
        · rw [he] at hc
          have hclean : '&' ∉ e := fun hin => (entity_clean hmem _ hin).1 rfl
          obtain ⟨_, hb⟩ := amp_at_head hclean hc.symm
          exact ⟨e, d, hmem, ⟨s.flatMap escapeChar, by rw [hpost, hb]⟩⟩
        · rw [he] at hc
          have hin : '&' ∈ [c] := by
            rw [hc]
            exact List.mem_append_right pre (List.mem_cons_self _ _)
          exact absurd (List.mem_singleton.mp hin).symm hamp

/-- C28 (escapeHTML is safe): for every input `x`, the output of `escapeHTML(x)` contains none of
the characters `<`, `>`, double quote and single quote, and every `&` in it is followed by one
of `amp;`, `lt;`, `gt;`, `quot;`, `#039;`; for every string `s`, replacing the entities back in
`escapeHTML(s)` yields `s`; for `null`, `undefined` and the empty string the result is the empty
string, and `0` gives the text `0`. -/
theorem escapeHTML_safe :
    (∀ x : JsId, ∀ c ∈ (escapeHTML x).toList,
        c ≠ '<' ∧ c ≠ '>' ∧ c ≠ Char.ofNat 34 ∧ c ≠ Char.ofNat 39)
    ∧ (∀ x : JsId, ∀ pre post, (escapeHTML x).toList = pre ++ '&' :: post →
        ∃ e d, (e, d) ∈ ENTITIES ∧ e <+: post)
    ∧ (∀ s : String, unescapeHTML (escapeHTML (JsId.str s)) = s)
    ∧ escapeHTML JsId.null = ""
    ∧ escapeHTML JsId.undef = ""
    ∧ escapeHTML (JsId.str "") = ""
    ∧ escapeHTML (JsId.num 0) = "0" := by
  have hform : ∀ x : JsId, ∃ s : List Char, (escapeHTML x).toList = s.flatMap escapeChar := by
    intro x
    by_cases h : x.truthy = true ∨ x = JsId.num 0
    · exact ⟨_, toList_escapeHTML x h⟩
    · rw [not_or] at h
      refine ⟨[], ?_⟩
      rw [escapeHTML_of_falsy x (by simpa using h.1) h.2]
      rfl
  refine ⟨?_, ?_, ?_, ?_, ?_, ?_, ?_⟩
  · intro x c hc
    obtain ⟨s, hs⟩ := hform x
    rw [hs] at hc
    exact clean_flatMap_escapeChar s c hc
  · intro x pre post h
    obtain ⟨s, hs⟩ := hform x
    rw [hs] at h
    exact amp_begins_entity s pre post h
  · intro s
    have hs : (escapeHTML (JsId.str s)).toList = s.toList.flatMap escapeChar := by
      by_cases he : s = ""
      · subst he
        rfl
      · exact toList_escapeHTML _ (Or.inl (by simp [JsId.truthy, he]))
    unfold unescapeHTML
    have hlen : (escapeHTML (JsId.str s)).length = (escapeHTML (JsId.str s)).toList.length := rfl
    rw [hlen, hs, unescapeFuel_escape _ _ (le_refl _)]
    rfl
  · rfl
  · rfl
  · rfl
  · decide

/-! ## Keys of the stored profile -/

theorem hasKey_cons (k0 : String) (v0 : ℚ) (m : ScoreMap) (k : String) :
    hasKey ((k0, v0) :: m) k = (decide (k = k0) || hasKey m k) := by
  unfold hasKey
  by_cases h : k = k0
  · subst h
    simp [List.lookup]
  · have hb : (k == k0) = false := by simpa using h
    simp [List.lookup, hb, h]

theorem hasKey_writeScore (m : ScoreMap) (k k' : String) (v : ℚ) :
    hasKey (writeScore m k v) k' = (decide (k' = k) || hasKey m k') := by
  induction m with
  | nil =>
    unfold writeScore
    rw [hasKey_cons]
  | cons e m ih =>
    obtain ⟨k0, v0⟩ := e
    unfold writeScore
    by_cases h0 : k0 = k
    · subst h0
      simp only [if_true, hasKey_cons]
      by_cases h1 : k' = k0 <;> simp [h1]
    · simp only [h0, if_false, hasKey_cons, ih]
      by_cases h1 : k' = k0 <;> by_cases h2 : k' = k <;> simp [h1, h2]

theorem hasKey_updateScore_mono (p : TasteProfile) (c : Category) (id : JsId) (w : ℚ)
    {c' : Category} {k : String} (h : hasKey (p.cat c') k = true) :
    hasKey ((updateScore p c id w).cat c') k = true := by
  unfold updateScore
  split
  · exact h
  · rw [cat_setCat]
    by_cases hc : c' = c
    · subst hc
      rw [if_pos rfl, hasKey_writeScore, h, Bool.or_true]
    · rw [if_neg hc]
      exact h

theorem hasKey_updateScore_self (p : TasteProfile) (c : Category) {id : JsId} {w : ℚ}
    (hid : id.truthy = true) (hw : w ≠ 0) :
    hasKey ((updateScore p c id w).cat c) id.toKey = true := by
  unfold updateScore
  rw [if_neg (by simp [hid, hw]), cat_setCat, if_pos rfl, hasKey_writeScore]
  simp

theorem hasKey_foldl_mono {α : Type} (c : Category) (f : α → JsId) (w : ℚ) (xs : List α)
    (p : TasteProfile) {c' : Category} {k : String} (h : hasKey (p.cat c') k = true) :
    hasKey ((xs.foldl (fun p x => updateScore p c (f x) w) p).cat c') k = true := by
  induction xs generalizing p with
  | nil => exact h
  | cons x xs ih =>
    rw [List.foldl_cons]
    exact ih _ (hasKey_updateScore_mono p c (f x) w h)

theorem hasKey_foldl_mem {α : Type} (c : Category) (f : α → JsId) {w : ℚ} (hw : w ≠ 0)
    (xs : List α) (p : TasteProfile) {x : α} (hx : x ∈ xs) (hid : (f x).truthy = true) :
    hasKey ((xs.foldl (fun p x => updateScore p c (f x) w) p).cat c) (f x).toKey = true := by
  induction xs generalizing p with
  | nil => simp at hx
  | cons y xs ih =>
    rw [List.foldl_cons]
    rcases List.mem_cons.mp hx with rfl | hin
    · exact hasKey_foldl_mono c f w xs _ (hasKey_updateScore_self p c hid hw)
    · exact ih _ hin

theorem hasKey_applyDecade_mono (p : TasteProfile) (d : MediaDetails) (b : ℚ)
    {c : Category} {k : String} (h : hasKey (p.cat c) k = true) :
    hasKey ((applyDecade p d b).cat c) k = true := by
  unfold applyDecade
  split
  · split
    · exact hasKey_updateScore_mono _ _ _ _ h
    · exact h
  · exact h

theorem hasKey_applyBaseScore_mono (p : TasteProfile) (d : MediaDetails) (b : ℚ)
    {c : Category} {k : String} (h : hasKey (p.cat c) k = true) :
    hasKey ((applyBaseScore p d b).cat c) k = true := by
  unfold applyBaseScore
  apply hasKey_applyDecade_mono
  apply hasKey_foldl_mono
  apply hasKey_updateScore_mono
  apply hasKey_foldl_mono
  split
  · apply hasKey_updateScore_mono
    exact hasKey_foldl_mono _ _ _ _ _ h
  · exact hasKey_foldl_mono _ _ _ _ _ h

theorem hasKey_applyBaseScore_genre (p : TasteProfile) (d : MediaDetails) {b : ℚ} (hb : b ≠ 0)
    {g : Genre} (hg : g ∈ d.genres.getD []) (hid : g.id.truthy = true) :
    hasKey ((applyBaseScore p d b).cat .genres) g.id.toKey = true := by
  have hw : b * ATTRIBUTE_WEIGHTS.genres ≠ 0 :=
    mul_ne_zero hb (by norm_num [ATTRIBUTE_WEIGHTS])
  have h1 := hasKey_foldl_mem .genres (fun g : Genre => g.id) hw (d.genres.getD []) p hg hid
  unfold applyBaseScore
  apply hasKey_applyDecade_mono
  apply hasKey_foldl_mono
  apply hasKey_updateScore_mono
  apply hasKey_foldl_mono
  split
  · apply hasKey_updateScore_mono
    exact h1
  · exact h1

theorem hasKey_applyScoresToProfile_mono (p : TasteProfile) (a : String)
    (details : Option MediaDetails) (m : ℚ) {c : Category} {k : String}
    (h : hasKey (p.cat c) k = true) :
    hasKey ((applyScoresToProfile p a details m).cat c) k = true := by
  unfold applyScoresToProfile
  split
  · exact hasKey_applyBaseScore_mono _ _ _ h
  · exact h

theorem hasKey_updateTasteProfile_mono (fetch : DetailsOracle) (st : Store) (mediaId : JsId)
    (mediaType : String) (newStatus oldStatus : Option String) (d : MediaDetails)
    {c : Category} {k : String} (h : hasKey ((getTasteProfile st).cat c) k = true) :
    hasKey ((getTasteProfile
      (updateTasteProfile fetch st mediaId mediaType newStatus oldStatus (some d)).1).cat c) k
      = true := by
  unfold updateTasteProfile
  simp only [saveTasteProfile, getTasteProfile]
  have h1 : hasKey ((match knownAction oldStatus with
      | some old => applyScoresToProfile (getTasteProfile st) old (some d) (-1)
      | none => getTasteProfile st).cat c) k = true := by
    split
    · exact hasKey_applyScoresToProfile_mono _ _ _ _ h
    · exact h
  simp only [getTasteProfile] at h1
  split
  · split
    · exact hasKey_applyScoresToProfile_mono _ _ _ _ h1
    · exact h1
  · exact h1

theorem knownAction_of_weight {a : String} {w : ℚ} (h : ACTION_WEIGHTS a = some w) :
    knownAction (some a) = some a := by
  unfold knownAction
  have hne : a ≠ "" := by
    intro he
    subst he
    simp [ACTION_WEIGHTS] at h
  simp [hne, h]

theorem hasKey_updateTasteProfile_genre (fetch : DetailsOracle) (st : Store) (mediaId : JsId)
    (mediaType : String) {a : String} {w : ℚ} (ha : ACTION_WEIGHTS a = some w)
    (d : MediaDetails) {g : Genre} (hg : g ∈ d.genres.getD []) (hid : g.id.truthy = true) :
    hasKey ((getTasteProfile
      (updateTasteProfile fetch st mediaId mediaType (some a) none (some d)).1).cat .genres)
      g.id.toKey = true := by
  have hrem : a ≠ "remove" := by
    intro he
    subst he
    rw [ACTION_WEIGHTS_remove] at ha
    cases ha
  unfold updateTasteProfile
  simp only [saveTasteProfile, getTasteProfile, knownAction_of_weight ha, hrem, ne_eq,
    not_false_eq_true, if_true]
  unfold applyScoresToProfile
  simp only [ha]
  exact hasKey_applyBaseScore_genre _ d
    (mul_ne_zero (ACTION_WEIGHTS_ne_zero ha) one_ne_zero) hg hid

theorem hasProfile_of_hasKey {p : TasteProfile} {c : Category} {k : String}
    (h : hasKey (p.cat c) k = true) : hasProfile p = true := by
  have hne : p.cat c ≠ [] := by
    intro he
    rw [he] at h
    simp [hasKey] at h
  have hlen : 0 < (p.cat c).length := List.length_pos.mpr hne
  unfold hasProfile
  cases c <;> simp [TasteProfile.cat] at hlen <;> simp [hlen]


theorem requests_getRecommendations_ne_nil (discover : DiscoverOracle) (fetch : DetailsOracle)
    (st : Store) (watchlist : Watchlist) (mediaType : String) (count page : Int)
    (h : hasProfile (getTasteProfile st) = true) :
    (getRecommendations discover fetch st watchlist mediaType count page).2 ≠ []
    ∧ (getRecommendations discover fetch st watchlist mediaType count page).1.page = page := by
  rw [getRecommendations_of_hasProfile _ _ _ _ _ _ _ h, requests_discoverLoop]
  simp

/-- C29 (counterexample): from a store without a profile, the known action `watched` on an item
whose only genre has the id `0` (and which has no language, country, credits or date) followed
by its reversal stores a profile without any key, and `getRecommendations` takes the
empty-profile short-circuit. -/
theorem residual_zero_keys_counterexample :
    ACTION_WEIGHTS "watched" = some 2
    ∧ detailsGenre0.genres = some [{ id := JsId.num 0, name := "None" }]
    ∧ getTasteProfile storeEmpty = TasteProfile.zero
    ∧ getTasteProfile
        (updateTasteProfile fetchGenre28
          (updateTasteProfile fetchGenre28 storeEmpty (JsId.num 7) "movie" (some "watched") none
            (some detailsGenre0)).1
          (JsId.num 7) "movie" (some "remove") (some "watched") (some detailsGenre0)).1
        = TasteProfile.zero
    ∧ getRecommendations (discoverFirstPage [itemGenre28 (JsId.num 551)]) fetchGenre28
        (updateTasteProfile fetchGenre28
          (updateTasteProfile fetchGenre28 storeEmpty (JsId.num 7) "movie" (some "watched") none
            (some detailsGenre0)).1
          (JsId.num 7) "movie" (some "remove") (some "watched") (some detailsGenre0)).1
        [] "movie" 20 1
      = ({ results := [], page := 1, total_pages := 0 }, []) := by
  have hw : ACTION_WEIGHTS "watched" = some 2 := by simp [ACTION_WEIGHTS]
  have hk : knownAction (some "watched") = some "watched" := knownAction_of_weight hw
  have hr : knownAction (some "remove") = none := by
    simp [knownAction, ACTION_WEIGHTS_remove]
  have hn : knownAction none = none := rfl
  have happ : ∀ m : ℚ, applyScoresToProfile TasteProfile.zero "watched" (some detailsGenre0) m
      = TasteProfile.zero := by
    intro m
    simp [applyScoresToProfile, hw, applyBaseScore, detailsGenre0, updateScore, JsId.truthy,
      findDirector, topCast, applyDecade, releaseDateOf]
  have hst : getTasteProfile
        (updateTasteProfile fetchGenre28
          (updateTasteProfile fetchGenre28 storeEmpty (JsId.num 7) "movie" (some "watched") none
            (some detailsGenre0)).1
          (JsId.num 7) "movie" (some "remove") (some "watched") (some detailsGenre0)).1
        = TasteProfile.zero := by
    simp [updateTasteProfile, hk, hr, hn, getTasteProfile, saveTasteProfile, storeEmpty, happ]
  refine ⟨hw, rfl, rfl, hst, ?_⟩
  apply getRecommendations_of_not_hasProfile
  rw [hst]
  rfl

/-- C29 (amended): starting from the zero-value profile, applying a known action to an item
that has a genre whose id is truthy and then reversing it (`updateTasteProfile` with new
`remove` and old that action, same details) stores a profile in which every score is 0, every
key present after the first call is still present, among them the key of that genre, and
`getRecommendations` does not take the empty-profile short-circuit: it issues its discovery
requests and returns the requested page number. -/
theorem residual_zero_keys_amended (fetch : DetailsOracle) (st : Store) (mediaId : JsId)
    (mediaType : String) (a : String) (w : ℚ) (d : MediaDetails) (g : Genre)
    (hzero : getTasteProfile st = TasteProfile.zero)
    (ha : ACTION_WEIGHTS a = some w)
    (hg : g ∈ d.genres.getD []) (hid : g.id.truthy = true) :
    (∀ c k, (getTasteProfile
        (updateTasteProfile fetch
          (updateTasteProfile fetch st mediaId mediaType (some a) none (some d)).1
          mediaId mediaType (some "remove") (some a) (some d)).1).score c k = 0)
    ∧ (∀ c k,
        hasKey ((getTasteProfile
          (updateTasteProfile fetch st mediaId mediaType (some a) none (some d)).1).cat c) k = true →
        hasKey ((getTasteProfile
          (updateTasteProfile fetch
            (updateTasteProfile fetch st mediaId mediaType (some a) none (some d)).1
            mediaId mediaType (some "remove") (some a) (some d)).1).cat c) k = true)
    ∧ hasKey ((getTasteProfile
          (updateTasteProfile fetch
            (updateTasteProfile fetch st mediaId mediaType (some a) none (some d)).1
            mediaId mediaType (some "remove") (some a) (some d)).1).cat .genres) g.id.toKey = true
    ∧ hasProfile (getTasteProfile
          (updateTasteProfile fetch
            (updateTasteProfile fetch st mediaId mediaType (some a) none (some d)).1
            mediaId mediaType (some "remove") (some a) (some d)).1) = true
    ∧ (∀ (discover : DiscoverOracle) (fetch2 : DetailsOracle) (watchlist : Watchlist)
          (mt : String) (count page : Int),
        (getRecommendations discover fetch2
          (updateTasteProfile fetch
            (updateTasteProfile fetch st mediaId mediaType (some a) none (some d)).1
            mediaId mediaType (some "remove") (some a) (some d)).1
          watchlist mt count page).2 ≠ []
        ∧ (getRecommendations discover fetch2
          (updateTasteProfile fetch
            (updateTasteProfile fetch st mediaId mediaType (some a) none (some d)).1
            mediaId mediaType (some "remove") (some a) (some d)).1
          watchlist mt count page).1.page = page) := by
  have hkey := hasKey_updateTasteProfile_mono fetch
    (updateTasteProfile fetch st mediaId mediaType (some a) none (some d)).1
    mediaId mediaType (some "remove") (some a) d
    (hasKey_updateTasteProfile_genre fetch st mediaId mediaType ha d hg hid)
  have hprofile := hasProfile_of_hasKey hkey
  refine ⟨?_, ?_, hkey, hprofile, ?_⟩
  · intro c k
    rw [score_updateTasteProfile, score_updateTasteProfile, hzero, actionScore_remove,
      actionScore_none]
    have hz : TasteProfile.zero.score c k = 0 := by cases c <;> rfl
    rw [hz]
    ring
  · intro c k h
    exact hasKey_updateTasteProfile_mono _ _ _ _ _ _ _ h
  · intro discover fetch2 watchlist mt count page
    exact requests_getRecommendations_ne_nil _ _ _ _ _ _ _ hprofile

/-- C29 (amended), at a concrete input: `watched` on an item of genre 28, then its reversal. -/
theorem residual_zero_keys_amended_witness :
    getTasteProfile storeEmpty = TasteProfile.zero
    ∧ ACTION_WEIGHTS "watched" = some 2
    ∧ ({ id := JsId.num 28, name := "Action" } : Genre)
        ∈ (detailsGenre28 (JsId.num 7)).genres.getD []
    ∧ (JsId.num 28).truthy = true
    ∧ hasProfile (getTasteProfile
          (updateTasteProfile fetchGenre28
            (updateTasteProfile fetchGenre28 storeEmpty (JsId.num 7) "movie" (some "watched") none
              (some (detailsGenre28 (JsId.num 7)))).1
            (JsId.num 7) "movie" (some "remove") (some "watched")
            (some (detailsGenre28 (JsId.num 7)))).1) = true :=
  have hw : ACTION_WEIGHTS "watched" = some 2 := by simp [ACTION_WEIGHTS]
  have hg : ({ id := JsId.num 28, name := "Action" } : Genre)
      ∈ (detailsGenre28 (JsId.num 7)).genres.getD [] := by
    simp [detailsGenre28]
  ⟨rfl, hw, hg, rfl,
   (residual_zero_keys_amended fetchGenre28 storeEmpty (JsId.num 7) "movie" "watched" 2
      (detailsGenre28 (JsId.num 7)) { id := JsId.num 28, name := "Action" } rfl hw hg rfl).2.2.2.1⟩

/-! ## Items without genres list, credits and production countries -/

theorem cat_applyDecade_other (p : TasteProfile) (d : MediaDetails) (b : ℚ) {c : Category}
    (hc : c ≠ Category.years) : (applyDecade p d b).cat c = p.cat c := by
  unfold applyDecade
  split
  · split
    · exact cat_updateScore_other _ hc _ _
    · rfl
  · rfl

theorem cat_applyBaseScore_shallow (p : TasteProfile) (d : MediaDetails) (b : ℚ)
    (hgen : d.genres = none) (hcred : d.credits = none) (hcty : d.production_countries = none)
    {c : Category} (hl : c ≠ Category.languages) (hy : c ≠ Category.years) :
    (applyBaseScore p d b).cat c = p.cat c := by
  unfold applyBaseScore
  simp only [hgen, hcred, hcty, Option.getD_none, List.foldl_nil, findDirector, topCast]
  rw [cat_applyDecade_other _ _ _ hy, cat_updateScore_other _ hl]

theorem cat_applyScoresToProfile_shallow (p : TasteProfile) (a : String) (d : MediaDetails)
    (m : ℚ) (hgen : d.genres = none) (hcred : d.credits = none)
    (hcty : d.production_countries = none)
    {c : Category} (hl : c ≠ Category.languages) (hy : c ≠ Category.years) :
    (applyScoresToProfile p a (some d) m).cat c = p.cat c := by
  unfold applyScoresToProfile
  split
  · rename_i score d' _ hd
    cases hd
    exact cat_applyBaseScore_shallow p d _ hgen hcred hcty hl hy
  · rfl

theorem cat_updateTasteProfile_shallow (fetch : DetailsOracle) (st : Store) (mediaId : JsId)
    (mediaType : String) (newStatus oldStatus : Option String) (d : MediaDetails)
    (hgen : d.genres = none) (hcred : d.credits = none) (hcty : d.production_countries = none)
    {c : Category} (hl : c ≠ Category.languages) (hy : c ≠ Category.years) :
    (getTasteProfile
      (updateTasteProfile fetch st mediaId mediaType newStatus oldStatus (some d)).1).cat c
      = (getTasteProfile st).cat c := by
  unfold updateTasteProfile
  simp only [saveTasteProfile]
  have h1 : (match knownAction oldStatus with
      | some old => applyScoresToProfile (getTasteProfile st) old (some d) (-1)
      | none => getTasteProfile st).cat c = (getTasteProfile st).cat c := by
    split
    · exact cat_applyScoresToProfile_shallow _ _ d _ hgen hcred hcty hl hy
    · rfl
  show (match knownAction newStatus with
      | some new =>
        if new ≠ "remove" then
          applyScoresToProfile
            (match knownAction oldStatus with
              | some old => applyScoresToProfile (getTasteProfile st) old (some d) (-1)
              | none => getTasteProfile st) new (some d) 1
        else
          (match knownAction oldStatus with
            | some old => applyScoresToProfile (getTasteProfile st) old (some d) (-1)
            | none => getTasteProfile st)
      | none =>
        (match knownAction oldStatus with
          | some old => applyScoresToProfile (getTasteProfile st) old (some d) (-1)
          | none => getTasteProfile st)).cat c = (getTasteProfile st).cat c
  split
  · split
    · rw [cat_applyScoresToProfile_shallow _ _ d _ hgen hcred hcty hl hy, h1]
    · exact h1
  · exact h1

/-- C30 (shallow items update only language and decade): for every stored profile, every new
and old status (in particular every known action) and every item without `genres` list, without
`credits` and without `production_countries`, `updateTasteProfile` leaves the mappings
`genres`, `directors`, `actors` and `countries` as they were, leaves every key of `languages`
other than `original_language` at its score, and leaves every key of `years` other than the
decade of the release date at its score. -/
theorem shallow_item_frame (fetch : DetailsOracle) (st : Store) (mediaId : JsId)
    (mediaType : String) (newStatus oldStatus : Option String) (d : MediaDetails)
    (hgen : d.genres = none) (hcred : d.credits = none) (hcty : d.production_countries = none) :
    (getTasteProfile
        (updateTasteProfile fetch st mediaId mediaType newStatus oldStatus (some d)).1).genres
      = (getTasteProfile st).genres
    ∧ (getTasteProfile
        (updateTasteProfile fetch st mediaId mediaType newStatus oldStatus (some d)).1).directors
      = (getTasteProfile st).directors
    ∧ (getTasteProfile
        (updateTasteProfile fetch st mediaId mediaType newStatus oldStatus (some d)).1).actors
      = (getTasteProfile st).actors
    ∧ (getTasteProfile
        (updateTasteProfile fetch st mediaId mediaType newStatus oldStatus (some d)).1).countries
      = (getTasteProfile st).countries
    ∧ (∀ k, k ≠ d.original_language.toKey →
        (getTasteProfile
          (updateTasteProfile fetch st mediaId mediaType newStatus oldStatus (some d)).1).score
            Category.languages k
          = (getTasteProfile st).score Category.languages k)
    ∧ (∀ k,
        (∀ releaseDate year, releaseDateOf d = some releaseDate →
          parseInt (releaseDate.take 4) = some year → k ≠ (JsId.num (decadeOf year)).toKey) →
        (getTasteProfile
          (updateTasteProfile fetch st mediaId mediaType newStatus oldStatus (some d)).1).score
            Category.years k
          = (getTasteProfile st).score Category.years k) := by
  refine ⟨?_, ?_, ?_, ?_, ?_, ?_⟩
  · exact cat_updateTasteProfile_shallow fetch st mediaId mediaType newStatus oldStatus d
      hgen hcred hcty (c := Category.genres) (by decide) (by decide)
  · exact cat_updateTasteProfile_shallow fetch st mediaId mediaType newStatus oldStatus d
      hgen hcred hcty (c := Category.directors) (by decide) (by decide)
  · exact cat_updateTasteProfile_shallow fetch st mediaId mediaType newStatus oldStatus d
      hgen hcred hcty (c := Category.actors) (by decide) (by decide)
  · exact cat_updateTasteProfile_shallow fetch st mediaId mediaType newStatus oldStatus d
      hgen hcred hcty (c := Category.countries) (by decide) (by decide)
  · intro k hk
    have hk2 : ¬ d.original_language.toKey = k := fun h => hk h.symm
    rw [score_updateTasteProfile, itemCoef_eq]
    simp [keyCount_singleton, hk2]
  · intro k hk
    rw [score_updateTasteProfile, itemCoef_eq]
    have hcount : keyCount (decadeIds d) k = 0 := by
      unfold decadeIds
      cases hr : releaseDateOf d with
      | none => rfl
      | some releaseDate =>
        cases hp : parseInt (releaseDate.take 4) with
        | none => simp [hp, keyCount]
        | some year =>
          have hne : ¬ (JsId.num (decadeOf year)).toKey = k :=
            fun h => hk releaseDate year hr hp h.symm
          simp [hp, keyCount_singleton, hne]
    simp [hcount]

/-- C30, at a concrete input: the swipe action `rated_high` on a listing item with language `en`
and release date `1994-06-23`, on the stored profile `profileGenre28`. -/
theorem shallow_item_frame_witness :
    detailsShallow1994.genres = none
    ∧ detailsShallow1994.credits = none
    ∧ detailsShallow1994.production_countries = none
    ∧ (getTasteProfile
        (updateTasteProfile fetchGenre28 storeGenre28 (JsId.num 7) "movie" (some "rated_high") none
          (some detailsShallow1994)).1).genres
      = (getTasteProfile storeGenre28).genres :=
  ⟨rfl, rfl, rfl,
   (shallow_item_frame fetchGenre28 storeGenre28 (JsId.num 7) "movie" (some "rated_high") none
      detailsShallow1994 rfl rfl rfl).1⟩

/-! ## Evaluating binary64 operations -/

theorem roundHalfEven_tie {y : ℚ} (f : Int) (h : y = f + 1 / 2) :
    roundHalfEven y = if f % 2 = 0 then f else f + 1 := by
  have hf : ⌊y⌋ = f := by
    rw [Int.floor_eq_iff, h]
    constructor <;> linarith
  unfold roundHalfEven
  rw [hf]
  have h1 : ¬ (y - (f : ℚ) < 1 / 2) := by
    rw [h]
    norm_num
  have h2 : ¬ (1 / 2 < y - (f : ℚ)) := by
    rw [h]
    norm_num
  rw [if_neg h1, if_neg h2]

theorem round64_tie {x : ℚ} (k f m : Int) (hlo : (2 : ℚ) ^ k ≤ x) (hhi : x < 2 ^ (k + 1))
    (hy : x / 2 ^ (k - 52) = f + 1 / 2) (hm : (if f % 2 = 0 then f else f + 1) = m) :
    round64 x = m * 2 ^ (k - 52) := by
  have hx : 0 < x := lt_of_lt_of_le (two_zpow_pos k) hlo
  rw [round64_of_nonneg (le_of_lt hx)]
  unfold roundMagnitude
  rw [if_neg (ne_of_gt hx), log_eq_of_bounds hlo hhi, roundHalfEven_tie f hy, hm]

theorem round64_eq_neg {x : ℚ} (k m : Int) (hlo : (2 : ℚ) ^ k ≤ -x) (hhi : -x < 2 ^ (k + 1))
    (hnear : |(-x) / 2 ^ (k - 52) - m| < 1 / 2) : round64 x = -(m * 2 ^ (k - 52)) := by
  have h := round64_eq k m hlo hhi hnear
  rw [round64_neg] at h
  linarith

theorem round64_tie_neg {x : ℚ} (k f m : Int) (hlo : (2 : ℚ) ^ k ≤ -x) (hhi : -x < 2 ^ (k + 1))
    (hy : (-x) / 2 ^ (k - 52) = f + 1 / 2) (hm : (if f % 2 = 0 then f else f + 1) = m) :
    round64 x = -(m * 2 ^ (k - 52)) := by
  have h := round64_tie k f m hlo hhi hy hm
  rw [round64_neg] at h
  linarith

theorem round64_six_fifths : round64 (6 / 5) = 5404319552844595 / 4503599627370496 := by
  rw [round64_eq (0 : Int) (5404319552844595 : Int) (by norm_num) (by norm_num)
    (by rw [abs_lt]; constructor <;> norm_num)]
  norm_num

theorem fmul_two_six_fifths : fmul 2 (5404319552844595 / 4503599627370496) = 5404319552844595 / 2251799813685248 := by
  unfold fmul
  have e : (2 : ℚ) * (5404319552844595 / 4503599627370496) = 5404319552844595 / 2251799813685248 := by norm_num
  rw [e]
  exact round64_exact (5404319552844595 : Int) (-51 : Int) (by norm_num) (by norm_num)

theorem fmul_three_six_fifths : fmul 3 (5404319552844595 / 4503599627370496) = 2026619832316723 / 562949953421312 := by
  unfold fmul
  have e : (3 : ℚ) * (5404319552844595 / 4503599627370496) = 16212958658533785 / 4503599627370496 := by norm_num
  rw [e]
  rw [round64_tie (1 : Int) (8106479329266892 : Int) (8106479329266892 : Int) (by norm_num) (by norm_num)
    (by norm_num) (by decide)]
  norm_num

theorem reversal_step1 : fadd 10 (-5404319552844595 / 2251799813685248) = 4278419646001971 / 562949953421312 := by
  unfold fadd
  have e : (10 : ℚ) + (-5404319552844595 / 2251799813685248) = 17113678584007885 / 2251799813685248 := by norm_num
  rw [e]
  rw [round64_tie (2 : Int) (8556839292003942 : Int) (8556839292003942 : Int) (by norm_num) (by norm_num)
    (by norm_num) (by decide)]
  norm_num

theorem reversal_step2 : fadd (4278419646001971 / 562949953421312) (5404319552844595 / 4503599627370496) = 4953959590107545 / 562949953421312 := by
  unfold fadd
  have e : ((4278419646001971 / 562949953421312) : ℚ) + (5404319552844595 / 4503599627370496) = 39631676720860363 / 4503599627370496 := by norm_num
  rw [e]
  rw [round64_eq (3 : Int) (4953959590107545 : Int) (by norm_num) (by norm_num)
    (by rw [abs_lt]; constructor <;> norm_num)]
  norm_num

theorem reversal_step3 : fadd (4953959590107545 / 562949953421312) (-5404319552844595 / 4503599627370496) = 8556839292003941 / 1125899906842624 := by
  unfold fadd
  have e : ((4953959590107545 / 562949953421312) : ℚ) + (-5404319552844595 / 4503599627370496) = 34227357168015765 / 4503599627370496 := by norm_num
  rw [e]
  rw [round64_eq (2 : Int) (8556839292003941 : Int) (by norm_num) (by norm_num)
    (by rw [abs_lt]; constructor <;> norm_num)]
  norm_num

theorem reversal_step4 : fadd (8556839292003941 / 1125899906842624) (5404319552844595 / 2251799813685248) = 5629499534213119 / 562949953421312 := by
  unfold fadd
  have e : ((8556839292003941 / 1125899906842624) : ℚ) + (5404319552844595 / 2251799813685248) = 22517998136852477 / 2251799813685248 := by norm_num
  rw [e]
  rw [round64_eq (3 : Int) (5629499534213119 : Int) (by norm_num) (by norm_num)
    (by rw [abs_lt]; constructor <;> norm_num)]
  norm_num


/-! ## Lemmas on the binary64 updater -/

theorem score_updateScore64 (p : TasteProfile) (c : Category) (id : JsId) (w : ℚ)
    (c' : Category) (k : String) :
    (Binary64.updateScore p c id w).score c' k
      = if (ScoreCall.mk c id w).hits c' k = true then fadd (p.score c' k) w
        else p.score c' k := by
  unfold Binary64.updateScore ScoreCall.hits TasteProfile.score
  by_cases hid : id.truthy = true
  · by_cases hw : w = 0
    · simp [hid, hw]
    · by_cases hc : c' = c
      · subst hc
        by_cases hk : k = id.toKey
        · simp [hid, hw, cat_setCat, readScore_writeScore, hk]
        · have hk2 : ¬ id.toKey = k := fun h => hk h.symm
          simp [hid, hw, cat_setCat, readScore_writeScore, hk, hk2]
      · have hc2 : ¬ c = c' := fun h => hc h.symm
        simp [hid, hw, cat_setCat, hc, hc2]
  · simp [hid]

theorem score_applyCalls (calls : List ScoreCall) :
    ∀ (p : TasteProfile) (c : Category) (k : String),
      (applyCalls p calls).score c k = fsum (p.score c k) (weightsAt calls c k) := by
  induction calls with
  | nil =>
    intro p c k
    rfl
  | cons x calls ih =>
    intro p c k
    unfold applyCalls at ih ⊢
    rw [List.foldl_cons, ih, score_updateScore64]
    unfold weightsAt fsum
    by_cases h : x.hits c k = true
    · have h2 : (ScoreCall.mk x.category x.id x.weight).hits c k = true := h
      rw [if_pos h2]
      simp only [List.filter_cons, h, if_true, List.map_cons, List.foldl_cons]
    · have h2 : ¬ (ScoreCall.mk x.category x.id x.weight).hits c k = true := h
      rw [if_neg h2]
      simp only [List.filter_cons, h, if_false, Bool.false_eq_true]

theorem applyCalls_append (p : TasteProfile) (xs ys : List ScoreCall) :
    applyCalls p (xs ++ ys) = applyCalls (applyCalls p xs) ys := by
  unfold applyCalls
  rw [List.foldl_append]

theorem applyCalls_nil (p : TasteProfile) : applyCalls p [] = p := rfl

theorem applyCalls_map {α : Type} (p : TasteProfile) (xs : List α) (f : α → ScoreCall) :
    applyCalls p (xs.map f)
      = xs.foldl (fun p x => Binary64.updateScore p (f x).category (f x).id (f x).weight) p := by
  unfold applyCalls
  rw [List.foldl_map]

theorem weightsAt_append (xs ys : List ScoreCall) (c : Category) (k : String) :
    weightsAt (xs ++ ys) c k = weightsAt xs c k ++ weightsAt ys c k := by
  unfold weightsAt
  rw [List.filter_append, List.map_append]

theorem applyDecade64_eq (p : TasteProfile) (d : MediaDetails) (b : ℚ) :
    Binary64.applyDecade p d b
      = applyCalls p ((decadeIds d).map
          (fun id => { category := .years, id := id,
                       weight := fmul b Binary64.ATTRIBUTE_WEIGHTS.years })) := by
  unfold Binary64.applyDecade decadeIds
  cases releaseDateOf d with
  | none => rfl
  | some releaseDate =>
    cases h : parseInt (releaseDate.take 4) with
    | none => simp [h, applyCalls]
    | some year => simp [h, applyCalls]

theorem applyBaseScore64_eq (p : TasteProfile) (d : MediaDetails) (b : ℚ) :
    Binary64.applyBaseScore p d b = applyCalls p (baseCalls d b) := by
  unfold Binary64.applyBaseScore baseCalls
  simp only [applyCalls_append, applyCalls_map, applyDecade64_eq]
  cases findDirector d.credits with
  | none => simp [applyCalls]
  | some director => simp [applyCalls]

theorem applyScoresToProfile64_eq (p : TasteProfile) (action : String) (d : MediaDetails)
    (m : ℚ) :
    Binary64.applyScoresToProfile p action (some d) m = applyCalls p (scoreCalls action d m) := by
  unfold Binary64.applyScoresToProfile scoreCalls
  cases Binary64.ACTION_WEIGHTS action with
  | none => rfl
  | some score => exact applyBaseScore64_eq p d _

theorem updateTasteProfile64_eq (fetch : DetailsOracle) (st : Store) (mediaId : JsId)
    (mediaType : String) (newStatus oldStatus : Option String) (d : MediaDetails) :
    getTasteProfile
        (Binary64.updateTasteProfile fetch st mediaId mediaType newStatus oldStatus (some d)).1
      = applyCalls (getTasteProfile st) (updateCalls newStatus oldStatus d) := by
  have h1 : (match knownAction oldStatus with
      | some old => Binary64.applyScoresToProfile (getTasteProfile st) old (some d) (-1)
      | none => getTasteProfile st)
      = applyCalls (getTasteProfile st)
          (match knownAction oldStatus with
           | some old => scoreCalls old d (-1)
           | none => []) := by
    cases knownAction oldStatus with
    | none => rfl
    | some old => exact applyScoresToProfile64_eq _ _ _ _
  have h2 : ∀ q : TasteProfile, (match knownAction newStatus with
      | some new =>
        if new ≠ "remove" then Binary64.applyScoresToProfile q new (some d) 1 else q
      | none => q)
      = applyCalls q
          (match knownAction newStatus with
           | some new => if new ≠ "remove" then scoreCalls new d 1 else []
           | none => []) := by
    intro q
    cases knownAction newStatus with
    | none => rfl
    | some new =>
      by_cases h : new ≠ "remove"
      · simp only [if_pos h]
        exact applyScoresToProfile64_eq _ _ _ _
      · simp only [if_neg h]
        rfl
  unfold updateCalls
  rw [applyCalls_append, ← h1, ← h2]
  rfl

theorem score_updateTasteProfile64 (fetch : DetailsOracle) (st : Store) (mediaId : JsId)
    (mediaType : String) (newStatus oldStatus : Option String) (d : MediaDetails)
    (c : Category) (k : String) :
    (getTasteProfile
        (Binary64.updateTasteProfile fetch st mediaId mediaType newStatus oldStatus
          (some d)).1).score c k
      = fsum ((getTasteProfile st).score c k) (weightsAt (updateCalls newStatus oldStatus d) c k) := by
  rw [updateTasteProfile64_eq, score_applyCalls]

/-! ## Rounding error of a binary64 sum -/

theorem fadd_sub_le (x w : ℚ) : |fadd x w - (x + w)| ≤ (|x| + |w|) * 2 ^ (-53 : Int) := by
  unfold fadd
  have h := round64_sub_le (x + w)
  have h2 : |x + w| * 2 ^ (-53 : Int) ≤ (|x| + |w|) * 2 ^ (-53 : Int) :=
    mul_le_mul_of_nonneg_right (abs_add x w) (le_of_lt (two_zpow_pos _))
  linarith

theorem abs_fadd_le (x w : ℚ) : |fadd x w| ≤ (1 + 2 ^ (-53 : Int)) * (|x| + |w|) := by
  have h := fadd_sub_le x w
  have h1 : |fadd x w| ≤ |fadd x w - (x + w)| + |x + w| := by
    have := abs_add (fadd x w - (x + w)) (x + w)
    simpa using this
  have h2 := abs_add x w
  linarith

theorem fsum_nil (x : ℚ) : fsum x [] = x := rfl

theorem fsum_cons (x w : ℚ) (ws : List ℚ) : fsum x (w :: ws) = fsum (fadd x w) ws := rfl

theorem fsum_append (x : ℚ) (ws vs : List ℚ) : fsum x (ws ++ vs) = fsum (fsum x ws) vs := by
  unfold fsum
  rw [List.foldl_append]

theorem magnitudeSum_nonneg (ws : List ℚ) : 0 ≤ magnitudeSum ws := by
  unfold magnitudeSum
  apply List.sum_nonneg
  intro x hx
  obtain ⟨w, _, rfl⟩ := List.mem_map.mp hx
  exact abs_nonneg w

theorem magnitudeSum_cons (w : ℚ) (ws : List ℚ) :
    magnitudeSum (w :: ws) = |w| + magnitudeSum ws := by
  simp [magnitudeSum]

theorem magnitudeSum_append (ws vs : List ℚ) :
    magnitudeSum (ws ++ vs) = magnitudeSum ws + magnitudeSum vs := by
  simp [magnitudeSum]

theorem abs_sum_le_magnitudeSum (ws : List ℚ) : |ws.sum| ≤ magnitudeSum ws := by
  induction ws with
  | nil => simp [magnitudeSum]
  | cons w ws ih =>
    rw [List.sum_cons, magnitudeSum_cons]
    exact le_trans (abs_add _ _) (by linarith)

theorem one_le_growth (n : Nat) : (1 : ℚ) ≤ (1 + 2 ^ (-53 : Int)) ^ n :=
  one_le_pow₀ (by
    have := two_zpow_pos (-53)
    linarith)

/-- The rounding error of a binary64 sum: for `n` additions it is at most
`((1 + 2^-53)^n - 1) * (|x| + |w1| + ... + |wn|)`. -/
theorem fsum_sub_le (ws : List ℚ) :
    ∀ x : ℚ, |fsum x ws - (x + ws.sum)| ≤ roundingBound x ws := by
  induction ws with
  | nil =>
    intro x
    simp [fsum_nil, roundingBound]
  | cons w ws ih =>
    intro x
    have hu := two_zpow_pos (-53)
    have h1 := fadd_sub_le x w
    have h2 := abs_fadd_le x w
    have h3 := ih (fadd x w)
    have hM := magnitudeSum_nonneg ws
    have hg := one_le_growth ws.length
    have hx := abs_nonneg x
    have hw := abs_nonneg w
    rw [fsum_cons, List.sum_cons]
    have e : fsum (fadd x w) ws - (x + (w + ws.sum))
        = (fsum (fadd x w) ws - (fadd x w + ws.sum)) + (fadd x w - (x + w)) := by ring
    rw [e]
    refine le_trans (abs_add _ _) ?_
    unfold roundingBound at h3 ⊢
    rw [List.length_cons, pow_succ, magnitudeSum_cons]
    have h4 : ((1 + 2 ^ (-53 : Int) : ℚ) ^ ws.length - 1) * (|fadd x w| + magnitudeSum ws)
        ≤ ((1 + 2 ^ (-53 : Int)) ^ ws.length - 1)
            * ((1 + 2 ^ (-53 : Int)) * (|x| + |w|) + magnitudeSum ws) :=
      mul_le_mul_of_nonneg_left (by linarith) (by linarith)
    have h5 : (0 : ℚ) ≤ ((1 + 2 ^ (-53 : Int)) ^ ws.length - 1) * (2 ^ (-53 : Int) * magnitudeSum ws)
        + 2 ^ (-53 : Int) * magnitudeSum ws := by
      have : (0 : ℚ) ≤ (1 + 2 ^ (-53 : Int)) ^ ws.length - 1 := by linarith
      positivity
    nlinarith [h1, h3, h4, h5]

theorem abs_fsum_le (ws : List ℚ) (x : ℚ) :
    |fsum x ws| ≤ (1 + 2 ^ (-53 : Int)) ^ ws.length * (|x| + magnitudeSum ws) := by
  have h := fsum_sub_le ws x
  have h1 : |fsum x ws| ≤ |fsum x ws - (x + ws.sum)| + |x + ws.sum| := by
    have := abs_add (fsum x ws - (x + ws.sum)) (x + ws.sum)
    simpa using this
  have h2 : |x + ws.sum| ≤ |x| + magnitudeSum ws := by
    refine le_trans (abs_add _ _) ?_
    have := abs_sum_le_magnitudeSum ws
    linarith
  unfold roundingBound at h
  linarith


/-! ## Weights of the calls of `updateTasteProfile` -/

theorem fmul_neg_left (x y : ℚ) : fmul (-x) y = - fmul x y := by
  unfold fmul
  rw [neg_mul, round64_neg]

theorem fmul_neg_one (x : ℚ) : fmul x (-1) = - fmul x 1 := by
  unfold fmul
  rw [mul_neg, round64_neg]

theorem baseCalls_neg (d : MediaDetails) (b : ℚ) :
    baseCalls d (-b) = (baseCalls d b).map (fun x => { x with weight := - x.weight }) := by
  unfold baseCalls
  simp only [List.map_append, List.map_map, List.map_cons, List.map_nil, fmul_neg_left]
  rfl

theorem scoreCalls_neg (a : String) (d : MediaDetails) :
    scoreCalls a d (-1) = (scoreCalls a d 1).map (fun x => { x with weight := - x.weight }) := by
  unfold scoreCalls
  cases Binary64.ACTION_WEIGHTS a with
  | none => rfl
  | some score =>
    dsimp only
    rw [fmul_neg_one, baseCalls_neg]

theorem weightsAt_map_neg (calls : List ScoreCall) (c : Category) (k : String) :
    weightsAt (calls.map (fun x => { x with weight := - x.weight })) c k
      = (weightsAt calls c k).map (fun w => -w) := by
  induction calls with
  | nil => rfl
  | cons x calls ih =>
    unfold weightsAt at ih ⊢
    have hh : ({ x with weight := - x.weight } : ScoreCall).hits c k = x.hits c k := by
      unfold ScoreCall.hits
      simp
    rw [List.map_cons, List.filter_cons, List.filter_cons, hh]
    by_cases h : x.hits c k = true
    · simp only [h, if_true, List.map_cons, ih]
    · simp only [h, if_false, Bool.false_eq_true, ih]

theorem knownAction_ne_remove {status : Option String} {a : String}
    (h : knownAction status = some a) : a ≠ "remove" := by
  intro he
  have hw := knownAction_weight h
  rw [he, ACTION_WEIGHTS_remove] at hw
  cases hw

theorem weightsAt_updateCalls (newStatus oldStatus : Option String) (d : MediaDetails)
    (c : Category) (k : String) :
    weightsAt (updateCalls newStatus oldStatus d) c k
      = (statusWeights oldStatus d c k).map (fun w => -w) ++ statusWeights newStatus d c k := by
  unfold updateCalls statusWeights
  rw [weightsAt_append]
  congr 1
  · cases knownAction oldStatus with
    | none => rfl
    | some old =>
      dsimp only
      rw [scoreCalls_neg, weightsAt_map_neg]
  · cases h : knownAction newStatus with
    | none => rfl
    | some new => simp only [if_pos (knownAction_ne_remove h)]

theorem sum_map_neg (ws : List ℚ) : (ws.map (fun w => -w)).sum = - ws.sum := by
  induction ws with
  | nil => simp
  | cons w ws ih =>
    rw [List.map_cons, List.sum_cons, List.sum_cons, ih]
    ring

theorem magnitudeSum_map_neg (ws : List ℚ) :
    magnitudeSum (ws.map (fun w => -w)) = magnitudeSum ws := by
  unfold magnitudeSum
  rw [List.map_map]
  congr 1
  apply List.map_congr_left
  intro w _
  simp

theorem magnitudeSum_take_le (ws : List ℚ) (n : Nat) :
    magnitudeSum (ws.take n) ≤ magnitudeSum ws := by
  have h := List.take_append_drop n ws
  have h2 := magnitudeSum_append (ws.take n) (ws.drop n)
  rw [h] at h2
  have := magnitudeSum_nonneg (ws.drop n)
  linarith

theorem abs_fsum_take_le (x : ℚ) (ws : List ℚ) (n : Nat) :
    |fsum x (ws.take n)| ≤ sumRange x ws := by
  have h := abs_fsum_le (ws.take n) x
  have hu := two_zpow_pos (-53)
  have h1 : (1 + 2 ^ (-53 : Int) : ℚ) ^ (ws.take n).length ≤ (1 + 2 ^ (-53 : Int)) ^ ws.length :=
    pow_le_pow_right₀ (by linarith) (by simp)
  have h2 := magnitudeSum_take_le ws n
  have h3 := magnitudeSum_nonneg (ws.take n)
  have h4 := abs_nonneg x
  have h5 := one_le_growth (ws.take n).length
  unfold sumRange
  calc |fsum x (ws.take n)|
      ≤ (1 + 2 ^ (-53 : Int)) ^ (ws.take n).length * (|x| + magnitudeSum (ws.take n)) := h
    _ ≤ (1 + 2 ^ (-53 : Int)) ^ (ws.take n).length * (|x| + magnitudeSum ws) :=
        mul_le_mul_of_nonneg_left (by linarith) (by linarith)
    _ ≤ (1 + 2 ^ (-53 : Int)) ^ ws.length * (|x| + magnitudeSum ws) :=
        mul_le_mul_of_nonneg_right h1 (by have := magnitudeSum_nonneg ws; linarith)

theorem reversalWeights_eq (d : MediaDetails) (c : Category) (k : String) :
    reversalWeights d c k
      = ((statusWeights (some "watched") d c k).map (fun w => -w)
          ++ statusWeights (some "watchlist") d c k)
        ++ ((statusWeights (some "watchlist") d c k).map (fun w => -w)
          ++ statusWeights (some "watched") d c k) := by
  unfold reversalWeights
  rw [weightsAt_append, weightsAt_updateCalls, weightsAt_updateCalls]

theorem sum_reversalWeights (d : MediaDetails) (c : Category) (k : String) :
    (reversalWeights d c k).sum = 0 := by
  rw [reversalWeights_eq]
  simp only [List.sum_append, sum_map_neg]
  ring

/-- C1 (amended): moving an item from `watched` to `watchlist` and back, with the same details
object, leaves in every key of every category the binary64 sum of its previous score `x` and of
the weights that the two calls add to that key, in order; these weights add up to 0, so the
score differs from `x` by at most the rounding error `((1 + 2^-53)^n - 1) * (|x| + |w1| + ... +
|wn|)` of the `n` additions, and a key that the item does not add to keeps exactly its score.
No addition overflows as long as `(1 + 2^-53)^n * (|x| + |w1| + ... + |wn|) < 2^1024`. -/
theorem reversal_cancels_amended (fetch : DetailsOracle) (st : Store) (mediaId : JsId)
    (mediaType : String) (d : MediaDetails) (c : Category) (k : String)
    (hrange : sumRange ((getTasteProfile st).score c k) (reversalWeights d c k) < 2 ^ 1024) :
    (getTasteProfile
        (Binary64.updateTasteProfile fetch
          (Binary64.updateTasteProfile fetch st mediaId mediaType (some "watchlist")
            (some "watched") (some d)).1
          mediaId mediaType (some "watched") (some "watchlist") (some d)).1).score c k
      = fsum ((getTasteProfile st).score c k) (reversalWeights d c k)
    ∧ (reversalWeights d c k).sum = 0
    ∧ |(getTasteProfile
          (Binary64.updateTasteProfile fetch
            (Binary64.updateTasteProfile fetch st mediaId mediaType (some "watchlist")
              (some "watched") (some d)).1
            mediaId mediaType (some "watched") (some "watchlist") (some d)).1).score c k
        - (getTasteProfile st).score c k|
        ≤ roundingBound ((getTasteProfile st).score c k) (reversalWeights d c k)
    ∧ (reversalWeights d c k = [] →
        (getTasteProfile
          (Binary64.updateTasteProfile fetch
            (Binary64.updateTasteProfile fetch st mediaId mediaType (some "watchlist")
              (some "watched") (some d)).1
            mediaId mediaType (some "watched") (some "watchlist") (some d)).1).score c k
          = (getTasteProfile st).score c k)
    ∧ ∀ n, |fsum ((getTasteProfile st).score c k) ((reversalWeights d c k).take n)| < 2 ^ 1024 := by
  have hfinal : (getTasteProfile
        (Binary64.updateTasteProfile fetch
          (Binary64.updateTasteProfile fetch st mediaId mediaType (some "watchlist")
            (some "watched") (some d)).1
          mediaId mediaType (some "watched") (some "watchlist") (some d)).1).score c k
      = fsum ((getTasteProfile st).score c k) (reversalWeights d c k) := by
    rw [score_updateTasteProfile64, score_updateTasteProfile64, ← fsum_append]
    unfold reversalWeights
    rw [weightsAt_append]
  have hsum := sum_reversalWeights d c k
  refine ⟨hfinal, hsum, ?_, ?_, ?_⟩
  · rw [hfinal]
    have h := fsum_sub_le (reversalWeights d c k) ((getTasteProfile st).score c k)
    rw [hsum, add_zero] at h
    exact h
  · intro hnil
    rw [hfinal, hnil]
    rfl
  · intro n
    exact lt_of_le_of_lt (abs_fsum_take_le _ _ n) hrange


/-! ## The reversal in binary64, at a concrete input -/

theorem toKey_num_100 : JsId.toKey (JsId.num 100) = "100" := by decide

theorem round64_two : round64 2 = 2 := by
  have := round64_intCast 2 (by norm_num)
  simpa using this

theorem round64_three : round64 3 = 3 := by
  have := round64_intCast 3 (by norm_num)
  simpa using this

theorem fmul_one_right (x : ℚ) : fmul x 1 = round64 x := by
  unfold fmul
  rw [mul_one]

theorem fmul_one_left (x : ℚ) : fmul 1 x = round64 x := by
  unfold fmul
  rw [one_mul]

theorem weightsAt_baseCalls_director100 (b : ℚ) (hb : fmul b (round64 (6 / 5)) ≠ 0) :
    weightsAt (baseCalls detailsDirector100 b) Category.directors "100"
      = [fmul b (round64 (6 / 5))] := by
  simp [weightsAt, baseCalls, detailsDirector100, findDirector, topCast, decadeIds, releaseDateOf,
    ScoreCall.hits, JsId.truthy, toKey_num_100, Binary64.ATTRIBUTE_WEIGHTS, hb]

theorem fmul_one_six_fifths :
    fmul 1 (round64 (6 / 5)) = 5404319552844595 / 4503599627370496 := by
  rw [fmul_one_left, round64_idem, round64_six_fifths]

theorem fmul_two_round64_six_fifths :
    fmul 2 (round64 (6 / 5)) = 5404319552844595 / 2251799813685248 := by
  rw [round64_six_fifths, fmul_two_six_fifths]

theorem fmul_three_round64_six_fifths :
    fmul 3 (round64 (6 / 5)) = 2026619832316723 / 562949953421312 := by
  rw [round64_six_fifths, fmul_three_six_fifths]

theorem statusWeights_watchlist_director100 :
    statusWeights (some "watchlist") detailsDirector100 Category.directors "100"
      = [5404319552844595 / 4503599627370496] := by
  have hk : knownAction (some "watchlist") = some "watchlist" :=
    knownAction_of_weight (w := 1) (by simp [ACTION_WEIGHTS])
  have ha : Binary64.ACTION_WEIGHTS "watchlist" = some (round64 1) := by
    simp [Binary64.ACTION_WEIGHTS, ACTION_WEIGHTS]
  unfold statusWeights scoreCalls
  rw [hk]
  simp only [ha, round64_one, fmul_one_right]
  rw [weightsAt_baseCalls_director100 1 (by rw [fmul_one_six_fifths]; norm_num),
    fmul_one_six_fifths]

theorem statusWeights_watched_director100 :
    statusWeights (some "watched") detailsDirector100 Category.directors "100"
      = [5404319552844595 / 2251799813685248] := by
  have hk : knownAction (some "watched") = some "watched" :=
    knownAction_of_weight (w := 2) (by simp [ACTION_WEIGHTS])
  have ha : Binary64.ACTION_WEIGHTS "watched" = some (round64 2) := by
    simp [Binary64.ACTION_WEIGHTS, ACTION_WEIGHTS]
  unfold statusWeights scoreCalls
  rw [hk]
  simp only [ha, round64_two, fmul_one_right]
  rw [weightsAt_baseCalls_director100 2 (by rw [fmul_two_round64_six_fifths]; norm_num),
    fmul_two_round64_six_fifths]

theorem reversalWeights_director100 :
    reversalWeights detailsDirector100 Category.directors "100"
      = [-(5404319552844595 / 2251799813685248), 5404319552844595 / 4503599627370496,
         -(5404319552844595 / 4503599627370496), 5404319552844595 / 2251799813685248] := by
  rw [reversalWeights_eq, statusWeights_watchlist_director100, statusWeights_watched_director100]
  rfl

theorem score_storeDirector (x : ℚ) :
    (getTasteProfile (storeDirector x)).score Category.directors "100" = x := by
  simp [getTasteProfile, storeDirector, profileDirector, TasteProfile.score, TasteProfile.cat,
    TasteProfile.zero, readScore_cons]

theorem fsum_reversal_director100 :
    fsum 10 (reversalWeights detailsDirector100 Category.directors "100")
      = 5629499534213119 / 562949953421312 := by
  rw [reversalWeights_director100]
  simp only [fsum, List.foldl_cons, List.foldl_nil]
  have e1 : (-(5404319552844595 / 2251799813685248) : ℚ)
      = -5404319552844595 / 2251799813685248 := by norm_num
  have e2 : (-(5404319552844595 / 4503599627370496) : ℚ)
      = -5404319552844595 / 4503599627370496 := by norm_num
  rw [e1, e2, reversal_step1, reversal_step2, reversal_step3, reversal_step4]

/-- C1 (counterexample): with `directors[100] = 10` stored and an item whose director has the id
100, moving the item from `watched` to `watchlist` and back leaves `9.999999999999998` in
`directors[100]`: the four additions `- 2.4`, `+ 1.2`, `- 1.2`, `+ 2.4` are rounded to
binary64. -/
theorem reversal_cancels_counterexample :
    (getTasteProfile (storeDirector 10)).score Category.directors "100" = 10
    ∧ (getTasteProfile
        (Binary64.updateTasteProfile fetchGenre28
          (Binary64.updateTasteProfile fetchGenre28 (storeDirector 10) (JsId.num 7) "movie"
            (some "watchlist") (some "watched") (some detailsDirector100)).1
          (JsId.num 7) "movie" (some "watched") (some "watchlist")
          (some detailsDirector100)).1).score Category.directors "100"
        = 5629499534213119 / 562949953421312
    ∧ (5629499534213119 / 562949953421312 : ℚ) ≠ 10 := by
  refine ⟨score_storeDirector 10, ?_, by norm_num⟩
  rw [score_updateTasteProfile64, score_updateTasteProfile64, ← fsum_append, ← weightsAt_append,
    score_storeDirector]
  exact fsum_reversal_director100

/-- C1 (amended), at a concrete input: `directors[100] = 10` and an item whose director has the
id 100; the score after the two calls is within the rounding bound of 10. -/
theorem reversal_cancels_amended_witness :
    sumRange ((getTasteProfile (storeDirector 10)).score Category.directors "100")
        (reversalWeights detailsDirector100 Category.directors "100") < 2 ^ 1024
    ∧ |(getTasteProfile
          (Binary64.updateTasteProfile fetchGenre28
            (Binary64.updateTasteProfile fetchGenre28 (storeDirector 10) (JsId.num 7) "movie"
              (some "watchlist") (some "watched") (some detailsDirector100)).1
            (JsId.num 7) "movie" (some "watched") (some "watchlist")
            (some detailsDirector100)).1).score Category.directors "100"
        - (getTasteProfile (storeDirector 10)).score Category.directors "100"|
        ≤ roundingBound ((getTasteProfile (storeDirector 10)).score Category.directors "100")
            (reversalWeights detailsDirector100 Category.directors "100") :=
  have hrange : sumRange ((getTasteProfile (storeDirector 10)).score Category.directors "100")
      (reversalWeights detailsDirector100 Category.directors "100") < 2 ^ 1024 := by
    rw [score_storeDirector, reversalWeights_director100]
    norm_num [sumRange, magnitudeSum, abs_of_pos, abs_of_neg]
  ⟨hrange,
   (reversal_cancels_amended fetchGenre28 (storeDirector 10) (JsId.num 7) "movie"
      detailsDirector100 Category.directors "100" hrange).2.2.1⟩

theorem move_step1 : fadd 1 (5404319552844595 / 4503599627370496) = 2476979795053773 / 1125899906842624 := by
  unfold fadd
  have e : (1 : ℚ) + (5404319552844595 / 4503599627370496) = 9907919180215091 / 4503599627370496 := by norm_num
  rw [e]
  rw [round64_tie (1 : Int) (4953959590107545 : Int) (4953959590107546 : Int) (by norm_num) (by norm_num)
    (by norm_num) (by decide)]
  norm_num

theorem move_step2 : fadd (2476979795053773 / 1125899906842624) (-5404319552844595 / 4503599627370496) = 4503599627370497 / 4503599627370496 := by
  unfold fadd
  have e : ((2476979795053773 / 1125899906842624) : ℚ) + (-5404319552844595 / 4503599627370496) = 4503599627370497 / 4503599627370496 := by norm_num
  rw [e]
  exact round64_exact (4503599627370497 : Int) (-52 : Int) (by norm_num) (by norm_num)

theorem move_step3 : fadd (4503599627370497 / 4503599627370496) (5404319552844595 / 2251799813685248) = 1914029841632461 / 562949953421312 := by
  unfold fadd
  have e : ((4503599627370497 / 4503599627370496) : ℚ) + (5404319552844595 / 2251799813685248) = 15312238733059687 / 4503599627370496 := by norm_num
  rw [e]
  rw [round64_tie (1 : Int) (7656119366529843 : Int) (7656119366529844 : Int) (by norm_num) (by norm_num)
    (by norm_num) (by decide)]
  norm_num

theorem direct_step1 : fadd 1 (5404319552844595 / 2251799813685248) = 7656119366529843 / 2251799813685248 := by
  unfold fadd
  have e : (1 : ℚ) + (5404319552844595 / 2251799813685248) = 7656119366529843 / 2251799813685248 := by norm_num
  rw [e]
  exact round64_exact (7656119366529843 : Int) (-51 : Int) (by norm_num) (by norm_num)

theorem twice_step1 : fadd (5404319552844595 / 4503599627370496) (5404319552844595 / 4503599627370496) = 5404319552844595 / 2251799813685248 := by
  unfold fadd
  have e : ((5404319552844595 / 4503599627370496) : ℚ) + (5404319552844595 / 4503599627370496) = 5404319552844595 / 2251799813685248 := by norm_num
  rw [e]
  exact round64_exact (5404319552844595 : Int) (-51 : Int) (by norm_num) (by norm_num)

theorem twice_step2 : fadd (5404319552844595 / 2251799813685248) (5404319552844595 / 4503599627370496) = 2026619832316723 / 562949953421312 := by
  unfold fadd
  have e : ((5404319552844595 / 2251799813685248) : ℚ) + (5404319552844595 / 4503599627370496) = 16212958658533785 / 4503599627370496 := by norm_num
  rw [e]
  rw [round64_tie (1 : Int) (8106479329266892 : Int) (8106479329266892 : Int) (by norm_num) (by norm_num)
    (by norm_num) (by decide)]
  norm_num


/-! ## Moving an item and applying an action twice, in binary64 -/

theorem statusWeights_none (d : MediaDetails) (c : Category) (k : String) :
    statusWeights none d c k = [] := rfl

theorem directWeights_eq (b : Option String) (d : MediaDetails) (c : Category) (k : String) :
    directWeights b d c k = statusWeights b d c k := by
  unfold directWeights
  rw [weightsAt_updateCalls, statusWeights_none]
  rfl

theorem moveWeights_eq (a b : Option String) (d : MediaDetails) (c : Category) (k : String) :
    moveWeights a b d c k
      = statusWeights a d c k
        ++ ((statusWeights a d c k).map (fun w => -w) ++ statusWeights b d c k) := by
  unfold moveWeights
  rw [weightsAt_append, weightsAt_updateCalls, weightsAt_updateCalls, statusWeights_none]
  rfl

theorem sum_moveWeights (a b : Option String) (d : MediaDetails) (c : Category) (k : String) :
    (moveWeights a b d c k).sum = (directWeights b d c k).sum := by
  rw [moveWeights_eq, directWeights_eq]
  simp only [List.sum_append, sum_map_neg]
  ring

theorem abs_sub_le_of_near {s t e x y : ℚ} (hs : |s - e| ≤ x) (ht : |t - e| ≤ y) :
    |s - t| ≤ x + y := by
  have h : s - t = (s - e) - (t - e) := by ring
  rw [h]
  exact le_trans (abs_sub _ _) (by linarith)

/-- C2 (amended): applying `a` as a fresh status and then moving the item from `a` to `b` leaves
in every key the binary64 sum of its previous score `x` and of the weights of `a`, of the
reversal of `a` and of `b`, in order; applying `b` alone leaves the binary64 sum of `x` and of
the weights of `b`. The two lists of weights have the same exact sum, so the two scores differ
by at most the sum of the two rounding bounds, and they are equal for a key that `a` does not
add to. No addition overflows under the two range conditions. -/
theorem move_without_double_counting_amended (fetch : DetailsOracle) (st : Store)
    (mediaId : JsId) (mediaType : String) (d : MediaDetails) (a b : String) (c : Category)
    (k : String)
    (hmove : sumRange ((getTasteProfile st).score c k) (moveWeights (some a) (some b) d c k)
      < 2 ^ 1024)
    (hdirect : sumRange ((getTasteProfile st).score c k) (directWeights (some b) d c k)
      < 2 ^ 1024) :
    (getTasteProfile
        (Binary64.updateTasteProfile fetch
          (Binary64.updateTasteProfile fetch st mediaId mediaType (some a) none (some d)).1
          mediaId mediaType (some b) (some a) (some d)).1).score c k
      = fsum ((getTasteProfile st).score c k) (moveWeights (some a) (some b) d c k)
    ∧ (getTasteProfile
        (Binary64.updateTasteProfile fetch st mediaId mediaType (some b) none (some d)).1).score c k
      = fsum ((getTasteProfile st).score c k) (directWeights (some b) d c k)
    ∧ (moveWeights (some a) (some b) d c k).sum = (directWeights (some b) d c k).sum
    ∧ |(getTasteProfile
          (Binary64.updateTasteProfile fetch
            (Binary64.updateTasteProfile fetch st mediaId mediaType (some a) none (some d)).1
            mediaId mediaType (some b) (some a) (some d)).1).score c k
        - (getTasteProfile
            (Binary64.updateTasteProfile fetch st mediaId mediaType (some b) none
              (some d)).1).score c k|
        ≤ roundingBound ((getTasteProfile st).score c k) (moveWeights (some a) (some b) d c k)
          + roundingBound ((getTasteProfile st).score c k) (directWeights (some b) d c k)
    ∧ (statusWeights (some a) d c k = [] →
        (getTasteProfile
          (Binary64.updateTasteProfile fetch
            (Binary64.updateTasteProfile fetch st mediaId mediaType (some a) none (some d)).1
            mediaId mediaType (some b) (some a) (some d)).1).score c k
          = (getTasteProfile
              (Binary64.updateTasteProfile fetch st mediaId mediaType (some b) none
                (some d)).1).score c k)
    ∧ (∀ n, |fsum ((getTasteProfile st).score c k)
          ((moveWeights (some a) (some b) d c k).take n)| < 2 ^ 1024)
    ∧ (∀ n, |fsum ((getTasteProfile st).score c k)
          ((directWeights (some b) d c k).take n)| < 2 ^ 1024) := by
  have hA : (getTasteProfile
        (Binary64.updateTasteProfile fetch
          (Binary64.updateTasteProfile fetch st mediaId mediaType (some a) none (some d)).1
          mediaId mediaType (some b) (some a) (some d)).1).score c k
      = fsum ((getTasteProfile st).score c k) (moveWeights (some a) (some b) d c k) := by
    rw [score_updateTasteProfile64, score_updateTasteProfile64, ← fsum_append]
    unfold moveWeights
    rw [weightsAt_append]
  have hB : (getTasteProfile
        (Binary64.updateTasteProfile fetch st mediaId mediaType (some b) none (some d)).1).score c k
      = fsum ((getTasteProfile st).score c k) (directWeights (some b) d c k) := by
    rw [score_updateTasteProfile64]
    rfl
  have hsum := sum_moveWeights (some a) (some b) d c k
  refine ⟨hA, hB, hsum, ?_, ?_, ?_, ?_⟩
  · rw [hA, hB]
    have h1 := fsum_sub_le (moveWeights (some a) (some b) d c k) ((getTasteProfile st).score c k)
    have h2 := fsum_sub_le (directWeights (some b) d c k) ((getTasteProfile st).score c k)
    rw [hsum] at h1
    exact abs_sub_le_of_near h1 h2
  · intro hnil
    rw [hA, hB, moveWeights_eq, directWeights_eq, hnil]
    rfl
  · intro n
    exact lt_of_le_of_lt (abs_fsum_take_le _ _ n) hmove
  · intro n
    exact lt_of_le_of_lt (abs_fsum_take_le _ _ n) hdirect

theorem moveWeights_director100 :
    moveWeights (some "watchlist") (some "watched") detailsDirector100 Category.directors "100"
      = [5404319552844595 / 4503599627370496, -(5404319552844595 / 4503599627370496),
         5404319552844595 / 2251799813685248] := by
  rw [moveWeights_eq, statusWeights_watchlist_director100, statusWeights_watched_director100]
  rfl

theorem directWeights_director100 :
    directWeights (some "watched") detailsDirector100 Category.directors "100"
      = [5404319552844595 / 2251799813685248] := by
  rw [directWeights_eq, statusWeights_watched_director100]

theorem fsum_move_director100 :
    fsum 1 (moveWeights (some "watchlist") (some "watched") detailsDirector100
      Category.directors "100") = 1914029841632461 / 562949953421312 := by
  rw [moveWeights_director100]
  simp only [fsum, List.foldl_cons, List.foldl_nil]
  have e2 : (-(5404319552844595 / 4503599627370496) : ℚ)
      = -5404319552844595 / 4503599627370496 := by norm_num
  rw [e2, move_step1, move_step2, move_step3]

theorem fsum_direct_director100 :
    fsum 1 (directWeights (some "watched") detailsDirector100 Category.directors "100")
      = 7656119366529843 / 2251799813685248 := by
  rw [directWeights_director100]
  simp only [fsum, List.foldl_cons, List.foldl_nil]
  rw [direct_step1]

/-- C2 (counterexample): with `directors[100] = 1` stored and an item whose director has the id
100, applying `watchlist` and then moving the item to `watched` leaves `3.4000000000000004` in
`directors[100]`, where applying `watched` alone leaves `3.4`. -/
theorem move_without_double_counting_counterexample :
    (getTasteProfile
        (Binary64.updateTasteProfile fetchGenre28
          (Binary64.updateTasteProfile fetchGenre28 (storeDirector 1) (JsId.num 7) "movie"
            (some "watchlist") none (some detailsDirector100)).1
          (JsId.num 7) "movie" (some "watched") (some "watchlist")
          (some detailsDirector100)).1).score Category.directors "100"
        = 1914029841632461 / 562949953421312
    ∧ (getTasteProfile
        (Binary64.updateTasteProfile fetchGenre28 (storeDirector 1) (JsId.num 7) "movie"
          (some "watched") none (some detailsDirector100)).1).score Category.directors "100"
        = 7656119366529843 / 2251799813685248
    ∧ (1914029841632461 / 562949953421312 : ℚ) ≠ 7656119366529843 / 2251799813685248 := by
  refine ⟨?_, ?_, by norm_num⟩
  · rw [score_updateTasteProfile64, score_updateTasteProfile64, ← fsum_append, ← weightsAt_append,
      score_storeDirector]
    exact fsum_move_director100
  · rw [score_updateTasteProfile64, score_storeDirector]
    exact fsum_direct_director100


/-- C2 (amended), at a concrete input: `directors[100] = 1`, an item whose director has the id
100, `a = watchlist` and `b = watched`; the two scores differ by at most the two rounding
bounds. -/
theorem move_without_double_counting_amended_witness :
    sumRange ((getTasteProfile (storeDirector 1)).score Category.directors "100")
        (moveWeights (some "watchlist") (some "watched") detailsDirector100
          Category.directors "100") < 2 ^ 1024
    ∧ sumRange ((getTasteProfile (storeDirector 1)).score Category.directors "100")
        (directWeights (some "watched") detailsDirector100 Category.directors "100") < 2 ^ 1024
    ∧ (moveWeights (some "watchlist") (some "watched") detailsDirector100
          Category.directors "100").sum
        = (directWeights (some "watched") detailsDirector100 Category.directors "100").sum :=
  have h1 : sumRange ((getTasteProfile (storeDirector 1)).score Category.directors "100")
      (moveWeights (some "watchlist") (some "watched") detailsDirector100
        Category.directors "100") < 2 ^ 1024 := by
    rw [score_storeDirector, moveWeights_director100]
    norm_num [sumRange, magnitudeSum, abs_of_pos, abs_of_neg]
  have h2 : sumRange ((getTasteProfile (storeDirector 1)).score Category.directors "100")
      (directWeights (some "watched") detailsDirector100 Category.directors "100")
      < 2 ^ 1024 := by
    rw [score_storeDirector, directWeights_director100]
    norm_num [sumRange, magnitudeSum, abs_of_pos, abs_of_neg]
  ⟨h1, h2,
   (move_without_double_counting_amended fetchGenre28 (storeDirector 1) (JsId.num 7) "movie"
      detailsDirector100 "watchlist" "watched" Category.directors "100" h1 h2).2.2.1⟩

theorem score_applyScoresToProfile64 (p : TasteProfile) (a : String) (d : MediaDetails)
    (c : Category) (k : String) :
    (Binary64.applyScoresToProfile p a (some d) 1).score c k
      = fsum (p.score c k) (actionWeights a d c k) := by
  rw [applyScoresToProfile64_eq, score_applyCalls]
  rfl

/-- C15 (amended): applying the same interaction once leaves in every key the binary64 sum of
its previous score `x` and of the weights `ws` of the interaction, and applying it twice leaves
the binary64 sum of `x` and of `ws` followed by `ws`; the change after two applications differs
from twice the change after one by at most the rounding bound of the doubled sum (`x` and `ws`
followed by `ws`) plus twice the rounding bound of the single sum (`x` and `ws`), and a key that
the interaction does not add to keeps exactly its score. No addition overflows under the range
condition. -/
theorem additivity_amended (p : TasteProfile) (a : String) (d : MediaDetails) (c : Category)
    (k : String)
    (hrange : sumRange (p.score c k) (actionWeights a d c k ++ actionWeights a d c k)
      < 2 ^ 1024) :
    (Binary64.applyScoresToProfile p a (some d) 1).score c k
      = fsum (p.score c k) (actionWeights a d c k)
    ∧ (Binary64.applyScoresToProfile (Binary64.applyScoresToProfile p a (some d) 1) a (some d)
          1).score c k
      = fsum (p.score c k) (actionWeights a d c k ++ actionWeights a d c k)
    ∧ |((Binary64.applyScoresToProfile (Binary64.applyScoresToProfile p a (some d) 1) a
            (some d) 1).score c k - p.score c k)
        - 2 * ((Binary64.applyScoresToProfile p a (some d) 1).score c k - p.score c k)|
        ≤ roundingBound (p.score c k) (actionWeights a d c k ++ actionWeights a d c k)
          + 2 * roundingBound (p.score c k) (actionWeights a d c k)
    ∧ (actionWeights a d c k = [] →
        (Binary64.applyScoresToProfile (Binary64.applyScoresToProfile p a (some d) 1) a
            (some d) 1).score c k = p.score c k
        ∧ (Binary64.applyScoresToProfile p a (some d) 1).score c k = p.score c k)
    ∧ ∀ n, |fsum (p.score c k) ((actionWeights a d c k ++ actionWeights a d c k).take n)|
        < 2 ^ 1024 := by
  have h1 := score_applyScoresToProfile64 p a d c k
  have h2 : (Binary64.applyScoresToProfile (Binary64.applyScoresToProfile p a (some d) 1) a
        (some d) 1).score c k
      = fsum (p.score c k) (actionWeights a d c k ++ actionWeights a d c k) := by
    rw [score_applyScoresToProfile64, h1, fsum_append]
  refine ⟨h1, h2, ?_, ?_, ?_⟩
  · rw [h1, h2]
    have e1 := fsum_sub_le (actionWeights a d c k) (p.score c k)
    have e2 := fsum_sub_le (actionWeights a d c k ++ actionWeights a d c k) (p.score c k)
    rw [List.sum_append] at e2
    rw [abs_le] at e1 e2 ⊢
    constructor <;> linarith [e1.1, e1.2, e2.1, e2.2]
  · intro hnil
    rw [h1, h2, hnil]
    exact ⟨rfl, rfl⟩
  · intro n
    exact lt_of_le_of_lt (abs_fsum_take_le _ _ n) hrange

theorem actionWeights_watchlist_director100 :
    actionWeights "watchlist" detailsDirector100 Category.directors "100"
      = [5404319552844595 / 4503599627370496] := by
  have h := statusWeights_watchlist_director100
  have hk : knownAction (some "watchlist") = some "watchlist" :=
    knownAction_of_weight (w := 1) (by simp [ACTION_WEIGHTS])
  unfold statusWeights at h
  rw [hk] at h
  exact h

theorem score_profileDirector (x : ℚ) :
    (profileDirector x).score Category.directors "100" = x := by
  simp [profileDirector, TasteProfile.score, TasteProfile.cat, TasteProfile.zero, readScore_cons]

/-- C15 (counterexample): with `directors[100] = 1.2` (the binary64 value) and an item whose
director has the id 100, applying `watchlist` once changes `directors[100]` by the binary64
value `1.2`, and applying it twice changes it by `2.3999999999999995`, which is not twice
that. -/
theorem additivity_counterexample :
    (Binary64.applyScoresToProfile (profileDirector (5404319552844595 / 4503599627370496))
        "watchlist" (some detailsDirector100) 1).score Category.directors "100"
      = 5404319552844595 / 2251799813685248
    ∧ (Binary64.applyScoresToProfile
        (Binary64.applyScoresToProfile (profileDirector (5404319552844595 / 4503599627370496))
          "watchlist" (some detailsDirector100) 1)
        "watchlist" (some detailsDirector100) 1).score Category.directors "100"
      = 2026619832316723 / 562949953421312
    ∧ (2026619832316723 / 562949953421312 - 5404319552844595 / 4503599627370496 : ℚ)
        ≠ 2 * (5404319552844595 / 2251799813685248 - 5404319552844595 / 4503599627370496) := by
  refine ⟨?_, ?_, by norm_num⟩
  · rw [score_applyScoresToProfile64, score_profileDirector, actionWeights_watchlist_director100]
    simp only [fsum, List.foldl_cons, List.foldl_nil]
    exact twice_step1
  · rw [score_applyScoresToProfile64, score_applyScoresToProfile64, score_profileDirector,
      actionWeights_watchlist_director100]
    simp only [fsum, List.foldl_cons, List.foldl_nil]
    rw [twice_step1, twice_step2]

/-- C15 (amended), at a concrete input: `directors[100] = 1.2` and `watchlist` applied to an
item whose director has the id 100. -/
theorem additivity_amended_witness :
    sumRange ((profileDirector (5404319552844595 / 4503599627370496)).score
        Category.directors "100")
        (actionWeights "watchlist" detailsDirector100 Category.directors "100"
          ++ actionWeights "watchlist" detailsDirector100 Category.directors "100") < 2 ^ 1024
    ∧ (Binary64.applyScoresToProfile (profileDirector (5404319552844595 / 4503599627370496))
        "watchlist" (some detailsDirector100) 1).score Category.directors "100"
      = fsum ((profileDirector (5404319552844595 / 4503599627370496)).score
          Category.directors "100")
          (actionWeights "watchlist" detailsDirector100 Category.directors "100") :=
  have h : sumRange ((profileDirector (5404319552844595 / 4503599627370496)).score
      Category.directors "100")
      (actionWeights "watchlist" detailsDirector100 Category.directors "100"
        ++ actionWeights "watchlist" detailsDirector100 Category.directors "100")
      < 2 ^ 1024 := by
    rw [score_profileDirector, actionWeights_watchlist_director100]
    norm_num [sumRange, magnitudeSum, abs_of_pos, abs_of_neg]
  ⟨h,
   (additivity_amended (profileDirector (5404319552844595 / 4503599627370496)) "watchlist"
      detailsDirector100 Category.directors "100" h).1⟩

theorem round64_one_fifth : round64 (1 / 5) = 3602879701896397 / 18014398509481984 := by
  rw [round64_eq (-3 : Int) (7205759403792794 : Int) (by norm_num) (by norm_num)
    (by rw [abs_lt]; constructor <;> norm_num)]
  norm_num

theorem round64_three_halves : round64 (3 / 2) = 3 / 2 := by
  exact round64_exact (6755399441055744 : Int) (-52 : Int) (by norm_num) (by norm_num)

theorem fmul_one_fifth_three_halves : fmul (3602879701896397 / 18014398509481984) (3 / 2) = 1351079888211149 / 4503599627370496 := by
  unfold fmul
  have e : ((3602879701896397 / 18014398509481984) : ℚ) * (3 / 2) = 10808639105689191 / 36028797018963968 := by norm_num
  rw [e]
  rw [round64_tie (-2 : Int) (5404319552844595 : Int) (5404319552844596 : Int) (by norm_num) (by norm_num)
    (by norm_num) (by decide)]
  norm_num

theorem roundtrip_step1 : fadd (1351079888211149 / 4503599627370496) 20 = 5713942027226317 / 281474976710656 := by
  unfold fadd
  have e : ((1351079888211149 / 4503599627370496) : ℚ) + 20 = 91423072435621069 / 4503599627370496 := by norm_num
  rw [e]
  rw [round64_eq (4 : Int) (5713942027226317 : Int) (by norm_num) (by norm_num)
    (by rw [abs_lt]; constructor <;> norm_num)]
  norm_num

theorem roundtrip_step2 : fadd (5713942027226317 / 281474976710656) (-20) = 84442493013197 / 281474976710656 := by
  unfold fadd
  have e : ((5713942027226317 / 281474976710656) : ℚ) + (-20) = 84442493013197 / 281474976710656 := by norm_num
  rw [e]
  exact round64_exact (5404319552844608 : Int) (-54 : Int) (by norm_num) (by norm_num)

theorem fadd_zero_W03 : fadd 0 (1351079888211149 / 4503599627370496) = 1351079888211149 / 4503599627370496 := by
  unfold fadd
  have e : (0 : ℚ) + (1351079888211149 / 4503599627370496) = 1351079888211149 / 4503599627370496 := by norm_num
  rw [e]
  exact round64_exact (5404319552844596 : Int) (-54 : Int) (by norm_num) (by norm_num)


/-! ## The explicit preference reconciler in binary64 -/

theorem applyPrefsWith64_eq (p : TasteProfile) (prefs : ExplicitPrefs) (wl wd wg : ℚ) :
    Binary64.applyPrefsWith p prefs wl wd wg = applyCalls p (prefsCalls prefs wl wd wg) := by
  unfold Binary64.applyPrefsWith prefsCalls
  simp only [applyCalls_append, applyCalls_map]

theorem applyExplicit64_eq (st : Store) (newPrefs : ExplicitPrefs)
    (oldPrefs : Option ExplicitPrefs) :
    getTasteProfile (Binary64.applyExplicitPreferencesToProfile st newPrefs oldPrefs)
      = applyCalls (getTasteProfile st) (reconcileCalls newPrefs oldPrefs) := by
  unfold Binary64.applyExplicitPreferencesToProfile reconcileCalls
  cases oldPrefs with
  | none =>
    simp only [applyPrefsWith64_eq]
    rfl
  | some old =>
    simp only [applyPrefsWith64_eq, applyCalls_append]
    rfl

theorem cache_applyExplicit64 (st : Store) (newPrefs : ExplicitPrefs)
    (oldPrefs : Option ExplicitPrefs) :
    (Binary64.applyExplicitPreferencesToProfile st newPrefs oldPrefs).localExplicitPreferences
      = st.localExplicitPreferences := rfl

theorem prefsCalls_neg (prefs : ExplicitPrefs) (wl wd wg : ℚ) :
    prefsCalls prefs (-wl) (-wd) (-wg)
      = (prefsCalls prefs wl wd wg).map (fun x => { x with weight := - x.weight }) := by
  unfold prefsCalls
  simp only [List.map_append, List.map_map]
  rfl

theorem weightsAt_reconcileCalls_some (newPrefs oldPrefs : ExplicitPrefs) (c : Category)
    (k : String) :
    weightsAt (reconcileCalls newPrefs (some oldPrefs)) c k
      = (explicitWeights oldPrefs c k).map (fun w => -w) ++ explicitWeights newPrefs c k := by
  unfold reconcileCalls explicitWeights
  rw [weightsAt_append]
  dsimp only
  rw [prefsCalls_neg, weightsAt_map_neg]

theorem weightsAt_reconcileCalls_none (newPrefs : ExplicitPrefs) (c : Category) (k : String) :
    weightsAt (reconcileCalls newPrefs none) c k = explicitWeights newPrefs c k := by
  unfold reconcileCalls explicitWeights
  rw [weightsAt_append]
  rfl

theorem roundTripWeights_eq (A B : ExplicitPrefs) (c : Category) (k : String) :
    roundTripWeights A B c k
      = explicitWeights A c k
        ++ ((explicitWeights A c k).map (fun w => -w) ++ explicitWeights B c k) := by
  unfold roundTripWeights
  rw [weightsAt_append, weightsAt_reconcileCalls_none, weightsAt_reconcileCalls_some]

theorem sum_roundTripWeights (A B : ExplicitPrefs) (c : Category) (k : String) :
    (roundTripWeights A B c k).sum = (explicitWeights B c k).sum := by
  rw [roundTripWeights_eq]
  simp only [List.sum_append, sum_map_neg]
  ring

/-- C3 (amended): applying preferences `A` with no old preferences and then `B` with old
preferences `A` leaves in every key the binary64 sum of its previous score `x` and of the
weights of `A`, of the reversal of `A` and of `B`, in order; applying `B` directly leaves the
binary64 sum of `x` and of the weights of `B`. The two lists of weights have the same exact
sum, so the two scores differ by at most the sum of the two rounding bounds, and they are equal
for a key that `A` does not add to. No addition overflows under the two range conditions. -/
theorem explicit_reconciliation_round_trip_amended (st : Store) (A B : ExplicitPrefs)
    (c : Category) (k : String)
    (hround : sumRange ((getTasteProfile st).score c k) (roundTripWeights A B c k) < 2 ^ 1024)
    (hdirect : sumRange ((getTasteProfile st).score c k) (explicitWeights B c k) < 2 ^ 1024) :
    (getTasteProfile
        (Binary64.applyExplicitPreferencesToProfile
          (Binary64.applyExplicitPreferencesToProfile st A none) B (some A))).score c k
      = fsum ((getTasteProfile st).score c k) (roundTripWeights A B c k)
    ∧ (getTasteProfile (Binary64.applyExplicitPreferencesToProfile st B none)).score c k
      = fsum ((getTasteProfile st).score c k) (explicitWeights B c k)
    ∧ (roundTripWeights A B c k).sum = (explicitWeights B c k).sum
    ∧ |(getTasteProfile
          (Binary64.applyExplicitPreferencesToProfile
            (Binary64.applyExplicitPreferencesToProfile st A none) B (some A))).score c k
        - (getTasteProfile (Binary64.applyExplicitPreferencesToProfile st B none)).score c k|
        ≤ roundingBound ((getTasteProfile st).score c k) (roundTripWeights A B c k)
          + roundingBound ((getTasteProfile st).score c k) (explicitWeights B c k)
    ∧ (explicitWeights A c k = [] →
        (getTasteProfile
          (Binary64.applyExplicitPreferencesToProfile
            (Binary64.applyExplicitPreferencesToProfile st A none) B (some A))).score c k
          = (getTasteProfile (Binary64.applyExplicitPreferencesToProfile st B none)).score c k)
    ∧ (∀ n, |fsum ((getTasteProfile st).score c k) ((roundTripWeights A B c k).take n)|
        < 2 ^ 1024)
    ∧ (∀ n, |fsum ((getTasteProfile st).score c k) ((explicitWeights B c k).take n)|
        < 2 ^ 1024) := by
  have hA : (getTasteProfile
        (Binary64.applyExplicitPreferencesToProfile
          (Binary64.applyExplicitPreferencesToProfile st A none) B (some A))).score c k
      = fsum ((getTasteProfile st).score c k) (roundTripWeights A B c k) := by
    rw [applyExplicit64_eq, applyExplicit64_eq, ← applyCalls_append, score_applyCalls]
    rfl
  have hB : (getTasteProfile (Binary64.applyExplicitPreferencesToProfile st B none)).score c k
      = fsum ((getTasteProfile st).score c k) (explicitWeights B c k) := by
    rw [applyExplicit64_eq, score_applyCalls, weightsAt_reconcileCalls_none]
  have hsum := sum_roundTripWeights A B c k
  refine ⟨hA, hB, hsum, ?_, ?_, ?_, ?_⟩
  · rw [hA, hB]
    have h1 := fsum_sub_le (roundTripWeights A B c k) ((getTasteProfile st).score c k)
    have h2 := fsum_sub_le (explicitWeights B c k) ((getTasteProfile st).score c k)
    rw [hsum] at h1
    exact abs_sub_le_of_near h1 h2
  · intro hnil
    rw [hA, hB, roundTripWeights_eq, hnil]
    rfl
  · intro n
    exact lt_of_le_of_lt (abs_fsum_take_le _ _ n) hround
  · intro n
    exact lt_of_le_of_lt (abs_fsum_take_le _ _ n) hdirect

theorem explicitWeights_like28 :
    explicitWeights prefsLike28 Category.genres "28" = [20] := by
  simp [explicitWeights, weightsAt, prefsCalls, prefsLike28, ScoreCall.hits, JsId.truthy,
    toKey_num_28, EXPLICIT_WEIGHTS]

theorem explicitWeights_default (c : Category) (k : String) :
    explicitWeights ExplicitPrefs.default c k = [] := by
  simp [explicitWeights, weightsAt, prefsCalls, ExplicitPrefs.default]

theorem score_storeGenre28At (x : ℚ) :
    (getTasteProfile (storeGenre28At x)).score Category.genres "28" = x := by
  simp [getTasteProfile, storeGenre28At, TasteProfile.score, TasteProfile.cat, TasteProfile.zero,
    readScore_cons]

theorem roundTripWeights_like28 :
    roundTripWeights prefsLike28 ExplicitPrefs.default Category.genres "28" = [20, -20] := by
  rw [roundTripWeights_eq, explicitWeights_like28, explicitWeights_default]
  rfl

/-- C3 (counterexample): with `genres[28] = 0.30000000000000004` stored, applying the like of
genre 28 and then the default preferences with the like as old preferences leaves
`0.3000000000000007` in `genres[28]`, where applying the default preferences directly leaves
`0.30000000000000004`. -/
theorem explicit_reconciliation_round_trip_counterexample :
    (getTasteProfile
        (Binary64.applyExplicitPreferencesToProfile
          (Binary64.applyExplicitPreferencesToProfile
            (storeGenre28At (1351079888211149 / 4503599627370496)) prefsLike28 none)
          ExplicitPrefs.default (some prefsLike28))).score Category.genres "28"
      = 84442493013197 / 281474976710656
    ∧ (getTasteProfile
        (Binary64.applyExplicitPreferencesToProfile
          (storeGenre28At (1351079888211149 / 4503599627370496)) ExplicitPrefs.default
          none)).score Category.genres "28"
      = 1351079888211149 / 4503599627370496
    ∧ (84442493013197 / 281474976710656 : ℚ) ≠ 1351079888211149 / 4503599627370496 := by
  refine ⟨?_, ?_, by norm_num⟩
  · rw [applyExplicit64_eq, applyExplicit64_eq, ← applyCalls_append, score_applyCalls,
      score_storeGenre28At]
    have h : weightsAt (reconcileCalls prefsLike28 none
        ++ reconcileCalls ExplicitPrefs.default (some prefsLike28)) Category.genres "28"
        = [20, -20] := roundTripWeights_like28
    rw [h]
    simp only [fsum, List.foldl_cons, List.foldl_nil]
    rw [roundtrip_step1, roundtrip_step2]
  · rw [applyExplicit64_eq, score_applyCalls, weightsAt_reconcileCalls_none,
      explicitWeights_default, score_storeGenre28At]
    rfl

/-- C3 (amended), at a concrete input: `genres[28] = 0.30000000000000004`, `A` the like of genre
28 and `B` the default preferences. -/
theorem explicit_reconciliation_round_trip_amended_witness :
    sumRange ((getTasteProfile (storeGenre28At (1351079888211149 / 4503599627370496))).score
        Category.genres "28")
        (roundTripWeights prefsLike28 ExplicitPrefs.default Category.genres "28") < 2 ^ 1024
    ∧ sumRange ((getTasteProfile (storeGenre28At (1351079888211149 / 4503599627370496))).score
        Category.genres "28")
        (explicitWeights ExplicitPrefs.default Category.genres "28") < 2 ^ 1024
    ∧ (roundTripWeights prefsLike28 ExplicitPrefs.default Category.genres "28").sum
        = (explicitWeights ExplicitPrefs.default Category.genres "28").sum :=
  have h1 : sumRange
      ((getTasteProfile (storeGenre28At (1351079888211149 / 4503599627370496))).score
        Category.genres "28")
      (roundTripWeights prefsLike28 ExplicitPrefs.default Category.genres "28") < 2 ^ 1024 := by
    rw [score_storeGenre28At, roundTripWeights_like28]
    norm_num [sumRange, magnitudeSum, abs_of_pos, abs_of_neg]
  have h2 : sumRange
      ((getTasteProfile (storeGenre28At (1351079888211149 / 4503599627370496))).score
        Category.genres "28")
      (explicitWeights ExplicitPrefs.default Category.genres "28") < 2 ^ 1024 := by
    rw [score_storeGenre28At, explicitWeights_default]
    norm_num [sumRange, magnitudeSum, abs_of_pos, abs_of_neg]
  ⟨h1, h2,
   (explicit_reconciliation_round_trip_amended
      (storeGenre28At (1351079888211149 / 4503599627370496)) prefsLike28 ExplicitPrefs.default
      Category.genres "28" h1 h2).2.2.1⟩


/-! ## Sequences of calls in binary64 -/

theorem updateTasteProfile64_store (fetch : DetailsOracle) (st : Store) (mediaId : JsId)
    (mediaType : String) (newStatus oldStatus : Option String)
    (mediaDetails : Option MediaDetails) :
    (Binary64.updateTasteProfile fetch st mediaId mediaType newStatus oldStatus mediaDetails).1
      = match resolvedDetails fetch mediaId mediaType mediaDetails with
        | some d =>
          (Binary64.updateTasteProfile fetch st mediaId mediaType newStatus oldStatus (some d)).1
        | none => st := by
  cases mediaDetails with
  | some d => rfl
  | none =>
    unfold resolvedDetails
    cases h : (getMediaDetails fetch mediaId mediaType).1 with
    | none => simp [Binary64.updateTasteProfile, h]
    | some d => simp [Binary64.updateTasteProfile, h]

theorem cache_updateTasteProfile64 (fetch : DetailsOracle) (st : Store) (mediaId : JsId)
    (mediaType : String) (newStatus oldStatus : Option String)
    (mediaDetails : Option MediaDetails) :
    (Binary64.updateTasteProfile fetch st mediaId mediaType newStatus oldStatus
        mediaDetails).1.localExplicitPreferences = st.localExplicitPreferences := by
  rw [updateTasteProfile64_store]
  cases h : resolvedDetails fetch mediaId mediaType mediaDetails with
  | none => rfl
  | some d => rfl

theorem profile_updateTasteProfile64 (fetch : DetailsOracle) (st : Store) (mediaId : JsId)
    (mediaType : String) (newStatus oldStatus : Option String)
    (mediaDetails : Option MediaDetails) :
    getTasteProfile
        (Binary64.updateTasteProfile fetch st mediaId mediaType newStatus oldStatus
          mediaDetails).1
      = applyCalls (getTasteProfile st)
          (eventCalls fetch st.localExplicitPreferences
            (ProfileEvent.update mediaId mediaType newStatus oldStatus mediaDetails)) := by
  rw [updateTasteProfile64_store]
  simp only [eventCalls]
  cases resolvedDetails fetch mediaId mediaType mediaDetails with
  | none => rfl
  | some d => exact updateTasteProfile64_eq fetch st mediaId mediaType newStatus oldStatus d

theorem profile_saveExplicitPreferences64 (uid : String) (remote : RemoteWrite) (st : Store)
    (newPrefs : ExplicitPrefs) (h : remote newPrefs = none) :
    getTasteProfile (Binary64.saveExplicitPreferences (some uid) remote st newPrefs).1
        = applyCalls (getTasteProfile st)
            (eventCalls (fun _ _ => none) st.localExplicitPreferences
              (ProfileEvent.save newPrefs))
    ∧ (Binary64.saveExplicitPreferences (some uid) remote st newPrefs).1.localExplicitPreferences
        = newPrefs := by
  unfold Binary64.saveExplicitPreferences
  simp only [h]
  constructor
  · rw [applyExplicit64_eq]
    rfl
  · rfl

theorem runEvents64_eq (uid : String) (remote : RemoteWrite) (fetch : DetailsOracle)
    (events : List ProfileEvent) :
    ∀ st : Store, (∀ P ∈ savedPrefs events, remote P = none) →
      (Binary64.runEvents (some uid) remote fetch st events).localExplicitPreferences
          = lastSaved st.localExplicitPreferences events
      ∧ getTasteProfile (Binary64.runEvents (some uid) remote fetch st events)
          = applyCalls (getTasteProfile st)
              (runCalls fetch st.localExplicitPreferences events) := by
  induction events with
  | nil =>
    intro st _
    exact ⟨rfl, rfl⟩
  | cons ev events ih =>
    intro st hok
    cases ev with
    | save P =>
      have hP : remote P = none := hok P (by simp [savedPrefs])
      have hrest : ∀ Q ∈ savedPrefs events, remote Q = none := by
        intro Q hQ
        exact hok Q (by simp only [savedPrefs, List.filterMap_cons]; exact List.mem_cons_of_mem _ hQ)
      obtain ⟨hprof, hcache⟩ := profile_saveExplicitPreferences64 uid remote st P hP
      obtain ⟨hc, hs⟩ := ih (Binary64.saveExplicitPreferences (some uid) remote st P).1 hrest
      rw [hcache] at hc hs
      rw [hprof] at hs
      refine ⟨?_, ?_⟩
      · simp only [Binary64.runEvents, List.foldl_cons, Binary64.runEvent, lastSaved] at hc ⊢
        exact hc
      · simp only [Binary64.runEvents, List.foldl_cons, Binary64.runEvent] at hs ⊢
        rw [hs, ← applyCalls_append]
        rfl
    | update mediaId mediaType newStatus oldStatus mediaDetails =>
      have hrest : ∀ Q ∈ savedPrefs events, remote Q = none := by
        intro Q hQ
        exact hok Q (by simpa [savedPrefs] using hQ)
      obtain ⟨hc, hs⟩ := ih
        (Binary64.updateTasteProfile fetch st mediaId mediaType newStatus oldStatus
          mediaDetails).1 hrest
      rw [cache_updateTasteProfile64] at hc hs
      rw [profile_updateTasteProfile64] at hs
      refine ⟨?_, ?_⟩
      · simp only [Binary64.runEvents, List.foldl_cons, Binary64.runEvent, lastSaved] at hc ⊢
        exact hc
      · simp only [Binary64.runEvents, List.foldl_cons, Binary64.runEvent] at hs ⊢
        rw [hs, ← applyCalls_append]
        rfl

theorem sum_weightsAt_map {α : Type} (c0 : Category) (f : α → JsId) (w : ℚ) (xs : List α)
    (c : Category) (k : String) :
    (weightsAt (xs.map (fun x => ({ category := c0, id := f x, weight := w } : ScoreCall)))
        c k).sum
      = w * hitsList c0 f xs c k := by
  induction xs with
  | nil => simp [weightsAt, hitsList]
  | cons x xs ih =>
    unfold weightsAt hitsList at ih ⊢
    rw [List.map_cons, List.filter_cons, List.map_cons, List.sum_cons, mul_add, ← ih]
    by_cases hw : w = 0
    · subst hw
      simp [ScoreCall.hits]
    · by_cases hh : c = c0 ∧ (f x).truthy = true ∧ k = (f x).toKey
      · obtain ⟨rfl, ht, rfl⟩ := hh
        simp [ScoreCall.hits, hits, ht, hw]
      · have hn : ({ category := c0, id := f x, weight := w } : ScoreCall).hits c k = false := by
          unfold ScoreCall.hits
          by_contra hcon
          simp only [Bool.not_eq_false, Bool.and_eq_true, decide_eq_true_eq] at hcon
          exact hh ⟨hcon.1.1.1.symm, hcon.1.1.2, hcon.2.symm⟩
        simp [hn, hits, hh]

theorem sum_explicitWeights (prefs : ExplicitPrefs) (c : Category) (k : String) :
    (explicitWeights prefs c k).sum = explicitShift prefs c k := by
  unfold explicitWeights prefsCalls explicitShift prefsShift
  rw [weightsAt_append, weightsAt_append, List.sum_append, List.sum_append,
    sum_weightsAt_map, sum_weightsAt_map, sum_weightsAt_map]

theorem sum_weightsAt_eventCalls_save (fetch : DetailsOracle) (cache newPrefs : ExplicitPrefs)
    (c : Category) (k : String) :
    (weightsAt (eventCalls fetch cache (ProfileEvent.save newPrefs)) c k).sum
      = explicitShift newPrefs c k - explicitShift cache c k := by
  unfold eventCalls
  rw [weightsAt_reconcileCalls_some, List.sum_append, sum_map_neg, sum_explicitWeights,
    sum_explicitWeights]
  ring

theorem runCalls_save (fetch : DetailsOracle) (cache P : ExplicitPrefs)
    (events : List ProfileEvent) :
    runCalls fetch cache (ProfileEvent.save P :: events)
      = eventCalls fetch cache (ProfileEvent.save P) ++ runCalls fetch P events := rfl

theorem runCalls_update (fetch : DetailsOracle) (cache : ExplicitPrefs) (mediaId : JsId)
    (mediaType : String) (newStatus oldStatus : Option String)
    (mediaDetails : Option MediaDetails) (events : List ProfileEvent) :
    runCalls fetch cache
        (ProfileEvent.update mediaId mediaType newStatus oldStatus mediaDetails :: events)
      = eventCalls fetch cache
          (ProfileEvent.update mediaId mediaType newStatus oldStatus mediaDetails)
        ++ runCalls fetch cache events := rfl

theorem interactionWeightSum_save (fetch : DetailsOracle) (P : ExplicitPrefs)
    (events : List ProfileEvent) (c : Category) (k : String) :
    interactionWeightSum fetch (ProfileEvent.save P :: events) c k
      = interactionWeightSum fetch events c k := by
  unfold interactionWeightSum
  rw [List.map_cons, List.sum_cons]
  simp

theorem interactionWeightSum_update (fetch : DetailsOracle) (mediaId : JsId)
    (mediaType : String) (newStatus oldStatus : Option String)
    (mediaDetails : Option MediaDetails) (events : List ProfileEvent) (c : Category)
    (k : String) :
    interactionWeightSum fetch
        (ProfileEvent.update mediaId mediaType newStatus oldStatus mediaDetails :: events) c k
      = (weightsAt (eventCalls fetch ExplicitPrefs.default
            (ProfileEvent.update mediaId mediaType newStatus oldStatus mediaDetails)) c k).sum
        + interactionWeightSum fetch events c k := by
  unfold interactionWeightSum
  rw [List.map_cons, List.sum_cons]
  congr 1
  simp only [eventCalls]
  cases resolvedDetails fetch mediaId mediaType mediaDetails with
  | none => rfl
  | some d => rfl

theorem eventCalls_update_cache (fetch : DetailsOracle) (cache cache2 : ExplicitPrefs)
    (mediaId : JsId) (mediaType : String) (newStatus oldStatus : Option String)
    (mediaDetails : Option MediaDetails) :
    eventCalls fetch cache
        (ProfileEvent.update mediaId mediaType newStatus oldStatus mediaDetails)
      = eventCalls fetch cache2
          (ProfileEvent.update mediaId mediaType newStatus oldStatus mediaDetails) := rfl

theorem sum_weightsAt_runCalls (fetch : DetailsOracle) (events : List ProfileEvent)
    (c : Category) (k : String) :
    ∀ cache : ExplicitPrefs,
      (weightsAt (runCalls fetch cache events) c k).sum
        = interactionWeightSum fetch events c k + explicitShift (lastSaved cache events) c k
          - explicitShift cache c k := by
  induction events with
  | nil =>
    intro cache
    simp [runCalls, weightsAt, interactionWeightSum, lastSaved]
  | cons ev events ih =>
    intro cache
    cases ev with
    | save P =>
      have hl : lastSaved cache (ProfileEvent.save P :: events) = lastSaved P events := rfl
      rw [runCalls_save, weightsAt_append, List.sum_append, sum_weightsAt_eventCalls_save,
        ih P, interactionWeightSum_save, hl]
      ring
    | update mediaId mediaType newStatus oldStatus mediaDetails =>
      have hl : lastSaved cache
          (ProfileEvent.update mediaId mediaType newStatus oldStatus mediaDetails :: events)
          = lastSaved cache events := rfl
      rw [runCalls_update, weightsAt_append, List.sum_append, ih cache,
        interactionWeightSum_update, hl,
        eventCalls_update_cache fetch cache ExplicitPrefs.default]
      ring

/-- C11 (amended): starting from a cleared state, after any sequence of `saveExplicitPreferences`
calls whose remote writes succeed, interleaved with `updateTasteProfile` calls, every score of
the stored profile is the binary64 sum, from 0, of the weights that the calls add to the key, in
order. These weights add up exactly to the interaction weights plus the explicit contribution of
the last saved preferences only, so the score differs from that sum by at most the rounding
bound of the additions. No addition overflows under the range condition. -/
theorem explicit_implicit_consistency_amended (uid : String) (remote : RemoteWrite)
    (fetch : DetailsOracle) (st0 : Store) (events : List ProfileEvent)
    (hok : ∀ P ∈ savedPrefs events, remote P = none) (c : Category) (k : String)
    (hrange : sumRange 0 (runWeights fetch events c k) < 2 ^ 1024) :
    (getTasteProfile
        (Binary64.runEvents (some uid) remote fetch (clearTasteProfile st0) events)).score c k
      = fsum 0 (runWeights fetch events c k)
    ∧ (runWeights fetch events c k).sum
      = interactionWeightSum fetch events c k
        + explicitShift (lastSaved ExplicitPrefs.default events) c k
    ∧ |(getTasteProfile
          (Binary64.runEvents (some uid) remote fetch (clearTasteProfile st0) events)).score c k
        - (interactionWeightSum fetch events c k
            + explicitShift (lastSaved ExplicitPrefs.default events) c k)|
        ≤ roundingBound 0 (runWeights fetch events c k)
    ∧ ∀ n, |fsum 0 ((runWeights fetch events c k).take n)| < 2 ^ 1024 := by
  have hrun := (runEvents64_eq uid remote fetch events (clearTasteProfile st0) hok).2
  have hz : (getTasteProfile (clearTasteProfile st0)).score c k = 0 := by
    cases c <;> rfl
  have hd : (clearTasteProfile st0).localExplicitPreferences = ExplicitPrefs.default := rfl
  have hscore : (getTasteProfile
        (Binary64.runEvents (some uid) remote fetch (clearTasteProfile st0) events)).score c k
      = fsum 0 (runWeights fetch events c k) := by
    rw [hrun, score_applyCalls, hz, hd]
    rfl
  have hsum : (runWeights fetch events c k).sum
      = interactionWeightSum fetch events c k
        + explicitShift (lastSaved ExplicitPrefs.default events) c k := by
    unfold runWeights
    rw [sum_weightsAt_runCalls, explicitShift_default]
    ring
  refine ⟨hscore, hsum, ?_, ?_⟩
  · rw [hscore, ← hsum]
    have h := fsum_sub_le (runWeights fetch events c k) 0
    rw [zero_add] at h
    exact h
  · intro n
    exact lt_of_le_of_lt (abs_fsum_take_le _ _ n) hrange


theorem weightsAt_baseCalls_genre28 (id : JsId) (b : ℚ) (hb : fmul b (round64 (3 / 2)) ≠ 0) :
    weightsAt (baseCalls (detailsGenre28 id) b) Category.genres "28"
      = [fmul b (round64 (3 / 2))] := by
  simp [weightsAt, baseCalls, detailsGenre28, findDirector, topCast, decadeIds, releaseDateOf,
    ScoreCall.hits, JsId.truthy, toKey_num_28, Binary64.ATTRIBUTE_WEIGHTS, hb]

theorem fmul_view_genre :
    fmul (round64 (1 / 5)) (round64 (3 / 2)) = 1351079888211149 / 4503599627370496 := by
  rw [round64_one_fifth, round64_three_halves, fmul_one_fifth_three_halves]

theorem statusWeights_view_genre28 (id : JsId) :
    statusWeights (some "view_media_page") (detailsGenre28 id) Category.genres "28"
      = [1351079888211149 / 4503599627370496] := by
  have hk : knownAction (some "view_media_page") = some "view_media_page" :=
    knownAction_of_weight (w := 1 / 5) (by simp [ACTION_WEIGHTS])
  have ha : Binary64.ACTION_WEIGHTS "view_media_page" = some (round64 (1 / 5)) := by
    simp [Binary64.ACTION_WEIGHTS, ACTION_WEIGHTS]
  unfold statusWeights scoreCalls
  rw [hk]
  simp only [ha, fmul_one_right, round64_idem]
  rw [weightsAt_baseCalls_genre28 id _ (by rw [fmul_view_genre]; norm_num), fmul_view_genre]

theorem runWeights_viewLikeReset :
    runWeights fetchGenre28 eventsViewLikeReset Category.genres "28"
      = [1351079888211149 / 4503599627370496, 20, -20] := by
  unfold runWeights eventsViewLikeReset
  rw [runCalls_update, runCalls_save, runCalls_save]
  simp only [weightsAt_append, eventCalls, resolvedDetails, weightsAt_updateCalls,
    weightsAt_reconcileCalls_some, statusWeights_none, statusWeights_view_genre28,
    explicitWeights_like28, explicitWeights_default]
  rfl

theorem interactionWeightSum_viewLikeReset :
    interactionWeightSum fetchGenre28 eventsViewLikeReset Category.genres "28"
      = 1351079888211149 / 4503599627370496 := by
  unfold eventsViewLikeReset
  rw [interactionWeightSum_update, interactionWeightSum_save, interactionWeightSum_save]
  simp only [eventCalls, resolvedDetails, weightsAt_updateCalls, statusWeights_none,
    statusWeights_view_genre28]
  simp [interactionWeightSum]

theorem fsum_viewLikeReset :
    fsum 0 (runWeights fetchGenre28 eventsViewLikeReset Category.genres "28")
      = 84442493013197 / 281474976710656 := by
  rw [runWeights_viewLikeReset]
  simp only [fsum, List.foldl_cons, List.foldl_nil]
  rw [fadd_zero_W03, roundtrip_step1, roundtrip_step2]

/-- C11 (counterexample): from a cleared state, viewing the page of an item of genre 28 (weight
`0.2 * 1.5 = 0.30000000000000004`), saving the like of genre 28 and then saving the default
preferences leaves `0.3000000000000007` in `genres[28]`, where the interaction contributions sum
to `0.30000000000000004` and the explicit contribution of the last saved preferences is 0. -/
theorem explicit_implicit_consistency_counterexample :
    (∀ P ∈ savedPrefs eventsViewLikeReset, (fun _ => none : RemoteWrite) P = none)
    ∧ (getTasteProfile
        (Binary64.runEvents (some "u1") (fun _ => none) fetchGenre28
          (clearTasteProfile storeGenre28) eventsViewLikeReset)).score Category.genres "28"
      = 84442493013197 / 281474976710656
    ∧ interactionWeightSum fetchGenre28 eventsViewLikeReset Category.genres "28"
      = 1351079888211149 / 4503599627370496
    ∧ explicitShift (lastSaved ExplicitPrefs.default eventsViewLikeReset) Category.genres "28" = 0
    ∧ (84442493013197 / 281474976710656 : ℚ) ≠ 1351079888211149 / 4503599627370496 + 0 := by
  refine ⟨fun _ _ => rfl, ?_, interactionWeightSum_viewLikeReset, ?_, by norm_num⟩
  · have hrun := (runEvents64_eq "u1" (fun _ => none) fetchGenre28 eventsViewLikeReset
      (clearTasteProfile storeGenre28) (fun _ _ => rfl)).2
    rw [hrun, score_applyCalls]
    exact fsum_viewLikeReset
  · have hl : lastSaved ExplicitPrefs.default eventsViewLikeReset = ExplicitPrefs.default := rfl
    rw [hl, explicitShift_default]

/-- C11 (amended), at a concrete input: after viewing the page of an item of genre 28, saving the
like of genre 28 and saving the default preferences, `genres[28]` is within the rounding bound
of the interaction weight. -/
theorem explicit_implicit_consistency_amended_witness :
    (∀ P ∈ savedPrefs eventsViewLikeReset, (fun _ => none : RemoteWrite) P = none)
    ∧ sumRange 0 (runWeights fetchGenre28 eventsViewLikeReset Category.genres "28") < 2 ^ 1024
    ∧ |(getTasteProfile
          (Binary64.runEvents (some "u1") (fun _ => none) fetchGenre28
            (clearTasteProfile storeGenre28) eventsViewLikeReset)).score Category.genres "28"
        - (interactionWeightSum fetchGenre28 eventsViewLikeReset Category.genres "28"
            + explicitShift (lastSaved ExplicitPrefs.default eventsViewLikeReset)
                Category.genres "28")|
        ≤ roundingBound 0 (runWeights fetchGenre28 eventsViewLikeReset Category.genres "28") :=
  have h : sumRange 0 (runWeights fetchGenre28 eventsViewLikeReset Category.genres "28")
      < 2 ^ 1024 := by
    rw [runWeights_viewLikeReset]
    norm_num [sumRange, magnitudeSum, abs_of_pos, abs_of_neg]
  ⟨fun _ _ => rfl, h,
   (explicit_implicit_consistency_amended "u1" (fun _ => none) fetchGenre28 storeGenre28
      eventsViewLikeReset (fun _ _ => rfl) Category.genres "28" h).2.2.1⟩


/-! ## The bulk build in binary64 -/

theorem processEntry64_eq (p : TasteProfile) (itemData : WatchlistEntry) (d : MediaDetails) :
    Binary64.processEntry p itemData d = applyCalls p (processCalls itemData d) := by
  unfold Binary64.processEntry processCalls
  rw [applyCalls_append]
  have h1 : (match itemData.status with
      | some status =>
        if status ≠ "" ∧ status ≠ "remove" then
          Binary64.applyScoresToProfile p status (some d) 1
        else p
      | none => p)
      = applyCalls p (match itemData.status with
          | some status => if status ≠ "" ∧ status ≠ "remove" then scoreCalls status d 1 else []
          | none => []) := by
    cases itemData.status with
    | none => rfl
    | some status =>
      by_cases h : status ≠ "" ∧ status ≠ "remove"
      · simp only [if_pos h, applyScoresToProfile64_eq]
      · simp only [if_neg h]
        rfl
  simp only
  rw [h1]
  cases ratingActionOf itemData.userRating with
  | none => rfl
  | some ratingAction => exact applyScoresToProfile64_eq _ ratingAction d 1

theorem buildLoop64_profile (n : Nat)
    (xs : List ((String × WatchlistEntry) × Option MediaDetails)) :
    ∀ (i : Nat) (s : BuildState),
      ((xs.enumFrom i).foldl (Binary64.buildStep n) s).profile
        = xs.foldl (fun p x =>
            match x.2 with
            | some mediaDetails => Binary64.processEntry p x.1.2 mediaDetails
            | none => p) s.profile := by
  induction xs with
  | nil =>
    intro i s
    rfl
  | cons x xs ih =>
    intro i s
    rw [List.enumFrom_cons, List.foldl_cons, List.foldl_cons, ih]
    rfl

theorem libraryLoop64_eq (fetch : DetailsOracle) (library : Watchlist) :
    ∀ p : TasteProfile,
      library.foldl (fun p e =>
          match entryDetails fetch e with
          | some mediaDetails => Binary64.processEntry p e.2 mediaDetails
          | none => p) p
        = applyCalls p (library.flatMap (entryCalls fetch)) := by
  induction library with
  | nil =>
    intro p
    rfl
  | cons e es ih =>
    intro p
    rw [List.foldl_cons, ih, List.flatMap_cons, applyCalls_append]
    congr 1
    unfold entryCalls
    cases entryDetails fetch e with
    | none => rfl
    | some d => exact processEntry64_eq p e.2 d

theorem applyBuildPrefs64_eq (p : TasteProfile) (explicitPrefs : Option ExplicitPrefs) :
    Binary64.applyBuildPrefs p explicitPrefs
      = applyCalls p (match explicitPrefs with
          | some prefs =>
            prefsCalls prefs EXPLICIT_WEIGHTS.liked_genre EXPLICIT_WEIGHTS.disliked_genre
              EXPLICIT_WEIGHTS.language
          | none => []) := by
  unfold Binary64.applyBuildPrefs
  cases explicitPrefs with
  | none => rfl
  | some prefs => exact applyPrefsWith64_eq p prefs _ _ _

/-- The profile read back after a bulk build in binary64 by an authenticated user: the calls of
the build applied to the zero-value profile. -/
theorem getTasteProfile_build64 (uid : String) (fetch : DetailsOracle) (st : Store)
    (library : Watchlist) (explicitPrefs : Option ExplicitPrefs) :
    getTasteProfile
        (Binary64.buildInitialProfileFromLibrary (some uid) fetch st library explicitPrefs).store
      = applyCalls TasteProfile.zero (buildCalls fetch library explicitPrefs) := by
  unfold buildCalls
  rw [applyCalls_append, ← libraryLoop64_eq, ← applyBuildPrefs64_eq]
  unfold Binary64.buildInitialProfileFromLibrary
  simp only
  have hz : ∀ prefs : Option ExplicitPrefs,
      getTasteProfile (match prefs with
        | some p => { clearTasteProfile st with localExplicitPreferences := p }
        | none => clearTasteProfile st) = TasteProfile.zero := by
    intro prefs
    cases prefs <;> rfl
  by_cases hlen : library.length = 0
  · have hnil : library = [] := List.length_eq_zero.mp hlen
    subst hnil
    simp only [List.length_nil, if_true]
    cases explicitPrefs with
    | none => rfl
    | some prefs => rfl
  · simp only [hlen, if_false]
    simp only [getTasteProfile, saveTasteProfile]
    congr 1
    rw [List.enum, buildLoop64_profile]
    simp only [List.map_map]
    have := foldl_zip_map (fun e => entryDetails fetch e)
      (fun (p : TasteProfile) (e : String × WatchlistEntry) (r : Option MediaDetails) =>
        match r with
        | some mediaDetails => Binary64.processEntry p e.2 mediaDetails
        | none => p) library
    have hz' := hz explicitPrefs
    simp only [getTasteProfile] at hz'
    rw [hz']
    exact this TasteProfile.zero

theorem score_build64 (uid : String) (fetch : DetailsOracle) (st : Store)
    (library : Watchlist) (explicitPrefs : Option ExplicitPrefs) (c : Category) (k : String) :
    (getTasteProfile
        (Binary64.buildInitialProfileFromLibrary (some uid) fetch st library
          explicitPrefs).store).score c k
      = fsum 0 (buildWeights fetch library explicitPrefs c k) := by
  have hz : TasteProfile.zero.score c k = 0 := by cases c <;> rfl
  rw [getTasteProfile_build64, score_applyCalls, hz]
  rfl

theorem buildWeights_perm (fetch : DetailsOracle) (library permuted : Watchlist)
    (explicitPrefs : Option ExplicitPrefs) (h : library.Perm permuted) (c : Category)
    (k : String) :
    (buildWeights fetch library explicitPrefs c k).Perm
      (buildWeights fetch permuted explicitPrefs c k) := by
  unfold buildWeights weightsAt buildCalls
  exact (((h.flatMap_right (entryCalls fetch)).append_right _).filter _).map _

theorem magnitudeSum_perm {ws ws' : List ℚ} (h : ws.Perm ws') :
    magnitudeSum ws = magnitudeSum ws' :=
  (h.map (fun w => |w|)).sum_eq

theorem roundingBound_perm (x : ℚ) {ws ws' : List ℚ} (h : ws.Perm ws') :
    roundingBound x ws = roundingBound x ws' := by
  unfold roundingBound
  rw [magnitudeSum_perm h, h.length_eq]

theorem sumRange_perm (x : ℚ) {ws ws' : List ℚ} (h : ws.Perm ws') :
    sumRange x ws = sumRange x ws' := by
  unfold sumRange
  rw [magnitudeSum_perm h, h.length_eq]

/-- C20 (amended): for an authenticated user, every library, fetched details and explicit
preferences, the score that `buildInitialProfileFromLibrary` stores in a key is the binary64 sum,
from 0, of the weights that the entries and then the preferences add to that key, in iteration
order. For a permutation of the library these weights are a permutation of the same weights, so
the two stored scores differ by at most twice the rounding error
`((1 + 2^-53)^n - 1) * (|w1| + ... + |wn|)` of the `n` additions, and a key that nothing is added
to holds 0 in both. No addition overflows, in either order, as long as
`(1 + 2^-53)^n * (|w1| + ... + |wn|) < 2^1024`. -/
theorem bulk_build_order_independent_amended (uid : String) (fetch : DetailsOracle) (st : Store)
    (library permuted : Watchlist) (explicitPrefs : Option ExplicitPrefs)
    (h : library.Perm permuted) (c : Category) (k : String)
    (hrange : sumRange 0 (buildWeights fetch library explicitPrefs c k) < 2 ^ 1024) :
    (getTasteProfile
        (Binary64.buildInitialProfileFromLibrary (some uid) fetch st library
          explicitPrefs).store).score c k
      = fsum 0 (buildWeights fetch library explicitPrefs c k)
    ∧ (getTasteProfile
        (Binary64.buildInitialProfileFromLibrary (some uid) fetch st permuted
          explicitPrefs).store).score c k
      = fsum 0 (buildWeights fetch permuted explicitPrefs c k)
    ∧ (buildWeights fetch library explicitPrefs c k).Perm
        (buildWeights fetch permuted explicitPrefs c k)
    ∧ |(getTasteProfile
          (Binary64.buildInitialProfileFromLibrary (some uid) fetch st library
            explicitPrefs).store).score c k
        - (getTasteProfile
            (Binary64.buildInitialProfileFromLibrary (some uid) fetch st permuted
              explicitPrefs).store).score c k|
        ≤ 2 * roundingBound 0 (buildWeights fetch library explicitPrefs c k)
    ∧ (buildWeights fetch library explicitPrefs c k = [] →
        (getTasteProfile
          (Binary64.buildInitialProfileFromLibrary (some uid) fetch st library
            explicitPrefs).store).score c k = 0
        ∧ (getTasteProfile
            (Binary64.buildInitialProfileFromLibrary (some uid) fetch st permuted
              explicitPrefs).store).score c k = 0)
    ∧ (∀ n, |fsum 0 ((buildWeights fetch library explicitPrefs c k).take n)| < 2 ^ 1024)
    ∧ ∀ n, |fsum 0 ((buildWeights fetch permuted explicitPrefs c k).take n)| < 2 ^ 1024 := by
  have hp := buildWeights_perm fetch library permuted explicitPrefs h c k
  have h1 := score_build64 uid fetch st library explicitPrefs c k
  have h2 := score_build64 uid fetch st permuted explicitPrefs c k
  refine ⟨h1, h2, hp, ?_, ?_, ?_, ?_⟩
  · rw [h1, h2]
    have e1 := fsum_sub_le (buildWeights fetch library explicitPrefs c k) 0
    have e2 := fsum_sub_le (buildWeights fetch permuted explicitPrefs c k) 0
    rw [← roundingBound_perm 0 hp, ← hp.sum_eq] at e2
    rw [abs_le] at e1 e2 ⊢
    constructor <;> linarith [e1.1, e1.2, e2.1, e2.2]
  · intro hnil
    have hnil2 : buildWeights fetch permuted explicitPrefs c k = [] := by
      have := hp.length_eq
      rw [hnil] at this
      exact List.length_eq_zero.mp this.symm
    rw [h1, h2, hnil, hnil2]
    exact ⟨rfl, rfl⟩
  · intro n
    exact lt_of_le_of_lt (abs_fsum_take_le 0 _ n) hrange
  · intro n
    rw [sumRange_perm 0 hp] at hrange
    exact lt_of_le_of_lt (abs_fsum_take_le 0 _ n) hrange

theorem entryDetails_fetchDirector100_plain :
    entryDetails fetchDirector100 entryWatchlistPlain = some detailsDirector100 := by
  have hk : splitKey entryWatchlistPlain.1 = ("movie", JsId.str "9") := by decide
  unfold entryDetails
  rw [hk]
  simp [getMediaDetails, JsId.truthy, fetchDirector100]

theorem entryDetails_fetchDirector100_rated :
    entryDetails fetchDirector100 entryWatchedRated9 = some detailsDirector100 := by
  have hk : splitKey entryWatchedRated9.1 = ("movie", JsId.str "7") := by decide
  unfold entryDetails
  rw [hk]
  simp [getMediaDetails, JsId.truthy, fetchDirector100]

theorem weightsAt_watched_director100 :
    weightsAt (scoreCalls "watched" detailsDirector100 1) Category.directors "100"
      = [5404319552844595 / 2251799813685248] := by
  have h := statusWeights_watched_director100
  have hk : knownAction (some "watched") = some "watched" :=
    knownAction_of_weight (w := 2) (by simp [ACTION_WEIGHTS])
  unfold statusWeights at h
  rw [hk] at h
  exact h

theorem weightsAt_rated_high_director100 :
    weightsAt (scoreCalls "rated_high" detailsDirector100 1) Category.directors "100"
      = [2026619832316723 / 562949953421312] := by
  have ha : Binary64.ACTION_WEIGHTS "rated_high" = some (round64 3) := by
    simp [Binary64.ACTION_WEIGHTS, ACTION_WEIGHTS]
  unfold scoreCalls
  simp only [ha, round64_three, fmul_one_right]
  rw [weightsAt_baseCalls_director100 3 (by rw [fmul_three_round64_six_fifths]; norm_num),
    fmul_three_round64_six_fifths]

theorem weightsAt_entry_plain_director100 :
    weightsAt (entryCalls fetchDirector100 entryWatchlistPlain) Category.directors "100"
      = [5404319552844595 / 4503599627370496] := by
  unfold entryCalls
  rw [entryDetails_fetchDirector100_plain]
  have hs : entryWatchlistPlain.2.status = some "watchlist" := rfl
  have hr : ratingActionOf entryWatchlistPlain.2.userRating = none := rfl
  simp only [processCalls, hs, hr]
  rw [if_pos (by decide), List.append_nil]
  exact actionWeights_watchlist_director100

theorem weightsAt_entry_rated_director100 :
    weightsAt (entryCalls fetchDirector100 entryWatchedRated9) Category.directors "100"
      = [5404319552844595 / 2251799813685248, 2026619832316723 / 562949953421312] := by
  unfold entryCalls
  rw [entryDetails_fetchDirector100_rated]
  have hs : entryWatchedRated9.2.status = some "watched" := rfl
  have hr : ratingActionOf entryWatchedRated9.2.userRating = some "rated_high" := by
    simp [ratingActionOf, entryWatchedRated9]
    norm_num
  simp only [processCalls, hs, hr]
  rw [if_pos (by decide), weightsAt_append, weightsAt_watched_director100,
    weightsAt_rated_high_director100]
  rfl

theorem buildWeights_plain_rated :
    buildWeights fetchDirector100 [entryWatchlistPlain, entryWatchedRated9] none
        Category.directors "100"
      = [5404319552844595 / 4503599627370496, 5404319552844595 / 2251799813685248,
         2026619832316723 / 562949953421312] := by
  unfold buildWeights buildCalls
  simp only [List.flatMap_cons, List.flatMap_nil, List.append_nil, weightsAt_append,
    weightsAt_entry_plain_director100, weightsAt_entry_rated_director100]
  rfl

theorem buildWeights_rated_plain :
    buildWeights fetchDirector100 [entryWatchedRated9, entryWatchlistPlain] none
        Category.directors "100"
      = [5404319552844595 / 2251799813685248, 2026619832316723 / 562949953421312,
         5404319552844595 / 4503599627370496] := by
  unfold buildWeights buildCalls
  simp only [List.flatMap_cons, List.flatMap_nil, List.append_nil, weightsAt_append,
    weightsAt_entry_plain_director100, weightsAt_entry_rated_director100]
  rfl

theorem build_a1 : fadd 0 (5404319552844595 / 4503599627370496) = 5404319552844595 / 4503599627370496 := by
  unfold fadd
  have e : (0 : ℚ) + (5404319552844595 / 4503599627370496) = 5404319552844595 / 4503599627370496 := by norm_num
  rw [e]
  exact round64_exact (5404319552844595 : Int) (-52 : Int) (by norm_num) (by norm_num)

theorem build_a2 : fadd (5404319552844595 / 4503599627370496) (5404319552844595 / 2251799813685248) = 2026619832316723 / 562949953421312 := by
  unfold fadd
  have e : ((5404319552844595 / 4503599627370496) : ℚ) + (5404319552844595 / 2251799813685248) = 16212958658533785 / 4503599627370496 := by norm_num
  rw [e]
  rw [round64_tie (1 : Int) (8106479329266892 : Int) (8106479329266892 : Int) (by norm_num) (by norm_num)
    (by norm_num) (by decide)]
  norm_num

theorem build_a3 : fadd (2026619832316723 / 562949953421312) (2026619832316723 / 562949953421312) = 2026619832316723 / 281474976710656 := by
  unfold fadd
  have e : ((2026619832316723 / 562949953421312) : ℚ) + (2026619832316723 / 562949953421312) = 2026619832316723 / 281474976710656 := by norm_num
  rw [e]
  exact round64_exact (8106479329266892 : Int) (-50 : Int) (by norm_num) (by norm_num)

theorem build_b1 : fadd 0 (5404319552844595 / 2251799813685248) = 5404319552844595 / 2251799813685248 := by
  unfold fadd
  have e : (0 : ℚ) + (5404319552844595 / 2251799813685248) = 5404319552844595 / 2251799813685248 := by norm_num
  rw [e]
  exact round64_exact (5404319552844595 : Int) (-51 : Int) (by norm_num) (by norm_num)

theorem build_b2 : fadd (5404319552844595 / 2251799813685248) (2026619832316723 / 562949953421312) = 6 := by
  unfold fadd
  have e : ((5404319552844595 / 2251799813685248) : ℚ) + (2026619832316723 / 562949953421312) = 13510798882111487 / 2251799813685248 := by norm_num
  rw [e]
  rw [round64_tie (2 : Int) (6755399441055743 : Int) (6755399441055744 : Int) (by norm_num) (by norm_num)
    (by norm_num) (by decide)]
  norm_num

theorem build_b3 : fadd 6 (5404319552844595 / 4503599627370496) = 8106479329266893 / 1125899906842624 := by
  unfold fadd
  have e : (6 : ℚ) + (5404319552844595 / 4503599627370496) = 32425917317067571 / 4503599627370496 := by norm_num
  rw [e]
  rw [round64_eq (2 : Int) (8106479329266893 : Int) (by norm_num) (by norm_num)
    (by rw [abs_lt]; constructor <;> norm_num)]
  norm_num


theorem fsum_build_plain_rated :
    fsum 0 (buildWeights fetchDirector100 [entryWatchlistPlain, entryWatchedRated9] none
        Category.directors "100") = 2026619832316723 / 281474976710656 := by
  rw [buildWeights_plain_rated]
  simp only [fsum, List.foldl_cons, List.foldl_nil]
  rw [build_a1, build_a2, build_a3]

theorem fsum_build_rated_plain :
    fsum 0 (buildWeights fetchDirector100 [entryWatchedRated9, entryWatchlistPlain] none
        Category.directors "100") = 8106479329266893 / 1125899906842624 := by
  rw [buildWeights_rated_plain]
  simp only [fsum, List.foldl_cons, List.foldl_nil]
  rw [build_b1, build_b2, build_b3]

/-- C20 (counterexample): a library of two entries whose items have the director with id 100, one
on the watchlist and one watched and rated 9. Built in this order, `directors[100]` is
`(1.2 + 2.4) + 3.5999999999999996 = 7.199999999999999`; built in the other order it is
`(2.4 + 3.5999999999999996) + 1.2 = 7.2`: the additions are rounded to binary64. -/
theorem bulk_build_order_independent_counterexample :
    [entryWatchlistPlain, entryWatchedRated9].Perm [entryWatchedRated9, entryWatchlistPlain]
    ∧ (getTasteProfile
        (Binary64.buildInitialProfileFromLibrary (some "u1") fetchDirector100 storeGenre28
          [entryWatchlistPlain, entryWatchedRated9] none).store).score Category.directors "100"
        = 2026619832316723 / 281474976710656
    ∧ (getTasteProfile
        (Binary64.buildInitialProfileFromLibrary (some "u1") fetchDirector100 storeGenre28
          [entryWatchedRated9, entryWatchlistPlain] none).store).score Category.directors "100"
        = 8106479329266893 / 1125899906842624
    ∧ (2026619832316723 / 281474976710656 : ℚ) ≠ 8106479329266893 / 1125899906842624 := by
  refine ⟨List.Perm.swap _ _ _, ?_, ?_, by norm_num⟩
  · rw [score_build64]
    exact fsum_build_plain_rated
  · rw [score_build64]
    exact fsum_build_rated_plain

/-- C20 (amended), at a concrete input: the two orders of a library of two entries give
`directors[100]` scores that differ by at most twice the rounding bound. -/
theorem bulk_build_order_independent_amended_witness :
    [entryWatchlistPlain, entryWatchedRated9].Perm [entryWatchedRated9, entryWatchlistPlain]
    ∧ sumRange 0 (buildWeights fetchDirector100 [entryWatchlistPlain, entryWatchedRated9] none
        Category.directors "100") < 2 ^ 1024
    ∧ |(getTasteProfile
          (Binary64.buildInitialProfileFromLibrary (some "u1") fetchDirector100 storeGenre28
            [entryWatchlistPlain, entryWatchedRated9] none).store).score Category.directors "100"
        - (getTasteProfile
            (Binary64.buildInitialProfileFromLibrary (some "u1") fetchDirector100 storeGenre28
              [entryWatchedRated9, entryWatchlistPlain] none).store).score
              Category.directors "100"|
        ≤ 2 * roundingBound 0
            (buildWeights fetchDirector100 [entryWatchlistPlain, entryWatchedRated9] none
              Category.directors "100") :=
  have hrange : sumRange 0 (buildWeights fetchDirector100
      [entryWatchlistPlain, entryWatchedRated9] none Category.directors "100") < 2 ^ 1024 := by
    rw [buildWeights_plain_rated]
    norm_num [sumRange, magnitudeSum, abs_of_pos]
  ⟨List.Perm.swap _ _ _, hrange,
   (bulk_build_order_independent_amended "u1" fetchDirector100 storeGenre28
      [entryWatchlistPlain, entryWatchedRated9] [entryWatchedRated9, entryWatchlistPlain] none
      (List.Perm.swap _ _ _) Category.directors "100" hrange).2.2.2.1⟩

/-! ## Lemmas on JavaScript numbers -/

theorem roundDouble_zero : roundDouble 0 = 0 := by
  simp [roundDouble, roundDoubleMagnitude]

theorem ofRat_zero : JsNumber.ofRat 0 = JsNumber.finite 0 := by
  unfold JsNumber.ofRat
  rw [roundDouble_zero, if_neg (by norm_num), if_neg (by norm_num)]

theorem roundDoubleMagnitude_of_normal {x : ℚ} (h : (2 : ℚ) ^ (-1022 : Int) ≤ x) :
    roundDoubleMagnitude x = roundMagnitude x := by
  have hx : 0 < x := lt_of_lt_of_le (two_zpow_pos _) h
  have hl : (-1022 : Int) ≤ Int.log 2 x := by
    rw [← Int.zpow_le_iff_le_log (by norm_num) hx]
    exact_mod_cast h
  unfold roundDoubleMagnitude roundMagnitude
  rw [max_eq_left (by omega)]

theorem roundDouble_of_normal {x : ℚ} (h : (2 : ℚ) ^ (-1022 : Int) ≤ |x|) :
    roundDouble x = round64 x := by
  unfold roundDouble round64
  by_cases hx : 0 ≤ x
  · rw [if_pos hx, if_pos hx]
    rw [abs_of_nonneg hx] at h
    exact roundDoubleMagnitude_of_normal h
  · rw [if_neg hx, if_neg hx]
    rw [abs_of_neg (by linarith)] at h
    rw [roundDoubleMagnitude_of_normal h]

theorem round64_two_pow (n : Nat) : round64 ((2 : ℚ) ^ n) = 2 ^ n :=
  round64_exact (1 : Int) (n : Int) (by norm_num) (by simp)

theorem ofRat_of_normal {x : ℚ} (hlo : (2 : ℚ) ^ (-1022 : Int) ≤ |x|) (hhi : |x| ≤ 2 ^ 1023) :
    JsNumber.ofRat x = JsNumber.finite (round64 x) := by
  have h1 : round64 x ≤ 2 ^ 1023 := by
    have := round64_mono (le_trans (le_abs_self x) hhi)
    rwa [round64_two_pow] at this
  have h2 : -(2 ^ 1023) ≤ round64 x := by
    have hx : -(2 ^ 1023 : ℚ) ≤ x := by
      have := neg_abs_le x
      linarith
    have := round64_mono hx
    rwa [round64_neg, round64_two_pow] at this
  have h3 : (2 : ℚ) ^ 1023 < 2 ^ 1024 := pow_lt_pow_right₀ (by norm_num) (by norm_num)
  unfold JsNumber.ofRat
  rw [roundDouble_of_normal hlo, if_neg (by linarith), if_neg (by linarith)]

theorem finite_zero_mul_ofRat {w : ℚ} (hlo : (2 : ℚ) ^ (-1022 : Int) ≤ |w|)
    (hhi : |w| ≤ 2 ^ 1023) :
    (JsNumber.finite 0).mul (JsNumber.ofRat w) = JsNumber.finite 0 := by
  rw [ofRat_of_normal hlo hhi]
  show JsNumber.ofRat (0 * round64 w) = JsNumber.finite 0
  rw [zero_mul, ofRat_zero]

theorem nan_add (x : JsNumber) : JsNumber.nan.add x = JsNumber.nan := by
  cases x <;> rfl

theorem add_nan (x : JsNumber) : x.add JsNumber.nan = JsNumber.nan := by
  cases x <;> rfl

theorem nan_mul (x : JsNumber) : JsNumber.nan.mul x = JsNumber.nan := by
  cases x <;> rfl

theorem finite_zero_add_zero :
    (JsNumber.finite 0).add (JsNumber.finite 0) = JsNumber.finite 0 := by
  show JsNumber.ofRat (0 + 0) = JsNumber.finite 0
  rw [add_zero, ofRat_zero]

theorem finite_zero_mul (x : JsNumber) :
    (JsNumber.finite 0).mul x = JsNumber.finite 0 ∨ (JsNumber.finite 0).mul x = JsNumber.nan := by
  cases x with
  | finite y =>
    left
    show JsNumber.ofRat (0 * y) = JsNumber.finite 0
    rw [zero_mul, ofRat_zero]
  | posInf =>
    right
    simp [JsNumber.mul]
  | negInf =>
    right
    simp [JsNumber.mul]
  | nan =>
    right
    rfl

theorem finite_zero_mul_finite (y : ℚ) :
    (JsNumber.finite 0).mul (JsNumber.finite y) = JsNumber.finite 0 := by
  show JsNumber.ofRat (0 * y) = JsNumber.finite 0
  rw [zero_mul, ofRat_zero]

/-! ## The scorers on the zero-value profile -/

theorem scoreTerm_nil (k : String) {w : ℚ} (hlo : (2 : ℚ) ^ (-1022 : Int) ≤ |w|)
    (hhi : |w| ≤ 2 ^ 1023) :
    scoreTerm [] k w = if k ∈ objectPrototypeKeys then JsNumber.nan else JsNumber.finite 0 := by
  unfold scoreTerm
  have h : hasKey [] k = false := rfl
  rw [h, finite_zero_mul_ofRat hlo hhi]
  simp

theorem zeroProfileScore_nil : zeroProfileScore [] = JsNumber.finite 0 := rfl

theorem zeroProfileScore_of_none {keys : List String}
    (h : ∀ k ∈ keys, k ∉ objectPrototypeKeys) : zeroProfileScore keys = JsNumber.finite 0 := by
  unfold zeroProfileScore
  rw [if_neg]
  simp only [List.any_eq_true, decide_eq_true_eq, not_exists, not_and]
  exact h

theorem zeroProfileScore_of_some {keys : List String}
    (h : ∃ k ∈ keys, k ∈ objectPrototypeKeys) : zeroProfileScore keys = JsNumber.nan := by
  unfold zeroProfileScore
  rw [if_pos]
  simp only [List.any_eq_true, decide_eq_true_eq]
  exact h

theorem zeroProfileScore_concat (keys : List String) (k : String) :
    zeroProfileScore (keys ++ [k])
      = (zeroProfileScore keys).add
          (if k ∈ objectPrototypeKeys then JsNumber.nan else JsNumber.finite 0) := by
  by_cases h1 : ∃ k' ∈ keys, k' ∈ objectPrototypeKeys
  · rw [zeroProfileScore_of_some h1, nan_add]
    apply zeroProfileScore_of_some
    obtain ⟨k', hk, hp⟩ := h1
    exact ⟨k', List.mem_append_left _ hk, hp⟩
  · have h1' : ∀ k' ∈ keys, k' ∉ objectPrototypeKeys := by
      intro k' hk hp
      exact h1 ⟨k', hk, hp⟩
    rw [zeroProfileScore_of_none h1']
    by_cases h2 : k ∈ objectPrototypeKeys
    · rw [if_pos h2, add_nan]
      apply zeroProfileScore_of_some
      exact ⟨k, by simp, h2⟩
    · rw [if_neg h2, finite_zero_add_zero]
      apply zeroProfileScore_of_none
      intro k' hk
      rw [List.mem_append] at hk
      rcases hk with hk | hk
      · exact h1' k' hk
      · rw [List.mem_singleton] at hk
        rw [hk]
        exact h2

/-- A loop whose body adds the term of one key of an empty score mapping. -/
theorem score_foldl_zero {α : Type} (f : NumberAcc → α → NumberAcc) (key : α → String)
    (hf : ∀ acc x, (f acc x).score
      = acc.score.add (if key x ∈ objectPrototypeKeys then JsNumber.nan else JsNumber.finite 0))
    (xs : List α) :
    ∀ (acc : NumberAcc) (keys : List String), acc.score = zeroProfileScore keys →
      (xs.foldl f acc).score = zeroProfileScore (keys ++ xs.map key) := by
  induction xs with
  | nil =>
    intro acc keys h
    simpa using h
  | cons x xs ih =>
    intro acc keys h
    rw [List.foldl_cons, ih (f acc x) (keys ++ [key x])]
    · simp
    · rw [hf, h, zeroProfileScore_concat]

/-- A loop whose body leaves the multiplier alone. -/
theorem multiplier_foldl_const {α : Type} (f : NumberAcc → α → NumberAcc)
    (hf : ∀ acc x, (f acc x).multiplier = acc.multiplier) (xs : List α) :
    ∀ acc : NumberAcc, (xs.foldl f acc).multiplier = acc.multiplier := by
  induction xs with
  | nil =>
    intro acc
    rfl
  | cons x xs ih =>
    intro acc
    rw [List.foldl_cons, ih, hf]


theorem weight_normal {w : ℚ} (hlo : 1 / 2 ≤ w) (hhi : w ≤ 2) :
    (2 : ℚ) ^ (-1022 : Int) ≤ |w| ∧ |w| ≤ 2 ^ 1023 := by
  have h1 : (2 : ℚ) ^ (-1022 : Int) ≤ 1 / 2 := by
    have h := zpow_le_zpow_right₀ (a := (2 : ℚ)) (m := (-1022 : Int)) (n := (-1 : Int))
      (by norm_num) (by norm_num)
    have h3 : (2 : ℚ) ^ (-1 : Int) = 1 / 2 := by norm_num
    rw [h3] at h
    exact h
  have h2 : (2 : ℚ) ≤ 2 ^ 1023 := le_self_pow₀ (by norm_num) (by norm_num)
  rw [abs_of_pos (by linarith)]
  exact ⟨le_trans h1 hlo, le_trans hhi h2⟩

theorem scoreTerm_zero_genres (k : String) :
    scoreTerm TasteProfile.zero.genres k ATTRIBUTE_WEIGHTS.genres
      = if k ∈ objectPrototypeKeys then JsNumber.nan else JsNumber.finite 0 := by
  have h := weight_normal (w := ATTRIBUTE_WEIGHTS.genres) (by norm_num [ATTRIBUTE_WEIGHTS])
    (by norm_num [ATTRIBUTE_WEIGHTS])
  exact scoreTerm_nil k h.1 h.2

theorem scoreTerm_zero_languages (k : String) :
    scoreTerm TasteProfile.zero.languages k ATTRIBUTE_WEIGHTS.languages
      = if k ∈ objectPrototypeKeys then JsNumber.nan else JsNumber.finite 0 := by
  have h := weight_normal (w := ATTRIBUTE_WEIGHTS.languages) (by norm_num [ATTRIBUTE_WEIGHTS])
    (by norm_num [ATTRIBUTE_WEIGHTS])
  exact scoreTerm_nil k h.1 h.2

theorem scoreTerm_zero_countries (k : String) :
    scoreTerm TasteProfile.zero.countries k ATTRIBUTE_WEIGHTS.countries
      = if k ∈ objectPrototypeKeys then JsNumber.nan else JsNumber.finite 0 := by
  have h := weight_normal (w := ATTRIBUTE_WEIGHTS.countries) (by norm_num [ATTRIBUTE_WEIGHTS])
    (by norm_num [ATTRIBUTE_WEIGHTS])
  exact scoreTerm_nil k h.1 h.2

theorem scoreTerm_zero_directors (k : String) :
    scoreTerm TasteProfile.zero.directors k ATTRIBUTE_WEIGHTS.director
      = if k ∈ objectPrototypeKeys then JsNumber.nan else JsNumber.finite 0 := by
  have h := weight_normal (w := ATTRIBUTE_WEIGHTS.director) (by norm_num [ATTRIBUTE_WEIGHTS])
    (by norm_num [ATTRIBUTE_WEIGHTS])
  exact scoreTerm_nil k h.1 h.2

theorem scoreTerm_zero_actors (k : String) :
    scoreTerm TasteProfile.zero.actors k ATTRIBUTE_WEIGHTS.actors
      = if k ∈ objectPrototypeKeys then JsNumber.nan else JsNumber.finite 0 := by
  have h := weight_normal (w := ATTRIBUTE_WEIGHTS.actors) (by norm_num [ATTRIBUTE_WEIGHTS])
    (by norm_num [ATTRIBUTE_WEIGHTS])
  exact scoreTerm_nil k h.1 h.2

/-- One boost of the multiplier: while it is between 1 and `2^j`, with `j < 1023`, the
product with a factor between 1 and 2 is finite and between 1 and `2^(j+1)`. -/
theorem multiplier_boost {m c : ℚ} {j : Nat} (hm1 : 1 ≤ m) (hm2 : m ≤ 2 ^ j) (hj : j < 1023)
    (hc1 : 1 ≤ c) (hc2 : c ≤ 2) :
    ∃ m2 : ℚ, (JsNumber.finite m).mul (JsNumber.ofRat c) = JsNumber.finite m2
      ∧ 1 ≤ m2 ∧ m2 ≤ 2 ^ (j + 1) := by
  have hcn := weight_normal (w := c) (by linarith) hc2
  have hr1 : 1 ≤ round64 c := by
    have := round64_mono hc1
    rwa [round64_one] at this
  have hr2 : round64 c ≤ 2 := by
    have := round64_mono hc2
    rwa [round64_two] at this
  have hp1 : 1 ≤ m * round64 c := by nlinarith
  have hp2 : m * round64 c ≤ 2 ^ (j + 1) := by
    rw [pow_succ]
    have hpos : (0 : ℚ) ≤ 2 ^ j := by positivity
    nlinarith
  have hp3 : (2 : ℚ) ^ (j + 1) ≤ 2 ^ 1023 := pow_le_pow_right₀ (by norm_num) (by omega)
  have hlow : (2 : ℚ) ^ (-1022 : Int) ≤ 1 := zpow_le_one_of_nonpos₀ (by norm_num) (by norm_num)
  have hprod : JsNumber.ofRat (m * round64 c) = JsNumber.finite (round64 (m * round64 c)) := by
    apply ofRat_of_normal
    · rw [abs_of_pos (by linarith)]
      linarith
    · rw [abs_of_pos (by linarith)]
      linarith
  refine ⟨round64 (m * round64 c), ?_, ?_, ?_⟩
  · rw [ofRat_of_normal hcn.1 hcn.2]
    exact hprod
  · have := round64_mono hp1
    rwa [round64_one] at this
  · have := round64_mono hp2
    rwa [round64_two_pow] at this

theorem multiplierBelow_genreStep (tp : TasteProfile) (prefs : ExplicitPrefs) (acc : NumberAcc)
    (id : JsId) (j : Nat)
    (h : ∃ m : ℚ, acc.multiplier = JsNumber.finite m ∧ 1 ≤ m ∧ m ≤ 2 ^ j) (hj : j < 1023) :
    ∃ m : ℚ, (Binary64.genreStep tp prefs acc id).multiplier = JsNumber.finite m
      ∧ 1 ≤ m ∧ m ≤ 2 ^ (j + 1) := by
  obtain ⟨m, hm, hm1, hm2⟩ := h
  unfold Binary64.genreStep
  by_cases hl : id ∈ prefs.genres.liked
  · simp only [if_pos hl, hm]
    exact multiplier_boost hm1 hm2 hj (by norm_num [PREF_MULTIPLIERS])
      (by norm_num [PREF_MULTIPLIERS])
  · simp only [if_neg hl, hm]
    refine ⟨m, rfl, hm1, ?_⟩
    rw [pow_succ]
    have hpos : (0 : ℚ) ≤ 2 ^ j := by positivity
    linarith

theorem multiplierBelow_genres (tp : TasteProfile) (prefs : ExplicitPrefs) (ids : List JsId) :
    ∀ (acc : NumberAcc) (j : Nat),
      (∃ m : ℚ, acc.multiplier = JsNumber.finite m ∧ 1 ≤ m ∧ m ≤ 2 ^ j) →
      j + ids.length ≤ 1023 →
      ∃ m : ℚ, (ids.foldl (Binary64.genreStep tp prefs) acc).multiplier = JsNumber.finite m
        ∧ 1 ≤ m ∧ m ≤ 2 ^ (j + ids.length) := by
  induction ids with
  | nil =>
    intro acc j h _
    exact h
  | cons id ids ih =>
    intro acc j h hj
    rw [List.length_cons] at hj
    rw [List.foldl_cons, List.length_cons]
    have := ih (Binary64.genreStep tp prefs acc id) (j + 1)
      (multiplierBelow_genreStep tp prefs acc id j h (by omega)) (by omega)
    have e : j + (ids.length + 1) = j + 1 + ids.length := by omega
    rw [e]
    exact this

theorem multiplierBelow_languageStep (tp : TasteProfile) (prefs : ExplicitPrefs)
    (acc : NumberAcc) (language : JsId) (j : Nat)
    (h : ∃ m : ℚ, acc.multiplier = JsNumber.finite m ∧ 1 ≤ m ∧ m ≤ 2 ^ j) (hj : j < 1023) :
    ∃ m : ℚ, (Binary64.languageStep tp prefs acc language).multiplier = JsNumber.finite m
      ∧ 1 ≤ m ∧ m ≤ 2 ^ (j + 1) := by
  obtain ⟨m, hm, hm1, hm2⟩ := h
  have hweak : m ≤ 2 ^ (j + 1) := by
    rw [pow_succ]
    have hpos : (0 : ℚ) ≤ 2 ^ j := by positivity
    linarith
  unfold Binary64.languageStep
  by_cases ht : language.truthy = true
  · rw [if_pos ht]
    by_cases hl : language ∈ prefs.languages
    · simp only [if_pos hl, hm]
      exact multiplier_boost hm1 hm2 hj (by norm_num [PREF_MULTIPLIERS])
        (by norm_num [PREF_MULTIPLIERS])
    · simp only [if_neg hl, hm]
      exact ⟨m, rfl, hm1, hweak⟩
  · rw [if_neg ht]
    exact ⟨m, hm, hm1, hweak⟩

theorem score_genreStep_zero (prefs : ExplicitPrefs) (acc : NumberAcc) (id : JsId) :
    (Binary64.genreStep TasteProfile.zero prefs acc id).score
      = acc.score.add
          (if id.toKey ∈ objectPrototypeKeys then JsNumber.nan else JsNumber.finite 0) := by
  unfold Binary64.genreStep
  simp only [scoreTerm_zero_genres]

theorem score_countryStep_zero (acc : NumberAcc) (code : JsId) :
    (Binary64.countryStep TasteProfile.zero acc code).score
      = acc.score.add
          (if code.toKey ∈ objectPrototypeKeys then JsNumber.nan else JsNumber.finite 0) := by
  unfold Binary64.countryStep
  simp only [scoreTerm_zero_countries]

theorem score_languageStep_zero (prefs : ExplicitPrefs) (acc : NumberAcc) (language : JsId)
    (keys : List String) (h : acc.score = zeroProfileScore keys) :
    (Binary64.languageStep TasteProfile.zero prefs acc language).score
      = zeroProfileScore
          (keys ++ (if language.truthy then [language.toKey] else [])) := by
  unfold Binary64.languageStep
  by_cases ht : language.truthy = true
  · simp only [if_pos ht, scoreTerm_zero_languages]
    rw [h, zeroProfileScore_concat]
  · simp only [if_neg ht, List.append_nil]
    exact h

/-- The two accumulators of `scoreMediaItemSimple` on the zero-value profile. -/
theorem scoreMediaItemSimple_zero (item : MediaItem) (prefs : ExplicitPrefs) :
    ∃ acc : NumberAcc,
      Binary64.scoreMediaItemSimple item TasteProfile.zero prefs = acc.score.mul acc.multiplier
      ∧ acc.score = zeroProfileScore (simpleKeys item)
      ∧ ((item.genre_ids.getD []).length ≤ 1000 →
          ∃ m : ℚ, acc.multiplier = JsNumber.finite m) := by
  let a0 : NumberAcc := { score := .finite 0, multiplier := .finite 1 }
  let a1 := (item.genre_ids.getD []).foldl (Binary64.genreStep TasteProfile.zero prefs) a0
  let a2 := Binary64.languageStep TasteProfile.zero prefs a1 item.original_language
  let a3 := (item.origin_country.getD []).foldl (Binary64.countryStep TasteProfile.zero) a2
  have hdef : Binary64.scoreMediaItemSimple item TasteProfile.zero prefs
      = a3.score.mul a3.multiplier := by
    unfold Binary64.scoreMediaItemSimple
    cases hg : item.genre_ids <;> cases hc : item.origin_country <;>
      simp [a3, a2, a1, a0, hg, hc]
  have h1 : a1.score = zeroProfileScore ([] ++ (item.genre_ids.getD []).map JsId.toKey) :=
    score_foldl_zero _ JsId.toKey (score_genreStep_zero prefs) _ a0 [] rfl
  have h2 := score_languageStep_zero prefs a1 item.original_language _ h1
  have h3 : a3.score = zeroProfileScore (simpleKeys item) := by
    have := score_foldl_zero _ JsId.toKey score_countryStep_zero
      (item.origin_country.getD []) a2 _ h2
    simpa [simpleKeys] using this
  refine ⟨a3, hdef, h3, ?_⟩
  intro hlen
  have m0 : ∃ m : ℚ, a0.multiplier = JsNumber.finite m ∧ 1 ≤ m ∧ m ≤ 2 ^ 0 :=
    ⟨1, rfl, le_refl _, by norm_num⟩
  have m1 := multiplierBelow_genres TasteProfile.zero prefs (item.genre_ids.getD []) a0 0 m0
    (by omega)
  have m2 := multiplierBelow_languageStep TasteProfile.zero prefs a1 item.original_language _ m1
    (by omega)
  have m3 : a3.multiplier = a2.multiplier :=
    multiplier_foldl_const (Binary64.countryStep TasteProfile.zero) (fun _ _ => rfl) _ a2
  obtain ⟨m, hm, _, _⟩ := m2
  exact ⟨m, by rw [m3]; exact hm⟩

/-- The two accumulators of `scoreMediaItemDetailed` on the zero-value profile. -/
theorem scoreMediaItemDetailed_zero (d : MediaDetails) (prefs : ExplicitPrefs) :
    ∃ acc : NumberAcc,
      Binary64.scoreMediaItemDetailed d TasteProfile.zero prefs = acc.score.mul acc.multiplier
      ∧ acc.score = zeroProfileScore (detailedKeys d)
      ∧ ((d.genres.getD []).length ≤ 1000 →
          ∃ m : ℚ, acc.multiplier = JsNumber.finite m) := by
  let a0 : NumberAcc := { score := .finite 0, multiplier := .finite 1 }
  let a1 := ((d.genres.getD []).map (fun g => g.id)).foldl
    (Binary64.genreStep TasteProfile.zero prefs) a0
  let a2 := Binary64.languageStep TasteProfile.zero prefs a1 d.original_language
  let a3 := ((d.production_countries.getD []).map (fun c => c.iso_3166_1)).foldl
    (Binary64.countryStep TasteProfile.zero) a2
  let a4 : NumberAcc := match findDirector d.credits with
    | some director =>
      { a3 with
        score := a3.score.add
          (scoreTerm TasteProfile.zero.directors director.id.toKey ATTRIBUTE_WEIGHTS.director) }
    | none => a3
  let a5 := (topCast d.credits).foldl
    (fun (acc : NumberAcc) (actor : CastMember) =>
      { acc with
        score := acc.score.add
          (scoreTerm TasteProfile.zero.actors actor.id.toKey ATTRIBUTE_WEIGHTS.actors) })
    a4
  have hdef : Binary64.scoreMediaItemDetailed d TasteProfile.zero prefs
      = a5.score.mul a5.multiplier := by
    unfold Binary64.scoreMediaItemDetailed
    cases hg : d.genres <;> cases hc : d.production_countries <;>
      simp [a5, a4, a3, a2, a1, a0, hg, hc, List.foldl_map]
  have h1 : a1.score
      = zeroProfileScore ([] ++ ((d.genres.getD []).map (fun g => g.id)).map JsId.toKey) :=
    score_foldl_zero _ JsId.toKey (score_genreStep_zero prefs) _ a0 [] rfl
  have h2 := score_languageStep_zero prefs a1 d.original_language _ h1
  have h3 := score_foldl_zero _ JsId.toKey score_countryStep_zero
    ((d.production_countries.getD []).map (fun c => c.iso_3166_1)) a2 _ h2
  have h4 : a4.score = zeroProfileScore
      ((([] ++ ((d.genres.getD []).map (fun g => g.id)).map JsId.toKey)
          ++ (if d.original_language.truthy then [d.original_language.toKey] else []))
          ++ ((d.production_countries.getD []).map (fun c => c.iso_3166_1)).map JsId.toKey
        ++ (match findDirector d.credits with
            | some director => [director.id.toKey]
            | none => [])) := by
    show (match findDirector d.credits with
      | some director =>
        ({ a3 with
          score := a3.score.add
            (scoreTerm TasteProfile.zero.directors director.id.toKey
              ATTRIBUTE_WEIGHTS.director) } : NumberAcc)
      | none => a3).score = _
    cases findDirector d.credits with
    | none =>
      simp only [List.append_nil]
      exact h3
    | some director =>
      simp only [scoreTerm_zero_directors]
      rw [h3, zeroProfileScore_concat]
  have h5 : a5.score = zeroProfileScore (detailedKeys d) := by
    have := score_foldl_zero
      (fun (acc : NumberAcc) (actor : CastMember) =>
        ({ acc with
          score := acc.score.add
            (scoreTerm TasteProfile.zero.actors actor.id.toKey ATTRIBUTE_WEIGHTS.actors) }
          : NumberAcc))
      (fun a => a.id.toKey)
      (fun acc x => by simp only [scoreTerm_zero_actors])
      (topCast d.credits) a4 _ h4
    simpa [detailedKeys, List.map_map, Function.comp_def] using this
  refine ⟨a5, hdef, h5, ?_⟩
  intro hlen
  have m0 : ∃ m : ℚ, a0.multiplier = JsNumber.finite m ∧ 1 ≤ m ∧ m ≤ 2 ^ 0 :=
    ⟨1, rfl, le_refl _, by norm_num⟩
  have m1 := multiplierBelow_genres TasteProfile.zero prefs
    ((d.genres.getD []).map (fun g => g.id)) a0 0 m0 (by simp; omega)
  have m2 := multiplierBelow_languageStep TasteProfile.zero prefs a1 d.original_language _ m1
    (by simp; omega)
  have m3 : a3.multiplier = a2.multiplier :=
    multiplier_foldl_const (Binary64.countryStep TasteProfile.zero) (fun _ _ => rfl) _ a2
  have m4 : a4.multiplier = a3.multiplier := by
    show (match findDirector d.credits with
      | some director =>
        ({ a3 with
          score := a3.score.add
            (scoreTerm TasteProfile.zero.directors director.id.toKey
              ATTRIBUTE_WEIGHTS.director) } : NumberAcc)
      | none => a3).multiplier = _
    cases findDirector d.credits <;> rfl
  have m5 : a5.multiplier = a4.multiplier :=
    multiplier_foldl_const
      (fun (acc : NumberAcc) (actor : CastMember) =>
        ({ acc with
          score := acc.score.add
            (scoreTerm TasteProfile.zero.actors actor.id.toKey ATTRIBUTE_WEIGHTS.actors) }
          : NumberAcc))
      (fun _ _ => rfl) (topCast d.credits) a4
  obtain ⟨m, hm, _, _⟩ := m2
  exact ⟨m, by rw [m5, m4, m3]; exact hm⟩

theorem scoreTerm_absent (m : ScoreMap) (k : String) {w : ℚ}
    (hlo : (2 : ℚ) ^ (-1022 : Int) ≤ |w|) (hhi : |w| ≤ 2 ^ 1023) (hk : hasKey m k = false)
    (hp : k ∉ objectPrototypeKeys) : scoreTerm m k w = JsNumber.finite 0 := by
  unfold scoreTerm
  rw [hk, if_neg hp, finite_zero_mul_ofRat hlo hhi]
  simp

/-- C10 (amended): against the zero-value profile, `scoreMediaItemSimple` and
`scoreMediaItemDetailed` return either 0 or `NaN`, for every candidate and every explicit
preference set, and never fail. They return exactly 0 when none of the keys they look up (the
genre ids, the language, the country codes, and for the detailed scorer the director and cast
ids) names a member of `Object.prototype` and the candidate has at most 1000 genres (so that the
multiplier stays finite); they return `NaN` as soon as one of these keys names a member of
`Object.prototype`. More generally a key that is absent from a score mapping and does not name a
member of `Object.prototype` contributes exactly 0. -/
theorem zero_profile_scoring_amended (item : MediaItem) (d : MediaDetails)
    (prefs : ExplicitPrefs) :
    (Binary64.scoreMediaItemSimple item TasteProfile.zero prefs = JsNumber.finite 0
      ∨ Binary64.scoreMediaItemSimple item TasteProfile.zero prefs = JsNumber.nan)
    ∧ (Binary64.scoreMediaItemDetailed d TasteProfile.zero prefs = JsNumber.finite 0
      ∨ Binary64.scoreMediaItemDetailed d TasteProfile.zero prefs = JsNumber.nan)
    ∧ ((∀ k ∈ simpleKeys item, k ∉ objectPrototypeKeys) →
        (item.genre_ids.getD []).length ≤ 1000 →
        Binary64.scoreMediaItemSimple item TasteProfile.zero prefs = JsNumber.finite 0)
    ∧ ((∀ k ∈ detailedKeys d, k ∉ objectPrototypeKeys) →
        (d.genres.getD []).length ≤ 1000 →
        Binary64.scoreMediaItemDetailed d TasteProfile.zero prefs = JsNumber.finite 0)
    ∧ ((∃ k ∈ simpleKeys item, k ∈ objectPrototypeKeys) →
        Binary64.scoreMediaItemSimple item TasteProfile.zero prefs = JsNumber.nan)
    ∧ ((∃ k ∈ detailedKeys d, k ∈ objectPrototypeKeys) →
        Binary64.scoreMediaItemDetailed d TasteProfile.zero prefs = JsNumber.nan)
    ∧ ∀ (m : ScoreMap) (k : String) (w : ℚ),
        w ∈ [ATTRIBUTE_WEIGHTS.genres, ATTRIBUTE_WEIGHTS.languages, ATTRIBUTE_WEIGHTS.countries,
             ATTRIBUTE_WEIGHTS.director, ATTRIBUTE_WEIGHTS.actors] →
        hasKey m k = false → k ∉ objectPrototypeKeys → scoreTerm m k w = JsNumber.finite 0 := by
  obtain ⟨a, ha, hs, hm⟩ := scoreMediaItemSimple_zero item prefs
  obtain ⟨b, hb, hsb, hmb⟩ := scoreMediaItemDetailed_zero d prefs
  have hdich : ∀ (keys : List String) (x : JsNumber),
      (zeroProfileScore keys).mul x = JsNumber.finite 0
        ∨ (zeroProfileScore keys).mul x = JsNumber.nan := by
    intro keys x
    unfold zeroProfileScore
    split
    · right
      exact nan_mul x
    · exact finite_zero_mul x
  refine ⟨?_, ?_, ?_, ?_, ?_, ?_, ?_⟩
  · rw [ha, hs]
    exact hdich _ _
  · rw [hb, hsb]
    exact hdich _ _
  · intro hk hlen
    obtain ⟨m, hm'⟩ := hm hlen
    rw [ha, hs, zeroProfileScore_of_none hk, hm', finite_zero_mul_finite]
  · intro hk hlen
    obtain ⟨m, hm'⟩ := hmb hlen
    rw [hb, hsb, zeroProfileScore_of_none hk, hm', finite_zero_mul_finite]
  · intro hk
    rw [ha, hs, zeroProfileScore_of_some hk, nan_mul]
  · intro hk
    rw [hb, hsb, zeroProfileScore_of_some hk, nan_mul]
  · intro m k w hw hk hp
    have hn : (2 : ℚ) ^ (-1022 : Int) ≤ |w| ∧ |w| ≤ 2 ^ 1023 := by
      simp only [List.mem_cons, List.mem_singleton, List.mem_nil_iff, or_false] at hw
      rcases hw with h | h | h | h | h <;> rw [h] <;>
        exact weight_normal (by norm_num [ATTRIBUTE_WEIGHTS]) (by norm_num [ATTRIBUTE_WEIGHTS])
    exact scoreTerm_absent m k hn.1 hn.2 hk hp

/-- C10 (counterexample): for a candidate whose language code is `constructor`, the lookup
`tasteProfile.languages['constructor']` in the empty mapping of the zero-value profile finds the
function inherited from `Object.prototype`, and `scoreMediaItemSimple` returns `NaN`, not 0. -/
theorem zero_profile_scoring_counterexample :
    Binary64.scoreMediaItemSimple itemLanguageConstructor TasteProfile.zero ExplicitPrefs.default
        = JsNumber.nan
    ∧ JsNumber.nan ≠ JsNumber.finite 0 := by
  constructor
  · obtain ⟨a, ha, hs, _⟩ :=
      scoreMediaItemSimple_zero itemLanguageConstructor ExplicitPrefs.default
    rw [ha, hs, zeroProfileScore_of_some ⟨"constructor", by decide, by decide⟩, nan_mul]
  · intro h
    cases h

/-- C10 (amended), at a concrete input: an item and a details object of genre 28, which the
preferences like; both scorers return 0 against the zero-value profile. -/
theorem zero_profile_scoring_amended_witness :
    Binary64.scoreMediaItemSimple (itemGenre28 (JsId.num 7)) TasteProfile.zero prefsLike28
        = JsNumber.finite 0
    ∧ Binary64.scoreMediaItemDetailed (detailsGenre28 (JsId.num 7)) TasteProfile.zero prefsLike28
        = JsNumber.finite 0 :=
  ⟨(zero_profile_scoring_amended (itemGenre28 (JsId.num 7)) (detailsGenre28 (JsId.num 7))
      prefsLike28).2.2.1 (by decide) (by decide),
   (zero_profile_scoring_amended (itemGenre28 (JsId.num 7)) (detailsGenre28 (JsId.num 7))
      prefsLike28).2.2.2.1 (by decide) (by decide)⟩

end CineHub
